import Mathlib

/-!
# libwebsockets: handshake parser, frame receive state machine and packet pump

A shallow embedding of `lib/parsers.c`:

* `libwebsocket_parse`  (the byte-wise handshake header parser),
* `libwebsocket_rx_sm`  (the byte-wise frame receive state machine),
* `libwebsocket_interpret_incoming_packet` (the packet pump),
* `libwebsockets_remaining_packet_payload`.

Bytes are natural numbers below 256.  Everything the C code reaches through
`private-libwebsockets.h` (constants, the user callback, the outbound writer,
SHA1, the extension callbacks) is a field of `Consts` or `Env`.
-/

namespace Lws

/-! ## Constants and collaborators -/

/-- Compile-time constants that parsers.c takes from private-libwebsockets.h. -/
structure Consts where
  /-- Ceiling of the payload accumulated before a spill. -/
  MAX_USER_RX_BUFFER : Nat
  /-- Size of the first allocation of a header value buffer. -/
  LWS_INITIAL_HDR_ALLOC : Nat
  /-- Step by which a header value buffer grows. -/
  LWS_ADDITIONAL_HDR_ALLOC : Nat
  /-- Absolute ceiling of a header value buffer. -/
  LWS_MAX_HEADER_LEN : Nat
  /-- The value of sizeof(wsi->name_buffer). -/
  name_buffer_size : Nat

/-- Kinds of outbound write, enum libwebsocket_write_protocol. -/
inductive WriteKind
  | LWS_WRITE_TEXT
  | LWS_WRITE_BINARY
  | LWS_WRITE_CONTINUATION
  | LWS_WRITE_HTTP
  | LWS_WRITE_CLOSE
  | LWS_WRITE_PING
  | LWS_WRITE_PONG
  deriving DecidableEq, Repr

/-- Reasons with which parsers.c calls an extension. -/
inductive ExtReason
  | LWS_EXT_CALLBACK_PAYLOAD_RX
  | LWS_EXT_CALLBACK_EXTENDED_PAYLOAD_RX
  deriving DecidableEq, Repr

/-- Observable actions of the receive path, in the order they happen. -/
inductive Event
  /-- The user callback was called with reason LWS_CALLBACK_RECEIVE. -/
  | receive (payload : List Nat)
  /-- The outbound writer libwebsocket_write was called. -/
  | write (kind : WriteKind) (payload : List Nat)
  /-- The callback of active extension number n was called. -/
  | extension (n : Nat) (reason : ExtReason) (payload : List Nat)
  deriving DecidableEq, Repr

/-- What a call of the user callback leaves behind. -/
structure CallbackOut where
  /-- The value the callback returned. -/
  ret : Int
  /-- The per-session user memory after the call. -/
  user_space : Nat
  /-- The POLLIN bit requested through rx flow control, when the callback asked for a change. -/
  rxflow : Option Bool

/-- What a call of an extension callback leaves behind. -/
structure ExtOut where
  /-- The value the extension returned. -/
  m : Int
  /-- The effective buffer eff_buf after the call. -/
  eff_buf : List Nat

/-- The collaborators of a connection that parsers.c only reads. -/
structure Env where
  /-- The constants of the build. -/
  k : Consts
  /-- The bit LWS_SERVER_OPTION_DEFEAT_CLIENT_MASK of owning_server->options. -/
  defeat_client_mask : Bool
  /-- The digest function SHA1, 20 bytes out. -/
  SHA1 : List Nat → List Nat
  /-- The field wsi->protocol->callback: user memory and payload in. -/
  callback : Option (Nat → List Nat → CallbackOut)
  /-- The callbacks of wsi->active_extensions, count_active_extensions of them. -/
  active_extensions : List (ExtReason → List Nat → ExtOut)
  /-- The value libwebsocket_write returns. -/
  write_result : WriteKind → List Nat → Int

/-! ## Connection state record -/

/-- States of the frame receive state machine, enum lws_rx_parse_state. -/
inductive RxState
  | LWS_RXPS_NEW
  | LWS_RXPS_SEEN_76_FF
  | LWS_RXPS_PULLING_76_LENGTH
  | LWS_RXPS_EAT_UNTIL_76_FF
  | LWS_RXPS_04_MASK_NONCE_1
  | LWS_RXPS_04_MASK_NONCE_2
  | LWS_RXPS_04_MASK_NONCE_3
  | LWS_RXPS_04_FRAME_HDR_1
  | LWS_RXPS_04_FRAME_HDR_LEN
  | LWS_RXPS_04_FRAME_HDR_LEN16_2
  | LWS_RXPS_04_FRAME_HDR_LEN16_1
  | LWS_RXPS_04_FRAME_HDR_LEN64_8
  | LWS_RXPS_04_FRAME_HDR_LEN64_7
  | LWS_RXPS_04_FRAME_HDR_LEN64_6
  | LWS_RXPS_04_FRAME_HDR_LEN64_5
  | LWS_RXPS_04_FRAME_HDR_LEN64_4
  | LWS_RXPS_04_FRAME_HDR_LEN64_3
  | LWS_RXPS_04_FRAME_HDR_LEN64_2
  | LWS_RXPS_04_FRAME_HDR_LEN64_1
  | LWS_RXPS_07_COLLECT_FRAME_KEY_1
  | LWS_RXPS_07_COLLECT_FRAME_KEY_2
  | LWS_RXPS_07_COLLECT_FRAME_KEY_3
  | LWS_RXPS_07_COLLECT_FRAME_KEY_4
  | LWS_RXPS_PAYLOAD_UNTIL_LENGTH_EXHAUSTED
  deriving DecidableEq, Repr

/-- Connection phases, enum lws_connection_states. -/
inductive ConnState
  | WSI_STATE_HTTP
  | WSI_STATE_HTTP_HEADERS
  | WSI_STATE_DEAD_SOCKET
  | WSI_STATE_ESTABLISHED
  | WSI_STATE_CLIENT_UNCONNECTED
  | WSI_STATE_RETURNED_CLOSE_ALREADY
  | WSI_STATE_AWAITING_CLOSE_ACK
  deriving DecidableEq, Repr

/-- Connection modes, the part of enum connection_mode that parsers.c tells apart. -/
inductive ConnMode
  | LWS_CONNMODE_WS_SERVING
  | LWS_CONNMODE_WS_CLIENT_WAITING_SERVER_REPLY
  | LWS_CONNMODE_WS_CLIENT
  deriving DecidableEq, Repr

/-- States of the handshake parser, enum lws_token_indexes: a token index below
WSI_TOKEN_COUNT (collecting the value of that header) or one of the additions. -/
inductive ParserState
  | token (n : Nat)
  | WSI_INIT_TOKEN_MUXURL
  | WSI_TOKEN_NAME_PART
  | WSI_TOKEN_SKIPPING
  | WSI_TOKEN_SKIPPING_SAW_CR
  | WSI_PARSING_COMPLETE
  deriving DecidableEq, Repr

/-- The routine installed in wsi->xor_mask. -/
inductive XorMask
  | xor_no_mask
  | xor_mask_04
  | xor_mask_05
  deriving DecidableEq, Repr

/-- Four key bytes, unsigned char frame_masking_nonce_04[4]. -/
structure Key4 where
  b0 : Nat
  b1 : Nat
  b2 : Nat
  b3 : Nat
  deriving DecidableEq, Repr

/-- Read key byte number i, for i in 0..3. -/
def Key4.get (key : Key4) (i : Nat) : Nat :=
  if i = 0 then key.b0 else if i = 1 then key.b1 else if i = 2 then key.b2 else key.b3

/-- One header slot, struct lws_tokens, together with the size of its allocation.
The field token is none for a NULL pointer and otherwise the bytes of the buffer
that have been written since it was allocated, from offset 0. -/
structure Slot where
  token : Option (List Nat)
  token_len : Nat
  alloc : Nat
  deriving DecidableEq, Repr

/-- The per-connection record, struct libwebsocket, as far as parsers.c uses it. -/
structure Wsi where
  /-- The phase of the connection, wsi->state. -/
  state : ConnState
  mode : ConnMode
  ietf_spec_revision : Nat
  /-- The bytes name_buffer[0 .. name_buffer_pos); name_buffer_pos is their count. -/
  name_buffer : List Nat
  current_alloc_len : Nat
  parser_state : ParserState
  utf8_token : Nat → Slot
  lws_rx_parse_state : RxState
  /-- The bytes rx_user_buffer[PRE_PADDING .. PRE_PADDING + rx_user_buffer_head);
  rx_user_buffer_head is their count. -/
  rx_user_buffer : List Nat
  masking_key_04 : List Nat
  frame_masking_nonce_04 : Key4
  frame_mask_04 : List Nat
  /-- The running mask index.  Its C type is declared outside parsers.c; no wrap-around
  is modelled, and xor_mask_05 only uses it through & 3. -/
  frame_mask_index : Nat
  /-- A size_t, 64 bits wide. -/
  rx_packet_length : Nat
  opcode : Nat
  final : Bool
  rsv : Nat
  this_frame_masked : Bool
  all_zero_nonce : Bool
  pings_vs_pongs : Int
  xor_mask : XorMask
  /-- The buffer of bytes held back by rx flow control, none for NULL. -/
  rxflow_buffer : Option (List Nat)
  rxflow_len : Nat
  rxflow_pos : Nat
  /-- The bit POLLIN of context->fds[wsi->position_in_fds_table].events. -/
  pollin : Bool
  /-- The per-session user memory wsi->user_space. -/
  user_space : Nat
  /-- Everything the connection did to the outside so far, oldest first. -/
  trace : List Event

/-- The count of accumulated payload bytes, wsi->rx_user_buffer_head. -/
def Wsi.rx_user_buffer_head (wsi : Wsi) : Nat := wsi.rx_user_buffer.length

/-- The count of name bytes, wsi->name_buffer_pos. -/
def Wsi.name_buffer_pos (wsi : Wsi) : Nat := wsi.name_buffer.length

/-- Two to the power 64, the modulus of size_t arithmetic. -/
def SIZE_T_MOD : Nat := 18446744073709551616

/-! ## Collaborators called by the receive path -/

/-- Modelled from the spec: the outbound writer libwebsocket_write, which is not part of
parsers.c.  It is handed the payload and a kind; the call is recorded and the return
value is the one the environment supplies. -/
def libwebsocket_write (env : Env) (wsi : Wsi) (buf : List Nat) (kind : WriteKind) :
    Int × Wsi :=
  (env.write_result kind buf, { wsi with trace := wsi.trace ++ [Event.write kind buf] })

/-- Modelled from the spec: user_callback_handle_rxflow, which is not part of parsers.c.
It calls the user callback with reason LWS_CALLBACK_RECEIVE and the payload; the
consumer-ready bit is owned by the consumer, so the call may leave it changed. -/
def user_callback_handle_rxflow (cb : Nat → List Nat → CallbackOut) (wsi : Wsi)
    (payload : List Nat) : Int × Wsi :=
  let r := cb wsi.user_space payload
  (r.ret, { wsi with
    user_space := r.user_space
    pollin := r.rxflow.getD wsi.pollin
    trace := wsi.trace ++ [Event.receive payload] })

/-! ## Unmasking routines -/

/-- The routine xor_no_mask. -/
def xor_no_mask (wsi : Wsi) (c : Nat) : Nat × Wsi := (c, wsi)

/-- The routine xor_mask_04: XOR with masking_key_04 at a rolling index below 20 (a read
past the end of the key, undefined in C, yields 0 here). -/
def xor_mask_04 (wsi : Wsi) (c : Nat) : Nat × Wsi :=
  let c1 := c ^^^ wsi.masking_key_04.getD wsi.frame_mask_index 0
  let idx := wsi.frame_mask_index + 1
  (c1, { wsi with frame_mask_index := if idx = 20 then 0 else idx })

/-- The routine xor_mask_05: XOR with the frame nonce at index (frame_mask_index++) & 3. -/
def xor_mask_05 (wsi : Wsi) (c : Nat) : Nat × Wsi :=
  (c ^^^ wsi.frame_masking_nonce_04.get (wsi.frame_mask_index &&& 3),
   { wsi with frame_mask_index := wsi.frame_mask_index + 1 })

/-- The call wsi->xor_mask(wsi, c). -/
def call_xor_mask (wsi : Wsi) (c : Nat) : Nat × Wsi :=
  match wsi.xor_mask with
  | .xor_no_mask => xor_no_mask wsi c
  | .xor_mask_04 => xor_mask_04 wsi c
  | .xor_mask_05 => xor_mask_05 wsi c

/-- The statement that opens the header states: if (ietf_spec_revision < 7) c = xor_mask(c). -/
def unmask_pre07 (wsi : Wsi) (c : Nat) : Nat × Wsi :=
  if wsi.ietf_spec_revision < 7 then call_xor_mask wsi c else (c, wsi)

/-! ## Frame receive state machine -/

/-- The code at label handle_first (state LWS_RXPS_04_FRAME_HDR_1). -/
def handle_first (wsi : Wsi) (c0 : Nat) : Int × Wsi :=
  let c := (unmask_pre07 wsi c0).1
  let wsi1 := (unmask_pre07 wsi c0).2
  let done (op : Nat) : Int × Wsi :=
    (0, { wsi1 with
      opcode := op
      rsv := c &&& 0x70
      final := (c >>> 7) &&& 1 != 0
      lws_rx_parse_state := .LWS_RXPS_04_FRAME_HDR_LEN })
  if wsi1.ietf_spec_revision < 7 then
    if c &&& 0xf = 0 then done 0
    else if c &&& 0xf = 1 then done 8
    else if c &&& 0xf = 2 then done 9
    else if c &&& 0xf = 3 then done 10
    else if c &&& 0xf = 4 then done 1
    else if c &&& 0xf = 5 then done 2
    else (-1, wsi1)
  else done (c &&& 0xf)

/-- The loop over the active extensions with reason EXTENDED_PAYLOAD_RX; yields
the flag handled. -/
def ext_extended_loop : List (ExtReason → List Nat → ExtOut) → Nat → List Nat → Bool →
    Wsi → Bool × Wsi
  | [], _, _, handled, wsi => (handled, wsi)
  | ext :: rest, n, eff_buf, handled, wsi =>
    let r := ext .LWS_EXT_CALLBACK_EXTENDED_PAYLOAD_RX eff_buf
    let wsi1 := { wsi with trace := wsi.trace ++
      [Event.extension n .LWS_EXT_CALLBACK_EXTENDED_PAYLOAD_RX eff_buf] }
    ext_extended_loop rest (n + 1) r.eff_buf (handled || r.m != 0) wsi1

/-- The loop over the active extensions with reason PAYLOAD_RX; none when an
extension returned a negative value, otherwise the final eff_buf. -/
def ext_payload_loop : List (ExtReason → List Nat → ExtOut) → Nat → List Nat →
    Wsi → Option (List Nat) × Wsi
  | [], _, eff_buf, wsi => (some eff_buf, wsi)
  | ext :: rest, n, eff_buf, wsi =>
    let r := ext .LWS_EXT_CALLBACK_PAYLOAD_RX eff_buf
    let wsi1 := { wsi with trace := wsi.trace ++
      [Event.extension n .LWS_EXT_CALLBACK_PAYLOAD_RX eff_buf] }
    if r.m < 0 then (none, wsi1) else ext_payload_loop rest (n + 1) r.eff_buf wsi1

/-- The code from label spill to the end of the payload case.  The NUL that the data
path stores behind the payload lies outside the accumulated bytes and leaves them as
they are. -/
def spill (env : Env) (wsi : Wsi) : Int × Wsi :=
  if wsi.opcode = 8 then
    if wsi.state = .WSI_STATE_AWAITING_CLOSE_ACK then (-1, wsi)
    else
      let wsi1 := (libwebsocket_write env wsi wsi.rx_user_buffer .LWS_WRITE_CLOSE).2
      (-1, { wsi1 with state := .WSI_STATE_RETURNED_CLOSE_ALREADY })
  else if wsi.opcode = 9 then
    let wsi1 := (libwebsocket_write env wsi wsi.rx_user_buffer .LWS_WRITE_PONG).2
    (0, { wsi1 with rx_user_buffer := [] })
  else if wsi.opcode = 10 then
    (0, { wsi with pings_vs_pongs := wsi.pings_vs_pongs - 1, rx_user_buffer := [] })
  else if wsi.opcode = 0 ∨ wsi.opcode = 1 ∨ wsi.opcode = 2 then
    let wsi1 := (ext_payload_loop env.active_extensions 0 wsi.rx_user_buffer wsi).2
    match (ext_payload_loop env.active_extensions 0 wsi.rx_user_buffer wsi).1 with
    | none => (-1, wsi1)
    | some eff_buf =>
      let wsi2 :=
        if eff_buf.length > 0 then
          match env.callback with
          | some cb => (user_callback_handle_rxflow cb wsi1 eff_buf).2
          | none => wsi1
        else wsi1
      (0, { wsi2 with rx_user_buffer := [] })
  else
    let wsi1 := (ext_extended_loop env.active_extensions 0 wsi.rx_user_buffer false wsi).2
    (0, { wsi1 with rx_user_buffer := [] })

/-- The code at label issue (revision 0 delivery). -/
def issue (env : Env) (wsi : Wsi) : Int × Wsi :=
  let wsi1 :=
    match env.callback with
    | some cb => (user_callback_handle_rxflow cb wsi wsi.rx_user_buffer).2
    | none => wsi
  (0, { wsi1 with rx_user_buffer := [] })

/-- The step that follows a complete length: collect the key if the frame is masked. -/
def after_length (wsi : Wsi) : Wsi :=
  if wsi.this_frame_masked then
    { wsi with lws_rx_parse_state := .LWS_RXPS_07_COLLECT_FRAME_KEY_1 }
  else
    { wsi with lws_rx_parse_state := .LWS_RXPS_PAYLOAD_UNTIL_LENGTH_EXHAUSTED }

/-- A length state that ORs in one byte at a shift and moves on. -/
def len_or (wsi : Wsi) (c0 : Nat) (shift : Nat) (next : RxState) : Int × Wsi :=
  let c := (unmask_pre07 wsi c0).1
  let wsi1 := (unmask_pre07 wsi c0).2
  (0, { wsi1 with
    rx_packet_length := wsi1.rx_packet_length ||| ((c <<< shift) % SIZE_T_MOD)
    lws_rx_parse_state := next })

/-- The function libwebsocket_rx_sm: one byte into the frame state machine.
The first component is the return value. -/
def libwebsocket_rx_sm (env : Env) (wsi : Wsi) (c : Nat) : Int × Wsi :=
  match wsi.lws_rx_parse_state with
  | .LWS_RXPS_NEW =>
    if wsi.ietf_spec_revision = 0 then
      let wsi1 :=
        if c = 0xff then { wsi with lws_rx_parse_state := .LWS_RXPS_SEEN_76_FF } else wsi
      let wsi2 :=
        if c = 0 then
          { wsi1 with lws_rx_parse_state := .LWS_RXPS_EAT_UNTIL_76_FF, rx_user_buffer := [] }
        else wsi1
      (0, wsi2)
    else if wsi.ietf_spec_revision = 4 ∨ wsi.ietf_spec_revision = 5 ∨
        wsi.ietf_spec_revision = 6 then
      (0, { wsi with
        all_zero_nonce := c == 0
        frame_masking_nonce_04 := { wsi.frame_masking_nonce_04 with b0 := c }
        lws_rx_parse_state := .LWS_RXPS_04_MASK_NONCE_1 })
    else if wsi.ietf_spec_revision = 7 ∨ wsi.ietf_spec_revision = 8 ∨
        wsi.ietf_spec_revision = 13 then
      handle_first { wsi with all_zero_nonce := true } c
    else (0, wsi)
  | .LWS_RXPS_04_MASK_NONCE_1 =>
    (0, { wsi with
      frame_masking_nonce_04 := { wsi.frame_masking_nonce_04 with b1 := c }
      all_zero_nonce := if c ≠ 0 then false else wsi.all_zero_nonce
      lws_rx_parse_state := .LWS_RXPS_04_MASK_NONCE_2 })
  | .LWS_RXPS_04_MASK_NONCE_2 =>
    (0, { wsi with
      frame_masking_nonce_04 := { wsi.frame_masking_nonce_04 with b2 := c }
      all_zero_nonce := if c ≠ 0 then false else wsi.all_zero_nonce
      lws_rx_parse_state := .LWS_RXPS_04_MASK_NONCE_3 })
  | .LWS_RXPS_04_MASK_NONCE_3 =>
    let wsi1 := { wsi with
      frame_masking_nonce_04 := { wsi.frame_masking_nonce_04 with b3 := c }
      all_zero_nonce := if c ≠ 0 then false else wsi.all_zero_nonce }
    if env.defeat_client_mask then
      (0, { wsi1 with lws_rx_parse_state := .LWS_RXPS_04_FRAME_HDR_1 })
    else if wsi1.ietf_spec_revision > 4 then
      (0, { wsi1 with frame_mask_index := 0, lws_rx_parse_state := .LWS_RXPS_04_FRAME_HDR_1 })
    else
      let n := wsi1.frame_masking_nonce_04
      let buf := [n.b0, n.b1, n.b2, n.b3] ++ wsi1.masking_key_04.take 20
      (0, { wsi1 with
        frame_mask_04 := env.SHA1 buf
        frame_mask_index := 0
        lws_rx_parse_state := .LWS_RXPS_04_FRAME_HDR_1 })
  | .LWS_RXPS_04_FRAME_HDR_1 => handle_first wsi c
  | .LWS_RXPS_04_FRAME_HDR_LEN =>
    let c1 := (unmask_pre07 wsi c).1
    let wsi1 := (unmask_pre07 wsi c).2
    if c1 &&& 0x80 ≠ 0 ∧ wsi1.ietf_spec_revision < 7 then (-1, wsi1)
    else
      let wsi2 := { wsi1 with this_frame_masked := c1 &&& 0x80 != 0 }
      if c1 &&& 0x7f = 126 then
        if wsi2.opcode &&& 8 ≠ 0 then (-1, wsi2)
        else (0, { wsi2 with lws_rx_parse_state := .LWS_RXPS_04_FRAME_HDR_LEN16_2 })
      else if c1 &&& 0x7f = 127 then
        if wsi2.opcode &&& 8 ≠ 0 then (-1, wsi2)
        else (0, { wsi2 with lws_rx_parse_state := .LWS_RXPS_04_FRAME_HDR_LEN64_8 })
      else
        (0, after_length { wsi2 with rx_packet_length := c1 &&& 0x7f })
  | .LWS_RXPS_04_FRAME_HDR_LEN16_2 =>
    let c1 := (unmask_pre07 wsi c).1
    let wsi1 := (unmask_pre07 wsi c).2
    (0, { wsi1 with
      rx_packet_length := c1 <<< 8
      lws_rx_parse_state := .LWS_RXPS_04_FRAME_HDR_LEN16_1 })
  | .LWS_RXPS_04_FRAME_HDR_LEN16_1 =>
    let c1 := (unmask_pre07 wsi c).1
    let wsi1 := (unmask_pre07 wsi c).2
    (0, after_length { wsi1 with rx_packet_length := wsi1.rx_packet_length ||| c1 })
  | .LWS_RXPS_04_FRAME_HDR_LEN64_8 =>
    let c1 := (unmask_pre07 wsi c).1
    let wsi1 := (unmask_pre07 wsi c).2
    if c1 &&& 0x80 ≠ 0 then (-1, wsi1)
    else
      (0, { wsi1 with
        rx_packet_length := (c1 <<< 56) % SIZE_T_MOD
        lws_rx_parse_state := .LWS_RXPS_04_FRAME_HDR_LEN64_7 })
  | .LWS_RXPS_04_FRAME_HDR_LEN64_7 => len_or wsi c 48 .LWS_RXPS_04_FRAME_HDR_LEN64_6
  | .LWS_RXPS_04_FRAME_HDR_LEN64_6 => len_or wsi c 40 .LWS_RXPS_04_FRAME_HDR_LEN64_5
  | .LWS_RXPS_04_FRAME_HDR_LEN64_5 => len_or wsi c 32 .LWS_RXPS_04_FRAME_HDR_LEN64_4
  | .LWS_RXPS_04_FRAME_HDR_LEN64_4 => len_or wsi c 24 .LWS_RXPS_04_FRAME_HDR_LEN64_3
  | .LWS_RXPS_04_FRAME_HDR_LEN64_3 => len_or wsi c 16 .LWS_RXPS_04_FRAME_HDR_LEN64_2
  | .LWS_RXPS_04_FRAME_HDR_LEN64_2 => len_or wsi c 8 .LWS_RXPS_04_FRAME_HDR_LEN64_1
  | .LWS_RXPS_04_FRAME_HDR_LEN64_1 =>
    let c1 := (unmask_pre07 wsi c).1
    let wsi1 := (unmask_pre07 wsi c).2
    (0, after_length { wsi1 with rx_packet_length := wsi1.rx_packet_length ||| c1 })
  | .LWS_RXPS_EAT_UNTIL_76_FF =>
    if c = 0xff then issue env { wsi with lws_rx_parse_state := .LWS_RXPS_NEW }
    else
      let wsi1 := { wsi with rx_user_buffer := wsi.rx_user_buffer ++ [c] }
      if wsi1.rx_user_buffer_head ≠ env.k.MAX_USER_RX_BUFFER then (0, wsi1)
      else issue env wsi1
  | .LWS_RXPS_SEEN_76_FF =>
    if c ≠ 0 then (0, wsi)
    else
      (-1, (libwebsocket_write env wsi [0xff, 0] .LWS_WRITE_HTTP).2)
  | .LWS_RXPS_PULLING_76_LENGTH => (0, wsi)
  | .LWS_RXPS_07_COLLECT_FRAME_KEY_1 =>
    (0, { wsi with
      frame_masking_nonce_04 := { wsi.frame_masking_nonce_04 with b0 := c }
      all_zero_nonce := if c ≠ 0 then false else wsi.all_zero_nonce
      lws_rx_parse_state := .LWS_RXPS_07_COLLECT_FRAME_KEY_2 })
  | .LWS_RXPS_07_COLLECT_FRAME_KEY_2 =>
    (0, { wsi with
      frame_masking_nonce_04 := { wsi.frame_masking_nonce_04 with b1 := c }
      all_zero_nonce := if c ≠ 0 then false else wsi.all_zero_nonce
      lws_rx_parse_state := .LWS_RXPS_07_COLLECT_FRAME_KEY_3 })
  | .LWS_RXPS_07_COLLECT_FRAME_KEY_3 =>
    (0, { wsi with
      frame_masking_nonce_04 := { wsi.frame_masking_nonce_04 with b2 := c }
      all_zero_nonce := if c ≠ 0 then false else wsi.all_zero_nonce
      lws_rx_parse_state := .LWS_RXPS_07_COLLECT_FRAME_KEY_4 })
  | .LWS_RXPS_07_COLLECT_FRAME_KEY_4 =>
    (0, { wsi with
      frame_masking_nonce_04 := { wsi.frame_masking_nonce_04 with b3 := c }
      all_zero_nonce := if c ≠ 0 then false else wsi.all_zero_nonce
      lws_rx_parse_state := .LWS_RXPS_PAYLOAD_UNTIL_LENGTH_EXHAUSTED
      frame_mask_index := 0 })
  | .LWS_RXPS_PAYLOAD_UNTIL_LENGTH_EXHAUSTED =>
    let r :=
      if wsi.ietf_spec_revision < 4 ∨ (wsi.all_zero_nonce = true ∧ wsi.ietf_spec_revision ≥ 5)
      then (c, wsi) else call_xor_mask wsi c
    let b := r.1
    let wsi1 := r.2
    let wsi2 := { wsi1 with
      rx_user_buffer := wsi1.rx_user_buffer ++ [b]
      rx_packet_length := (wsi1.rx_packet_length + SIZE_T_MOD - 1) % SIZE_T_MOD }
    if wsi2.rx_packet_length = 0 then
      spill env { wsi2 with lws_rx_parse_state := .LWS_RXPS_NEW }
    else if wsi2.rx_user_buffer_head ≠ env.k.MAX_USER_RX_BUFFER then (0, wsi2)
    else spill env wsi2

/-- The while loop of libwebsocket_interpret_incoming_packet together with the code
after it.  The list holds the bytes buf[n .. len) still to be fed. -/
def pump_loop (env : Env) (clear_rxflow : Bool) : List Nat → Nat → Wsi → Int × Wsi
  | [], _, wsi =>
    if clear_rxflow then (0, { wsi with rxflow_buffer := none, pollin := false })
    else (0, wsi)
  | c :: rest, n, wsi =>
    if wsi.pollin = false then
      match wsi.rxflow_buffer with
      | none =>
        (1, { wsi with
          rxflow_buffer := some (c :: rest)
          rxflow_len := (c :: rest).length
          rxflow_pos := 0 })
      | some _ => (1, { wsi with rxflow_pos := n })
    else
      let r := libwebsocket_rx_sm env wsi c
      if r.1 < 0 then (-1, r.2) else pump_loop env clear_rxflow rest (n + 1) r.2

/-- The function libwebsocket_interpret_incoming_packet; buf is none for a NULL
pointer, and len is the length of the list otherwise.  With buf NULL the bytes
rxflow_buffer[rxflow_pos .. rxflow_len) are fed (none when rxflow_buffer is NULL too,
where the C code would read through a NULL pointer). -/
def libwebsocket_interpret_incoming_packet (env : Env) (wsi : Wsi)
    (buf : Option (List Nat)) : Int × Wsi :=
  let clear_rxflow := wsi.rxflow_buffer.isSome
  match buf with
  | some bytes => pump_loop env clear_rxflow bytes 0 wsi
  | none =>
    let stored := (wsi.rxflow_buffer.getD []).take wsi.rxflow_len
    pump_loop env clear_rxflow (stored.drop wsi.rxflow_pos) wsi.rxflow_pos
      { wsi with pollin := true }

/-! ## Handshake header parser -/

/-- The bytes of a string literal. -/
def str (s : String) : List Nat := s.toList.map Char.toNat

/-- Token index WSI_TOKEN_GET_URI. -/
abbrev WSI_TOKEN_GET_URI : Nat := 0
/-- Token index WSI_TOKEN_HOST. -/
abbrev WSI_TOKEN_HOST : Nat := 1
/-- Token index WSI_TOKEN_CONNECTION. -/
abbrev WSI_TOKEN_CONNECTION : Nat := 2
/-- Token index WSI_TOKEN_KEY1. -/
abbrev WSI_TOKEN_KEY1 : Nat := 3
/-- Token index WSI_TOKEN_KEY2. -/
abbrev WSI_TOKEN_KEY2 : Nat := 4
/-- Token index WSI_TOKEN_PROTOCOL. -/
abbrev WSI_TOKEN_PROTOCOL : Nat := 5
/-- Token index WSI_TOKEN_UPGRADE. -/
abbrev WSI_TOKEN_UPGRADE : Nat := 6
/-- Token index WSI_TOKEN_ORIGIN. -/
abbrev WSI_TOKEN_ORIGIN : Nat := 7
/-- Token index WSI_TOKEN_DRAFT. -/
abbrev WSI_TOKEN_DRAFT : Nat := 8
/-- Token index WSI_TOKEN_CHALLENGE. -/
abbrev WSI_TOKEN_CHALLENGE : Nat := 9
/-- Token index WSI_TOKEN_KEY. -/
abbrev WSI_TOKEN_KEY : Nat := 10
/-- Token index WSI_TOKEN_VERSION. -/
abbrev WSI_TOKEN_VERSION : Nat := 11
/-- Token index WSI_TOKEN_SWORIGIN. -/
abbrev WSI_TOKEN_SWORIGIN : Nat := 12
/-- Token index WSI_TOKEN_EXTENSIONS. -/
abbrev WSI_TOKEN_EXTENSIONS : Nat := 13
/-- Token index WSI_TOKEN_ACCEPT. -/
abbrev WSI_TOKEN_ACCEPT : Nat := 14
/-- Token index WSI_TOKEN_NONCE. -/
abbrev WSI_TOKEN_NONCE : Nat := 15
/-- Token index WSI_TOKEN_HTTP. -/
abbrev WSI_TOKEN_HTTP : Nat := 16
/-- Token index WSI_TOKEN_MUXURL. -/
abbrev WSI_TOKEN_MUXURL : Nat := 17
/-- The number of tokens, WSI_TOKEN_COUNT. -/
abbrev WSI_TOKEN_COUNT : Nat := 18

/-- The table lws_tokens: the literal name of each token and its token_len. -/
def lws_tokens : List (List Nat × Int) :=
  [ (str "GET ", 4),
    (str "Host:", 5),
    (str "Connection:", 11),
    (str "Sec-WebSocket-Key1:", 19),
    (str "Sec-WebSocket-Key2:", 19),
    (str "Sec-WebSocket-Protocol:", 23),
    (str "Upgrade:", 8),
    (str "Origin:", 7),
    (str "Sec-WebSocket-Draft:", 20),
    ([0x0d, 0x0a], 2),
    (str "Sec-WebSocket-Key:", 18),
    (str "Sec-WebSocket-Version:", 22),
    (str "Sec-WebSocket-Origin:", 21),
    (str "Sec-WebSocket-Extensions:", 25),
    (str "Sec-WebSocket-Accept:", 21),
    (str "Sec-WebSocket-Nonce:", 20),
    (str "HTTP/1.1 ", 9),
    ([], -1) ]

/-- The string written into a slot whose value grew past the ceiling. -/
def LENGTH_EXCEEDED : List Nat := str "!!! Length exceeded maximum supported !!!"

/-- The C library function tolower in the C locale. -/
def tolower (c : Nat) : Nat := if 65 ≤ c ∧ c ≤ 90 then c + 32 else c

/-- The C string held in a memory area: the bytes before the first NUL. -/
def cstring (mem : List Nat) : List Nat := mem.takeWhile (fun b => b != 0)

/-- The C library function strcasecmp, as the test whether it returns non-zero. -/
def strcasecmp (s1 s2 : List Nat) : Bool :=
  (cstring s1).map tolower != (cstring s2).map tolower

/-- The C library function isspace in the C locale. -/
def isspace (c : Nat) : Bool := c == 32 || (9 ≤ c && c ≤ 13)

/-- The digit loop of strtol in base 10: the number the leading digits spell. -/
def atoi_digits : List Nat → Int → Int
  | [], acc => acc
  | c :: rest, acc =>
    if 48 ≤ c ∧ c ≤ 57 then atoi_digits rest (acc * 10 + ((c : Int) - 48)) else acc

/-- The C library function strtol in base 10 on a C string, for a long of 64 bits: white
space, an optional sign and the leading digits; a number that does not fit the long gives
LONG_MIN or LONG_MAX. -/
def strtol (s : List Nat) : Int :=
  let v : Int :=
    match s.dropWhile isspace with
    | 45 :: rest => - atoi_digits rest 0
    | 43 :: rest => atoi_digits rest 0
    | s1 => atoi_digits s1 0
  if v < -9223372036854775808 then -9223372036854775808
  else if v > 9223372036854775807 then 9223372036854775807
  else v

/-- The C library function atoi on a C string, an int of 32 bits.  The C standard leaves
the result open for a number that does not fit an int; the GNU C library defines atoi as
(int) strtol (s, NULL, 10), which keeps the low 32 bits of the long as a signed number,
and that is what is modelled. -/
def atoi (s : List Nat) : Int :=
  (strtol s + 2147483648) % 4294967296 - 2147483648

/-- Store one byte at an offset of a buffer whose written bytes are mem. -/
def mem_write (mem : List Nat) (i : Nat) (v : Nat) : List Nat :=
  if i < mem.length then mem.set i v
  else mem ++ List.replicate (i - mem.length) 0 ++ [v]

/-- The assignment slot.token[i] = v (nothing is modelled for a NULL token). -/
def Slot.store (s : Slot) (i : Nat) (v : Nat) : Slot :=
  { s with token := s.token.map (fun mem => mem_write mem i v) }

/-- The C string a slot holds, as atoi and the consumer read it. -/
def Slot.value (s : Slot) : List Nat := cstring (s.token.getD [])

/-- The call strcpy(slot.token, LENGTH_EXCEEDED). -/
def Slot.strcpy_exceeded (s : Slot) : Slot :=
  { s with token := s.token.map (fun mem =>
      LENGTH_EXCEEDED ++ [0] ++ mem.drop (LENGTH_EXCEEDED.length + 1)) }

/-- Replace the slot of one token. -/
def set_slot (f : Nat → Slot) (i : Nat) (s : Slot) : Nat → Slot :=
  fun j => if j = i then s else f j

/-- The for loop of the name part: the index of the first table entry whose
token_len equals name_buffer_pos and whose name matches without regard to case. -/
def find_token (name_buffer : List Nat) : List (List Nat × Int) → Nat → Option Nat
  | [], _ => none
  | (tok, tok_len) :: rest, n =>
    if (name_buffer.length : Int) ≠ tok_len then find_token name_buffer rest (n + 1)
    else if strcasecmp tok name_buffer then find_token name_buffer rest (n + 1)
    else some n

/-- The end of the name part, reached with parser_state = WSI_TOKEN_CHALLENGE. -/
def name_part_challenge (wsi : Wsi) : Wsi :=
  let wsi1 :=
    if (wsi.utf8_token WSI_TOKEN_UPGRADE).token_len = 0 then
      { wsi with parser_state := .WSI_PARSING_COMPLETE }
    else wsi
  let wsi2 :=
    if (wsi1.utf8_token WSI_TOKEN_VERSION).token_len ≠ 0 ∧
        atoi (wsi1.utf8_token WSI_TOKEN_VERSION).value ≥ 4 then
      { wsi1 with
        parser_state := .WSI_PARSING_COMPLETE
        utf8_token := set_slot wsi1.utf8_token WSI_TOKEN_CHALLENGE
          { token := none, token_len := 0, alloc := 0 } }
    else wsi1
  if wsi2.ietf_spec_revision ≥ 4 then
    { wsi2 with parser_state := .WSI_PARSING_COMPLETE }
  else wsi2

/-- The body of the for loop of the name part once entry n0 of the table matched,
and the code after the loop on that path. -/
def name_matched (k : Consts) (malloc_ok : Bool) (wsi1 : Wsi) (n0 : Nat) : Int × Wsi :=
  let n := if n0 = WSI_TOKEN_SWORIGIN then WSI_TOKEN_ORIGIN else n0
  let wsi2 := { wsi1 with parser_state := .token n }
  if (wsi2.utf8_token n).token.isSome then
    if n = WSI_TOKEN_CHALLENGE then (0, name_part_challenge wsi2) else (0, wsi2)
  else
    let wsi3 := { wsi2 with current_alloc_len := k.LWS_INITIAL_HDR_ALLOC }
    if malloc_ok = false then (-1, wsi3)
    else
      let wsi4 := { wsi3 with
        utf8_token := set_slot wsi3.utf8_token n
          { token := some [], token_len := 0, alloc := wsi3.current_alloc_len } }
      if n = WSI_TOKEN_CHALLENGE then (0, name_part_challenge wsi4) else (0, wsi4)

/-- The case WSI_TOKEN_NAME_PART of libwebsocket_parse. -/
def parse_name_part (k : Consts) (malloc_ok : Bool) (wsi : Wsi) (c : Nat) : Int × Wsi :=
  if wsi.name_buffer_pos + 1 = k.name_buffer_size then
    (0, { wsi with parser_state := .WSI_TOKEN_SKIPPING })
  else
    let wsi1 := { wsi with name_buffer := wsi.name_buffer ++ [c] }
    match find_token wsi1.name_buffer lws_tokens 0 with
    | some n0 => name_matched k malloc_ok wsi1 n0
    | none =>
      if c = 58 then (0, { wsi1 with parser_state := .WSI_TOKEN_SKIPPING })
      else if c = 32 ∧ (wsi1.utf8_token WSI_TOKEN_GET_URI).token_len = 0 then
        let wsi2 := { wsi1 with
          parser_state := .token WSI_TOKEN_GET_URI
          current_alloc_len := k.LWS_INITIAL_HDR_ALLOC }
        if malloc_ok = false then
          (-1, { wsi2 with
            utf8_token := set_slot wsi2.utf8_token WSI_TOKEN_GET_URI
              { (wsi2.utf8_token WSI_TOKEN_GET_URI) with token := none, alloc := 0 } })
        else
          (0, { wsi2 with
            utf8_token := set_slot wsi2.utf8_token WSI_TOKEN_GET_URI
              { (wsi2.utf8_token WSI_TOKEN_GET_URI) with
                token := some [], alloc := wsi2.current_alloc_len } })
      else (0, wsi1)

/-- The end of the token case, reached after a byte was appended to the
CHALLENGE slot: per-protocol end of headers management. -/
def token_challenge (wsi : Wsi) : Wsi :=
  let vlen := (wsi.utf8_token WSI_TOKEN_VERSION).token_len
  let clen := (wsi.utf8_token WSI_TOKEN_CHALLENGE).token_len
  let version := atoi (wsi.utf8_token WSI_TOKEN_VERSION).value
  if vlen = 0 ∧ wsi.mode ≠ .LWS_CONNMODE_WS_CLIENT_WAITING_SERVER_REPLY ∧ clen ≠ 8 then wsi
  else if vlen = 0 ∧ wsi.mode = .LWS_CONNMODE_WS_CLIENT_WAITING_SERVER_REPLY ∧ clen ≠ 16 then
    wsi
  else if vlen ≠ 0 ∧ version < 4 ∧ clen ≠ 8 then wsi
  else
    let wsi1 :=
      if vlen ≠ 0 ∧ version > 0 then
        { wsi with
          utf8_token := set_slot wsi.utf8_token WSI_TOKEN_CHALLENGE
            { token := none, token_len := 0, alloc := 0 } }
      else wsi
    { wsi1 with parser_state := .WSI_PARSING_COMPLETE }

/-- The token cases of libwebsocket_parse: collecting the value of token t. -/
def parse_token (k : Consts) (malloc_ok : Bool) (wsi : Wsi) (t : Nat) (c : Nat) :
    Int × Wsi :=
  let slot := wsi.utf8_token t
  if slot.token_len = 0 ∧ c = 32 then (0, wsi)
  else if t = WSI_TOKEN_GET_URI ∧ c = 32 then
    (0, { wsi with
      utf8_token := set_slot wsi.utf8_token t (slot.store slot.token_len 0)
      parser_state := .WSI_TOKEN_SKIPPING })
  else
    let extend := slot.token_len + 1 = wsi.current_alloc_len
    let wsi1 :=
      if extend then
        { wsi with current_alloc_len := wsi.current_alloc_len + k.LWS_ADDITIONAL_HDR_ALLOC }
      else wsi
    if extend ∧ wsi1.current_alloc_len ≥ k.LWS_MAX_HEADER_LEN then
      (0, { wsi1 with
        utf8_token := set_slot wsi1.utf8_token t slot.strcpy_exceeded
        parser_state := .WSI_TOKEN_SKIPPING })
    else if extend ∧ malloc_ok = false then
      (-1, { wsi1 with
        utf8_token := set_slot wsi1.utf8_token t { slot with token := none, alloc := 0 } })
    else
      let slot1 := if extend then { slot with alloc := wsi1.current_alloc_len } else slot
      if t ≠ WSI_TOKEN_CHALLENGE ∧ c = 13 then
        (0, { wsi1 with
          utf8_token := set_slot wsi1.utf8_token t (slot1.store slot1.token_len 0)
          parser_state := .WSI_TOKEN_SKIPPING_SAW_CR })
      else
        let slot2 := { (slot1.store slot1.token_len c) with token_len := slot1.token_len + 1 }
        let wsi2 := { wsi1 with utf8_token := set_slot wsi1.utf8_token t slot2 }
        if t ≠ WSI_TOKEN_CHALLENGE then (0, wsi2) else (0, token_challenge wsi2)

/-- The function libwebsocket_parse: one byte into the handshake parser.  The flag
malloc_ok tells whether an allocation made while handling this byte succeeds. -/
def libwebsocket_parse (k : Consts) (malloc_ok : Bool) (wsi : Wsi) (c : Nat) : Int × Wsi :=
  match wsi.parser_state with
  | .token t => if t < WSI_TOKEN_COUNT then parse_token k malloc_ok wsi t c else (0, wsi)
  | .WSI_INIT_TOKEN_MUXURL =>
    let wsi1 := { wsi with
      parser_state := .token WSI_TOKEN_MUXURL
      current_alloc_len := k.LWS_INITIAL_HDR_ALLOC }
    if malloc_ok = false then
      (-1, { wsi1 with
        utf8_token := set_slot wsi1.utf8_token WSI_TOKEN_MUXURL
          { (wsi1.utf8_token WSI_TOKEN_MUXURL) with token := none, alloc := 0 } })
    else
      (0, { wsi1 with
        utf8_token := set_slot wsi1.utf8_token WSI_TOKEN_MUXURL
          { token := some [], token_len := 0, alloc := wsi1.current_alloc_len } })
  | .WSI_TOKEN_NAME_PART => parse_name_part k malloc_ok wsi c
  | .WSI_TOKEN_SKIPPING =>
    if c = 13 then (0, { wsi with parser_state := .WSI_TOKEN_SKIPPING_SAW_CR }) else (0, wsi)
  | .WSI_TOKEN_SKIPPING_SAW_CR =>
    if c = 10 then (0, { wsi with parser_state := .WSI_TOKEN_NAME_PART, name_buffer := [] })
    else (0, { wsi with parser_state := .WSI_TOKEN_SKIPPING, name_buffer := [] })
  | .WSI_PARSING_COMPLETE => (0, wsi)

/-- Feed a list of bytes to libwebsocket_parse, every allocation succeeding; the
return values, oldest first, and the final record.  Feeding stops after a negative
return. -/
def parse_feed (k : Consts) : Wsi → List Nat → List Int × Wsi
  | wsi, [] => ([], wsi)
  | wsi, c :: rest =>
    let r := libwebsocket_parse k true wsi c
    if r.1 < 0 then ([r.1], r.2)
    else (r.1 :: (parse_feed k r.2 rest).1, (parse_feed k r.2 rest).2)

/-- Feed a list of bytes to libwebsocket_rx_sm; the return values, oldest first, and
the final record.  Feeding stops after a negative return, as in the pump. -/
def rx_feed (env : Env) : Wsi → List Nat → List Int × Wsi
  | wsi, [] => ([], wsi)
  | wsi, c :: rest =>
    let r := libwebsocket_rx_sm env wsi c
    if r.1 < 0 then ([r.1], r.2)
    else (r.1 :: (rx_feed env r.2 rest).1, (rx_feed env r.2 rest).2)

/-! ## Sample collaborators and records for the concrete scenarios -/

/-- The constants as the spec gives them (1024 bytes per header, 64 bytes of name
buffer), with a payload ceiling of 4096. -/
def spec_consts : Consts :=
  { MAX_USER_RX_BUFFER := 4096
    LWS_INITIAL_HDR_ALLOC := 256
    LWS_ADDITIONAL_HDR_ALLOC := 64
    LWS_MAX_HEADER_LEN := 1024
    name_buffer_size := 64 }

/-- A user callback that accepts every payload and leaves flow control alone. -/
def quiet_callback : Nat → List Nat → CallbackOut :=
  fun u _ => { ret := 0, user_space := u, rxflow := none }

/-- A server environment with a user callback and no extensions. -/
def server_env : Env :=
  { k := spec_consts
    defeat_client_mask := false
    SHA1 := fun _ => List.replicate 20 0
    callback := some quiet_callback
    active_extensions := []
    write_result := fun _ _ => 0 }

/-- A record as the connection set-up leaves it: nothing parsed, nothing received. -/
def fresh_wsi (revision : Nat) (mask : XorMask) : Wsi :=
  { state := .WSI_STATE_ESTABLISHED
    mode := .LWS_CONNMODE_WS_SERVING
    ietf_spec_revision := revision
    name_buffer := []
    current_alloc_len := 0
    parser_state := .WSI_TOKEN_NAME_PART
    utf8_token := fun _ => { token := none, token_len := 0, alloc := 0 }
    lws_rx_parse_state := .LWS_RXPS_NEW
    rx_user_buffer := []
    masking_key_04 := List.replicate 20 0
    frame_masking_nonce_04 := { b0 := 0, b1 := 0, b2 := 0, b3 := 0 }
    frame_mask_04 := List.replicate 20 0
    frame_mask_index := 0
    rx_packet_length := 0
    opcode := 0
    final := false
    rsv := 0
    this_frame_masked := false
    all_zero_nonce := false
    pings_vs_pongs := 0
    xor_mask := mask
    rxflow_buffer := none
    rxflow_len := 0
    rxflow_pos := 0
    pollin := true
    user_space := 0
    trace := [] }

/-- Whether the consumer-ready bit is found set at every check the pump makes while
it feeds the bytes, up to a fatal return. -/
def ready_throughout (env : Env) : Wsi → List Nat → Bool
  | _, [] => true
  | wsi, c :: rest =>
    wsi.pollin &&
      (decide ((libwebsocket_rx_sm env wsi c).1 < 0) ||
        ready_throughout env (libwebsocket_rx_sm env wsi c).2 rest)

/-! ## Frames as a peer puts them on the wire -/

/-- A payload XORed with a 4-byte key: byte number i with key byte (offset + i) mod 4.
Applied to a payload it masks, applied to a masked payload it unmasks. -/
def xor_key (key : Key4) : Nat → List Nat → List Nat
  | _, [] => []
  | i, b :: rest => (b ^^^ key.get (i % 4)) :: xor_key key (i + 1) rest

/-- The wire bytes of a masked frame with a 7-bit length: first byte b0, then the MASK
bit with the payload length, the four key bytes and the masked payload. -/
def short_masked_frame (b0 : Nat) (key : Key4) (payload : List Nat) : List Nat :=
  [b0, 0x80 ||| payload.length, key.b0, key.b1, key.b2, key.b3] ++ xor_key key 0 payload

/-- The bytes the payload state stores for wire bytes p at revision 5 and later: p
itself while all_zero_nonce is set, otherwise p XORed with the frame nonce, starting at
the current mask index. -/
def stored_payload (wsi : Wsi) (p : List Nat) : List Nat :=
  if wsi.all_zero_nonce then p
  else xor_key wsi.frame_masking_nonce_04 wsi.frame_mask_index p

/-- The mask index after n payload bytes at revision 5 and later. -/
def mask_index_after (wsi : Wsi) (n : Nat) : Nat :=
  if wsi.all_zero_nonce then wsi.frame_mask_index else wsi.frame_mask_index + n

/-! ## Runs of the handshake parser -/

/-- Whether the parser is in WSI_PARSING_COMPLETE after some byte of the input, fed as
by parse_feed. -/
def completes_within (k : Consts) : Wsi → List Nat → Bool
  | _, [] => false
  | wsi, c :: rest =>
    (libwebsocket_parse k true wsi c).2.parser_state == .WSI_PARSING_COMPLETE ||
      (decide (0 ≤ (libwebsocket_parse k true wsi c).1) &&
        completes_within k (libwebsocket_parse k true wsi c).2 rest)

/-- Feeding the bytes returns 0 on each of them, never passes through
WSI_PARSING_COMPLETE and leaves the record given. -/
def Runs (k : Consts) (wsi : Wsi) (bytes : List Nat) (wsi1 : Wsi) : Prop :=
  parse_feed k wsi bytes = (List.replicate bytes.length 0, wsi1) ∧
    completes_within k wsi bytes = false

/-- Scan a header name byte by byte behind the name bytes already buffered: the table
index matched by the last byte, provided no earlier byte matched an entry or was a
colon or a space. -/
def name_scan (pre : List Nat) : List Nat → Option Nat
  | [] => none
  | [c] => find_token (pre ++ [c]) lws_tokens 0
  | c :: c1 :: rest =>
    if find_token (pre ++ [c]) lws_tokens 0 = none ∧ c ≠ 58 ∧ c ≠ 32 then
      name_scan (pre ++ [c]) (c1 :: rest)
    else none

/-- The request of the version 13 server handshake for a URI, a host and a key. -/
def v13_request (uri h key : List Nat) : List Nat :=
  str "GET " ++ uri ++ str " HTTP/1.1\r\n" ++
  str "Host: " ++ h ++ str "\r\n" ++
  str "Upgrade: websocket\r\n" ++
  str "Connection: Upgrade\r\n" ++
  str "Sec-WebSocket-Key: " ++ key ++ str "\r\n" ++
  str "Sec-WebSocket-Version: 13\r\n" ++
  str "\r\n"

/-- The slot holds exactly the value v: token_len is the length of v and the buffer
holds the bytes of v followed by the terminating NUL. -/
def Slot.holds (s : Slot) (v : List Nat) : Prop :=
  s.token = some (v ++ [0]) ∧ s.token_len = v.length

instance (s : Slot) (v : List Nat) : Decidable (s.holds v) := by
  unfold Slot.holds
  infer_instance

/-- The request of scenario 1: URI /chat, host x and the sample key. -/
def chat_request : List Nat :=
  v13_request (str "/chat") (str "x") (str "dGhlIHNhbXBsZSBub25jZQ==")

/-- A record that has just taken the first header byte of a frame with the opcode given. -/
def hdr_len_wsi (revision : Nat) (mask : XorMask) (opcode : Nat) : Wsi :=
  { fresh_wsi revision mask with
    lws_rx_parse_state := .LWS_RXPS_04_FRAME_HDR_LEN
    opcode := opcode }

/-- The pieces in which a frame payload u reaches the consumer when acc is already
accumulated: a piece is handed over whenever the accumulated bytes number ceiling, and
the rest at the last byte of the frame. -/
def deliver (ceiling : Nat) : List Nat → List Nat → List (List Nat)
  | _, [] => []
  | acc, [b] => [acc ++ [b]]
  | acc, b :: b1 :: rest =>
    if (acc ++ [b]).length = ceiling then (acc ++ [b]) :: deliver ceiling [] (b1 :: rest)
    else deliver ceiling (acc ++ [b]) (b1 :: rest)

/-- A server environment whose payload buffer spills every 4 bytes. -/
def small_env : Env :=
  { server_env with k := { spec_consts with MAX_USER_RX_BUFFER := 4 } }

/-- The record after the header 82 8a and the key 37 fa 21 3d of a masked binary frame of
10 payload bytes, at revision 13. -/
def after_header_wsi : Wsi :=
  (rx_feed small_env (fresh_wsi 13 .xor_mask_05) [0x82, 0x8a, 0x37, 0xfa, 0x21, 0x3d]).2

/-- The wire bytes of a sequence of masked short frames, each given by its first byte,
its key and its payload. -/
def short_masked_frames : List (Nat × Key4 × List Nat) → List Nat
  | [] => []
  | f :: rest => short_masked_frame f.1 f.2.1 f.2.2 ++ short_masked_frames rest

/-- Two PING frames: scenario 2 (payload Hello, key 37 fa 21 3d) and a PING with payload
Hi under the all-zero key. -/
def two_pings : List (Nat × Key4 × List Nat) :=
  [(0x89, ⟨0x37, 0xfa, 0x21, 0x3d⟩, str "Hello"), (0x89, ⟨0, 0, 0, 0⟩, str "Hi")]

/-- The record after the first header byte 88 (CLOSE, FIN set) at revision 13. -/
def after_close_byte_wsi : Wsi :=
  (rx_feed server_env (fresh_wsi 13 .xor_mask_05) [0x88]).2

/-- A revision 5 record that has taken the four nonce bytes 37 fa 21 3d of a frame and
waits for its first header byte. -/
def first_byte_wsi : Wsi :=
  { fresh_wsi 5 .xor_mask_05 with
    lws_rx_parse_state := .LWS_RXPS_04_FRAME_HDR_1
    frame_masking_nonce_04 := ⟨0x37, 0xfa, 0x21, 0x3d⟩ }

/-- A user callback that accepts every payload and de-asserts the consumer-ready bit. -/
def throttle_callback : Nat → List Nat → CallbackOut :=
  fun u _ => { ret := 0, user_space := u, rxflow := some false }

/-- A server environment whose consumer de-asserts ready in every Receive callback and
whose payload buffer spills every byte. -/
def throttle_env : Env :=
  { server_env with
    k := { spec_consts with MAX_USER_RX_BUFFER := 1 }
    callback := some throttle_callback }

/-- The wire bytes of scenario 3: a masked text frame with the payload Hello. -/
def hello_frame : List Nat :=
  [0x81, 0x85, 0x37, 0xfa, 0x21, 0x3d, 0x7f, 0x9f, 0x4d, 0x51, 0x58]

/-- The record with the flow-control fields replaced: the consumer-ready bit and the
rxflow buffer, length and read position. -/
def Wsi.flow (wsi : Wsi) (p : Bool) (b : Option (List Nat)) (l q : Nat) : Wsi :=
  { wsi with pollin := p, rxflow_buffer := b, rxflow_len := l, rxflow_pos := q }

/-- The record with the flow-control fields blanked.  Two records with the same image
differ in nothing the frame state machine reads or writes but the consumer-ready bit. -/
def Wsi.seen (wsi : Wsi) : Wsi := wsi.flow true none 0 0

/-- Calls of the pump with a NULL buffer, repeated while the call returns 1, at most
fuel times: the return value of the last call and the record it leaves (1 and the
record reached when the calls allowed are used up). -/
def drain (env : Env) : Nat → Wsi → Int × Wsi
  | 0, wsi => (1, wsi)
  | fuel + 1, wsi =>
    if (libwebsocket_interpret_incoming_packet env wsi none).1 = 1 then
      drain env fuel (libwebsocket_interpret_incoming_packet env wsi none).2
    else libwebsocket_interpret_incoming_packet env wsi none

/-- A revision 13 record whose consumer is not ready. -/
def held_wsi : Wsi := { fresh_wsi 13 .xor_mask_05 with pollin := false }

/-- The wire bytes of a masked CLOSE frame with the status 1000, under the all-zero key. -/
def close_frame : List Nat := [0x88, 0x82, 0, 0, 0, 0, 0x03, 0xe8]

/-- The wire bytes of a masked PING frame with the payload Hi, under the all-zero key. -/
def ping_frame : List Nat := [0x89, 0x82, 0, 0, 0, 0, 0x48, 0x69]

/-- A record whose consumer is not ready and which still holds a PING frame in its
rxflow buffer. -/
def pending_wsi : Wsi :=
  { held_wsi with rxflow_buffer := some ping_frame, rxflow_len := 8, rxflow_pos := 0 }

/-- The record the payload state has built when it tests the remaining length: the byte,
unmasked where the revision asks for it, stored behind the accumulated bytes and
rx_packet_length decremented. -/
def payload_stored (wsi : Wsi) (c : Nat) : Wsi :=
  let r :=
    if wsi.ietf_spec_revision < 4 ∨ (wsi.all_zero_nonce = true ∧ wsi.ietf_spec_revision ≥ 5)
    then (c, wsi) else call_xor_mask wsi c
  { r.2 with
    rx_user_buffer := r.2.rx_user_buffer ++ [r.1]
    rx_packet_length := (r.2.rx_packet_length + SIZE_T_MOD - 1) % SIZE_T_MOD }

/-- The record with the name buffer replaced. -/
def Wsi.named (wsi : Wsi) (nb : List Nat) : Wsi := { wsi with name_buffer := nb }

/-- The name of entry n0 of the token table. -/
def token_name (n0 : Nat) : List Nat := (lws_tokens.getD n0 ([], -1)).1

/-- Constants with little room for a header value: 48 bytes at first, one step of 16
would reach the ceiling of 64. -/
def tight_consts : Consts :=
  { spec_consts with
    LWS_INITIAL_HDR_ALLOC := 48
    LWS_ADDITIONAL_HDR_ALLOC := 16
    LWS_MAX_HEADER_LEN := 64 }

/-- The record after the name Host: and 47 value bytes under the tight constants: the
HOST slot fills its allocation but for the terminating NUL. -/
def full_host_wsi : Wsi :=
  (parse_feed tight_consts (fresh_wsi 13 .xor_mask_05)
    (str "Host: " ++ List.replicate 47 97)).2

/-- The headers of a legacy (draft 76) upgrade request, up to and including the blank
line: an Upgrade header and no Sec-WebSocket-Version header. -/
def legacy_request : List Nat :=
  str "GET /demo HTTP/1.1\r\n" ++
  str "Upgrade: WebSocket\r\n" ++
  str "Connection: Upgrade\r\n" ++
  str "Host: x\r\n" ++
  str "Sec-WebSocket-Key1: 4 @1  46546xW%0l 1 5\r\n" ++
  str "Sec-WebSocket-Key2: 12998 5 Y3 1  .P00\r\n" ++
  str "\r\n"

/-- The headers of an upgrade request that names a protocol version, without the blank
line that ends them. -/
def versioned_headers (v : List Nat) : List Nat :=
  str "GET /chat HTTP/1.1\r\n" ++
  str "Upgrade: websocket\r\n" ++
  str "Sec-WebSocket-Version: " ++ v ++ str "\r\n"

/-- The headers of a plain HTTP request, without the blank line that ends them: no
Upgrade header, and a stray Sec-WebSocket-Version header. -/
def plain_headers : List Nat :=
  str "GET /index.html HTTP/1.1\r\n" ++
  str "Host: x\r\n" ++
  str "Sec-WebSocket-Version: 2\r\n"

/-- Whether libwebsocket_parse, handling byte c, reaches one of its calls of malloc or
realloc: the growth step of a token value below the ceiling, the MUXURL set-up, the
first match of a header name, and the space that ends an unknown method. -/
def parse_allocates (k : Consts) (wsi : Wsi) (c : Nat) : Bool :=
  match wsi.parser_state with
  | .token t =>
    decide (t < WSI_TOKEN_COUNT ∧ ¬ ((wsi.utf8_token t).token_len = 0 ∧ c = 32) ∧
      ¬ (t = WSI_TOKEN_GET_URI ∧ c = 32) ∧
      (wsi.utf8_token t).token_len + 1 = wsi.current_alloc_len ∧
      wsi.current_alloc_len + k.LWS_ADDITIONAL_HDR_ALLOC < k.LWS_MAX_HEADER_LEN)
  | .WSI_INIT_TOKEN_MUXURL => true
  | .WSI_TOKEN_NAME_PART =>
    decide (wsi.name_buffer_pos + 1 ≠ k.name_buffer_size) &&
      (match find_token (wsi.name_buffer ++ [c]) lws_tokens 0 with
      | some n0 =>
        !(wsi.utf8_token
          (if n0 = WSI_TOKEN_SWORIGIN then WSI_TOKEN_ORIGIN else n0)).token.isSome
      | none => decide (c = 32 ∧ (wsi.utf8_token WSI_TOKEN_GET_URI).token_len = 0))
  | _ => false

/-- Whether an event is a call of an extension callback. -/
def Event.by_extension : Event → Bool
  | .extension _ _ _ => true
  | _ => false

/-- An extension that returns 1 from every hook and leaves the effective buffer as it
found it. -/
def claiming_ext : ExtReason → List Nat → ExtOut := fun _ b => { m := 1, eff_buf := b }

/-- An extension that returns 1 from every hook and leaves an empty effective buffer. -/
def consuming_ext : ExtReason → List Nat → ExtOut := fun _ _ => { m := 1, eff_buf := [] }

/-- A server environment whose only extension is claiming_ext. -/
def claiming_env : Env := { server_env with active_extensions := [claiming_ext] }

/-- A server environment whose only extension is consuming_ext. -/
def consuming_env : Env := { server_env with active_extensions := [consuming_ext] }

/-- A revision 13 record at the spill of a text frame with the payload Hello accumulated. -/
def hello_spill_wsi : Wsi :=
  { fresh_wsi 13 .xor_mask_05 with opcode := 1, rx_user_buffer := str "Hello" }

/-- A user callback that refuses every payload: it returns 1 and leaves flow control
alone. -/
def refusing_callback : Nat → List Nat → CallbackOut :=
  fun u _ => { ret := 1, user_space := u, rxflow := none }

/-- A server environment whose user callback is refusing_callback. -/
def refusing_env : Env := { server_env with callback := some refusing_callback }

/-- The wire bytes of a revision 0 text frame: 00, the payload, ff. -/
def hixie_frame (P : List Nat) : List Nat := 0 :: P ++ [0xff]

/-- A server environment whose digest function returns twenty bytes ff. -/
def digest_env : Env := { server_env with SHA1 := fun _ => List.replicate 20 0xff }

/-- A revision 4 record with xor_mask_04 installed and the connection masking key
01 02 .. 14 (hex) computed at handshake time. -/
def rev4_wsi : Wsi :=
  { fresh_wsi 4 .xor_mask_04 with
    masking_key_04 := [1, 2, 3, 4, 5, 6, 7, 8, 9, 10, 11, 12, 13, 14, 15, 16, 17, 18, 19, 20] }

/-- The wire bytes of a revision 4 text frame with the payload abc behind the nonce
a1 a2 a3 a4, each byte after the nonce XORed with the connection masking key 01 02 ..
at a running index: 84 03 61 62 63 becomes 85 01 62 66 66. -/
def rev4_frame : List Nat := [0xa1, 0xa2, 0xa3, 0xa4, 0x85, 0x01, 0x62, 0x66, 0x66]

/-- The wire bytes of a revision 5 or 6 frame under the all-zero nonce: the four nonce
bytes, the first header byte, the length below 126 and the payload, which the zero
nonce leaves as they are. -/
def zero_nonce_frame (b0 : Nat) (P : List Nat) : List Nat :=
  [0, 0, 0, 0, b0, P.length] ++ P

/-- Constants with little room for a header value: 8 bytes at first, steps of 8 and a
ceiling of 32. -/
def narrow_consts : Consts :=
  { spec_consts with
    LWS_INITIAL_HDR_ALLOC := 8
    LWS_ADDITIONAL_HDR_ALLOC := 8
    LWS_MAX_HEADER_LEN := 32 }

/-- A Host header of 10 bytes, an Origin header and a second Host header whose line is
not yet ended after 30 value bytes. -/
def recurring_request : List Nat :=
  str "Host: aaaaaaaaaa\r\n" ++ str "Origin: b\r\n" ++ str "Host: " ++ List.replicate 30 99

/-- The same two Host headers without the Origin header in between. -/
def repeated_request : List Nat :=
  str "Host: aaaaaaaaaa\r\n" ++ str "Host: " ++ List.replicate 30 99

/-- A record that is skipping the rest of a header line. -/
def skipping_wsi : Wsi :=
  { fresh_wsi 13 .xor_mask_05 with parser_state := .WSI_TOKEN_SKIPPING }

/-- Whether the slot is allocated, its buffer written at least up to token_len, and none
of its first token_len bytes a NUL. -/
def Slot.clean (s : Slot) : Bool :=
  match s.token with
  | none => false
  | some mem =>
    decide (s.token_len ≤ mem.length) && (mem.take s.token_len).all (fun b => b != 0)

/-- Whether no byte of a word, put behind the name bytes already buffered, completes a
name that matches an entry of the token table. -/
def no_match (pre : List Nat) : List Nat → Bool
  | [] => true
  | c :: rest => (find_token (pre ++ [c]) lws_tokens 0).isNone && no_match (pre ++ [c]) rest

/-- The ways in which one step of the frame state machine leaves the mask index i behind
for a record w: as it was, reset to 0, or advanced by the unmasking routine installed
(xor_mask_04 rolls over at 20, xor_mask_05 counts on). -/
def mask_step (w : Wsi) (i : Nat) : Prop :=
  i = w.frame_mask_index ∨ i = 0 ∨
  (w.xor_mask = .xor_mask_04 ∧
    i = if w.frame_mask_index + 1 = 20 then 0 else w.frame_mask_index + 1) ∨
  (w.xor_mask = .xor_mask_05 ∧ i = w.frame_mask_index + 1)

/-- The wire bytes of a revision 5 text frame of 20 payload bytes under the nonce
37 fa 21 3d: the nonce, the two header bytes 84 14 XORed with the nonce, and the payload. -/
def long_rev5_frame : List Nat :=
  [0x37, 0xfa, 0x21, 0x3d, 0xb3, 0xee] ++ List.replicate 20 0x41

/-! ## The external poll table of the test server -/

/-- One element of the array handed to poll, struct pollfd. -/
structure Pollfd where
  fd : Int
  events : Int
  revents : Int

/-- One entry of a hash bucket, struct poll_hash_map.  The field index is an int that
only ever receives values of count_pollfds. -/
structure poll_hash_map where
  fd : Int
  index : Nat

/-- The globals of test-server.c that track the file descriptors to poll. -/
structure PollTable where
  /-- The array pollfds[MAX_POLL_ELEMENTS]. -/
  pollfds : Nat → Pollfd
  /-- The array pollfd_maps[POLL_HASH_BUCKETS][POLL_ENTRIES_PER_BUCKET]. -/
  pollfd_maps : Nat → Nat → poll_hash_map
  /-- The array pollfd_count[POLL_HASH_BUCKETS]. -/
  pollfd_count : Nat → Nat
  count_pollfds : Nat

/-- The macro POLL_HASH_BITS. -/
abbrev POLL_HASH_BITS : Nat := 8

/-- The macro POLL_HASH_BUCKETS. -/
abbrev POLL_HASH_BUCKETS : Nat := 2 ^ POLL_HASH_BITS

/-- The macro POLL_ENTRIES_PER_BUCKET, for a given MAX_POLL_ELEMENTS (100, or MAX_CLIENTS
where the build defines it). -/
def POLL_ENTRIES_PER_BUCKET (MAX_POLL_ELEMENTS : Nat) : Nat :=
  MAX_POLL_ELEMENTS / 2 ^ (POLL_HASH_BITS - 2)

/-- The macro POLL_HASH: num & (POLL_HASH_BUCKETS - 1), the low POLL_HASH_BITS bits of
the int, also of a negative one. -/
def POLL_HASH (num : Int) : Nat := (num % (POLL_HASH_BUCKETS : Int)).toNat

/-- The for loop of find_poll_map_index from position n, with left positions to go. -/
def find_poll_map_index_from (t : PollTable) (hash : Nat) (fd : Int) : Nat → Nat → Int
  | 0, _ => -1
  | left + 1, n =>
    if (t.pollfd_maps hash n).fd = fd then (n : Int)
    else find_poll_map_index_from t hash fd left (n + 1)

/-- The function find_poll_map_index. -/
def find_poll_map_index (t : PollTable) (hash : Nat) (fd : Int) : Int :=
  find_poll_map_index_from t hash fd (t.pollfd_count hash) 0

/-- The function find_pollfd_index. -/
def find_pollfd_index (t : PollTable) (fd : Int) : Int :=
  if find_poll_map_index t (POLL_HASH fd) fd < 0 then find_poll_map_index t (POLL_HASH fd) fd
  else ((t.pollfd_maps (POLL_HASH fd)
    (find_poll_map_index t (POLL_HASH fd) fd).toNat).index : Int)

/-- The callback reasons that manage the external poll array. -/
inductive PollReason
  | LWS_CALLBACK_ADD_POLL_FD
  | LWS_CALLBACK_DEL_POLL_FD
  | LWS_CALLBACK_SET_MODE_POLL_FD
  | LWS_CALLBACK_CLEAR_MODE_POLL_FD
  deriving DecidableEq, Repr

/-- The block of the DEL case that swaps the end guy of pollfds into the vacant slot m;
m1 is the position of the end guy in its hash bucket. -/
def swap_end_guy (t : PollTable) (m m1 : Nat) : PollTable :=
  { t with
    pollfd_maps := Function.update t.pollfd_maps (POLL_HASH (t.pollfds t.count_pollfds).fd)
      (Function.update (t.pollfd_maps (POLL_HASH (t.pollfds t.count_pollfds).fd)) m1
        { (t.pollfd_maps (POLL_HASH (t.pollfds t.count_pollfds).fd) m1) with index := m })
    pollfds := Function.update (Function.update t.pollfds m (t.pollfds t.count_pollfds))
      t.count_pollfds
      { (Function.update t.pollfds m (t.pollfds t.count_pollfds) t.count_pollfds) with
        fd := -1 } }

/-- The block of the DEL case that moves the last entry of the bucket into the vacant
position n, after pollfd_count[hash] was decremented. -/
def fill_bucket (t : PollTable) (hash n : Nat) : PollTable :=
  if t.pollfd_count hash ≠ 0 then
    { t with
      pollfd_maps := Function.update t.pollfd_maps hash
        (Function.update (t.pollfd_maps hash) n
          { index := (t.pollfd_maps hash (t.pollfd_count hash)).index
            fd := (t.pollfd_maps hash (t.pollfd_count hash)).fd }) }
  else t

/-- The cases of callback_http that manage the external poll array, for the descriptor
fd (the argument user) and the event mask len.  The result is none where an assert fails
or the bucket of the end guy would be indexed at -1, and otherwise the return value with
the table left behind. -/
def callback_http (MAX_POLL_ELEMENTS : Nat) (t : PollTable) (reason : PollReason)
    (fd len : Int) : Option (Int × PollTable) :=
  match reason with
  | .LWS_CALLBACK_ADD_POLL_FD =>
    if t.count_pollfds = MAX_POLL_ELEMENTS then some (1, t)
    else if t.pollfd_count (POLL_HASH fd) = POLL_ENTRIES_PER_BUCKET MAX_POLL_ELEMENTS then
      some (1, t)
    else
      some (0, { t with
        pollfd_maps := Function.update t.pollfd_maps (POLL_HASH fd)
          (Function.update (t.pollfd_maps (POLL_HASH fd)) (t.pollfd_count (POLL_HASH fd))
            { fd := fd, index := t.count_pollfds })
        pollfd_count := Function.update t.pollfd_count (POLL_HASH fd)
          (t.pollfd_count (POLL_HASH fd) + 1)
        pollfds := Function.update t.pollfds t.count_pollfds
          { fd := fd, events := len, revents := 0 }
        count_pollfds := t.count_pollfds + 1 })
  | .LWS_CALLBACK_DEL_POLL_FD =>
    let n := find_poll_map_index t (POLL_HASH fd) fd
    if n < 0 then some (1, t)
    else
      let m := (t.pollfd_maps (POLL_HASH fd) n.toNat).index
      if (t.pollfds m).fd ≠ fd then none
      else if t.count_pollfds = 0 then none
      else if t.pollfd_count (POLL_HASH fd) = 0 then none
      else
        let t1 := { t with count_pollfds := t.count_pollfds - 1 }
        let m1 := find_poll_map_index t1 (POLL_HASH (t1.pollfds t1.count_pollfds).fd)
          (t1.pollfds t1.count_pollfds).fd
        if t1.count_pollfds ≠ 0 ∧ m1 < 0 then none
        else
          let t2 := if t1.count_pollfds ≠ 0 then swap_end_guy t1 m m1.toNat else t1
          let t3 := { t2 with
            pollfd_count := Function.update t2.pollfd_count (POLL_HASH fd)
              (t2.pollfd_count (POLL_HASH fd) - 1) }
          some (0, fill_bucket t3 (POLL_HASH fd) n.toNat)
  | .LWS_CALLBACK_SET_MODE_POLL_FD =>
    let n := find_pollfd_index t fd
    if n < 0 then some (1, t)
    else if (t.pollfds n.toNat).fd ≠ fd then none
    else
      some (0, { t with
        pollfds := Function.update t.pollfds n.toNat
          { (t.pollfds n.toNat) with events := Int.lor (t.pollfds n.toNat).events len } })
  | .LWS_CALLBACK_CLEAR_MODE_POLL_FD =>
    let n := find_pollfd_index t fd
    if n < 0 then some (1, t)
    else if (t.pollfds n.toNat).fd ≠ fd then none
    else
      some (0, { t with
        pollfds := Function.update t.pollfds n.toNat
          { (t.pollfds n.toNat) with events := Int.land (t.pollfds n.toNat).events (Int.lnot len) } })

/-- The poll table at program start: nothing tracked (the globals are zero-initialised). -/
def empty_table : PollTable :=
  { pollfds := fun _ => { fd := 0, events := 0, revents := 0 }
    pollfd_maps := fun _ _ => { fd := 0, index := 0 }
    pollfd_count := fun _ => 0
    count_pollfds := 0 }

/-- A callback that adds or deletes a descriptor. -/
inductive PollOp
  | add (fd : Int) (events : Int)
  | del (fd : Int)
  deriving DecidableEq, Repr

/-- The call of callback_http for an operation. -/
def PollOp.call (MAX_POLL_ELEMENTS : Nat) (t : PollTable) : PollOp → Option (Int × PollTable)
  | .add fd events => callback_http MAX_POLL_ELEMENTS t .LWS_CALLBACK_ADD_POLL_FD fd events
  | .del fd => callback_http MAX_POLL_ELEMENTS t .LWS_CALLBACK_DEL_POLL_FD fd 0

/-- Run a sequence of ADD and DEL callbacks; the flag tells whether every callback
returned 0 (no refusal, no failed assert), and the table is the one left by the last
callback that did. -/
def poll_run (MAX_POLL_ELEMENTS : Nat) : PollTable → List PollOp → Bool × PollTable
  | t, [] => (true, t)
  | t, op :: rest =>
    match op.call MAX_POLL_ELEMENTS t with
    | some (r, t1) => if r = 0 then poll_run MAX_POLL_ELEMENTS t1 rest else (false, t)
    | none => (false, t)

/-- The descriptors added and not yet deleted, after a sequence of operations on the
descriptors in live. -/
def live_fds : List Int → List PollOp → List Int
  | live, [] => live
  | live, .add fd _ :: rest => live_fds (fd :: live) rest
  | live, .del fd :: rest => live_fds (live.erase fd) rest

/-- Whether every ADD of the sequence names a descriptor that is not live at that point. -/
def distinct_adds : List Int → List PollOp → Bool
  | _, [] => true
  | live, .add fd _ :: rest => !live.contains fd && distinct_adds (fd :: live) rest
  | live, .del fd :: rest => distinct_adds (live.erase fd) rest

/-- A sample sequence: four descriptors added, two of them in the same hash bucket, and
two deleted again. -/
def sample_ops : List PollOp :=
  [.add 5 1, .add 261 1, .add 7 1, .add 9 1, .del 5, .del 7]

/-- The poll table tracks exactly the descriptors of the list live: pollfds[0 ..
count_pollfds) holds them, each once, and the hash buckets hold one entry for each, in the
bucket of its hash, with the index of its element of pollfds. -/
structure PollInv (t : PollTable) (live : List Int) : Prop where
  nodup : live.Nodup
  count : t.count_pollfds = live.length
  entry : ∀ h n, n < t.pollfd_count h →
    POLL_HASH (t.pollfd_maps h n).fd = h ∧
    (t.pollfd_maps h n).index < t.count_pollfds ∧
    (t.pollfds (t.pollfd_maps h n).index).fd = (t.pollfd_maps h n).fd
  entry_inj : ∀ h n n1, n < t.pollfd_count h → n1 < t.pollfd_count h →
    (t.pollfd_maps h n).fd = (t.pollfd_maps h n1).fd → n = n1
  tracked : ∀ fd, fd ∈ live ↔
    ∃ n, n < t.pollfd_count (POLL_HASH fd) ∧ (t.pollfd_maps (POLL_HASH fd) n).fd = fd
  slot_live : ∀ i, i < t.count_pollfds → (t.pollfds i).fd ∈ live
  slot_inj : ∀ i j, i < t.count_pollfds → j < t.count_pollfds →
    (t.pollfds i).fd = (t.pollfds j).fd → i = j

/-! ## The pump: frame lemmas and byte determinism -/

theorem call_xor_mask_rxflow (wsi : Wsi) (c : Nat) :
    (call_xor_mask wsi c).2.rxflow_buffer = wsi.rxflow_buffer := by
  unfold call_xor_mask xor_no_mask xor_mask_04 xor_mask_05
  cases wsi.xor_mask <;> rfl

theorem unmask_pre07_rxflow (wsi : Wsi) (c : Nat) :
    (unmask_pre07 wsi c).2.rxflow_buffer = wsi.rxflow_buffer := by
  unfold unmask_pre07
  split
  · exact call_xor_mask_rxflow wsi c
  · rfl

theorem handle_first_rxflow (wsi : Wsi) (c : Nat) :
    (handle_first wsi c).2.rxflow_buffer = wsi.rxflow_buffer := by
  unfold handle_first
  simp only []
  repeat' split
  all_goals simp [unmask_pre07_rxflow]

theorem ext_extended_loop_rxflow (exts : List (ExtReason → List Nat → ExtOut)) (n : Nat)
    (eff : List Nat) (handled : Bool) (wsi : Wsi) :
    (ext_extended_loop exts n eff handled wsi).2.rxflow_buffer = wsi.rxflow_buffer := by
  induction exts generalizing n eff handled wsi with
  | nil => rfl
  | cons e rest ih => simp only [ext_extended_loop]; rw [ih]

theorem ext_payload_loop_rxflow (exts : List (ExtReason → List Nat → ExtOut)) (n : Nat)
    (eff : List Nat) (wsi : Wsi) :
    (ext_payload_loop exts n eff wsi).2.rxflow_buffer = wsi.rxflow_buffer := by
  induction exts generalizing n eff wsi with
  | nil => rfl
  | cons e rest ih =>
    simp only [ext_payload_loop]
    split
    · rfl
    · rw [ih]

theorem spill_rxflow (env : Env) (wsi : Wsi) :
    (spill env wsi).2.rxflow_buffer = wsi.rxflow_buffer := by
  unfold spill
  simp only []
  repeat' split
  all_goals simp [libwebsocket_write, user_callback_handle_rxflow, ext_payload_loop_rxflow,
    ext_extended_loop_rxflow]

theorem issue_rxflow (env : Env) (wsi : Wsi) :
    (issue env wsi).2.rxflow_buffer = wsi.rxflow_buffer := by
  unfold issue
  split <;> simp [user_callback_handle_rxflow]

theorem rx_sm_rxflow_buffer (env : Env) (wsi : Wsi) (c : Nat) :
    (libwebsocket_rx_sm env wsi c).2.rxflow_buffer = wsi.rxflow_buffer := by
  unfold libwebsocket_rx_sm
  simp only [len_or, after_length]
  repeat' split
  all_goals simp [libwebsocket_write, handle_first_rxflow, spill_rxflow, issue_rxflow,
    unmask_pre07_rxflow, call_xor_mask_rxflow]

theorem pump_loop_index (env : Env) (cr : Bool) (l : List Nat) (n n' : Nat) (wsi : Wsi)
    (h : wsi.rxflow_buffer = none) :
    pump_loop env cr l n wsi = pump_loop env cr l n' wsi := by
  induction l generalizing n n' wsi with
  | nil => rfl
  | cons c rest ih =>
    simp only [pump_loop, h]
    split
    · rfl
    · split
      · rfl
      · apply ih
        rw [rx_sm_rxflow_buffer]; exact h

theorem pump_loop_append (env : Env) (a b : List Nat) (n : Nat) (wsi : Wsi)
    (h : wsi.rxflow_buffer = none) (h1 : (pump_loop env false a n wsi).1 ≠ 1) :
    pump_loop env false (a ++ b) n wsi =
      if (pump_loop env false a n wsi).1 < 0 then pump_loop env false a n wsi
      else pump_loop env false b 0 (pump_loop env false a n wsi).2 := by
  induction a generalizing n wsi with
  | nil =>
    simp [pump_loop]
    exact pump_loop_index env false b n 0 wsi h
  | cons c rest ih =>
    simp only [pump_loop, h, List.cons_append] at h1 ⊢
    split
    · next hp => simp [hp] at h1
    · split
      · simp
      · next hp hm =>
        simp only [hp, hm] at h1
        simp at h1
        apply ih
        · rw [rx_sm_rxflow_buffer]; exact h
        · simpa using h1

theorem pump_loop_rxflow_none (env : Env) (l : List Nat) (n : Nat) (wsi : Wsi)
    (h : wsi.rxflow_buffer = none) (h1 : (pump_loop env false l n wsi).1 ≠ 1) :
    (pump_loop env false l n wsi).2.rxflow_buffer = none := by
  induction l generalizing n wsi with
  | nil => simpa [pump_loop] using h
  | cons c rest ih =>
    simp only [pump_loop, h] at h1 ⊢
    split
    · next hp => simp [hp] at h1
    · split
      · simp [rx_sm_rxflow_buffer, h]
      · next hp hm =>
        simp only [hp, hm] at h1
        apply ih
        · rw [rx_sm_rxflow_buffer]; exact h
        · simpa using h1

theorem ready_throughout_pump (env : Env) (l : List Nat) (n : Nat) (wsi : Wsi)
    (h : ready_throughout env wsi l = true) : (pump_loop env false l n wsi).1 ≠ 1 := by
  induction l generalizing n wsi with
  | nil => simp [pump_loop]
  | cons c rest ih =>
    simp only [ready_throughout, Bool.and_eq_true, Bool.or_eq_true, decide_eq_true_eq] at h
    simp only [pump_loop, h.1]
    split
    · simp at *
    · split
      · simp
      · next hm =>
        apply ih
        rcases h.2 with h2 | h2
        · exact absurd h2 hm
        · exact h2

theorem ready_throughout_left (env : Env) (a b : List Nat) (wsi : Wsi)
    (h : ready_throughout env wsi (a ++ b) = true) : ready_throughout env wsi a = true := by
  induction a generalizing wsi with
  | nil => rfl
  | cons c rest ih =>
    simp only [List.cons_append, ready_throughout, Bool.and_eq_true, Bool.or_eq_true,
      decide_eq_true_eq] at h ⊢
    refine ⟨h.1, ?_⟩
    rcases h.2 with h2 | h2
    · exact Or.inl h2
    · exact Or.inr (ih _ h2)

/-- C1 (byte determinism of the pump).  For a record without a pending rxflow buffer and
an input split anywhere as a ++ b, when the consumer-ready bit is found set at every
check, the call on a followed (unless it returned a negative value) by the call on b
gives the same return value and the same final record, the ordered trace of callbacks
and outbound writes included, as the single call on a ++ b. -/
theorem C1_pump_byte_determinism (env : Env) (wsi : Wsi) (a b : List Nat)
    (hbuf : wsi.rxflow_buffer = none)
    (hready : ready_throughout env wsi (a ++ b) = true) :
    (if (libwebsocket_interpret_incoming_packet env wsi (some a)).1 < 0 then
        libwebsocket_interpret_incoming_packet env wsi (some a)
      else
        libwebsocket_interpret_incoming_packet env
          (libwebsocket_interpret_incoming_packet env wsi (some a)).2 (some b)) =
      libwebsocket_interpret_incoming_packet env wsi (some (a ++ b)) := by
  have ha := ready_throughout_pump env a 0 wsi (ready_throughout_left env a b wsi hready)
  have hnone := pump_loop_rxflow_none env a 0 wsi hbuf ha
  simp only [libwebsocket_interpret_incoming_packet, hbuf, Option.isSome_none]
  rw [pump_loop_append env a b 0 wsi hbuf ha]
  split
  · rfl
  · simp [hnone]

/-- C1 at scenario 3, split after the fourth byte. -/
theorem C1_pump_byte_determinism_witness :
    (fresh_wsi 13 .xor_mask_05).rxflow_buffer = none ∧
    ready_throughout server_env (fresh_wsi 13 .xor_mask_05)
      ([0x81, 0x85, 0x37, 0xfa] ++ [0x21, 0x3d, 0x7f, 0x9f, 0x4d, 0x51, 0x58]) = true ∧
    (if (libwebsocket_interpret_incoming_packet server_env (fresh_wsi 13 .xor_mask_05)
          (some [0x81, 0x85, 0x37, 0xfa])).1 < 0 then
        libwebsocket_interpret_incoming_packet server_env (fresh_wsi 13 .xor_mask_05)
          (some [0x81, 0x85, 0x37, 0xfa])
      else
        libwebsocket_interpret_incoming_packet server_env
          (libwebsocket_interpret_incoming_packet server_env (fresh_wsi 13 .xor_mask_05)
            (some [0x81, 0x85, 0x37, 0xfa])).2
          (some [0x21, 0x3d, 0x7f, 0x9f, 0x4d, 0x51, 0x58])) =
      libwebsocket_interpret_incoming_packet server_env (fresh_wsi 13 .xor_mask_05)
        (some ([0x81, 0x85, 0x37, 0xfa] ++ [0x21, 0x3d, 0x7f, 0x9f, 0x4d, 0x51, 0x58])) :=
  ⟨rfl, by decide,
    C1_pump_byte_determinism server_env (fresh_wsi 13 .xor_mask_05) [0x81, 0x85, 0x37, 0xfa]
      [0x21, 0x3d, 0x7f, 0x9f, 0x4d, 0x51, 0x58] rfl (by decide)⟩

/-! ## Feeding the frame state machine -/

theorem rx_feed_cons (env : Env) (c : Nat) (l : List Nat) (wsi : Wsi) :
    rx_feed env wsi (c :: l) =
      if (libwebsocket_rx_sm env wsi c).1 < 0 then
        ([(libwebsocket_rx_sm env wsi c).1], (libwebsocket_rx_sm env wsi c).2)
      else
        ((libwebsocket_rx_sm env wsi c).1 :: (rx_feed env (libwebsocket_rx_sm env wsi c).2 l).1,
          (rx_feed env (libwebsocket_rx_sm env wsi c).2 l).2) := rfl

theorem rx_feed_append (env : Env) (a b : List Nat) (wsi : Wsi)
    (h : (rx_feed env wsi a).1 = List.replicate a.length 0) :
    rx_feed env wsi (a ++ b) =
      (List.replicate a.length 0 ++ (rx_feed env (rx_feed env wsi a).2 b).1,
        (rx_feed env (rx_feed env wsi a).2 b).2) := by
  induction a generalizing wsi with
  | nil => simp [rx_feed]
  | cons c rest ih =>
    rw [List.cons_append, rx_feed_cons]
    rw [rx_feed_cons] at h ⊢
    split
    · next hneg =>
      rw [if_pos hneg] at h
      simp [List.replicate_succ] at h
      omega
    · next hneg =>
      rw [if_neg hneg] at h
      simp only [List.length_cons, List.replicate_succ, List.cons.injEq] at h
      rw [ih _ h.2, h.1]
      simp [List.replicate_succ]

theorem land_header_len (n : Nat) (hn : n ≤ 125) :
    (128 ||| n) &&& 128 ≠ 0 ∧ (128 ||| n) &&& 127 = n ∧ n ≠ 126 ∧ n ≠ 127 := by
  revert n
  decide

theorem short_masked_header (env : Env) (wsi : Wsi) (b0 n : Nat) (key : Key4)
    (hnew : wsi.lws_rx_parse_state = .LWS_RXPS_NEW)
    (hrev : wsi.ietf_spec_revision = 7 ∨ wsi.ietf_spec_revision = 8 ∨
      wsi.ietf_spec_revision = 13)
    (hn : n ≤ 125) :
    rx_feed env wsi [b0, 0x80 ||| n, key.b0, key.b1, key.b2, key.b3] =
      (List.replicate 6 0,
        { wsi with
          all_zero_nonce := decide (key.b0 = 0 ∧ key.b1 = 0 ∧ key.b2 = 0 ∧ key.b3 = 0)
          opcode := b0 &&& 0xf
          rsv := b0 &&& 0x70
          final := (b0 >>> 7) &&& 1 != 0
          this_frame_masked := true
          rx_packet_length := n
          frame_masking_nonce_04 := key
          frame_mask_index := 0
          lws_rx_parse_state := .LWS_RXPS_PAYLOAD_UNTIL_LENGTH_EXHAUSTED }) := by
  obtain ⟨h1, h2, h3, h4⟩ := land_header_len n hn
  have hrev7 : ¬ wsi.ietf_spec_revision < 7 := by omega
  have hrev0 : wsi.ietf_spec_revision ≠ 0 := by omega
  have hrev4 : ¬ (wsi.ietf_spec_revision = 4 ∨ wsi.ietf_spec_revision = 5 ∨
      wsi.ietf_spec_revision = 6) := by omega
  simp [rx_feed, libwebsocket_rx_sm, hnew, hrev, hrev7, hrev0, hrev4, handle_first,
    unmask_pre07, after_length, h1, h2, h3, h4]
  by_cases k0 : key.b0 = 0 <;> by_cases k1 : key.b1 = 0 <;> by_cases k2 : key.b2 = 0 <;>
    by_cases k3 : key.b3 = 0 <;> simp [k0, k1, k2, k3]


theorem land3 (i : Nat) : i &&& 3 = i % 4 := Nat.and_pow_two_sub_one_eq_mod i 2

theorem xor_key_append (key : Key4) (i : Nat) (a b : List Nat) :
    xor_key key i (a ++ b) = xor_key key i a ++ xor_key key (i + a.length) b := by
  induction a generalizing i with
  | nil => simp [xor_key]
  | cons c rest ih =>
    have h : i + 1 + rest.length = i + (rest.length + 1) := by omega
    rw [List.cons_append, xor_key, xor_key, ih, List.length_cons, h, List.cons_append]

theorem xor_key_length (key : Key4) (i : Nat) (a : List Nat) :
    (xor_key key i a).length = a.length := by
  induction a generalizing i with
  | nil => rfl
  | cons c rest ih => simp [xor_key, ih]

theorem xor_key_involutive (key : Key4) (i : Nat) (a : List Nat) :
    xor_key key i (xor_key key i a) = a := by
  induction a generalizing i with
  | nil => rfl
  | cons c rest ih => simp [xor_key, ih, Nat.xor_assoc]

theorem xor_key_zero (key : Key4) (hk : key.b0 = 0 ∧ key.b1 = 0 ∧ key.b2 = 0 ∧ key.b3 = 0)
    (i : Nat) (a : List Nat) : xor_key key i a = a := by
  induction a generalizing i with
  | nil => rfl
  | cons c rest ih =>
    simp only [xor_key, ih]
    have : key.get (i % 4) = 0 := by
      unfold Key4.get
      split_ifs <;> simp [hk]
    simp [this]

theorem size_t_dec (n : Nat) (h0 : 0 < n) (h : n < SIZE_T_MOD) :
    (n + SIZE_T_MOD - 1) % SIZE_T_MOD = n - 1 := by
  unfold SIZE_T_MOD at *
  omega

theorem stored_payload_cons (wsi : Wsi) (c : Nat) (rest : List Nat) (w : Wsi)
    (h1 : w.all_zero_nonce = wsi.all_zero_nonce)
    (h2 : w.frame_masking_nonce_04 = wsi.frame_masking_nonce_04)
    (h3 : w.frame_mask_index = mask_index_after wsi 1) :
    stored_payload wsi (c :: rest) = stored_payload wsi [c] ++ stored_payload w rest := by
  unfold stored_payload mask_index_after at *
  cases hz : wsi.all_zero_nonce <;> simp [hz, h1, h2, h3, xor_key] at *

theorem stored_payload_length (wsi : Wsi) (p : List Nat) :
    (stored_payload wsi p).length = p.length := by
  unfold stored_payload
  split <;> simp [xor_key_length]

/-- A payload byte that neither ends the frame nor fills the buffer is stored. -/
theorem payload_step_store (env : Env) (wsi : Wsi) (c : Nat)
    (hst : wsi.lws_rx_parse_state = .LWS_RXPS_PAYLOAD_UNTIL_LENGTH_EXHAUSTED)
    (hrev : 5 ≤ wsi.ietf_spec_revision)
    (hmode : wsi.all_zero_nonce = true ∨ wsi.xor_mask = .xor_mask_05)
    (hlen : 2 ≤ wsi.rx_packet_length) (hmod : wsi.rx_packet_length < SIZE_T_MOD)
    (hhead : wsi.rx_user_buffer.length + 1 ≠ env.k.MAX_USER_RX_BUFFER) :
    libwebsocket_rx_sm env wsi c =
      (0, { wsi with
        rx_user_buffer := wsi.rx_user_buffer ++ stored_payload wsi [c]
        rx_packet_length := wsi.rx_packet_length - 1
        frame_mask_index := mask_index_after wsi 1 }) := by
  have hrev4 : ¬ wsi.ietf_spec_revision < 4 := by omega
  have hdec := size_t_dec wsi.rx_packet_length (by omega) hmod
  have hne : wsi.rx_packet_length - 1 ≠ 0 := by omega
  cases hz : wsi.all_zero_nonce
  · have hxor : wsi.xor_mask = .xor_mask_05 := by simpa [hz] using hmode
    simp [libwebsocket_rx_sm, hst, hrev4, hz, call_xor_mask, hxor, xor_mask_05, hdec, hne,
      Wsi.rx_user_buffer_head, hhead, land3, stored_payload, mask_index_after, xor_key]
  · simp [libwebsocket_rx_sm, hst, hrev, hz, hdec, hne,
      Wsi.rx_user_buffer_head, hhead, stored_payload, mask_index_after]

/-- The payload byte that ends the frame is stored, the state returns to NEW and the
accumulated payload spills. -/
theorem payload_step_last (env : Env) (wsi : Wsi) (c : Nat)
    (hst : wsi.lws_rx_parse_state = .LWS_RXPS_PAYLOAD_UNTIL_LENGTH_EXHAUSTED)
    (hrev : 5 ≤ wsi.ietf_spec_revision)
    (hmode : wsi.all_zero_nonce = true ∨ wsi.xor_mask = .xor_mask_05)
    (hlen : wsi.rx_packet_length = 1) :
    libwebsocket_rx_sm env wsi c =
      spill env { wsi with
        rx_user_buffer := wsi.rx_user_buffer ++ stored_payload wsi [c]
        rx_packet_length := 0
        frame_mask_index := mask_index_after wsi 1
        lws_rx_parse_state := .LWS_RXPS_NEW } := by
  have hrev4 : ¬ wsi.ietf_spec_revision < 4 := by omega
  have hdec : (1 + SIZE_T_MOD - 1) % SIZE_T_MOD = 0 := by unfold SIZE_T_MOD; rfl
  cases hz : wsi.all_zero_nonce
  · have hxor : wsi.xor_mask = .xor_mask_05 := by simpa [hz] using hmode
    simp [libwebsocket_rx_sm, hst, hrev4, hz, call_xor_mask, hxor, xor_mask_05, hdec, hlen,
      land3, stored_payload, mask_index_after, xor_key]
  · simp [libwebsocket_rx_sm, hst, hrev, hz, hdec, hlen, stored_payload, mask_index_after]

/-- A payload byte that fills the buffer before the frame ends is stored and the
accumulated payload spills, the state staying in the payload state. -/
theorem payload_step_full (env : Env) (wsi : Wsi) (c : Nat)
    (hst : wsi.lws_rx_parse_state = .LWS_RXPS_PAYLOAD_UNTIL_LENGTH_EXHAUSTED)
    (hrev : 5 ≤ wsi.ietf_spec_revision)
    (hmode : wsi.all_zero_nonce = true ∨ wsi.xor_mask = .xor_mask_05)
    (hlen : 2 ≤ wsi.rx_packet_length) (hmod : wsi.rx_packet_length < SIZE_T_MOD)
    (hhead : wsi.rx_user_buffer.length + 1 = env.k.MAX_USER_RX_BUFFER) :
    libwebsocket_rx_sm env wsi c =
      spill env { wsi with
        rx_user_buffer := wsi.rx_user_buffer ++ stored_payload wsi [c]
        rx_packet_length := wsi.rx_packet_length - 1
        frame_mask_index := mask_index_after wsi 1 } := by
  have hrev4 : ¬ wsi.ietf_spec_revision < 4 := by omega
  have hdec := size_t_dec wsi.rx_packet_length (by omega) hmod
  have hne : wsi.rx_packet_length - 1 ≠ 0 := by omega
  cases hz : wsi.all_zero_nonce
  · have hxor : wsi.xor_mask = .xor_mask_05 := by simpa [hz] using hmode
    simp [libwebsocket_rx_sm, hst, hrev4, hz, call_xor_mask, hxor, xor_mask_05, hdec, hne,
      Wsi.rx_user_buffer_head, hhead, land3, stored_payload, mask_index_after, xor_key]
  · simp [libwebsocket_rx_sm, hst, hrev, hz, hdec, hne,
      Wsi.rx_user_buffer_head, hhead, stored_payload, mask_index_after]

/-- The payload bytes before the last one of a frame that fits the buffer are stored
without any spill. -/
theorem payload_accumulate (env : Env) (p : List Nat) : ∀ (wsi : Wsi),
    wsi.lws_rx_parse_state = .LWS_RXPS_PAYLOAD_UNTIL_LENGTH_EXHAUSTED →
    5 ≤ wsi.ietf_spec_revision →
    (wsi.all_zero_nonce = true ∨ wsi.xor_mask = .xor_mask_05) →
    p.length < wsi.rx_packet_length → wsi.rx_packet_length < SIZE_T_MOD →
    wsi.rx_user_buffer.length + p.length < env.k.MAX_USER_RX_BUFFER →
    rx_feed env wsi p =
      (List.replicate p.length 0,
        { wsi with
          rx_user_buffer := wsi.rx_user_buffer ++ stored_payload wsi p
          rx_packet_length := wsi.rx_packet_length - p.length
          frame_mask_index := mask_index_after wsi p.length }) := by
  induction p with
  | nil =>
    intro wsi _ _ _ _ _ _
    simp [rx_feed, stored_payload, mask_index_after, xor_key]
  | cons c rest ih =>
    intro wsi hst hrev hmode hlen hmod hmax
    simp only [List.length_cons] at hlen hmax
    rw [rx_feed_cons, payload_step_store env wsi c hst hrev hmode (by omega) hmod (by omega)]
    simp only [lt_self_iff_false, if_false]
    rw [ih]
    · simp only [stored_payload, mask_index_after]
      cases hz : wsi.all_zero_nonce <;>
        simp [hz, xor_key, List.replicate_succ, Nat.sub_sub, Nat.add_comm 1, Nat.add_assoc]
    · exact hst
    · exact hrev
    · exact hmode
    · simp only; omega
    · simp only; omega
    · simp only [List.length_append, stored_payload_length, List.length_singleton]; omega

/-- A whole payload that fits the buffer: every byte but the last is stored with
return value 0, and the last one makes the complete unmasked payload spill from
state NEW. -/
theorem payload_short (env : Env) (p : List Nat) : ∀ (wsi : Wsi),
    wsi.lws_rx_parse_state = .LWS_RXPS_PAYLOAD_UNTIL_LENGTH_EXHAUSTED →
    5 ≤ wsi.ietf_spec_revision →
    (wsi.all_zero_nonce = true ∨ wsi.xor_mask = .xor_mask_05) →
    wsi.rx_packet_length = p.length → p ≠ [] → p.length < SIZE_T_MOD →
    wsi.rx_user_buffer.length + p.length ≤ env.k.MAX_USER_RX_BUFFER →
    rx_feed env wsi p =
      (List.replicate (p.length - 1) 0 ++
        [(spill env { wsi with
          rx_user_buffer := wsi.rx_user_buffer ++ stored_payload wsi p
          rx_packet_length := 0
          frame_mask_index := mask_index_after wsi p.length
          lws_rx_parse_state := .LWS_RXPS_NEW }).1],
       (spill env { wsi with
          rx_user_buffer := wsi.rx_user_buffer ++ stored_payload wsi p
          rx_packet_length := 0
          frame_mask_index := mask_index_after wsi p.length
          lws_rx_parse_state := .LWS_RXPS_NEW }).2) := by
  induction p with
  | nil => intro wsi _ _ _ _ h; exact absurd rfl h
  | cons c rest ih =>
    intro wsi hst hrev hmode hlen _ hmod hmax
    cases rest with
    | nil =>
      rw [rx_feed_cons, payload_step_last env wsi c hst hrev hmode (by simpa using hlen)]
      simp [rx_feed]
    | cons c1 rest1 =>
      simp only [List.length_cons] at hlen hmod hmax
      rw [rx_feed_cons, payload_step_store env wsi c hst hrev hmode (by omega) (by omega)
        (by omega)]
      simp only [lt_self_iff_false, if_false]
      rw [ih]
      · simp only [stored_payload, mask_index_after]
        cases hz : wsi.all_zero_nonce <;>
          simp [hz, xor_key, List.replicate_succ, Nat.add_comm 1, Nat.add_assoc]
      · exact hst
      · exact hrev
      · exact hmode
      · simp only [List.length_cons]; omega
      · simp
      · simp only [List.length_cons]; omega
      · simp only [List.length_append, stored_payload_length, List.length_cons,
          List.length_nil]
        omega


theorem spill_data (env : Env) (wsi : Wsi) (cb : Nat → List Nat → CallbackOut)
    (hop : wsi.opcode = 0 ∨ wsi.opcode = 1 ∨ wsi.opcode = 2)
    (hcb : env.callback = some cb) (hext : env.active_extensions = [])
    (hbuf : wsi.rx_user_buffer ≠ []) :
    spill env wsi =
      (0, { wsi with
        user_space := (cb wsi.user_space wsi.rx_user_buffer).user_space
        pollin := (cb wsi.user_space wsi.rx_user_buffer).rxflow.getD wsi.pollin
        trace := wsi.trace ++ [Event.receive wsi.rx_user_buffer]
        rx_user_buffer := [] }) := by
  have h8 : wsi.opcode ≠ 8 := by omega
  have h9 : wsi.opcode ≠ 9 := by omega
  have h10 : wsi.opcode ≠ 10 := by omega
  have hpos : 0 < wsi.rx_user_buffer.length := List.length_pos.mpr hbuf
  simp [spill, h8, h9, h10, hop, hext, ext_payload_loop, hcb, user_callback_handle_rxflow,
    hpos, hbuf]

theorem stored_payload_round_trip (wsi : Wsi) (key : Key4) (P : List Nat)
    (hk : wsi.frame_masking_nonce_04 = key) (hi : wsi.frame_mask_index = 0)
    (hz : wsi.all_zero_nonce = decide (key.b0 = 0 ∧ key.b1 = 0 ∧ key.b2 = 0 ∧ key.b3 = 0)) :
    stored_payload wsi (xor_key key 0 P) = P := by
  unfold stored_payload
  by_cases h : key.b0 = 0 ∧ key.b1 = 0 ∧ key.b2 = 0 ∧ key.b3 = 0
  · simp [hz, h, xor_key_zero key h]
  · have hz1 : wsi.all_zero_nonce = false := by simp [hz, h]
    simp only [hz1, hk, hi]
    exact xor_key_involutive key 0 P

/-- A masked frame with a 7-bit length whose payload fits the buffer, fed from state
NEW at revision 7, 8 or 13: the header and all payload bytes but the last return 0
and the last byte makes the payload P spill from state NEW. -/
theorem short_masked_frame_run (env : Env) (wsi : Wsi) (b0 : Nat) (key : Key4)
    (P : List Nat)
    (hrev : wsi.ietf_spec_revision = 7 ∨ wsi.ietf_spec_revision = 8 ∨
      wsi.ietf_spec_revision = 13)
    (hP1 : 1 ≤ P.length) (hP2 : P.length ≤ 125)
    (hP3 : P.length ≤ env.k.MAX_USER_RX_BUFFER)
    (hnew : wsi.lws_rx_parse_state = .LWS_RXPS_NEW) (hhead : wsi.rx_user_buffer = [])
    (hxor : wsi.xor_mask = .xor_mask_05) :
    rx_feed env wsi (short_masked_frame b0 key P) =
      (List.replicate (6 + (P.length - 1)) 0 ++
        [(spill env { wsi with
          all_zero_nonce := decide (key.b0 = 0 ∧ key.b1 = 0 ∧ key.b2 = 0 ∧ key.b3 = 0)
          opcode := b0 &&& 0xf
          rsv := b0 &&& 0x70
          final := (b0 >>> 7) &&& 1 != 0
          this_frame_masked := true
          rx_packet_length := 0
          frame_masking_nonce_04 := key
          frame_mask_index :=
            if key.b0 = 0 ∧ key.b1 = 0 ∧ key.b2 = 0 ∧ key.b3 = 0 then 0 else P.length
          rx_user_buffer := P
          lws_rx_parse_state := .LWS_RXPS_NEW }).1],
       (spill env { wsi with
          all_zero_nonce := decide (key.b0 = 0 ∧ key.b1 = 0 ∧ key.b2 = 0 ∧ key.b3 = 0)
          opcode := b0 &&& 0xf
          rsv := b0 &&& 0x70
          final := (b0 >>> 7) &&& 1 != 0
          this_frame_masked := true
          rx_packet_length := 0
          frame_masking_nonce_04 := key
          frame_mask_index :=
            if key.b0 = 0 ∧ key.b1 = 0 ∧ key.b2 = 0 ∧ key.b3 = 0 then 0 else P.length
          rx_user_buffer := P
          lws_rx_parse_state := .LWS_RXPS_NEW }).2) := by
  have hhdr := short_masked_header env wsi b0 P.length key hnew hrev hP2
  have hne : xor_key key 0 P ≠ [] := by
    intro h
    have := congrArg List.length h
    rw [xor_key_length, List.length_nil] at this
    omega
  unfold short_masked_frame
  rw [rx_feed_append env _ _ wsi (by rw [hhdr]; rfl), hhdr]
  simp only []
  rw [payload_short env (xor_key key 0 P) _ rfl (by simp only; omega)
    (by right; exact hxor) (by simp [xor_key_length]) hne
    (by rw [xor_key_length]; unfold SIZE_T_MOD; omega)
    (by simp only [hhead, xor_key_length, List.length_nil]; omega)]
  rw [stored_payload_round_trip _ key P rfl rfl rfl]
  simp only [xor_key_length, hhead, List.nil_append, mask_index_after]
  by_cases h : key.b0 = 0 ∧ key.b1 = 0 ∧ key.b2 = 0 ∧ key.b3 = 0 <;>
    simp [h, List.replicate_add]

/-- C2 (mask round-trip on delivery).  At revision 7, 8 or 13, with xor_mask_05 installed
as the unmasking routine, a user callback registered and no active extensions, for every
key K and payload P with 1 <= |P| <= 125 and |P| <= MAX_USER_RX_BUFFER: feeding from
state NEW (empty payload buffer) the bytes 0x81 or 0x82, 0x80 | |P|, K0..K3 and then
P[i] XOR K[i mod 4] returns 0 on every byte, adds to the trace exactly one user Receive
callback with payload P and no outbound write, and ends in state NEW with
rx_user_buffer_head = 0. -/
theorem C2_mask_round_trip (env : Env) (wsi : Wsi) (cb : Nat → List Nat → CallbackOut)
    (b0 : Nat) (key : Key4) (P : List Nat)
    (hrev : wsi.ietf_spec_revision = 7 ∨ wsi.ietf_spec_revision = 8 ∨
      wsi.ietf_spec_revision = 13)
    (hb0 : b0 = 0x81 ∨ b0 = 0x82)
    (hP1 : 1 ≤ P.length) (hP2 : P.length ≤ 125)
    (hP3 : P.length ≤ env.k.MAX_USER_RX_BUFFER)
    (hcb : env.callback = some cb) (hext : env.active_extensions = [])
    (hnew : wsi.lws_rx_parse_state = .LWS_RXPS_NEW) (hhead : wsi.rx_user_buffer = [])
    (hxor : wsi.xor_mask = .xor_mask_05) :
    (rx_feed env wsi (short_masked_frame b0 key P)).1 = List.replicate (6 + P.length) 0 ∧
    (rx_feed env wsi (short_masked_frame b0 key P)).2.trace =
      wsi.trace ++ [Event.receive P] ∧
    (rx_feed env wsi (short_masked_frame b0 key P)).2.lws_rx_parse_state = .LWS_RXPS_NEW ∧
    (rx_feed env wsi (short_masked_frame b0 key P)).2.rx_user_buffer_head = 0 := by
  have hPne : P ≠ [] := by
    intro h
    rw [h] at hP1
    simp at hP1
  have hop : b0 &&& 0xf = 0 ∨ b0 &&& 0xf = 1 ∨ b0 &&& 0xf = 2 := by
    rcases hb0 with h | h <;> subst h <;> decide
  rw [short_masked_frame_run env wsi b0 key P hrev hP1 hP2 hP3 hnew hhead hxor]
  rw [spill_data env _ cb hop hcb hext hPne]
  have hlen : 6 + (P.length - 1) + 1 = 6 + P.length := by omega
  refine ⟨?_, rfl, rfl, rfl⟩
  rw [← hlen, List.replicate_succ' (6 + (P.length - 1))]

/-- C2 at scenario 3: the bytes 81 85 37 fa 21 3d 7f 9f 4d 51 58 deliver "Hello". -/
theorem C2_mask_round_trip_witness :
    short_masked_frame 0x81 ⟨0x37, 0xfa, 0x21, 0x3d⟩ (str "Hello") =
      [0x81, 0x85, 0x37, 0xfa, 0x21, 0x3d, 0x7f, 0x9f, 0x4d, 0x51, 0x58] ∧
    (rx_feed server_env (fresh_wsi 13 .xor_mask_05)
      (short_masked_frame 0x81 ⟨0x37, 0xfa, 0x21, 0x3d⟩ (str "Hello"))).1 =
        List.replicate (6 + (str "Hello").length) 0 ∧
    (rx_feed server_env (fresh_wsi 13 .xor_mask_05)
      (short_masked_frame 0x81 ⟨0x37, 0xfa, 0x21, 0x3d⟩ (str "Hello"))).2.trace =
        (fresh_wsi 13 .xor_mask_05).trace ++ [Event.receive (str "Hello")] ∧
    (rx_feed server_env (fresh_wsi 13 .xor_mask_05)
      (short_masked_frame 0x81 ⟨0x37, 0xfa, 0x21, 0x3d⟩ (str "Hello"))).2.lws_rx_parse_state =
        .LWS_RXPS_NEW ∧
    (rx_feed server_env (fresh_wsi 13 .xor_mask_05)
      (short_masked_frame 0x81 ⟨0x37, 0xfa, 0x21, 0x3d⟩ (str "Hello"))).2.rx_user_buffer_head =
        0 :=
  ⟨by decide,
    C2_mask_round_trip server_env (fresh_wsi 13 .xor_mask_05) quiet_callback 0x81
      ⟨0x37, 0xfa, 0x21, 0x3d⟩ (str "Hello") (by decide) (by decide) (by decide) (by decide)
      (by decide) rfl rfl rfl rfl rfl⟩

/-! ## The handshake parser: runs and phases -/

theorem parse_feed_cons (k : Consts) (c : Nat) (l : List Nat) (wsi : Wsi) :
    parse_feed k wsi (c :: l) =
      if (libwebsocket_parse k true wsi c).1 < 0 then
        ([(libwebsocket_parse k true wsi c).1], (libwebsocket_parse k true wsi c).2)
      else
        ((libwebsocket_parse k true wsi c).1 :: (parse_feed k (libwebsocket_parse k true wsi c).2 l).1,
          (parse_feed k (libwebsocket_parse k true wsi c).2 l).2) := rfl

theorem completes_within_cons (k : Consts) (c : Nat) (l : List Nat) (wsi : Wsi) :
    completes_within k wsi (c :: l) =
      ((libwebsocket_parse k true wsi c).2.parser_state == .WSI_PARSING_COMPLETE ||
        (decide (0 ≤ (libwebsocket_parse k true wsi c).1) &&
          completes_within k (libwebsocket_parse k true wsi c).2 l)) := rfl

theorem Runs.nil (k : Consts) (wsi : Wsi) : Runs k wsi [] wsi := ⟨rfl, rfl⟩

theorem Runs.cons (k : Consts) (wsi w1 w2 : Wsi) (c : Nat) (l : List Nat)
    (h : libwebsocket_parse k true wsi c = (0, w1))
    (hc : w1.parser_state ≠ .WSI_PARSING_COMPLETE) (h2 : Runs k w1 l w2) :
    Runs k wsi (c :: l) w2 := by
  constructor
  · rw [parse_feed_cons, h]
    simp [h2.1, List.replicate_succ]
  · rw [completes_within_cons, h]
    simp [h2.2, hc]

theorem Runs.one (k : Consts) (wsi w1 : Wsi) (c : Nat)
    (h : libwebsocket_parse k true wsi c = (0, w1))
    (hc : w1.parser_state ≠ .WSI_PARSING_COMPLETE) : Runs k wsi [c] w1 :=
  Runs.cons k wsi w1 w1 c [] h hc (Runs.nil k w1)

theorem Runs.append (k : Consts) (a b : List Nat) (wsi w1 w2 : Wsi)
    (h1 : Runs k wsi a w1) (h2 : Runs k w1 b w2) : Runs k wsi (a ++ b) w2 := by
  induction a generalizing wsi with
  | nil =>
    have : w1 = wsi := by
      have := h1.1
      simp [parse_feed] at this
      exact this.symm
    subst this
    simpa using h2
  | cons c rest ih =>
    obtain ⟨hf, hc⟩ := h1
    rw [parse_feed_cons] at hf
    rw [completes_within_cons] at hc
    simp only [Bool.or_eq_false_iff, Bool.and_eq_false_iff, beq_eq_false_iff_ne,
      decide_eq_false_iff_not] at hc
    by_cases hneg : (libwebsocket_parse k true wsi c).1 < 0
    · rw [if_pos hneg] at hf
      simp [List.replicate_succ] at hf
      omega
    · rw [if_neg hneg] at hf
      simp only [List.length_cons, List.replicate_succ, Prod.mk.injEq, List.cons.injEq] at hf
      have hrest : Runs k (libwebsocket_parse k true wsi c).2 rest w1 := by
        refine ⟨?_, ?_⟩
        · exact Prod.ext hf.1.2 hf.2
        · rcases hc.2 with h | h
          · omega
          · exact h
      have hstep : libwebsocket_parse k true wsi c = (0, (libwebsocket_parse k true wsi c).2) :=
        Prod.ext hf.1.1 rfl
      exact Runs.cons k wsi _ w2 c (rest ++ b) hstep hc.1 (ih _ hrest)

theorem skip_run (k : Consts) (l : List Nat) (wsi : Wsi)
    (hst : wsi.parser_state = .WSI_TOKEN_SKIPPING) (hl : 13 ∉ l) : Runs k wsi l wsi := by
  induction l with
  | nil => exact Runs.nil k wsi
  | cons c rest ih =>
    simp only [List.mem_cons, not_or] at hl
    have hc : c ≠ 13 := fun h => hl.1 h.symm
    refine Runs.cons k wsi wsi wsi c rest ?_ ?_ (ih hl.2)
    · simp [libwebsocket_parse, hst, hc]
    · simp [hst]

theorem skip_crlf (k : Consts) (wsi : Wsi)
    (hst : wsi.parser_state = .WSI_TOKEN_SKIPPING) :
    Runs k wsi [13, 10]
      { wsi with parser_state := .WSI_TOKEN_NAME_PART, name_buffer := [] } := by
  refine Runs.cons k _ { wsi with parser_state := .WSI_TOKEN_SKIPPING_SAW_CR } _ 13 [10] ?_ ?_
    (Runs.one k _ _ 10 ?_ ?_)
  · simp [libwebsocket_parse, hst]
  · simp
  · simp [libwebsocket_parse]
  · simp

theorem saw_cr_lf (k : Consts) (wsi : Wsi)
    (hst : wsi.parser_state = .WSI_TOKEN_SKIPPING_SAW_CR) :
    Runs k wsi [10] { wsi with parser_state := .WSI_TOKEN_NAME_PART, name_buffer := [] } := by
  refine Runs.one k _ _ 10 ?_ ?_
  · simp [libwebsocket_parse, hst]
  · simp

theorem name_run (k : Consts) (nm : List Nat) (t0 : Nat) : ∀ (pre : List Nat) (wsi : Wsi),
    wsi.parser_state = .WSI_TOKEN_NAME_PART → wsi.name_buffer = pre →
    pre.length + nm.length < k.name_buffer_size →
    name_scan pre nm = some t0 →
    (if t0 = WSI_TOKEN_SWORIGIN then WSI_TOKEN_ORIGIN else t0) ≠ WSI_TOKEN_CHALLENGE →
    (wsi.utf8_token (if t0 = WSI_TOKEN_SWORIGIN then WSI_TOKEN_ORIGIN else t0)).token = none →
    Runs k wsi nm
      { wsi with
        name_buffer := pre ++ nm
        parser_state := .token (if t0 = WSI_TOKEN_SWORIGIN then WSI_TOKEN_ORIGIN else t0)
        current_alloc_len := k.LWS_INITIAL_HDR_ALLOC
        utf8_token := set_slot wsi.utf8_token
          (if t0 = WSI_TOKEN_SWORIGIN then WSI_TOKEN_ORIGIN else t0)
          { token := some [], token_len := 0, alloc := k.LWS_INITIAL_HDR_ALLOC } } := by
  induction nm with
  | nil => intro pre wsi _ _ _ h; simp [name_scan] at h
  | cons c rest ih =>
    intro pre wsi hst hnb hsize hscan ht habs
    subst hnb
    simp only [List.length_cons] at hsize
    have hpos : ¬ (wsi.name_buffer.length + 1 = k.name_buffer_size) := by omega
    cases rest with
    | nil =>
      simp only [name_scan] at hscan
      refine Runs.one k _ _ c ?_ ?_
      · simp [libwebsocket_parse, hst, parse_name_part, Wsi.name_buffer_pos, hpos, hscan,
          name_matched, ht, habs]
      · simp
    | cons c1 rest1 =>
      simp only [name_scan] at hscan
      split at hscan
      · next hcond =>
        obtain ⟨hnone, h58, h32⟩ := hcond
        have hstep : libwebsocket_parse k true wsi c =
            (0, { wsi with name_buffer := wsi.name_buffer ++ [c] }) := by
          simp [libwebsocket_parse, hst, parse_name_part, Wsi.name_buffer_pos, hpos, hnone,
            h58, h32]
        have := ih (wsi.name_buffer ++ [c]) { wsi with name_buffer := wsi.name_buffer ++ [c] }
          hst rfl
          (by simp only [List.length_append, List.length_cons, List.length_nil] at hsize ⊢; omega)
          hscan ht habs
        refine Runs.cons k wsi _ _ c (c1 :: rest1) hstep (by simp [hst]) ?_
        simpa using this
      · exact absurd hscan (by simp)

theorem mem_write_end (mem : List Nat) (v : Nat) : mem_write mem mem.length v = mem ++ [v] := by
  simp [mem_write]

theorem set_slot_same (f : Nat → Slot) (i : Nat) (s : Slot) : set_slot f i s i = s := by
  simp [set_slot]

theorem set_slot_other (f : Nat → Slot) (i j : Nat) (s : Slot) (h : j ≠ i) :
    set_slot f i s j = f j := by
  simp [set_slot, h]

theorem set_slot_twice (f : Nat → Slot) (i : Nat) (s1 s2 : Slot) :
    set_slot (set_slot f i s1) i s2 = set_slot f i s2 := by
  funext j
  simp only [set_slot]
  split <;> rfl

/-- A leading space of a value is swallowed while the slot is still empty. -/
theorem value_space (k : Consts) (t : Nat) (wsi : Wsi)
    (hst : wsi.parser_state = .token t) (ht : t < WSI_TOKEN_COUNT)
    (hlen : (wsi.utf8_token t).token_len = 0) : Runs k wsi [32] wsi := by
  refine Runs.one k _ _ 32 ?_ (by simp [hst])
  simp [libwebsocket_parse, hst, ht, parse_token, hlen]

/-- The bytes of a value are appended to the slot being collected. -/
theorem value_run (k : Consts) (t : Nat) (a : Nat) (v : List Nat) : ∀ (wsi : Wsi)
    (mem : List Nat),
    wsi.parser_state = .token t → t < WSI_TOKEN_COUNT → t ≠ WSI_TOKEN_CHALLENGE →
    wsi.utf8_token t = { token := some mem, token_len := mem.length, alloc := a } →
    13 ∉ v → (t = WSI_TOKEN_GET_URI → 32 ∉ v) → (mem = [] → v.head? ≠ some 32) →
    mem.length + v.length < wsi.current_alloc_len →
    Runs k wsi v
      { wsi with
        utf8_token := set_slot wsi.utf8_token t
          { token := some (mem ++ v), token_len := mem.length + v.length, alloc := a } } := by
  induction v with
  | nil =>
    intro wsi mem _ _ _ hslot _ _ _ _
    have : set_slot wsi.utf8_token t
        { token := some (mem ++ []), token_len := mem.length + ([] : List Nat).length,
          alloc := a } = wsi.utf8_token := by
      funext j
      by_cases hj : j = t
      · subst hj; simp [set_slot, hslot]
      · simp [set_slot, hj]
    rw [this]
    exact Runs.nil k wsi
  | cons c rest ih =>
    intro wsi mem hst ht htc hslot hcr huri hhead hsize
    simp only [List.mem_cons, not_or] at hcr
    simp only [List.length_cons] at hsize
    have hc13 : c ≠ 13 := fun h => hcr.1 h.symm
    have hsp : ¬ (mem = [] ∧ c = 32) := by
      rintro ⟨h0, h32⟩
      exact hhead h0 (by simp [h32])
    have huri1 : ¬ (t = WSI_TOKEN_GET_URI ∧ c = 32) := by
      rintro ⟨h0, h32⟩
      exact huri h0 (by simp [h32])
    have hext : ¬ (mem.length + 1 = wsi.current_alloc_len) := by omega
    have hstep : libwebsocket_parse k true wsi c =
        (0, { wsi with
          utf8_token := set_slot wsi.utf8_token t
            { token := some (mem ++ [c]), token_len := mem.length + 1, alloc := a } }) := by
      simp [libwebsocket_parse, hst, ht, parse_token, hslot, hsp, huri1, hext, hc13, htc,
        Slot.store, mem_write_end]
    refine Runs.cons k wsi _ _ c rest hstep (by simp [hst]) ?_
    have := ih { wsi with
          utf8_token := set_slot wsi.utf8_token t
            { token := some (mem ++ [c]), token_len := mem.length + 1, alloc := a } }
      (mem ++ [c]) hst ht htc (by simp [set_slot]) hcr.2
      (fun h => by
        have := huri h
        simp only [List.mem_cons, not_or] at this
        exact this.2)
      (fun h => by simp at h)
      (by simp only [List.length_append, List.length_cons, List.length_nil]; omega)
    simpa [set_slot_twice, Nat.add_assoc, Nat.add_comm 1] using this

/-- The CR that ends a value stores the terminating NUL, growing the buffer first when
the value fills the current allocation. -/
theorem value_cr (k : Consts) (t : Nat) (a : Nat) (wsi : Wsi) (mem : List Nat)
    (hst : wsi.parser_state = .token t) (ht : t < WSI_TOKEN_COUNT)
    (htc : t ≠ WSI_TOKEN_CHALLENGE)
    (hslot : wsi.utf8_token t = { token := some mem, token_len := mem.length, alloc := a })
    (hmax : mem.length + 1 = wsi.current_alloc_len →
      wsi.current_alloc_len + k.LWS_ADDITIONAL_HDR_ALLOC < k.LWS_MAX_HEADER_LEN) :
    Runs k wsi [13]
      { wsi with
        current_alloc_len :=
          if mem.length + 1 = wsi.current_alloc_len then
            wsi.current_alloc_len + k.LWS_ADDITIONAL_HDR_ALLOC
          else wsi.current_alloc_len
        utf8_token := set_slot wsi.utf8_token t
          { token := some (mem ++ [0]), token_len := mem.length,
            alloc := if mem.length + 1 = wsi.current_alloc_len then
              wsi.current_alloc_len + k.LWS_ADDITIONAL_HDR_ALLOC else a }
        parser_state := .WSI_TOKEN_SKIPPING_SAW_CR } := by
  refine Runs.one k _ _ 13 ?_ (by simp)
  by_cases hext : mem.length + 1 = wsi.current_alloc_len
  · have hlt := hmax hext
    have hlt1 : ¬ (k.LWS_MAX_HEADER_LEN ≤ wsi.current_alloc_len + k.LWS_ADDITIONAL_HDR_ALLOC) := by
      omega
    simp [libwebsocket_parse, hst, ht, parse_token, hslot, hext, htc, Slot.store,
      mem_write_end, hlt1]
  · simp [libwebsocket_parse, hst, ht, parse_token, hslot, hext, htc, Slot.store,
      mem_write_end]

/-- The space that ends a non-empty URI stores the terminating NUL. -/
theorem uri_end (k : Consts) (a : Nat) (wsi : Wsi) (mem : List Nat)
    (hst : wsi.parser_state = .token WSI_TOKEN_GET_URI) (hmem : mem ≠ [])
    (hslot : wsi.utf8_token WSI_TOKEN_GET_URI =
      { token := some mem, token_len := mem.length, alloc := a }) :
    Runs k wsi [32]
      { wsi with
        utf8_token := set_slot wsi.utf8_token WSI_TOKEN_GET_URI
          { token := some (mem ++ [0]), token_len := mem.length, alloc := a }
        parser_state := .WSI_TOKEN_SKIPPING } := by
  refine Runs.one k _ _ 32 ?_ (by simp)
  simp [libwebsocket_parse, hst, parse_token, hslot, hmem, Slot.store, mem_write_end]

/-- A header line for a token whose slot is still absent: name, one space, value, CR LF.
The value is stored NUL-terminated and the parser is back in the name part. -/
theorem header_line (k : Consts) (nm : List Nat) (t0 : Nat) (v : List Nat) (wsi : Wsi)
    (hst : wsi.parser_state = .WSI_TOKEN_NAME_PART) (hnb : wsi.name_buffer = [])
    (hsize : nm.length < k.name_buffer_size)
    (hscan : name_scan [] nm = some t0)
    (ht : (if t0 = WSI_TOKEN_SWORIGIN then WSI_TOKEN_ORIGIN else t0) ≠ WSI_TOKEN_CHALLENGE)
    (htu : (if t0 = WSI_TOKEN_SWORIGIN then WSI_TOKEN_ORIGIN else t0) ≠ WSI_TOKEN_GET_URI)
    (htc : (if t0 = WSI_TOKEN_SWORIGIN then WSI_TOKEN_ORIGIN else t0) < WSI_TOKEN_COUNT)
    (habs : (wsi.utf8_token (if t0 = WSI_TOKEN_SWORIGIN then WSI_TOKEN_ORIGIN else t0)).token
      = none)
    (hcr : 13 ∉ v) (hsp : v.head? ≠ some 32)
    (hlen : v.length < k.LWS_INITIAL_HDR_ALLOC)
    (hmax : k.LWS_INITIAL_HDR_ALLOC + k.LWS_ADDITIONAL_HDR_ALLOC < k.LWS_MAX_HEADER_LEN) :
    Runs k wsi (nm ++ ([32] ++ (v ++ ([13] ++ [10]))))
      { wsi with
        name_buffer := []
        parser_state := .WSI_TOKEN_NAME_PART
        current_alloc_len :=
          if v.length + 1 = k.LWS_INITIAL_HDR_ALLOC then
            k.LWS_INITIAL_HDR_ALLOC + k.LWS_ADDITIONAL_HDR_ALLOC
          else k.LWS_INITIAL_HDR_ALLOC
        utf8_token := set_slot wsi.utf8_token
          (if t0 = WSI_TOKEN_SWORIGIN then WSI_TOKEN_ORIGIN else t0)
          { token := some (v ++ [0]), token_len := v.length,
            alloc := if v.length + 1 = k.LWS_INITIAL_HDR_ALLOC then
              k.LWS_INITIAL_HDR_ALLOC + k.LWS_ADDITIONAL_HDR_ALLOC
            else k.LWS_INITIAL_HDR_ALLOC } } := by
  have h := Runs.append k _ _ _ _ _
    (name_run k nm t0 [] wsi hst hnb (by simpa using hsize) hscan ht habs)
    (Runs.append k _ _ _ _ _
      (value_space k _ _ rfl htc (by simp [set_slot]))
      (Runs.append k _ _ _ _ _
        (value_run k _ k.LWS_INITIAL_HDR_ALLOC v _ [] rfl htc ht (by simp [set_slot]) hcr
          (fun h => absurd h htu) (fun _ => hsp) (by simpa using hlen))
        (Runs.append k _ _ _ _ _
          (value_cr k _ k.LWS_INITIAL_HDR_ALLOC _ ([] ++ v) rfl htc ht (by simp [set_slot])
            (fun _ => by simpa using hmax))
          (saw_cr_lf k _ rfl))))
  simpa [set_slot_twice] using h

/-- The request line with a non-empty URI: the URI is stored NUL-terminated, the rest of
the line is skipped and the parser is back in the name part. -/
theorem request_line (k : Consts) (uri : List Nat) (wsi : Wsi)
    (hst : wsi.parser_state = .WSI_TOKEN_NAME_PART) (hnb : wsi.name_buffer = [])
    (hsize : 4 < k.name_buffer_size)
    (habs : (wsi.utf8_token WSI_TOKEN_GET_URI).token = none)
    (hne : uri ≠ []) (hcr : 13 ∉ uri) (hsp : 32 ∉ uri)
    (hlen : uri.length < k.LWS_INITIAL_HDR_ALLOC) :
    Runs k wsi (str "GET " ++ (uri ++ ([32] ++ (str "HTTP/1.1" ++ [13, 10]))))
      { wsi with
        name_buffer := []
        parser_state := .WSI_TOKEN_NAME_PART
        current_alloc_len := k.LWS_INITIAL_HDR_ALLOC
        utf8_token := set_slot wsi.utf8_token WSI_TOKEN_GET_URI
          { token := some (uri ++ [0]), token_len := uri.length,
            alloc := k.LWS_INITIAL_HDR_ALLOC } } := by
  have hscan : name_scan [] (str "GET ") = some 0 := by decide
  have hhead : uri.head? ≠ some 32 := by
    cases uri with
    | nil => simp
    | cons c rest =>
      simp only [List.mem_cons, not_or] at hsp
      simpa using fun h => hsp.1 h.symm
  have h := Runs.append k _ _ _ _ _
    (name_run k (str "GET ") 0 [] wsi hst hnb (by simpa [str] using hsize) hscan (by decide)
      habs)
    (Runs.append k _ _ _ _ _
      (value_run k _ k.LWS_INITIAL_HDR_ALLOC uri _ [] rfl (by decide) (by decide)
        (by simp [set_slot]) hcr (fun _ => hsp) (fun _ => hhead) (by simpa using hlen))
      (Runs.append k _ _ _ _ _
        (uri_end k k.LWS_INITIAL_HDR_ALLOC _ ([] ++ uri) rfl (by simpa using hne)
          (by simp [set_slot]))
        (Runs.append k _ _ _ _ _
          (skip_run k (str "HTTP/1.1") _ rfl (by decide))
          (skip_crlf k _ rfl))))
  simpa [set_slot_twice] using h

theorem Runs.feed_append (k : Consts) (a b : List Nat) (wsi w1 : Wsi)
    (h : Runs k wsi a w1) :
    parse_feed k wsi (a ++ b) =
      (List.replicate a.length 0 ++ (parse_feed k w1 b).1, (parse_feed k w1 b).2) := by
  induction a generalizing wsi with
  | nil =>
    have := h.1
    simp [parse_feed] at this
    subst this
    simp
  | cons c rest ih =>
    obtain ⟨hf, hc⟩ := h
    rw [parse_feed_cons] at hf
    rw [completes_within_cons] at hc
    simp only [Bool.or_eq_false_iff, Bool.and_eq_false_iff, beq_eq_false_iff_ne,
      decide_eq_false_iff_not] at hc
    by_cases hneg : (libwebsocket_parse k true wsi c).1 < 0
    · rw [if_pos hneg] at hf
      simp [List.replicate_succ] at hf
      omega
    · rw [if_neg hneg] at hf
      simp only [List.length_cons, List.replicate_succ, Prod.mk.injEq, List.cons.injEq] at hf
      have hrest : Runs k (libwebsocket_parse k true wsi c).2 rest w1 := by
        refine ⟨Prod.ext hf.1.2 hf.2, ?_⟩
        rcases hc.2 with h | h
        · omega
        · exact h
      rw [List.cons_append, parse_feed_cons, if_neg hneg, ih _ hrest, hf.1.1]
      simp [List.replicate_succ]

theorem Runs.take_not_complete (k : Consts) (l : List Nat) (wsi w1 : Wsi)
    (h : Runs k wsi l w1) (h0 : wsi.parser_state ≠ .WSI_PARSING_COMPLETE) (n : Nat) :
    (parse_feed k wsi (l.take n)).2.parser_state ≠ .WSI_PARSING_COMPLETE := by
  induction l generalizing wsi n with
  | nil => simpa [parse_feed] using h0
  | cons c rest ih =>
    cases n with
    | zero => simpa [parse_feed] using h0
    | succ m =>
      obtain ⟨hf, hc⟩ := h
      rw [parse_feed_cons] at hf
      rw [completes_within_cons] at hc
      simp only [Bool.or_eq_false_iff, Bool.and_eq_false_iff, beq_eq_false_iff_ne,
        decide_eq_false_iff_not] at hc
      by_cases hneg : (libwebsocket_parse k true wsi c).1 < 0
      · rw [if_pos hneg] at hf
        simp [List.replicate_succ] at hf
        omega
      · rw [if_neg hneg] at hf
        simp only [List.length_cons, List.replicate_succ, Prod.mk.injEq, List.cons.injEq] at hf
        have hrest : Runs k (libwebsocket_parse k true wsi c).2 rest w1 := by
          refine ⟨Prod.ext hf.1.2 hf.2, ?_⟩
          rcases hc.2 with h | h
          · omega
          · exact h
        rw [List.take_succ_cons, parse_feed_cons, if_neg hneg]
        exact ih _ hrest hc.1 m

/-- The CR of the blank line that ends the headers enters the name buffer. -/
theorem blank_cr (k : Consts) (wsi : Wsi)
    (hst : wsi.parser_state = .WSI_TOKEN_NAME_PART) (hnb : wsi.name_buffer = [])
    (hsize : 2 < k.name_buffer_size) :
    Runs k wsi [13] { wsi with name_buffer := [13] } := by
  refine Runs.one k _ _ 13 ?_ (by simp [hst])
  have hpos : ¬ (0 + 1 = k.name_buffer_size) := by omega
  have hnone : find_token [13] lws_tokens 0 = none := by decide
  simp [libwebsocket_parse, hst, parse_name_part, Wsi.name_buffer_pos, hnb, hpos, hnone]

/-- The LF of the blank line that ends the headers of an upgrade request whose version
header holds a number of at least 4: parsing is complete and the CHALLENGE slot empty. -/
theorem blank_lf_versioned (k : Consts) (wsi : Wsi)
    (hst : wsi.parser_state = .WSI_TOKEN_NAME_PART) (hnb : wsi.name_buffer = [13])
    (hsize : 2 < k.name_buffer_size)
    (hch : (wsi.utf8_token WSI_TOKEN_CHALLENGE).token = none)
    (hup : (wsi.utf8_token WSI_TOKEN_UPGRADE).token_len ≠ 0)
    (hvl : (wsi.utf8_token WSI_TOKEN_VERSION).token_len ≠ 0)
    (hv : atoi (wsi.utf8_token WSI_TOKEN_VERSION).value ≥ 4) :
    libwebsocket_parse k true wsi 10 =
      (0, { wsi with
        name_buffer := [13, 10]
        parser_state := .WSI_PARSING_COMPLETE
        current_alloc_len := k.LWS_INITIAL_HDR_ALLOC
        utf8_token := set_slot wsi.utf8_token WSI_TOKEN_CHALLENGE
          { token := none, token_len := 0, alloc := 0 } }) := by
  have hpos : ¬ (1 + 1 = k.name_buffer_size) := by omega
  have hsome : find_token [13, 10] lws_tokens 0 = some 9 := by decide
  simp [libwebsocket_parse, hst, parse_name_part, Wsi.name_buffer_pos, hnb, hpos, hsome,
    name_matched, hch, name_part_challenge, set_slot, hup, hvl, hv]
  exact set_slot_twice _ _ _ _


/-- C3, amended (version 13 server handshake).  From a record in the name part with an
empty name buffer and all slots absent, with every allocation succeeding, the request
GET uri HTTP/1.1, Host: h, Upgrade: websocket, Connection: Upgrade, Sec-WebSocket-Key: key,
Sec-WebSocket-Version: 13 and the blank line, where uri is NON-EMPTY and free of spaces and
CR, and h and key are free of CR, do not start with a space and are shorter than the
initial header allocation: libwebsocket_parse returns 0 on every byte, is in
WSI_PARSING_COMPLETE after the final LF and after no shorter part of the input, the six
slots hold exactly uri, h, websocket, Upgrade, key and 13, and the CHALLENGE slot is
empty.  The build constants are taken with a name buffer of at least 23 bytes, an initial
allocation above the 9 bytes of websocket, and room for one growth step below the
ceiling. -/
theorem C3_v13_server_handshake (k : Consts) (wsi : Wsi) (uri h key : List Nat)
    (hst : wsi.parser_state = .WSI_TOKEN_NAME_PART) (hnb : wsi.name_buffer = [])
    (hslots : ∀ i, (wsi.utf8_token i).token = none)
    (hk1 : 23 ≤ k.name_buffer_size) (hk2 : 10 ≤ k.LWS_INITIAL_HDR_ALLOC)
    (hk3 : k.LWS_INITIAL_HDR_ALLOC + k.LWS_ADDITIONAL_HDR_ALLOC < k.LWS_MAX_HEADER_LEN)
    (huri0 : uri ≠ []) (huri1 : 32 ∉ uri) (huri2 : 13 ∉ uri)
    (huri3 : uri.length < k.LWS_INITIAL_HDR_ALLOC)
    (hh1 : 13 ∉ h) (hh2 : h.head? ≠ some 32) (hh3 : h.length < k.LWS_INITIAL_HDR_ALLOC)
    (hkey1 : 13 ∉ key) (hkey2 : key.head? ≠ some 32)
    (hkey3 : key.length < k.LWS_INITIAL_HDR_ALLOC) :
    (parse_feed k wsi (v13_request uri h key)).1 =
      List.replicate (v13_request uri h key).length 0 ∧
    (parse_feed k wsi (v13_request uri h key)).2.parser_state = .WSI_PARSING_COMPLETE ∧
    (∀ n, n < (v13_request uri h key).length →
      (parse_feed k wsi ((v13_request uri h key).take n)).2.parser_state ≠
        .WSI_PARSING_COMPLETE) ∧
    ((parse_feed k wsi (v13_request uri h key)).2.utf8_token WSI_TOKEN_GET_URI).holds uri ∧
    ((parse_feed k wsi (v13_request uri h key)).2.utf8_token WSI_TOKEN_HOST).holds h ∧
    ((parse_feed k wsi (v13_request uri h key)).2.utf8_token WSI_TOKEN_UPGRADE).holds
      (str "websocket") ∧
    ((parse_feed k wsi (v13_request uri h key)).2.utf8_token WSI_TOKEN_CONNECTION).holds
      (str "Upgrade") ∧
    ((parse_feed k wsi (v13_request uri h key)).2.utf8_token WSI_TOKEN_KEY).holds key ∧
    ((parse_feed k wsi (v13_request uri h key)).2.utf8_token WSI_TOKEN_VERSION).holds
      (str "13") ∧
    ((parse_feed k wsi (v13_request uri h key)).2.utf8_token WSI_TOKEN_CHALLENGE).token =
      none ∧
    ((parse_feed k wsi (v13_request uri h key)).2.utf8_token WSI_TOKEN_CHALLENGE).token_len =
      0 := by
  -- the request, regrouped line by line, with the final LF apart
  have hreq : v13_request uri h key =
      (str "GET " ++ (uri ++ ([32] ++ (str "HTTP/1.1" ++ [13, 10]))) ++
        (str "Host:" ++ ([32] ++ (h ++ ([13] ++ [10]))) ++
        (str "Upgrade:" ++ ([32] ++ (str "websocket" ++ ([13] ++ [10]))) ++
        (str "Connection:" ++ ([32] ++ (str "Upgrade" ++ ([13] ++ [10]))) ++
        (str "Sec-WebSocket-Key:" ++ ([32] ++ (key ++ ([13] ++ [10]))) ++
        (str "Sec-WebSocket-Version:" ++ ([32] ++ (str "13" ++ ([13] ++ [10]))) ++
        [13])))))) ++ [10] := by
    have e1 : str " HTTP/1.1\r\n" = [32] ++ (str "HTTP/1.1" ++ [13, 10]) := by decide
    have e2 : str "Host: " = str "Host:" ++ [32] := by decide
    have e3 : str "\r\n" = [13] ++ [10] := by decide
    have e4 : str "Upgrade: websocket\r\n" =
        str "Upgrade:" ++ ([32] ++ (str "websocket" ++ ([13] ++ [10]))) := by decide
    have e5 : str "Connection: Upgrade\r\n" =
        str "Connection:" ++ ([32] ++ (str "Upgrade" ++ ([13] ++ [10]))) := by decide
    have e6 : str "Sec-WebSocket-Key: " = str "Sec-WebSocket-Key:" ++ [32] := by decide
    have e7 : str "Sec-WebSocket-Version: 13\r\n" =
        str "Sec-WebSocket-Version:" ++ ([32] ++ (str "13" ++ ([13] ++ [10]))) := by decide
    unfold v13_request
    rw [e1, e2, e3, e4, e5, e6, e7]
    simp only [List.append_assoc, List.singleton_append, List.cons_append, List.nil_append]
  have hbody := Runs.append k _ _ _ _ _
    (request_line k uri wsi hst hnb (by omega) (hslots _) huri0 huri2 huri1 huri3)
    (Runs.append k _ _ _ _ _
      (header_line k (str "Host:") 1 h _ rfl rfl (by simp [str]; omega) (by decide)
        (by decide) (by decide) (by decide) (by simp [set_slot, hslots]) hh1 hh2 hh3 hk3)
      (Runs.append k _ _ _ _ _
        (header_line k (str "Upgrade:") 6 (str "websocket") _ rfl rfl (by simp [str]; omega)
          (by decide) (by decide) (by decide) (by decide) (by simp [set_slot, hslots])
          (by decide) (by decide) (by simp [str]; omega) hk3)
        (Runs.append k _ _ _ _ _
          (header_line k (str "Connection:") 2 (str "Upgrade") _ rfl rfl
            (by simp [str]; omega) (by decide) (by decide) (by decide) (by decide)
            (by simp [set_slot, hslots]) (by decide) (by decide) (by simp [str]; omega) hk3)
          (Runs.append k _ _ _ _ _
            (header_line k (str "Sec-WebSocket-Key:") 10 key _ rfl rfl
              (by simp [str]; omega) (by decide) (by decide) (by decide) (by decide)
              (by simp [set_slot, hslots]) hkey1 hkey2 hkey3 hk3)
            (Runs.append k _ _ _ _ _
              (header_line k (str "Sec-WebSocket-Version:") 11 (str "13") _ rfl rfl
                (by simp [str]; omega) (by decide) (by decide) (by decide) (by decide)
                (by simp [set_slot, hslots]) (by decide) (by decide) (by simp [str]; omega)
                hk3)
              (blank_cr k _ rfl rfl (by omega)))))))
  obtain ⟨S, hS, hbody⟩ : ∃ S, S = _ ∧ Runs k wsi _ S := ⟨_, rfl, hbody⟩
  have hSst : S.parser_state = .WSI_TOKEN_NAME_PART := by rw [hS]
  have hSnb : S.name_buffer = [13] := by rw [hS]
  have hS0 : S.utf8_token WSI_TOKEN_GET_URI =
      { token := some (uri ++ [0]), token_len := uri.length,
        alloc := k.LWS_INITIAL_HDR_ALLOC } := by
    rw [hS]; simp [set_slot]
  have hS1 : (S.utf8_token WSI_TOKEN_HOST).holds h := by
    rw [hS]; simp [set_slot, Slot.holds]
  have hS6 : (S.utf8_token WSI_TOKEN_UPGRADE).holds (str "websocket") := by
    rw [hS]; simp [set_slot, Slot.holds]
  have hS2 : (S.utf8_token WSI_TOKEN_CONNECTION).holds (str "Upgrade") := by
    rw [hS]; simp [set_slot, Slot.holds]
  have hS10 : (S.utf8_token WSI_TOKEN_KEY).holds key := by
    rw [hS]; simp [set_slot, Slot.holds]
  have hS11 : (S.utf8_token WSI_TOKEN_VERSION).holds (str "13") := by
    rw [hS]; simp [set_slot, Slot.holds]
  have hS9 : (S.utf8_token WSI_TOKEN_CHALLENGE).token = none := by
    rw [hS]; simp [set_slot, hslots]
  clear hS
  have hv : atoi (cstring (str "13" ++ [0])) ≥ 4 := by decide
  have hlast := blank_lf_versioned k S hSst hSnb (by omega) hS9
    (by rw [hS6.2]; decide) (by rw [hS11.2]; decide)
    (by unfold Slot.value; rw [hS11.1]; exact hv)
  have hfeed := Runs.feed_append k _ [10] wsi S hbody
  have hone : parse_feed k S [10] = ([0], (libwebsocket_parse k true S 10).2) := by
    rw [parse_feed_cons, hlast]
    simp [parse_feed]
  rw [hone, hlast] at hfeed
  rw [hreq, hfeed]
  refine ⟨?_, rfl, ?_, ?_, ?_, ?_, ?_, ?_, ?_, ?_, ?_⟩
  · have hrep : ∀ (l : List Nat),
        List.replicate l.length (0 : Int) ++ [0] = List.replicate (l ++ [10]).length 0 := by
      intro l
      rw [List.length_append, List.length_singleton, List.replicate_succ']
    exact hrep _
  · intro n hn
    rw [List.length_append, List.length_singleton] at hn
    rw [List.take_append_of_le_length (by omega)]
    exact Runs.take_not_complete k _ wsi S hbody (by simp [hst]) n
  · simp [set_slot, hS0, Slot.holds]
  · simpa [set_slot] using hS1
  · simpa [set_slot] using hS6
  · simpa [set_slot] using hS2
  · simpa [set_slot] using hS10
  · simpa [set_slot] using hS11
  · simp [set_slot]
  · simp [set_slot]

/-- C3 as stated fails for the empty URI, which is free of spaces and of CR and shorter
than the initial allocation: the space after GET is matched as part of the name, the
space before HTTP/1.1 is swallowed as a leading space, and the GET_URI slot ends up
holding HTTP/1.1 instead of the empty URI. -/
theorem C3_empty_uri_counterexample :
    32 ∉ ([] : List Nat) ∧ 13 ∉ ([] : List Nat) ∧
    ([] : List Nat).length < spec_consts.LWS_INITIAL_HDR_ALLOC ∧
    v13_request [] (str "x") (str "dGhlIHNhbXBsZSBub25jZQ==") =
      str ("GET  HTTP/1.1\r\nHost: x\r\nUpgrade: websocket\r\nConnection: Upgrade\r\n" ++
        "Sec-WebSocket-Key: dGhlIHNhbXBsZSBub25jZQ==\r\nSec-WebSocket-Version: 13\r\n\r\n") ∧
    ((parse_feed spec_consts (fresh_wsi 0 .xor_no_mask)
      (v13_request [] (str "x") (str "dGhlIHNhbXBsZSBub25jZQ=="))).2.utf8_token
        WSI_TOKEN_GET_URI).holds (str "HTTP/1.1") ∧
    ¬ ((parse_feed spec_consts (fresh_wsi 0 .xor_no_mask)
      (v13_request [] (str "x") (str "dGhlIHNhbXBsZSBub25jZQ=="))).2.utf8_token
        WSI_TOKEN_GET_URI).holds [] := by
  decide

/-- C3 at scenario 1: URI /chat, host x, key dGhlIHNhbXBsZSBub25jZQ==. -/
theorem C3_v13_server_handshake_witness :
    chat_request =
      str ("GET /chat HTTP/1.1\r\nHost: x\r\nUpgrade: websocket\r\nConnection: Upgrade\r\n" ++
        "Sec-WebSocket-Key: dGhlIHNhbXBsZSBub25jZQ==\r\nSec-WebSocket-Version: 13\r\n\r\n") ∧
    ((parse_feed spec_consts (fresh_wsi 0 .xor_no_mask) chat_request).1 =
      List.replicate chat_request.length 0 ∧
    (parse_feed spec_consts (fresh_wsi 0 .xor_no_mask) chat_request).2.parser_state =
      .WSI_PARSING_COMPLETE ∧
    (∀ n, n < chat_request.length →
      (parse_feed spec_consts (fresh_wsi 0 .xor_no_mask) (chat_request.take n)).2.parser_state ≠
        .WSI_PARSING_COMPLETE) ∧
    ((parse_feed spec_consts (fresh_wsi 0 .xor_no_mask) chat_request).2.utf8_token
      WSI_TOKEN_GET_URI).holds (str "/chat") ∧
    ((parse_feed spec_consts (fresh_wsi 0 .xor_no_mask) chat_request).2.utf8_token
      WSI_TOKEN_HOST).holds (str "x") ∧
    ((parse_feed spec_consts (fresh_wsi 0 .xor_no_mask) chat_request).2.utf8_token
      WSI_TOKEN_UPGRADE).holds (str "websocket") ∧
    ((parse_feed spec_consts (fresh_wsi 0 .xor_no_mask) chat_request).2.utf8_token
      WSI_TOKEN_CONNECTION).holds (str "Upgrade") ∧
    ((parse_feed spec_consts (fresh_wsi 0 .xor_no_mask) chat_request).2.utf8_token
      WSI_TOKEN_KEY).holds (str "dGhlIHNhbXBsZSBub25jZQ==") ∧
    ((parse_feed spec_consts (fresh_wsi 0 .xor_no_mask) chat_request).2.utf8_token
      WSI_TOKEN_VERSION).holds (str "13") ∧
    ((parse_feed spec_consts (fresh_wsi 0 .xor_no_mask) chat_request).2.utf8_token
      WSI_TOKEN_CHALLENGE).token = none ∧
    ((parse_feed spec_consts (fresh_wsi 0 .xor_no_mask) chat_request).2.utf8_token
      WSI_TOKEN_CHALLENGE).token_len = 0) :=
  ⟨by decide,
    C3_v13_server_handshake spec_consts (fresh_wsi 0 .xor_no_mask) (str "/chat") (str "x")
      (str "dGhlIHNhbXBsZSBub25jZQ==") rfl rfl (fun _ => rfl) (by decide) (by decide)
      (by decide) (by decide) (by decide) (by decide) (by decide) (by decide) (by decide)
      (by decide) (by decide) (by decide) (by decide)⟩

/-! ## Payload length decoding -/

theorem shl_or (x b s : Nat) (hb : b < 256) :
    (x <<< (s + 8)) ||| (b <<< s) = (x * 256 + b) <<< s := by
  rw [Nat.shiftLeft_eq, Nat.shiftLeft_eq, Nat.shiftLeft_eq]
  have hpos : 0 < 2 ^ s := Nat.two_pow_pos s
  have hlt : b * 2 ^ s < 2 ^ (s + 8) := by
    rw [pow_add]
    calc b * 2 ^ s < 256 * 2 ^ s := Nat.mul_lt_mul_of_pos_right hb hpos
      _ = 2 ^ s * 2 ^ 8 := by ring
  have h := Nat.mul_add_lt_is_or hlt x
  rw [Nat.mul_comm x (2 ^ (s + 8)), ← h]
  ring

theorem be64 (b7 b6 b5 b4 b3 b2 b1 b0 : Nat) (h7 : b7 < 128) (h6 : b6 < 256)
    (h5 : b5 < 256) (h4 : b4 < 256) (h3 : b3 < 256) (h2 : b2 < 256) (h1 : b1 < 256)
    (h0 : b0 < 256) :
    ((b7 <<< 56) % SIZE_T_MOD ||| (b6 <<< 48) % SIZE_T_MOD ||| (b5 <<< 40) % SIZE_T_MOD |||
      (b4 <<< 32) % SIZE_T_MOD ||| (b3 <<< 24) % SIZE_T_MOD ||| (b2 <<< 16) % SIZE_T_MOD |||
      (b1 <<< 8) % SIZE_T_MOD ||| b0) =
    b7 * 2 ^ 56 + b6 * 2 ^ 48 + b5 * 2 ^ 40 + b4 * 2 ^ 32 + b3 * 2 ^ 24 + b2 * 2 ^ 16 +
      b1 * 2 ^ 8 + b0 := by
  have m7 : (b7 <<< 56) % SIZE_T_MOD = b7 <<< 56 := by
    rw [Nat.shiftLeft_eq]; unfold SIZE_T_MOD; omega
  have m6 : (b6 <<< 48) % SIZE_T_MOD = b6 <<< 48 := by
    rw [Nat.shiftLeft_eq]; unfold SIZE_T_MOD; omega
  have m5 : (b5 <<< 40) % SIZE_T_MOD = b5 <<< 40 := by
    rw [Nat.shiftLeft_eq]; unfold SIZE_T_MOD; omega
  have m4 : (b4 <<< 32) % SIZE_T_MOD = b4 <<< 32 := by
    rw [Nat.shiftLeft_eq]; unfold SIZE_T_MOD; omega
  have m3 : (b3 <<< 24) % SIZE_T_MOD = b3 <<< 24 := by
    rw [Nat.shiftLeft_eq]; unfold SIZE_T_MOD; omega
  have m2 : (b2 <<< 16) % SIZE_T_MOD = b2 <<< 16 := by
    rw [Nat.shiftLeft_eq]; unfold SIZE_T_MOD; omega
  have m1 : (b1 <<< 8) % SIZE_T_MOD = b1 <<< 8 := by
    rw [Nat.shiftLeft_eq]; unfold SIZE_T_MOD; omega
  rw [m7, m6, m5, m4, m3, m2, m1]
  rw [shl_or b7 b6 48 h6, shl_or _ b5 40 h5, shl_or _ b4 32 h4, shl_or _ b3 24 h3,
    shl_or _ b2 16 h2, shl_or _ b1 8 h1]
  have h := shl_or ((((((b7 * 256 + b6) * 256 + b5) * 256 + b4) * 256 + b3) * 256 + b2) * 256
    + b1) b0 0 h0
  simp only [Nat.shiftLeft_zero, Nat.zero_add] at h
  rw [h]
  ring

theorem be16 (hi lo : Nat) (h : lo < 256) : hi <<< 8 ||| lo = 256 * hi + lo := by
  have h1 := shl_or hi lo 0 h
  simp only [Nat.shiftLeft_zero, Nat.zero_add] at h1
  rw [h1]
  ring

set_option maxRecDepth 100000 in
theorem bit7_clear : ∀ b, b < 256 → b &&& 128 = 0 → b < 128 := by decide

/-- C4 (payload length decoding).  In state FRAME_HDR_LEN at revision 7 or later with a
data opcode (bit 3 clear) and a 64-bit size_t: a second header byte with 7-bit value
n <= 125 leaves rx_packet_length = n; with 126, followed by bytes hi and lo, it leaves
exactly 256 * hi + lo; with 127, followed by eight bytes of which the first has bit 7
clear, it leaves exactly their big-endian value.  Every byte returns 0, and in each case
the next state is COLLECT_FRAME_KEY_1 if the MASK bit was set and
PAYLOAD_UNTIL_LENGTH_EXHAUSTED otherwise. -/
theorem C4_payload_length_decoding (env : Env) (wsi : Wsi)
    (c1 c2 c3 hi lo b7 b6 b5 b4 b3 b2 b1 b0 : Nat)
    (hst : wsi.lws_rx_parse_state = .LWS_RXPS_04_FRAME_HDR_LEN)
    (hrev : 7 ≤ wsi.ietf_spec_revision) (hop : wsi.opcode &&& 8 = 0)
    (hc1 : c1 &&& 0x7f ≤ 125) (hc2 : c2 &&& 0x7f = 126) (hc3 : c3 &&& 0x7f = 127)
    (hlo : lo < 256) (h7 : b7 < 256) (h63 : b7 &&& 0x80 = 0)
    (h6 : b6 < 256) (h5 : b5 < 256) (h4 : b4 < 256) (h3 : b3 < 256) (h2 : b2 < 256)
    (h1 : b1 < 256) (h0 : b0 < 256) :
    ((libwebsocket_rx_sm env wsi c1).1 = 0 ∧
      (libwebsocket_rx_sm env wsi c1).2.rx_packet_length = c1 &&& 0x7f ∧
      (libwebsocket_rx_sm env wsi c1).2.lws_rx_parse_state =
        if c1 &&& 0x80 ≠ 0 then .LWS_RXPS_07_COLLECT_FRAME_KEY_1
        else .LWS_RXPS_PAYLOAD_UNTIL_LENGTH_EXHAUSTED) ∧
    ((rx_feed env wsi [c2, hi, lo]).1 = [0, 0, 0] ∧
      (rx_feed env wsi [c2, hi, lo]).2.rx_packet_length = 256 * hi + lo ∧
      (rx_feed env wsi [c2, hi, lo]).2.lws_rx_parse_state =
        if c2 &&& 0x80 ≠ 0 then .LWS_RXPS_07_COLLECT_FRAME_KEY_1
        else .LWS_RXPS_PAYLOAD_UNTIL_LENGTH_EXHAUSTED) ∧
    ((rx_feed env wsi [c3, b7, b6, b5, b4, b3, b2, b1, b0]).1 = List.replicate 9 0 ∧
      (rx_feed env wsi [c3, b7, b6, b5, b4, b3, b2, b1, b0]).2.rx_packet_length =
        b7 * 2 ^ 56 + b6 * 2 ^ 48 + b5 * 2 ^ 40 + b4 * 2 ^ 32 + b3 * 2 ^ 24 + b2 * 2 ^ 16 +
          b1 * 2 ^ 8 + b0 ∧
      (rx_feed env wsi [c3, b7, b6, b5, b4, b3, b2, b1, b0]).2.lws_rx_parse_state =
        if c3 &&& 0x80 ≠ 0 then .LWS_RXPS_07_COLLECT_FRAME_KEY_1
        else .LWS_RXPS_PAYLOAD_UNTIL_LENGTH_EXHAUSTED) := by
  have hrev7 : ¬ wsi.ietf_spec_revision < 7 := by omega
  have hn1 : c1 &&& 127 ≠ 126 := by omega
  have hn2 : c1 &&& 127 ≠ 127 := by omega
  have hn3 : ¬ (126 = 127) := by decide
  have hb7 := bit7_clear b7 h7 h63
  refine ⟨?_, ?_, ?_⟩
  · simp [libwebsocket_rx_sm, hst, unmask_pre07, hrev7, hn1, hn2, after_length]
    split <;> simp_all
  · have e := be16 hi lo hlo
    simp [rx_feed, libwebsocket_rx_sm, hst, unmask_pre07, hrev7, hc2, hop, after_length]
    split <;> simp_all
  · have e := be64 b7 b6 b5 b4 b3 b2 b1 b0 hb7 h6 h5 h4 h3 h2 h1 h0
    simp [rx_feed, libwebsocket_rx_sm, hst, unmask_pre07, hrev7, hc3, hop, after_length,
      len_or, h63]
    split <;> simp_all

/-- C4 at the boundary values: 125 on the 7-bit path, 65535 on the 16-bit path and 65536
on the 64-bit path, the first unmasked and the other two masked. -/
theorem C4_payload_length_decoding_witness :
    ((libwebsocket_rx_sm server_env (hdr_len_wsi 13 .xor_mask_05 2) 0x7d).1 = 0 ∧
      (libwebsocket_rx_sm server_env (hdr_len_wsi 13 .xor_mask_05 2) 0x7d).2.rx_packet_length
        = 125 ∧
      (libwebsocket_rx_sm server_env (hdr_len_wsi 13 .xor_mask_05 2) 0x7d).2.lws_rx_parse_state
        = .LWS_RXPS_PAYLOAD_UNTIL_LENGTH_EXHAUSTED) ∧
    ((rx_feed server_env (hdr_len_wsi 13 .xor_mask_05 2) [0xfe, 0xff, 0xff]).1 = [0, 0, 0] ∧
      (rx_feed server_env (hdr_len_wsi 13 .xor_mask_05 2) [0xfe, 0xff, 0xff]).2.rx_packet_length
        = 65535 ∧
      (rx_feed server_env (hdr_len_wsi 13 .xor_mask_05 2)
        [0xfe, 0xff, 0xff]).2.lws_rx_parse_state = .LWS_RXPS_07_COLLECT_FRAME_KEY_1) ∧
    ((rx_feed server_env (hdr_len_wsi 13 .xor_mask_05 2) [0xff, 0, 0, 0, 0, 0, 1, 0, 0]).1
        = List.replicate 9 0 ∧
      (rx_feed server_env (hdr_len_wsi 13 .xor_mask_05 2)
        [0xff, 0, 0, 0, 0, 0, 1, 0, 0]).2.rx_packet_length = 65536 ∧
      (rx_feed server_env (hdr_len_wsi 13 .xor_mask_05 2)
        [0xff, 0, 0, 0, 0, 0, 1, 0, 0]).2.lws_rx_parse_state =
          .LWS_RXPS_07_COLLECT_FRAME_KEY_1) :=
  C4_payload_length_decoding server_env (hdr_len_wsi 13 .xor_mask_05 2)
    0x7d 0xfe 0xff 0xff 0xff 0 0 0 0 0 1 0 0 rfl (by decide) (by decide) (by decide)
    (by decide) (by decide) (by decide) (by decide) (by decide) (by decide) (by decide)
    (by decide) (by decide) (by decide) (by decide) (by decide)

/-- C5 fails on the code for L = 0.  At revision 13 the masked text frame 81 80 37 fa 21 3d
has payload length 0, yet after its header and key the state machine is in the payload
state and not in NEW; the bytes of the frame that follows (scenario 3) are then taken as
payload, rx_packet_length wraps around to 2^64 - 11, and nothing is delivered. -/
theorem C5_zero_length_frame_evaluation :
    (rx_feed server_env (fresh_wsi 13 .xor_mask_05)
      [0x81, 0x80, 0x37, 0xfa, 0x21, 0x3d]).2.lws_rx_parse_state =
        .LWS_RXPS_PAYLOAD_UNTIL_LENGTH_EXHAUSTED ∧
    (rx_feed server_env (fresh_wsi 13 .xor_mask_05)
      [0x81, 0x80, 0x37, 0xfa, 0x21, 0x3d]).2.rx_packet_length = 0 ∧
    (rx_feed server_env (fresh_wsi 13 .xor_mask_05)
      ([0x81, 0x80, 0x37, 0xfa, 0x21, 0x3d] ++
        [0x81, 0x85, 0x37, 0xfa, 0x21, 0x3d, 0x7f, 0x9f, 0x4d, 0x51, 0x58])).2.lws_rx_parse_state
        = .LWS_RXPS_PAYLOAD_UNTIL_LENGTH_EXHAUSTED ∧
    (rx_feed server_env (fresh_wsi 13 .xor_mask_05)
      ([0x81, 0x80, 0x37, 0xfa, 0x21, 0x3d] ++
        [0x81, 0x85, 0x37, 0xfa, 0x21, 0x3d, 0x7f, 0x9f, 0x4d, 0x51, 0x58])).2.rx_packet_length
        = 18446744073709551616 - 11 ∧
    (rx_feed server_env (fresh_wsi 13 .xor_mask_05)
      ([0x81, 0x80, 0x37, 0xfa, 0x21, 0x3d] ++
        [0x81, 0x85, 0x37, 0xfa, 0x21, 0x3d, 0x7f, 0x9f, 0x4d, 0x51, 0x58])).2.rx_user_buffer.length
        = 11 ∧
    (rx_feed server_env (fresh_wsi 13 .xor_mask_05)
      ([0x81, 0x80, 0x37, 0xfa, 0x21, 0x3d] ++
        [0x81, 0x85, 0x37, 0xfa, 0x21, 0x3d, 0x7f, 0x9f, 0x4d, 0x51, 0x58])).2.trace = [] := by
  decide

/-! ## Chunked delivery of a data frame -/

theorem deliver_flatten (m : Nat) (u : List Nat) : ∀ (acc : List Nat), u ≠ [] →
    (deliver m acc u).flatten = acc ++ u := by
  induction u with
  | nil => intro acc h; exact absurd rfl h
  | cons b rest ih =>
    intro acc _
    cases rest with
    | nil => simp [deliver]
    | cons b1 rest1 =>
      simp only [deliver]
      split
      · rw [List.flatten_cons, ih [] (by simp)]
        simp
      · rw [ih (acc ++ [b]) (by simp)]
        simp

theorem deliver_dropLast (m : Nat) (u : List Nat) : ∀ (acc : List Nat),
    ∀ c ∈ (deliver m acc u).dropLast, c.length = m := by
  induction u with
  | nil => intro acc c hc; simp [deliver] at hc
  | cons b rest ih =>
    intro acc c hc
    cases rest with
    | nil => simp [deliver] at hc
    | cons b1 rest1 =>
      simp only [deliver] at hc
      split at hc
      · next hlen =>
        have hne : deliver m [] (b1 :: rest1) ≠ [] := by
          cases rest1 with
          | nil => simp [deliver]
          | cons b2 rest2 =>
            simp only [deliver]
            split <;> simp
            intro h
            have := congrArg List.flatten h
            rw [deliver_flatten m _ _ (by simp)] at this
            simp at this
        rw [List.dropLast_cons_of_ne_nil hne] at hc
        rcases List.mem_cons.mp hc with h | h
        · rw [h]; exact hlen
        · exact ih [] c h
      · exact ih (acc ++ [b]) c hc

theorem deliver_length (m : Nat) (hm : 0 < m) (u : List Nat) : ∀ (acc : List Nat),
    u ≠ [] → acc.length < m →
    (deliver m acc u).length = (acc.length + u.length + m - 1) / m := by
  induction u with
  | nil => intro acc h; exact absurd rfl h
  | cons b rest ih =>
    intro acc _ hacc
    cases rest with
    | nil =>
      simp only [deliver, List.length_cons, List.length_nil]
      have : (acc.length + (0 + 1) + m - 1) = m + acc.length := by omega
      rw [this, Nat.add_div_left _ hm, Nat.div_eq_of_lt hacc]
    | cons b1 rest1 =>
      simp only [deliver]
      split
      · next hlen =>
        simp only [List.length_append, List.length_cons, List.length_nil] at hlen
        rw [List.length_cons, ih [] (by simp) hm]
        simp only [List.length_nil, List.length_cons]
        have : acc.length + (rest1.length + 1 + 1) + m - 1 =
            m + (0 + (rest1.length + 1) + m - 1) := by omega
        rw [this, Nat.add_div_left _ hm]
      · next hlen =>
        simp only [List.length_append, List.length_cons, List.length_nil] at hlen
        rw [ih (acc ++ [b]) (by simp)
          (by simp only [List.length_append, List.length_cons, List.length_nil]; omega)]
        simp only [List.length_append, List.length_cons, List.length_nil]
        congr 1
        omega

theorem stored_payload_single (wsi : Wsi) (c : Nat) : ∃ x, stored_payload wsi [c] = [x] := by
  unfold stored_payload
  split
  · exact ⟨c, rfl⟩
  · exact ⟨_, rfl⟩

theorem stored_payload_ne_nil (wsi : Wsi) (p : List Nat) (hp : p ≠ []) :
    stored_payload wsi p ≠ [] := by
  intro h
  have := congrArg List.length h
  rw [stored_payload_length] at this
  exact hp (List.length_eq_zero.mp this)

theorem stored_payload_congr (w1 w2 : Wsi) (p : List Nat)
    (h1 : w1.all_zero_nonce = w2.all_zero_nonce)
    (h2 : w1.frame_masking_nonce_04 = w2.frame_masking_nonce_04)
    (h3 : w1.frame_mask_index = w2.frame_mask_index) :
    stored_payload w1 p = stored_payload w2 p := by
  unfold stored_payload
  rw [h1, h2, h3]

theorem stored_payload_next (wsi : Wsi) (c : Nat) (rest : List Nat) :
    stored_payload wsi (c :: rest) = stored_payload wsi [c] ++
      stored_payload { wsi with frame_mask_index := mask_index_after wsi 1 } rest :=
  stored_payload_cons wsi c rest _ rfl rfl rfl

theorem deliver_cons (m : Nat) (acc : List Nat) (b : Nat) (u : List Nat) (hu : u ≠ []) :
    deliver m acc (b :: u) =
      if (acc ++ [b]).length = m then (acc ++ [b]) :: deliver m [] u
      else deliver m (acc ++ [b]) u := by
  cases u with
  | nil => exact absurd rfl hu
  | cons b1 rest => rfl

/-- The payload of a data frame fed from the payload state: every byte returns 0, the
consumer receives the pieces given by deliver, and the frame ends in state NEW with an
empty buffer. -/
theorem chunk_run (env : Env) (cb : Nat → List Nat → CallbackOut)
    (hcb : env.callback = some cb) (hext : env.active_extensions = [])
    (p : List Nat) : ∀ (wsi : Wsi),
    wsi.lws_rx_parse_state = .LWS_RXPS_PAYLOAD_UNTIL_LENGTH_EXHAUSTED →
    5 ≤ wsi.ietf_spec_revision →
    (wsi.opcode = 0 ∨ wsi.opcode = 1 ∨ wsi.opcode = 2) →
    (wsi.all_zero_nonce = true ∨ wsi.xor_mask = .xor_mask_05) →
    wsi.rx_packet_length = p.length → p ≠ [] → p.length < SIZE_T_MOD →
    wsi.rx_user_buffer.length < env.k.MAX_USER_RX_BUFFER →
    (rx_feed env wsi p).1 = List.replicate p.length 0 ∧
    (rx_feed env wsi p).2.trace = wsi.trace ++
      (deliver env.k.MAX_USER_RX_BUFFER wsi.rx_user_buffer (stored_payload wsi p)).map
        Event.receive ∧
    (rx_feed env wsi p).2.lws_rx_parse_state = .LWS_RXPS_NEW ∧
    (rx_feed env wsi p).2.rx_user_buffer = [] := by
  induction p with
  | nil => intro wsi _ _ _ _ _ h; exact absurd rfl h
  | cons c rest ih =>
    intro wsi hst hrev hop hmode hlen _ hmod hmax
    obtain ⟨x, hx⟩ := stored_payload_single wsi c
    cases rest with
    | nil =>
      rw [rx_feed_cons, payload_step_last env wsi c hst hrev hmode (by simpa using hlen)]
      rw [spill_data env _ cb (by exact hop) hcb hext (by simp [hx])]
      simp [rx_feed, deliver, hx]
    | cons c1 rest1 =>
      simp only [List.length_cons] at hlen hmod
      by_cases hfull : wsi.rx_user_buffer.length + 1 = env.k.MAX_USER_RX_BUFFER
      · rw [rx_feed_cons, payload_step_full env wsi c hst hrev hmode (by omega) (by omega)
          hfull]
        rw [spill_data env _ cb (by exact hop) hcb hext (by simp [hx])]
        simp only [lt_self_iff_false, if_false]
        obtain ⟨h1, h2, h3, h4⟩ := ih
          { wsi with
            rx_user_buffer := []
            rx_packet_length := wsi.rx_packet_length - 1
            frame_mask_index := mask_index_after wsi 1
            user_space := (cb wsi.user_space
              (wsi.rx_user_buffer ++ stored_payload wsi [c])).user_space
            pollin := (cb wsi.user_space
              (wsi.rx_user_buffer ++ stored_payload wsi [c])).rxflow.getD wsi.pollin
            trace := wsi.trace ++
              [Event.receive (wsi.rx_user_buffer ++ stored_payload wsi [c])] }
          hst hrev hop hmode (by simp only [List.length_cons]; omega) (by simp)
          (by simp only [List.length_cons]; omega)
          (by simp only [List.length_nil]; omega)
        refine ⟨?_, ?_, h3, h4⟩
        · simp only [h1, List.length_cons, List.replicate_succ]
        · rw [h2, stored_payload_next wsi c (c1 :: rest1), hx]
          rw [List.singleton_append, deliver_cons _ _ _ _
            (stored_payload_ne_nil _ _ (by simp))]
          simp only [hfull, hx, List.length_append, List.length_cons, List.length_nil,
            if_true, if_false, List.map_cons, List.cons_append, List.nil_append, List.append_assoc,
            List.singleton_append]
          congr 2
      · rw [rx_feed_cons, payload_step_store env wsi c hst hrev hmode (by omega) (by omega)
          hfull]
        simp only [lt_self_iff_false, if_false]
        obtain ⟨h1, h2, h3, h4⟩ := ih
          { wsi with
            rx_user_buffer := wsi.rx_user_buffer ++ stored_payload wsi [c]
            rx_packet_length := wsi.rx_packet_length - 1
            frame_mask_index := mask_index_after wsi 1 }
          hst hrev hop hmode (by simp only [List.length_cons]; omega) (by simp)
          (by simp only [List.length_cons]; omega)
          (by simp only [List.length_append, stored_payload_length, List.length_cons,
            List.length_nil]; omega)
        refine ⟨?_, ?_, h3, h4⟩
        · simp only [h1, List.length_cons, List.replicate_succ]
        · rw [h2, stored_payload_next wsi c (c1 :: rest1), hx]
          rw [List.singleton_append, deliver_cons _ _ _ _
            (stored_payload_ne_nil _ _ (by simp))]
          simp only [hfull, hx, List.length_append, List.length_cons, List.length_nil,
            if_true, if_false, List.map_cons, List.cons_append, List.nil_append, List.append_assoc,
            List.singleton_append]
          congr 2


/-- C6 (chunked in-order delivery of a large data frame).  At revision 7 or later, for a
text, binary or continuation frame whose header has been decoded with payload length
L >= 1 (the state machine is in the payload state with rx_packet_length = L and an empty
buffer), with a user callback registered, no active extensions and a buffer ceiling
MAX_USER_RX_BUFFER >= 1: feeding the L payload bytes returns 0 on every byte and calls
the user Receive callback exactly ceil(L / MAX_USER_RX_BUFFER) times and nothing else;
every piece but the last has exactly MAX_USER_RX_BUFFER bytes, and the pieces put
together in call order are the unmasked payload.  The frame ends in state NEW. -/
theorem C6_chunked_delivery (env : Env) (wsi : Wsi) (cb : Nat → List Nat → CallbackOut)
    (p : List Nat)
    (hst : wsi.lws_rx_parse_state = .LWS_RXPS_PAYLOAD_UNTIL_LENGTH_EXHAUSTED)
    (hrev : 7 ≤ wsi.ietf_spec_revision)
    (hop : wsi.opcode = 0 ∨ wsi.opcode = 1 ∨ wsi.opcode = 2)
    (hmode : wsi.all_zero_nonce = true ∨ wsi.xor_mask = .xor_mask_05)
    (hlen : wsi.rx_packet_length = p.length) (hp : 1 ≤ p.length)
    (hmod : p.length < SIZE_T_MOD) (hhead : wsi.rx_user_buffer = [])
    (hcb : env.callback = some cb) (hext : env.active_extensions = [])
    (hmax : 1 ≤ env.k.MAX_USER_RX_BUFFER) :
    ∃ chunks : List (List Nat),
      (rx_feed env wsi p).1 = List.replicate p.length 0 ∧
      (rx_feed env wsi p).2.trace = wsi.trace ++ chunks.map Event.receive ∧
      chunks.length = (p.length + env.k.MAX_USER_RX_BUFFER - 1) / env.k.MAX_USER_RX_BUFFER ∧
      (∀ c ∈ chunks.dropLast, c.length = env.k.MAX_USER_RX_BUFFER) ∧
      chunks.flatten = stored_payload wsi p ∧
      (rx_feed env wsi p).2.lws_rx_parse_state = .LWS_RXPS_NEW ∧
      (rx_feed env wsi p).2.rx_user_buffer_head = 0 := by
  have hpne : p ≠ [] := by
    intro h
    rw [h] at hp
    simp at hp
  have hsne := stored_payload_ne_nil wsi p hpne
  obtain ⟨h1, h2, h3, h4⟩ := chunk_run env cb hcb hext p wsi hst (by omega) hop hmode hlen
    hpne hmod (by rw [hhead]; exact hmax)
  refine ⟨deliver env.k.MAX_USER_RX_BUFFER [] (stored_payload wsi p), h1, ?_, ?_, ?_, ?_, h3,
    ?_⟩
  · rw [h2, hhead]
  · rw [deliver_length _ hmax _ [] hsne hmax, stored_payload_length]
    simp
  · exact deliver_dropLast _ _ []
  · rw [deliver_flatten _ _ [] hsne]
    simp
  · simp [Wsi.rx_user_buffer_head, h4]

/-- C6 on a masked binary frame of 10 payload bytes with a ceiling of 4: three pieces of
4, 4 and 2 bytes. -/
theorem C6_chunked_delivery_witness :
    (rx_feed small_env after_header_wsi
      (xor_key ⟨0x37, 0xfa, 0x21, 0x3d⟩ 0 [1, 2, 3, 4, 5, 6, 7, 8, 9, 10])).2.trace =
        [Event.receive [1, 2, 3, 4], Event.receive [5, 6, 7, 8], Event.receive [9, 10]] ∧
    ∃ chunks : List (List Nat),
      (rx_feed small_env after_header_wsi
        (xor_key ⟨0x37, 0xfa, 0x21, 0x3d⟩ 0 [1, 2, 3, 4, 5, 6, 7, 8, 9, 10])).1 =
          List.replicate (xor_key ⟨0x37, 0xfa, 0x21, 0x3d⟩ 0
            [1, 2, 3, 4, 5, 6, 7, 8, 9, 10]).length 0 ∧
      (rx_feed small_env after_header_wsi
        (xor_key ⟨0x37, 0xfa, 0x21, 0x3d⟩ 0 [1, 2, 3, 4, 5, 6, 7, 8, 9, 10])).2.trace =
          after_header_wsi.trace ++ chunks.map Event.receive ∧
      chunks.length = ((xor_key ⟨0x37, 0xfa, 0x21, 0x3d⟩ 0
        [1, 2, 3, 4, 5, 6, 7, 8, 9, 10]).length + small_env.k.MAX_USER_RX_BUFFER - 1) /
          small_env.k.MAX_USER_RX_BUFFER ∧
      (∀ c ∈ chunks.dropLast, c.length = small_env.k.MAX_USER_RX_BUFFER) ∧
      chunks.flatten = stored_payload after_header_wsi
        (xor_key ⟨0x37, 0xfa, 0x21, 0x3d⟩ 0 [1, 2, 3, 4, 5, 6, 7, 8, 9, 10]) ∧
      (rx_feed small_env after_header_wsi
        (xor_key ⟨0x37, 0xfa, 0x21, 0x3d⟩ 0
          [1, 2, 3, 4, 5, 6, 7, 8, 9, 10])).2.lws_rx_parse_state = .LWS_RXPS_NEW ∧
      (rx_feed small_env after_header_wsi
        (xor_key ⟨0x37, 0xfa, 0x21, 0x3d⟩ 0
          [1, 2, 3, 4, 5, 6, 7, 8, 9, 10])).2.rx_user_buffer_head = 0 :=
  ⟨by decide,
    C6_chunked_delivery small_env after_header_wsi quiet_callback
      (xor_key ⟨0x37, 0xfa, 0x21, 0x3d⟩ 0 [1, 2, 3, 4, 5, 6, 7, 8, 9, 10])
      (by decide) (by decide) (by decide) (by decide) (by decide) (by decide) (by decide)
      (by decide) rfl rfl (by decide)⟩

/-! ## Control frames -/

/-- One masked PING frame fed from state NEW. -/
theorem ping_frame_run (env : Env) (wsi : Wsi) (b0 : Nat) (key : Key4) (P : List Nat)
    (hrev : wsi.ietf_spec_revision = 7 ∨ wsi.ietf_spec_revision = 8 ∨
      wsi.ietf_spec_revision = 13)
    (hb0 : b0 &&& 0xf = 9)
    (hP1 : 1 ≤ P.length) (hP2 : P.length ≤ 125)
    (hP3 : P.length ≤ env.k.MAX_USER_RX_BUFFER)
    (hnew : wsi.lws_rx_parse_state = .LWS_RXPS_NEW) (hhead : wsi.rx_user_buffer = [])
    (hxor : wsi.xor_mask = .xor_mask_05) :
    (rx_feed env wsi (short_masked_frame b0 key P)).1 =
      List.replicate (short_masked_frame b0 key P).length 0 ∧
    (rx_feed env wsi (short_masked_frame b0 key P)).2.trace =
      wsi.trace ++ [Event.write .LWS_WRITE_PONG P] ∧
    (rx_feed env wsi (short_masked_frame b0 key P)).2.lws_rx_parse_state = .LWS_RXPS_NEW ∧
    (rx_feed env wsi (short_masked_frame b0 key P)).2.rx_user_buffer = [] ∧
    (rx_feed env wsi (short_masked_frame b0 key P)).2.ietf_spec_revision =
      wsi.ietf_spec_revision ∧
    (rx_feed env wsi (short_masked_frame b0 key P)).2.xor_mask = wsi.xor_mask := by
  have hlen : (short_masked_frame b0 key P).length = 6 + (P.length - 1) + 1 := by
    simp [short_masked_frame, xor_key_length]
    omega
  rw [short_masked_frame_run env wsi b0 key P hrev hP1 hP2 hP3 hnew hhead hxor, hlen]
  simp [spill, hb0, libwebsocket_write, List.replicate_succ']

/-- C7 (PING is answered with PONG and hidden from the user).  At revision 7, 8 or 13 with
xor_mask_05 installed, for every sequence of masked PING frames (low nibble of the first
byte 9) with payloads of 1 to 125 bytes that fit the payload buffer, fed from state NEW
with an empty buffer: every byte returns 0, the trace grows by exactly one outbound write
of kind PONG per frame, carrying exactly the payload of that frame, in the order of the
frames, with no user callback, and the state machine ends in state NEW with
rx_user_buffer_head = 0.  A single PING frame is the sequence of length one. -/
theorem C7_ping_pong (env : Env) (frames : List (Nat × Key4 × List Nat)) : ∀ (wsi : Wsi),
    (wsi.ietf_spec_revision = 7 ∨ wsi.ietf_spec_revision = 8 ∨
      wsi.ietf_spec_revision = 13) →
    (∀ f ∈ frames, f.1 &&& 0xf = 9 ∧ 1 ≤ f.2.2.length ∧ f.2.2.length ≤ 125 ∧
      f.2.2.length ≤ env.k.MAX_USER_RX_BUFFER) →
    wsi.lws_rx_parse_state = .LWS_RXPS_NEW → wsi.rx_user_buffer = [] →
    wsi.xor_mask = .xor_mask_05 →
    (rx_feed env wsi (short_masked_frames frames)).1 =
      List.replicate (short_masked_frames frames).length 0 ∧
    (rx_feed env wsi (short_masked_frames frames)).2.trace =
      wsi.trace ++ frames.map (fun f => Event.write .LWS_WRITE_PONG f.2.2) ∧
    (rx_feed env wsi (short_masked_frames frames)).2.lws_rx_parse_state = .LWS_RXPS_NEW ∧
    (rx_feed env wsi (short_masked_frames frames)).2.rx_user_buffer_head = 0 := by
  induction frames with
  | nil =>
    intro wsi _ _ hnew hhead _
    simp [short_masked_frames, rx_feed, hnew, hhead, Wsi.rx_user_buffer_head]
  | cons f rest ih =>
    intro wsi hrev hf hnew hhead hxor
    obtain ⟨hb0, hP1, hP2, hP3⟩ := hf f (List.mem_cons_self _ _)
    obtain ⟨h1, h2, h3, h4, h5, h6⟩ :=
      ping_frame_run env wsi f.1 f.2.1 f.2.2 hrev hb0 hP1 hP2 hP3 hnew hhead hxor
    obtain ⟨g1, g2, g3, g4⟩ := ih (rx_feed env wsi (short_masked_frame f.1 f.2.1 f.2.2)).2
      (by rw [h5]; exact hrev) (fun g hg => hf g (List.mem_cons_of_mem _ hg)) h3 h4
      (by rw [h6]; exact hxor)
    simp only [short_masked_frames]
    rw [rx_feed_append env _ _ wsi h1]
    refine ⟨?_, ?_, g3, g4⟩
    · simp only [g1, List.length_append, List.replicate_add]
    · simp only [g2, h2, List.map_cons, List.append_assoc, List.singleton_append]

/-- C7 at scenario 2 followed by a second PING: the bytes 89 85 37 fa 21 3d 7f 9f 4d 51 58
yield PONG Hello, and the PING that follows yields PONG Hi after it. -/
theorem C7_ping_pong_witness :
    short_masked_frames two_pings =
      [0x89, 0x85, 0x37, 0xfa, 0x21, 0x3d, 0x7f, 0x9f, 0x4d, 0x51, 0x58] ++
        [0x89, 0x82, 0, 0, 0, 0, 0x48, 0x69] ∧
    ((rx_feed server_env (fresh_wsi 13 .xor_mask_05) (short_masked_frames two_pings)).1 =
      List.replicate (short_masked_frames two_pings).length 0 ∧
    (rx_feed server_env (fresh_wsi 13 .xor_mask_05) (short_masked_frames two_pings)).2.trace =
      (fresh_wsi 13 .xor_mask_05).trace ++
        two_pings.map (fun f => Event.write .LWS_WRITE_PONG f.2.2) ∧
    (rx_feed server_env (fresh_wsi 13 .xor_mask_05)
      (short_masked_frames two_pings)).2.lws_rx_parse_state = .LWS_RXPS_NEW ∧
    (rx_feed server_env (fresh_wsi 13 .xor_mask_05)
      (short_masked_frames two_pings)).2.rx_user_buffer_head = 0) :=
  ⟨by decide,
    C7_ping_pong server_env two_pings (fresh_wsi 13 .xor_mask_05) (by decide) (by decide)
      rfl rfl rfl⟩

/-- C8 (CLOSE handling).  Part one, for every revision and every record whose opcode is 8:
the spill returns -1 and calls no user callback; in phase AWAITING_CLOSE_ACK the record
is left as it is (no outbound write, phase unchanged), otherwise exactly one outbound
write of kind CLOSE carrying the accumulated payload is made and the phase becomes
RETURNED_CLOSE_ALREADY.  Part two, at revision 7, 8 or 13 with xor_mask_05 installed: a
masked CLOSE frame with a payload P of 1 to 125 bytes that fits the payload buffer, fed
from state NEW with an empty buffer, returns 0 on every byte but the last and -1 on the
last, with no user callback; in phase AWAITING_CLOSE_ACK the trace and the phase are
unchanged, otherwise the trace grows by exactly one write of kind CLOSE with payload
exactly P and the phase becomes RETURNED_CLOSE_ALREADY. -/
theorem C8_close_handling (env : Env) (w wsi : Wsi) (b0 : Nat) (key : Key4) (P : List Nat)
    (hw : w.opcode = 8)
    (hrev : wsi.ietf_spec_revision = 7 ∨ wsi.ietf_spec_revision = 8 ∨
      wsi.ietf_spec_revision = 13)
    (hb0 : b0 &&& 0xf = 8)
    (hP1 : 1 ≤ P.length) (hP2 : P.length ≤ 125)
    (hP3 : P.length ≤ env.k.MAX_USER_RX_BUFFER)
    (hnew : wsi.lws_rx_parse_state = .LWS_RXPS_NEW) (hhead : wsi.rx_user_buffer = [])
    (hxor : wsi.xor_mask = .xor_mask_05) :
    (spill env w =
      if w.state = .WSI_STATE_AWAITING_CLOSE_ACK then (-1, w)
      else (-1, { w with
        trace := w.trace ++ [Event.write .LWS_WRITE_CLOSE w.rx_user_buffer]
        state := .WSI_STATE_RETURNED_CLOSE_ALREADY })) ∧
    (rx_feed env wsi (short_masked_frame b0 key P)).1 =
      List.replicate (5 + P.length) 0 ++ [-1] ∧
    (wsi.state = .WSI_STATE_AWAITING_CLOSE_ACK →
      (rx_feed env wsi (short_masked_frame b0 key P)).2.trace = wsi.trace ∧
      (rx_feed env wsi (short_masked_frame b0 key P)).2.state =
        .WSI_STATE_AWAITING_CLOSE_ACK) ∧
    (wsi.state ≠ .WSI_STATE_AWAITING_CLOSE_ACK →
      (rx_feed env wsi (short_masked_frame b0 key P)).2.trace =
        wsi.trace ++ [Event.write .LWS_WRITE_CLOSE P] ∧
      (rx_feed env wsi (short_masked_frame b0 key P)).2.state =
        .WSI_STATE_RETURNED_CLOSE_ALREADY) := by
  have hlen : 5 + P.length = 6 + (P.length - 1) := by omega
  refine ⟨?_, ?_, ?_, ?_⟩
  · by_cases hs : w.state = .WSI_STATE_AWAITING_CLOSE_ACK <;>
      simp [spill, hw, libwebsocket_write, hs]
  · rw [short_masked_frame_run env wsi b0 key P hrev hP1 hP2 hP3 hnew hhead hxor, hlen]
    by_cases hs : wsi.state = .WSI_STATE_AWAITING_CLOSE_ACK <;>
      simp [spill, hb0, libwebsocket_write, hs]
  · intro hs
    rw [short_masked_frame_run env wsi b0 key P hrev hP1 hP2 hP3 hnew hhead hxor]
    simp [spill, hb0, libwebsocket_write, hs]
  · intro hs
    rw [short_masked_frame_run env wsi b0 key P hrev hP1 hP2 hP3 hnew hhead hxor]
    simp [spill, hb0, libwebsocket_write, hs]

/-- C8 at scenario 4: the bytes 88 82 00 00 00 00 03 e8 echo a CLOSE with payload 03 e8
and the pump returns -1. -/
theorem C8_close_handling_witness :
    short_masked_frame 0x88 ⟨0, 0, 0, 0⟩ [0x03, 0xe8] =
      [0x88, 0x82, 0x00, 0x00, 0x00, 0x00, 0x03, 0xe8] ∧
    (libwebsocket_interpret_incoming_packet server_env (fresh_wsi 13 .xor_mask_05)
      (some (short_masked_frame 0x88 ⟨0, 0, 0, 0⟩ [0x03, 0xe8]))).1 = -1 ∧
    ((spill server_env { fresh_wsi 13 .xor_mask_05 with opcode := 8 } =
      if ({ fresh_wsi 13 .xor_mask_05 with opcode := 8 } : Wsi).state =
          .WSI_STATE_AWAITING_CLOSE_ACK then
        (-1, { fresh_wsi 13 .xor_mask_05 with opcode := 8 })
      else (-1, { ({ fresh_wsi 13 .xor_mask_05 with opcode := 8 } : Wsi) with
        trace := ({ fresh_wsi 13 .xor_mask_05 with opcode := 8 } : Wsi).trace ++
          [Event.write .LWS_WRITE_CLOSE
            ({ fresh_wsi 13 .xor_mask_05 with opcode := 8 } : Wsi).rx_user_buffer]
        state := .WSI_STATE_RETURNED_CLOSE_ALREADY })) ∧
    (rx_feed server_env (fresh_wsi 13 .xor_mask_05)
      (short_masked_frame 0x88 ⟨0, 0, 0, 0⟩ [0x03, 0xe8])).1 =
        List.replicate (5 + [0x03, 0xe8].length) 0 ++ [-1] ∧
    ((fresh_wsi 13 .xor_mask_05).state = .WSI_STATE_AWAITING_CLOSE_ACK →
      (rx_feed server_env (fresh_wsi 13 .xor_mask_05)
        (short_masked_frame 0x88 ⟨0, 0, 0, 0⟩ [0x03, 0xe8])).2.trace =
          (fresh_wsi 13 .xor_mask_05).trace ∧
      (rx_feed server_env (fresh_wsi 13 .xor_mask_05)
        (short_masked_frame 0x88 ⟨0, 0, 0, 0⟩ [0x03, 0xe8])).2.state =
          .WSI_STATE_AWAITING_CLOSE_ACK) ∧
    ((fresh_wsi 13 .xor_mask_05).state ≠ .WSI_STATE_AWAITING_CLOSE_ACK →
      (rx_feed server_env (fresh_wsi 13 .xor_mask_05)
        (short_masked_frame 0x88 ⟨0, 0, 0, 0⟩ [0x03, 0xe8])).2.trace =
          (fresh_wsi 13 .xor_mask_05).trace ++ [Event.write .LWS_WRITE_CLOSE [0x03, 0xe8]] ∧
      (rx_feed server_env (fresh_wsi 13 .xor_mask_05)
        (short_masked_frame 0x88 ⟨0, 0, 0, 0⟩ [0x03, 0xe8])).2.state =
          .WSI_STATE_RETURNED_CLOSE_ALREADY)) :=
  ⟨by decide, by decide,
    C8_close_handling server_env { fresh_wsi 13 .xor_mask_05 with opcode := 8 }
      (fresh_wsi 13 .xor_mask_05) 0x88 ⟨0, 0, 0, 0⟩ [0x03, 0xe8] rfl (by decide) (by decide)
      (by decide) (by decide) (by decide) rfl rfl rfl⟩

/-! ## Fatal length encodings -/

theorem call_xor_mask_trace (wsi : Wsi) (c : Nat) :
    (call_xor_mask wsi c).2.trace = wsi.trace := by
  unfold call_xor_mask xor_no_mask xor_mask_04 xor_mask_05
  cases wsi.xor_mask <;> rfl

theorem unmask_pre07_trace (wsi : Wsi) (c : Nat) :
    (unmask_pre07 wsi c).2.trace = wsi.trace := by
  unfold unmask_pre07
  split
  · exact call_xor_mask_trace wsi c
  · rfl

theorem call_xor_mask_rev (wsi : Wsi) (c : Nat) :
    (call_xor_mask wsi c).2.ietf_spec_revision = wsi.ietf_spec_revision := by
  unfold call_xor_mask xor_no_mask xor_mask_04 xor_mask_05
  cases wsi.xor_mask <;> rfl

theorem unmask_pre07_rev (wsi : Wsi) (c : Nat) :
    (unmask_pre07 wsi c).2.ietf_spec_revision = wsi.ietf_spec_revision := by
  unfold unmask_pre07
  split
  · exact call_xor_mask_rev wsi c
  · rfl

theorem call_xor_mask_state (wsi : Wsi) (c : Nat) :
    (call_xor_mask wsi c).2.lws_rx_parse_state = wsi.lws_rx_parse_state := by
  unfold call_xor_mask xor_no_mask xor_mask_04 xor_mask_05
  cases wsi.xor_mask <;> rfl

theorem unmask_pre07_state (wsi : Wsi) (c : Nat) :
    (unmask_pre07 wsi c).2.lws_rx_parse_state = wsi.lws_rx_parse_state := by
  unfold unmask_pre07
  split
  · exact call_xor_mask_state wsi c
  · rfl

theorem call_xor_mask_opcode (wsi : Wsi) (c : Nat) :
    (call_xor_mask wsi c).2.opcode = wsi.opcode := by
  unfold call_xor_mask xor_no_mask xor_mask_04 xor_mask_05
  cases wsi.xor_mask <;> rfl

theorem unmask_pre07_opcode (wsi : Wsi) (c : Nat) :
    (unmask_pre07 wsi c).2.opcode = wsi.opcode := by
  unfold unmask_pre07
  split
  · exact call_xor_mask_opcode wsi c
  · rfl

/-- C9 (a 64-bit length with bit 63 set is fatal).  For every revision (4, 5, 6, 7, 8 and
13 among them) and every frame with a non-control opcode: the second header byte c2 whose value after
pre-v7 unmasking has length code 127 (and, before revision 7, a clear reserved bit)
returns 0, delivers nothing and leads to state FRAME_HDR_LEN64_8; there, a byte cs whose
value after pre-v7 unmasking has bit 7 set makes libwebsocket_rx_sm return -1 with nothing
delivered, and a byte cc whose value has bit 7 clear returns 0 and leads on to state
FRAME_HDR_LEN64_7. -/
theorem C9_bit63_fatal (env : Env) (wsi : Wsi) (c2 cs cc : Nat)
    (hst : wsi.lws_rx_parse_state = .LWS_RXPS_04_FRAME_HDR_LEN)
    (hop : wsi.opcode &&& 8 = 0)
    (h127 : (unmask_pre07 wsi c2).1 &&& 0x7f = 127)
    (hrsv : wsi.ietf_spec_revision < 7 → (unmask_pre07 wsi c2).1 &&& 0x80 = 0)
    (hset : (unmask_pre07 (libwebsocket_rx_sm env wsi c2).2 cs).1 &&& 0x80 ≠ 0)
    (hclr : (unmask_pre07 (libwebsocket_rx_sm env wsi c2).2 cc).1 &&& 0x80 = 0) :
    (libwebsocket_rx_sm env wsi c2).1 = 0 ∧
    (libwebsocket_rx_sm env wsi c2).2.lws_rx_parse_state = .LWS_RXPS_04_FRAME_HDR_LEN64_8 ∧
    (libwebsocket_rx_sm env wsi c2).2.trace = wsi.trace ∧
    (libwebsocket_rx_sm env (libwebsocket_rx_sm env wsi c2).2 cs).1 = -1 ∧
    (libwebsocket_rx_sm env (libwebsocket_rx_sm env wsi c2).2 cs).2.trace = wsi.trace ∧
    (libwebsocket_rx_sm env (libwebsocket_rx_sm env wsi c2).2 cc).1 = 0 ∧
    (libwebsocket_rx_sm env (libwebsocket_rx_sm env wsi c2).2 cc).2.lws_rx_parse_state =
      .LWS_RXPS_04_FRAME_HDR_LEN64_7 := by
  have hrsv1 : ¬ ((unmask_pre07 wsi c2).1 &&& 0x80 ≠ 0 ∧
      (unmask_pre07 wsi c2).2.ietf_spec_revision < 7) := by
    rw [unmask_pre07_rev]
    rintro ⟨h1, h2⟩
    exact h1 (hrsv h2)
  have hop1 : (unmask_pre07 wsi c2).2.opcode &&& 8 = 0 := by rw [unmask_pre07_opcode]; exact hop
  have hstep : libwebsocket_rx_sm env wsi c2 =
      (0, { (unmask_pre07 wsi c2).2 with
        this_frame_masked := (unmask_pre07 wsi c2).1 &&& 0x80 != 0
        lws_rx_parse_state := .LWS_RXPS_04_FRAME_HDR_LEN64_8 }) := by
    simp only [libwebsocket_rx_sm, hst]
    rw [if_neg hrsv1]
    simp [h127, hop1]
  rw [hstep] at hset hclr ⊢
  refine ⟨rfl, rfl, unmask_pre07_trace wsi c2, ?_, ?_, ?_, ?_⟩
  · simp only [libwebsocket_rx_sm]
    rw [if_pos hset]
  · simp only [libwebsocket_rx_sm]
    rw [if_pos hset]
    simp only []
    rw [unmask_pre07_trace]
    exact unmask_pre07_trace wsi c2
  · simp only [libwebsocket_rx_sm]
    rw [if_neg (by simpa using hclr)]
  · simp only [libwebsocket_rx_sm]
    rw [if_neg (by simpa using hclr)]


/-- C9 at revision 5 under the all-zero nonce: after the length code 127, the byte 80 is
fatal and the byte 7f is not. -/
theorem C9_bit63_fatal_witness :
    (libwebsocket_rx_sm server_env (hdr_len_wsi 5 .xor_mask_05 2) 0x7f).1 = 0 ∧
    (libwebsocket_rx_sm server_env (hdr_len_wsi 5 .xor_mask_05 2) 0x7f).2.lws_rx_parse_state =
      .LWS_RXPS_04_FRAME_HDR_LEN64_8 ∧
    (libwebsocket_rx_sm server_env (hdr_len_wsi 5 .xor_mask_05 2) 0x7f).2.trace =
      (hdr_len_wsi 5 .xor_mask_05 2).trace ∧
    (libwebsocket_rx_sm server_env
      (libwebsocket_rx_sm server_env (hdr_len_wsi 5 .xor_mask_05 2) 0x7f).2 0x80).1 = -1 ∧
    (libwebsocket_rx_sm server_env
      (libwebsocket_rx_sm server_env (hdr_len_wsi 5 .xor_mask_05 2) 0x7f).2 0x80).2.trace =
        (hdr_len_wsi 5 .xor_mask_05 2).trace ∧
    (libwebsocket_rx_sm server_env
      (libwebsocket_rx_sm server_env (hdr_len_wsi 5 .xor_mask_05 2) 0x7f).2 0x7f).1 = 0 ∧
    (libwebsocket_rx_sm server_env
      (libwebsocket_rx_sm server_env (hdr_len_wsi 5 .xor_mask_05 2) 0x7f).2
        0x7f).2.lws_rx_parse_state = .LWS_RXPS_04_FRAME_HDR_LEN64_7 :=
  C9_bit63_fatal server_env (hdr_len_wsi 5 .xor_mask_05 2) 0x7f 0x80 0x7f rfl (by decide)
    (by decide) (by decide) (by decide) (by decide)

/-- C10 as stated fails before revision 7.  At revision 5 under the all-zero nonce, the
PING frame whose second header byte is 85 (length code 5, reserved bit 7 set) is a control
frame with a length code of at most 125, and libwebsocket_rx_sm returns -1 on that
byte. -/
theorem C10_reserved_bit_counterexample :
    (rx_feed server_env (fresh_wsi 5 .xor_mask_05) [0, 0, 0, 0, 0x82]).1 = [0, 0, 0, 0, 0] ∧
    (rx_feed server_env (fresh_wsi 5 .xor_mask_05) [0, 0, 0, 0, 0x82]).2.opcode = 9 ∧
    (rx_feed server_env (fresh_wsi 5 .xor_mask_05)
      [0, 0, 0, 0, 0x82]).2.lws_rx_parse_state = .LWS_RXPS_04_FRAME_HDR_LEN ∧
    (unmask_pre07 (rx_feed server_env (fresh_wsi 5 .xor_mask_05) [0, 0, 0, 0, 0x82]).2
      0x85).1 &&& 0x7f ≤ 125 ∧
    (libwebsocket_rx_sm server_env
      (rx_feed server_env (fresh_wsi 5 .xor_mask_05) [0, 0, 0, 0, 0x82]).2 0x85).1 = -1 := by
  decide

/-- C10, amended (control frames must be short).  In state FRAME_HDR_LEN, for every
revision and every frame whose normalised opcode has bit 3 set, with u the second header
byte after pre-v7 unmasking: a length code of 126 or 127 makes libwebsocket_rx_sm return
-1 on that byte; a length code of at most 125 returns -1 exactly when the revision is
below 7 and the reserved bit 7 of u is set, and otherwise returns 0 and moves on to the
key or payload state; in no case is an extended-length state entered. -/
theorem C10_control_frames_short (env : Env) (wsi : Wsi) (c : Nat)
    (hst : wsi.lws_rx_parse_state = .LWS_RXPS_04_FRAME_HDR_LEN)
    (hop : wsi.opcode &&& 8 ≠ 0) :
    (((unmask_pre07 wsi c).1 &&& 0x7f = 126 ∨ (unmask_pre07 wsi c).1 &&& 0x7f = 127) →
      (libwebsocket_rx_sm env wsi c).1 = -1) ∧
    ((unmask_pre07 wsi c).1 &&& 0x7f ≤ 125 →
      ((libwebsocket_rx_sm env wsi c).1 = -1 ↔
        (wsi.ietf_spec_revision < 7 ∧ (unmask_pre07 wsi c).1 &&& 0x80 ≠ 0)) ∧
      (¬ (wsi.ietf_spec_revision < 7 ∧ (unmask_pre07 wsi c).1 &&& 0x80 ≠ 0) →
        (libwebsocket_rx_sm env wsi c).1 = 0 ∧
        ((libwebsocket_rx_sm env wsi c).2.lws_rx_parse_state =
            .LWS_RXPS_07_COLLECT_FRAME_KEY_1 ∨
          (libwebsocket_rx_sm env wsi c).2.lws_rx_parse_state =
            .LWS_RXPS_PAYLOAD_UNTIL_LENGTH_EXHAUSTED))) ∧
    (libwebsocket_rx_sm env wsi c).2.lws_rx_parse_state ≠ .LWS_RXPS_04_FRAME_HDR_LEN16_2 ∧
    (libwebsocket_rx_sm env wsi c).2.lws_rx_parse_state ≠ .LWS_RXPS_04_FRAME_HDR_LEN64_8 := by
  have hop1 : (unmask_pre07 wsi c).2.opcode &&& 8 ≠ 0 := by rw [unmask_pre07_opcode]; exact hop
  have hrev1 := unmask_pre07_rev wsi c
  have hst1 : (unmask_pre07 wsi c).2.lws_rx_parse_state = .LWS_RXPS_04_FRAME_HDR_LEN := by
    rw [unmask_pre07_state]; exact hst
  simp only [libwebsocket_rx_sm, hst, after_length]
  generalize (unmask_pre07 wsi c).1 = u at *
  generalize (unmask_pre07 wsi c).2 = w1 at *
  rw [hrev1]
  by_cases h80 : u &&& 0x80 ≠ 0 ∧ wsi.ietf_spec_revision < 7
  · rw [if_pos h80]
    simp [hst1, h80.1, h80.2]
  · rw [if_neg h80]
    by_cases h126 : u &&& 0x7f = 126
    · simp [h126, hop1, hst1]
    · by_cases h127 : u &&& 0x7f = 127
      · simp [h126, h127, hop1, hst1]
      · simp only [h126, h127, if_false, false_or, false_implies, true_and]
        have h80a : wsi.ietf_spec_revision < 7 → u &&& 128 = 0 := by
          intro h
          by_contra hne
          exact h80 ⟨hne, h⟩
        by_cases hm : u &&& 128 = 0
        · simp [hm, h80a]
        · have h7 : 7 ≤ wsi.ietf_spec_revision := by
            by_contra hlt
            exact hm (h80a (by omega))
          simp [hm, h80a, h7]

/-- C10 at revision 13: the bytes 88 7e are fatal at the second byte. -/
theorem C10_control_frames_short_witness :
    (rx_feed server_env (fresh_wsi 13 .xor_mask_05) [0x88, 0x7e]).1 = [0, -1] ∧
    ((((unmask_pre07 after_close_byte_wsi 0x7e).1 &&& 0x7f = 126 ∨
        (unmask_pre07 after_close_byte_wsi 0x7e).1 &&& 0x7f = 127) →
      (libwebsocket_rx_sm server_env after_close_byte_wsi 0x7e).1 = -1) ∧
    ((unmask_pre07 after_close_byte_wsi 0x7e).1 &&& 0x7f ≤ 125 →
      ((libwebsocket_rx_sm server_env after_close_byte_wsi 0x7e).1 = -1 ↔
        (after_close_byte_wsi.ietf_spec_revision < 7 ∧
          (unmask_pre07 after_close_byte_wsi 0x7e).1 &&& 0x80 ≠ 0)) ∧
      (¬ (after_close_byte_wsi.ietf_spec_revision < 7 ∧
          (unmask_pre07 after_close_byte_wsi 0x7e).1 &&& 0x80 ≠ 0) →
        (libwebsocket_rx_sm server_env after_close_byte_wsi 0x7e).1 = 0 ∧
        ((libwebsocket_rx_sm server_env after_close_byte_wsi 0x7e).2.lws_rx_parse_state =
            .LWS_RXPS_07_COLLECT_FRAME_KEY_1 ∨
          (libwebsocket_rx_sm server_env after_close_byte_wsi 0x7e).2.lws_rx_parse_state =
            .LWS_RXPS_PAYLOAD_UNTIL_LENGTH_EXHAUSTED))) ∧
    (libwebsocket_rx_sm server_env after_close_byte_wsi 0x7e).2.lws_rx_parse_state ≠
      .LWS_RXPS_04_FRAME_HDR_LEN16_2 ∧
    (libwebsocket_rx_sm server_env after_close_byte_wsi 0x7e).2.lws_rx_parse_state ≠
      .LWS_RXPS_04_FRAME_HDR_LEN64_8) :=
  ⟨by decide,
    C10_control_frames_short server_env after_close_byte_wsi 0x7e (by decide) (by decide)⟩

theorem low_nibble (u : Nat) : u &&& 0xf = u % 16 := Nat.and_pow_two_sub_one_eq_mod u 4

theorem bit7_test (u : Nat) : ((u >>> 7) &&& 1 != 0) = u.testBit 7 := by
  simp [Nat.testBit, Nat.and_comm]

theorem handle_first_pre07 (wsi : Wsi) (c : Nat) (hrev : wsi.ietf_spec_revision < 7) :
    ((call_xor_mask wsi c).1 % 16 ≤ 5 →
      (handle_first wsi c).1 = 0 ∧
      (handle_first wsi c).2.opcode = [0, 8, 9, 10, 1, 2].getD ((call_xor_mask wsi c).1 % 16) 0 ∧
      (handle_first wsi c).2.final = (call_xor_mask wsi c).1.testBit 7 ∧
      (handle_first wsi c).2.rsv = (call_xor_mask wsi c).1 &&& 0x70 ∧
      (handle_first wsi c).2.lws_rx_parse_state = .LWS_RXPS_04_FRAME_HDR_LEN) ∧
    (6 ≤ (call_xor_mask wsi c).1 % 16 → (handle_first wsi c).1 = -1) := by
  have hrev1 : (call_xor_mask wsi c).2.ietf_spec_revision < 7 := by
    rw [call_xor_mask_rev]; exact hrev
  simp only [handle_first, unmask_pre07, hrev, if_true, hrev1, low_nibble, bit7_test]
  generalize (call_xor_mask wsi c).1 = u
  have hu : u % 16 < 16 := Nat.mod_lt _ (by decide)
  generalize u % 16 = x at hu
  constructor
  · intro hx
    interval_cases x <;> simp
  · intro hx
    interval_cases x <;> simp

theorem handle_first_v07 (wsi : Wsi) (c : Nat) (hrev : ¬ wsi.ietf_spec_revision < 7) :
    handle_first wsi c = (0, { wsi with
      opcode := c % 16
      rsv := c &&& 0x70
      final := c.testBit 7
      lws_rx_parse_state := .LWS_RXPS_04_FRAME_HDR_LEN }) := by
  simp only [handle_first, unmask_pre07, hrev, if_false, low_nibble, bit7_test]

/-- C11 (opcode normalisation).  At revisions 4 to 6, in the state that takes the first
header byte, the low nibble x of the unmasked byte is stored as opcode 0, 8, 9, 10, 1, 2
for x = 0, 1, 2, 3, 4, 5, with final the bit 7 and rsv the bits 6..4 of the unmasked
byte, and every x from 6 to 15 makes libwebsocket_rx_sm return -1.  At revisions 7, 8
and 13, where the first header byte arrives in the state NEW, the step returns 0 and
stores the low nibble itself, final the bit 7 and rsv the bits 6..4 of the byte. -/
theorem C11_opcode_normalisation (env : Env) (wsi : Wsi) (c : Nat) :
    (wsi.lws_rx_parse_state = .LWS_RXPS_04_FRAME_HDR_1 →
      (wsi.ietf_spec_revision = 4 ∨ wsi.ietf_spec_revision = 5 ∨
        wsi.ietf_spec_revision = 6) →
      ((call_xor_mask wsi c).1 % 16 ≤ 5 →
        (libwebsocket_rx_sm env wsi c).1 = 0 ∧
        (libwebsocket_rx_sm env wsi c).2.opcode =
          [0, 8, 9, 10, 1, 2].getD ((call_xor_mask wsi c).1 % 16) 0 ∧
        (libwebsocket_rx_sm env wsi c).2.final = (call_xor_mask wsi c).1.testBit 7 ∧
        (libwebsocket_rx_sm env wsi c).2.rsv = (call_xor_mask wsi c).1 &&& 0x70 ∧
        (libwebsocket_rx_sm env wsi c).2.lws_rx_parse_state = .LWS_RXPS_04_FRAME_HDR_LEN) ∧
      (6 ≤ (call_xor_mask wsi c).1 % 16 → (libwebsocket_rx_sm env wsi c).1 = -1)) ∧
    (wsi.lws_rx_parse_state = .LWS_RXPS_NEW →
      (wsi.ietf_spec_revision = 7 ∨ wsi.ietf_spec_revision = 8 ∨
        wsi.ietf_spec_revision = 13) →
      libwebsocket_rx_sm env wsi c = (0, { wsi with
        all_zero_nonce := true
        opcode := c % 16
        rsv := c &&& 0x70
        final := c.testBit 7
        lws_rx_parse_state := .LWS_RXPS_04_FRAME_HDR_LEN })) := by
  constructor
  · intro hst hrev
    have h7 : wsi.ietf_spec_revision < 7 := by omega
    have hsm : libwebsocket_rx_sm env wsi c = handle_first wsi c := by
      simp only [libwebsocket_rx_sm, hst]
    rw [hsm]
    exact handle_first_pre07 wsi c h7
  · intro hst hrev
    have h0 : wsi.ietf_spec_revision ≠ 0 := by omega
    have h456 : ¬ (wsi.ietf_spec_revision = 4 ∨ wsi.ietf_spec_revision = 5 ∨
        wsi.ietf_spec_revision = 6) := by omega
    have hsm : libwebsocket_rx_sm env wsi c =
        handle_first { wsi with all_zero_nonce := true } c := by
      simp only [libwebsocket_rx_sm, hst, h0, h456, hrev, if_true, if_false]
    rw [hsm, handle_first_v07]
    show ¬ wsi.ietf_spec_revision < 7
    omega

/-- C11 at revision 5 on the wire byte b3, which the nonce byte 37 unmasks to 84 (final
set, low nibble 4, stored as opcode 1), and at revision 13 on the byte 8a. -/
theorem C11_opcode_normalisation_witness :
    ((libwebsocket_rx_sm server_env first_byte_wsi 0xb3).1 = 0 ∧
      (libwebsocket_rx_sm server_env first_byte_wsi 0xb3).2.opcode = 1 ∧
      (libwebsocket_rx_sm server_env first_byte_wsi 0xb3).2.final = true ∧
      (libwebsocket_rx_sm server_env first_byte_wsi 0xb3).2.rsv = 0 ∧
      (libwebsocket_rx_sm server_env first_byte_wsi 0xb3).2.lws_rx_parse_state =
        .LWS_RXPS_04_FRAME_HDR_LEN) ∧
    libwebsocket_rx_sm server_env (fresh_wsi 13 .xor_mask_05) 0x8a =
      (0, { fresh_wsi 13 .xor_mask_05 with
        all_zero_nonce := true
        opcode := 10
        rsv := 0
        final := true
        lws_rx_parse_state := .LWS_RXPS_04_FRAME_HDR_LEN }) :=
  ⟨((C11_opcode_normalisation server_env first_byte_wsi 0xb3).1 rfl
      (Or.inr (Or.inl rfl))).1 (by decide),
    (C11_opcode_normalisation server_env (fresh_wsi 13 .xor_mask_05) 0x8a).2 rfl
      (Or.inr (Or.inr rfl))⟩

/-! ## The pump: fatal returns, back-pressure and the drain -/

theorem rx_feed_nonneg_length (env : Env) (l : List Nat) (wsi : Wsi)
    (h : ∀ m ∈ (rx_feed env wsi l).1, 0 ≤ m) : (rx_feed env wsi l).1.length = l.length := by
  induction l generalizing wsi with
  | nil => simp [rx_feed]
  | cons c rest ih =>
    rw [rx_feed_cons] at h ⊢
    split
    · next hneg =>
      rw [if_pos hneg] at h
      have := h _ (List.mem_singleton.mpr rfl)
      omega
    · next hneg =>
      rw [if_neg hneg] at h
      simp only [List.length_cons]
      rw [ih]
      intro m hm
      exact h m (List.mem_cons_of_mem _ hm)

theorem pump_loop_ready (env : Env) (cr : Bool) (l : List Nat) (n : Nat) (wsi : Wsi)
    (h : ready_throughout env wsi l = true) :
    pump_loop env cr l n wsi =
      if (rx_feed env wsi l).1.any (fun m => decide (m < 0)) then (-1, (rx_feed env wsi l).2)
      else if cr then
        (0, { (rx_feed env wsi l).2 with rxflow_buffer := none, pollin := false })
      else (0, (rx_feed env wsi l).2) := by
  induction l generalizing n wsi with
  | nil => simp [pump_loop, rx_feed]
  | cons c rest ih =>
    simp only [ready_throughout, Bool.and_eq_true, Bool.or_eq_true, decide_eq_true_eq] at h
    rw [rx_feed_cons]
    simp only [pump_loop, h.1]
    by_cases hneg : (libwebsocket_rx_sm env wsi c).1 < 0
    · simp [hneg]
    · have h2 : ready_throughout env (libwebsocket_rx_sm env wsi c).2 rest = true := by
        rcases h.2 with h2 | h2
        · exact absurd h2 hneg
        · exact h2
      simp only [hneg, if_false, Bool.true_eq_false, List.any_cons, decide_False, Bool.false_or]
      exact ih (n + 1) _ h2

theorem rx_feed_first_fatal (env : Env) (l : List Nat) (wsi : Wsi)
    (h : (rx_feed env wsi l).1.any (fun m => decide (m < 0)) = true) :
    ∃ a c b, l = a ++ c :: b ∧
      (∀ m ∈ (rx_feed env wsi a).1, 0 ≤ m) ∧
      (rx_feed env wsi a).1.length = a.length ∧
      (libwebsocket_rx_sm env (rx_feed env wsi a).2 c).1 < 0 ∧
      (rx_feed env wsi l).2 = (libwebsocket_rx_sm env (rx_feed env wsi a).2 c).2 := by
  induction l generalizing wsi with
  | nil => simp [rx_feed] at h
  | cons c rest ih =>
    rw [rx_feed_cons] at h ⊢
    by_cases hneg : (libwebsocket_rx_sm env wsi c).1 < 0
    · refine ⟨[], c, rest, rfl, ?_, rfl, ?_, ?_⟩
      · simp [rx_feed]
      · simpa [rx_feed] using hneg
      · simp [rx_feed, hneg]
    · simp only [hneg, if_false, List.any_cons, decide_False, Bool.false_or] at h ⊢
      obtain ⟨a, c1, b, hl, hall, hlen, hfat, hS⟩ := ih _ h
      refine ⟨c :: a, c1, b, by rw [hl]; rfl, ?_, ?_, ?_, ?_⟩
      · rw [rx_feed_cons]
        simp only [hneg, if_false]
        intro m hm
        rcases List.mem_cons.mp hm with hm | hm
        · rw [hm]; omega
        · exact hall m hm
      · rw [rx_feed_cons]
        simp only [hneg, if_false, List.length_cons, hlen]
      · rw [rx_feed_cons]
        simpa only [hneg, if_false] using hfat
      · rw [rx_feed_cons]
        simpa only [hneg, if_false] using hS

/-- C14 (fatal propagation in the pump).  With the consumer-ready bit found set at every
check, the pump called on the input l returns -1 exactly when libwebsocket_rx_sm returns
a negative value on some byte fed.  In that case the input splits as a ++ c :: b where
every byte of a was fed with a non-negative return, c is the byte with the negative
return, and the record left is the one libwebsocket_rx_sm left at c, so that no byte of
b was fed.  Otherwise every byte is fed and the pump returns 0; the record is the one
the last byte left, with the rxflow buffer released and the bit cleared if a buffer was
pending at entry. -/
theorem C14_fatal_propagation (env : Env) (wsi : Wsi) (l : List Nat)
    (hready : ready_throughout env wsi l = true) :
    ((libwebsocket_interpret_incoming_packet env wsi (some l)).1 = -1 ↔
      ∃ m ∈ (rx_feed env wsi l).1, m < 0) ∧
    ((∃ m ∈ (rx_feed env wsi l).1, m < 0) →
      ∃ a c b, l = a ++ c :: b ∧
        (∀ m ∈ (rx_feed env wsi a).1, 0 ≤ m) ∧
        (rx_feed env wsi a).1.length = a.length ∧
        (libwebsocket_rx_sm env (rx_feed env wsi a).2 c).1 < 0 ∧
        (libwebsocket_interpret_incoming_packet env wsi (some l)).2 =
          (libwebsocket_rx_sm env (rx_feed env wsi a).2 c).2) ∧
    ((∀ m ∈ (rx_feed env wsi l).1, 0 ≤ m) →
      (libwebsocket_interpret_incoming_packet env wsi (some l)).1 = 0 ∧
      (rx_feed env wsi l).1.length = l.length ∧
      (libwebsocket_interpret_incoming_packet env wsi (some l)).2 =
        if wsi.rxflow_buffer.isSome then
          { (rx_feed env wsi l).2 with rxflow_buffer := none, pollin := false }
        else (rx_feed env wsi l).2) := by
  have hp := pump_loop_ready env wsi.rxflow_buffer.isSome l 0 wsi hready
  have hany : (rx_feed env wsi l).1.any (fun m => decide (m < 0)) = true ↔
      ∃ m ∈ (rx_feed env wsi l).1, m < 0 := by
    simp [List.any_eq_true]
  simp only [libwebsocket_interpret_incoming_packet]
  refine ⟨?_, ?_, ?_⟩
  · rw [hp, ← hany]
    by_cases ha : (rx_feed env wsi l).1.any (fun m => decide (m < 0)) = true
    · simp [ha]
    · simp only [ha, if_false]
      by_cases hs : wsi.rxflow_buffer.isSome = true <;> simp [hs]
  · intro hex
    have ha := hany.mpr hex
    obtain ⟨a, c, b, hl, hall, hlen, hfat, hS⟩ := rx_feed_first_fatal env l wsi ha
    refine ⟨a, c, b, hl, hall, hlen, hfat, ?_⟩
    rw [hp, if_pos ha]
    exact hS
  · intro hall
    have ha : ¬ (rx_feed env wsi l).1.any (fun m => decide (m < 0)) = true := by
      rw [hany]
      rintro ⟨m, hm, hlt⟩
      have := hall m hm
      omega
    rw [hp, if_neg ha]
    refine ⟨?_, rx_feed_nonneg_length env l wsi hall, ?_⟩
    · split <;> rfl
    · split <;> rfl

/-- C14 on a CLOSE frame with the status 1000 followed by the first bytes of a text
frame: the last byte of the CLOSE frame has the negative return and the pump returns
-1. -/
theorem C14_fatal_propagation_witness :
    ready_throughout server_env (fresh_wsi 13 .xor_mask_05) (close_frame ++ [0x81, 0x85]) =
      true ∧
    (rx_feed server_env (fresh_wsi 13 .xor_mask_05) (close_frame ++ [0x81, 0x85])).1 =
      [0, 0, 0, 0, 0, 0, 0, -1] ∧
    (libwebsocket_interpret_incoming_packet server_env (fresh_wsi 13 .xor_mask_05)
      (some (close_frame ++ [0x81, 0x85]))).1 = -1 :=
  ⟨by decide, by decide,
    (C14_fatal_propagation server_env (fresh_wsi 13 .xor_mask_05)
      (close_frame ++ [0x81, 0x85]) (by decide)).1.mpr (by decide)⟩

theorem pump_loop_capture (env : Env) (a : List Nat) (c : Nat) (b : List Nat) (wsi : Wsi)
    (hbuf : wsi.rxflow_buffer = none)
    (hready : ready_throughout env wsi a = true)
    (hzero : ∀ m ∈ (rx_feed env wsi a).1, 0 ≤ m)
    (hclear : (rx_feed env wsi a).2.pollin = false) :
    pump_loop env false (a ++ c :: b) 0 wsi =
      (1, { (rx_feed env wsi a).2 with
        rxflow_buffer := some (c :: b)
        rxflow_len := (c :: b).length
        rxflow_pos := 0 }) := by
  have h1 := ready_throughout_pump env a 0 wsi hready
  have hnone := pump_loop_rxflow_none env a 0 wsi hbuf h1
  have hany : ¬ (rx_feed env wsi a).1.any (fun m => decide (m < 0)) = true := by
    simp only [List.any_eq_true, decide_eq_true_eq, not_exists, not_and]
    intro m hm
    have := hzero m hm
    omega
  have hp := pump_loop_ready env false a 0 wsi hready
  rw [if_neg hany] at hp
  simp only [Bool.false_eq_true, if_false] at hp
  rw [pump_loop_append env a (c :: b) 0 wsi hbuf h1, hp]
  rw [hp] at hnone
  have hnone1 : (rx_feed env wsi a).2.rxflow_buffer = none := hnone
  simp only [pump_loop, hclear, hnone1]
  simp [hclear]

/-- C12 (back-pressure capture).  The pump is called on an input buf with no rxflow
buffer pending; the bytes before index k are fed with the consumer-ready bit found set
and without a negative return, and they leave the bit clear, so that it is first found
clear before byte k.  Then the pump returns 1, the bytes fed are exactly the k bytes
before index k, in order, and the record is the one they leave with the rxflow buffer
holding the bytes from index k on, its length the number of those bytes and its read
position 0. -/
theorem C12_backpressure_capture (env : Env) (wsi : Wsi) (buf : List Nat) (k : Nat)
    (hk : k < buf.length)
    (hbuf : wsi.rxflow_buffer = none)
    (hready : ready_throughout env wsi (buf.take k) = true)
    (hzero : ∀ m ∈ (rx_feed env wsi (buf.take k)).1, 0 ≤ m)
    (hclear : (rx_feed env wsi (buf.take k)).2.pollin = false) :
    libwebsocket_interpret_incoming_packet env wsi (some buf) =
      (1, { (rx_feed env wsi (buf.take k)).2 with
        rxflow_buffer := some (buf.drop k)
        rxflow_len := buf.length - k
        rxflow_pos := 0 }) ∧
    (rx_feed env wsi (buf.take k)).1.length = k := by
  have hlen : (rx_feed env wsi (buf.take k)).1.length = k := by
    rw [rx_feed_nonneg_length env _ wsi hzero, List.length_take]
    omega
  refine ⟨?_, hlen⟩
  obtain ⟨c, b, hcb⟩ : ∃ c b, buf.drop k = c :: b := by
    cases hd : buf.drop k with
    | nil =>
      have := congrArg List.length hd
      simp only [List.length_drop, List.length_nil] at this
      omega
    | cons c b => exact ⟨c, b, rfl⟩
  have hsplit : buf = buf.take k ++ c :: b := by
    rw [← hcb, List.take_append_drop]
  have hl : buf.length - k = (c :: b).length := by
    rw [← hcb, List.length_drop]
  simp only [libwebsocket_interpret_incoming_packet, hbuf, Option.isSome_none]
  rw [hcb, hl]
  have h := pump_loop_capture env (buf.take k) c b wsi hbuf hready hzero hclear
  rw [← hsplit] at h
  exact h

/-- C12 at scenario 3 with a consumer that de-asserts ready in the Receive callback of
the first payload byte: the bit is found clear before byte 7 and bytes 7..10 are kept. -/
theorem C12_backpressure_capture_witness :
    libwebsocket_interpret_incoming_packet throttle_env (fresh_wsi 13 .xor_mask_05)
        (some hello_frame) =
      (1, { (rx_feed throttle_env (fresh_wsi 13 .xor_mask_05) (hello_frame.take 7)).2 with
        rxflow_buffer := some [0x9f, 0x4d, 0x51, 0x58]
        rxflow_len := 4
        rxflow_pos := 0 }) ∧
    (rx_feed throttle_env (fresh_wsi 13 .xor_mask_05) (hello_frame.take 7)).1.length = 7 :=
  C12_backpressure_capture throttle_env (fresh_wsi 13 .xor_mask_05) hello_frame 7
    (by decide) rfl (by decide) (by decide) (by decide)

theorem Wsi.flow_flow (w : Wsi) (p p1 : Bool) (b b1 : Option (List Nat)) (l l1 q q1 : Nat) :
    (w.flow p b l q).flow p1 b1 l1 q1 = w.flow p1 b1 l1 q1 := rfl

theorem Wsi.flow_self (w : Wsi) :
    w.flow w.pollin w.rxflow_buffer w.rxflow_len w.rxflow_pos = w := rfl

theorem Wsi.eq_flow_of_seen (w1 w2 : Wsi) (h : w1.seen = w2.seen) :
    w1 = w2.flow w1.pollin w1.rxflow_buffer w1.rxflow_len w1.rxflow_pos := by
  have h1 := congrArg (fun w => w.flow w1.pollin w1.rxflow_buffer w1.rxflow_len w1.rxflow_pos) h
  simp only [Wsi.seen, Wsi.flow_flow] at h1
  rw [← h1]
  rfl

theorem call_xor_mask_flow (w : Wsi) (p : Bool) (b : Option (List Nat)) (l q : Nat) (c : Nat) :
    call_xor_mask (w.flow p b l q) c =
      ((call_xor_mask w c).1, (call_xor_mask w c).2.flow p b l q) := by
  cases hx : w.xor_mask <;>
    simp [call_xor_mask, hx, Wsi.flow, xor_no_mask, xor_mask_04, xor_mask_05]

theorem unmask_pre07_flow (w : Wsi) (p : Bool) (b : Option (List Nat)) (l q : Nat) (c : Nat) :
    unmask_pre07 (w.flow p b l q) c =
      ((unmask_pre07 w c).1, (unmask_pre07 w c).2.flow p b l q) := by
  unfold unmask_pre07
  by_cases h : w.ietf_spec_revision < 7
  · have h1 : (w.flow p b l q).ietf_spec_revision < 7 := h
    rw [if_pos h, if_pos h1, call_xor_mask_flow]
  · have h1 : ¬ (w.flow p b l q).ietf_spec_revision < 7 := h
    rw [if_neg h, if_neg h1]

theorem handle_first_flow (w : Wsi) (p : Bool) (b : Option (List Nat)) (l q : Nat) (c : Nat) :
    handle_first (w.flow p b l q) c =
      ((handle_first w c).1, (handle_first w c).2.flow p b l q) := by
  unfold handle_first
  simp only [unmask_pre07_flow]
  have hr : ∀ v : Wsi, (v.flow p b l q).ietf_spec_revision = v.ietf_spec_revision :=
    fun _ => rfl
  simp only [hr]
  generalize (unmask_pre07 w c).1 = u
  generalize (unmask_pre07 w c).2 = w1
  by_cases h7 : w1.ietf_spec_revision < 7
  · rw [if_pos h7, if_pos h7]
    split_ifs <;> rfl
  · rw [if_neg h7, if_neg h7]
    rfl

theorem ext_extended_loop_flow (exts : List (ExtReason → List Nat → ExtOut)) (n : Nat)
    (eff : List Nat) (handled : Bool) (w : Wsi) (p : Bool) (b : Option (List Nat))
    (l q : Nat) :
    ext_extended_loop exts n eff handled (w.flow p b l q) =
      ((ext_extended_loop exts n eff handled w).1,
        (ext_extended_loop exts n eff handled w).2.flow p b l q) := by
  induction exts generalizing n eff handled w with
  | nil => rfl
  | cons e rest ih =>
    simp only [ext_extended_loop]
    exact ih _ _ _ { w with trace := w.trace ++
      [Event.extension n .LWS_EXT_CALLBACK_EXTENDED_PAYLOAD_RX eff] }

theorem ext_payload_loop_flow (exts : List (ExtReason → List Nat → ExtOut)) (n : Nat)
    (eff : List Nat) (w : Wsi) (p : Bool) (b : Option (List Nat)) (l q : Nat) :
    ext_payload_loop exts n eff (w.flow p b l q) =
      ((ext_payload_loop exts n eff w).1, (ext_payload_loop exts n eff w).2.flow p b l q) := by
  induction exts generalizing n eff w with
  | nil => rfl
  | cons e rest ih =>
    simp only [ext_payload_loop]
    split
    · rfl
    · exact ih _ _ { w with trace := w.trace ++
        [Event.extension n .LWS_EXT_CALLBACK_PAYLOAD_RX eff] }


theorem spill_flow (env : Env) (w : Wsi) (p : Bool) (b : Option (List Nat)) (l q : Nat) :
    (spill env (w.flow p b l q)).1 = (spill env w).1 ∧
    (spill env (w.flow p b l q)).2 =
      (spill env w).2.flow (spill env (w.flow p b l q)).2.pollin b l q := by
  unfold spill
  simp only [ext_payload_loop_flow, ext_extended_loop_flow]
  have ho : (w.flow p b l q).opcode = w.opcode := rfl
  have hs : (w.flow p b l q).state = w.state := rfl
  have hb : (w.flow p b l q).rx_user_buffer = w.rx_user_buffer := rfl
  simp only [ho, hs, hb]
  repeat' split
  all_goals exact ⟨rfl, rfl⟩

theorem issue_flow (env : Env) (w : Wsi) (p : Bool) (b : Option (List Nat)) (l q : Nat) :
    (issue env (w.flow p b l q)).1 = (issue env w).1 ∧
    (issue env (w.flow p b l q)).2 =
      (issue env w).2.flow (issue env (w.flow p b l q)).2.pollin b l q := by
  unfold issue
  split <;> exact ⟨rfl, rfl⟩


theorem handle_first_seen (w1 w2 : Wsi) (c : Nat) (h : w1.seen = w2.seen) :
    (handle_first w1 c).1 = (handle_first w2 c).1 ∧
    (handle_first w1 c).2 = (handle_first w2 c).2.flow (handle_first w1 c).2.pollin
      w1.rxflow_buffer w1.rxflow_len w1.rxflow_pos := by
  have h1 := Wsi.eq_flow_of_seen w1 w2 h
  generalize w1.pollin = p at h1
  generalize w1.rxflow_buffer = b at h1
  generalize w1.rxflow_len = l at h1
  generalize w1.rxflow_pos = q at h1
  subst h1
  rw [handle_first_flow]
  exact ⟨rfl, rfl⟩

theorem spill_seen (env : Env) (w1 w2 : Wsi) (h : w1.seen = w2.seen) :
    (spill env w1).1 = (spill env w2).1 ∧
    (spill env w1).2 = (spill env w2).2.flow (spill env w1).2.pollin
      w1.rxflow_buffer w1.rxflow_len w1.rxflow_pos := by
  have h1 := Wsi.eq_flow_of_seen w1 w2 h
  generalize w1.pollin = p at h1
  generalize w1.rxflow_buffer = b at h1
  generalize w1.rxflow_len = l at h1
  generalize w1.rxflow_pos = q at h1
  subst h1
  exact spill_flow env w2 _ _ _ _

theorem issue_seen (env : Env) (w1 w2 : Wsi) (h : w1.seen = w2.seen) :
    (issue env w1).1 = (issue env w2).1 ∧
    (issue env w1).2 = (issue env w2).2.flow (issue env w1).2.pollin
      w1.rxflow_buffer w1.rxflow_len w1.rxflow_pos := by
  have h1 := Wsi.eq_flow_of_seen w1 w2 h
  generalize w1.pollin = p at h1
  generalize w1.rxflow_buffer = b at h1
  generalize w1.rxflow_len = l at h1
  generalize w1.rxflow_pos = q at h1
  subst h1
  exact issue_flow env w2 _ _ _ _

theorem rx_sm_flow (env : Env) (w : Wsi) (p : Bool) (b : Option (List Nat)) (l q : Nat)
    (c : Nat) :
    (libwebsocket_rx_sm env (w.flow p b l q) c).1 = (libwebsocket_rx_sm env w c).1 ∧
    (libwebsocket_rx_sm env (w.flow p b l q) c).2 =
      (libwebsocket_rx_sm env w c).2.flow
        (libwebsocket_rx_sm env (w.flow p b l q) c).2.pollin b l q := by
  have hst : (w.flow p b l q).lws_rx_parse_state = w.lws_rx_parse_state := rfl
  have hrev : ∀ v : Wsi, (v.flow p b l q).ietf_spec_revision = v.ietf_spec_revision :=
    fun _ => rfl
  have hz : ∀ v : Wsi, (v.flow p b l q).all_zero_nonce = v.all_zero_nonce := fun _ => rfl
  have hop : ∀ v : Wsi, (v.flow p b l q).opcode = v.opcode := fun _ => rfl
  have htm : ∀ v : Wsi, (v.flow p b l q).this_frame_masked = v.this_frame_masked :=
    fun _ => rfl
  have hpl : ∀ v : Wsi, (v.flow p b l q).rx_packet_length = v.rx_packet_length :=
    fun _ => rfl
  have hub : ∀ v : Wsi, (v.flow p b l q).rx_user_buffer = v.rx_user_buffer := fun _ => rfl
  cases h : w.lws_rx_parse_state <;>
    simp only [libwebsocket_rx_sm, hst, h, hrev, hz, hop, htm, hpl, hub, len_or, after_length,
      unmask_pre07_flow, call_xor_mask_flow, Wsi.rx_user_buffer_head]
  case LWS_RXPS_NEW =>
    split_ifs
    · exact ⟨rfl, rfl⟩
    · exact ⟨rfl, rfl⟩
    · exact ⟨rfl, rfl⟩
    · exact ⟨rfl, rfl⟩
    · exact ⟨rfl, rfl⟩
    · exact handle_first_seen _ _ _ rfl
    · exact ⟨rfl, rfl⟩
  case LWS_RXPS_04_FRAME_HDR_1 => exact handle_first_seen _ _ _ rfl
  case LWS_RXPS_04_MASK_NONCE_3 => split_ifs <;> exact ⟨rfl, rfl⟩
  case LWS_RXPS_04_FRAME_HDR_LEN => split_ifs <;> exact ⟨rfl, rfl⟩
  case LWS_RXPS_04_FRAME_HDR_LEN64_8 => split_ifs <;> exact ⟨rfl, rfl⟩
  case LWS_RXPS_SEEN_76_FF => split_ifs <;> exact ⟨rfl, rfl⟩
  case LWS_RXPS_EAT_UNTIL_76_FF =>
    split_ifs
    · exact issue_seen env _ _ rfl
    · exact ⟨rfl, rfl⟩
    · exact issue_seen env _ _ rfl
  case LWS_RXPS_PAYLOAD_UNTIL_LENGTH_EXHAUSTED =>
    by_cases hm : w.ietf_spec_revision < 4 ∨
        (w.all_zero_nonce = true ∧ w.ietf_spec_revision ≥ 5)
    · simp only [hm, if_true, hpl, hub]
      split_ifs
      · exact spill_seen env _ _ rfl
      · exact ⟨rfl, rfl⟩
      · exact spill_seen env _ _ rfl
    · simp only [hm, if_false, hpl, hub]
      split_ifs
      · exact spill_seen env _ _ rfl
      · exact ⟨rfl, rfl⟩
      · exact spill_seen env _ _ rfl
  all_goals (try split_ifs)
  all_goals first
    | exact ⟨rfl, rfl⟩
    | exact ⟨trivial, rfl⟩


theorem rx_sm_seen (env : Env) (w1 w2 : Wsi) (c : Nat) (h : w1.seen = w2.seen) :
    (libwebsocket_rx_sm env w1 c).1 = (libwebsocket_rx_sm env w2 c).1 ∧
    (libwebsocket_rx_sm env w1 c).2.seen = (libwebsocket_rx_sm env w2 c).2.seen := by
  have h1 := Wsi.eq_flow_of_seen w1 w2 h
  generalize w1.pollin = p at h1
  generalize w1.rxflow_buffer = b at h1
  generalize w1.rxflow_len = l at h1
  generalize w1.rxflow_pos = q at h1
  subst h1
  have h2 := rx_sm_flow env w2 p b l q c
  refine ⟨h2.1, ?_⟩
  rw [h2.2]
  rfl

theorem rx_sm_rxflow_len (env : Env) (w : Wsi) (c : Nat) :
    (libwebsocket_rx_sm env w c).2.rxflow_len = w.rxflow_len := by
  have h := (rx_sm_flow env w w.pollin w.rxflow_buffer w.rxflow_len w.rxflow_pos c).2
  rw [Wsi.flow_self] at h
  rw [h]
  rfl

theorem rx_feed_seen (env : Env) (l : List Nat) (w1 w2 : Wsi) (h : w1.seen = w2.seen) :
    (rx_feed env w1 l).1 = (rx_feed env w2 l).1 ∧
    (rx_feed env w1 l).2.seen = (rx_feed env w2 l).2.seen := by
  induction l generalizing w1 w2 with
  | nil => exact ⟨rfl, h⟩
  | cons c rest ih =>
    have hs := rx_sm_seen env w1 w2 c h
    rw [rx_feed_cons, rx_feed_cons, hs.1]
    split
    · exact ⟨rfl, hs.2⟩
    · have := ih _ _ hs.2
      exact ⟨by rw [this.1], this.2⟩

theorem drain_succ (env : Env) (fuel : Nat) (wsi : Wsi) :
    drain env (fuel + 1) wsi =
      if (libwebsocket_interpret_incoming_packet env wsi none).1 = 1 then
        drain env fuel (libwebsocket_interpret_incoming_packet env wsi none).2
      else libwebsocket_interpret_incoming_packet env wsi none := rfl

theorem pump_loop_cons_ready (env : Env) (cr : Bool) (c : Nat) (rest : List Nat) (n : Nat)
    (w : Wsi) (hp : w.pollin = true) (hz : 0 ≤ (libwebsocket_rx_sm env w c).1) :
    pump_loop env cr (c :: rest) n w =
      pump_loop env cr rest (n + 1) (libwebsocket_rx_sm env w c).2 := by
  have hneg : ¬ (libwebsocket_rx_sm env w c).1 < 0 := by omega
  simp only [pump_loop, hp, hneg, if_false, Bool.true_eq_false]

theorem pump_loop_cons_hold (env : Env) (cr : Bool) (c : Nat) (rest : List Nat) (n : Nat)
    (w : Wsi) (buf : List Nat) (hp : w.pollin = false) (hb : w.rxflow_buffer = some buf) :
    pump_loop env cr (c :: rest) n w = (1, { w with rxflow_pos := n }) := by
  simp only [pump_loop, hp, hb, if_true]

theorem rx_feed_cons_nonneg (env : Env) (c : Nat) (rest : List Nat) (w : Wsi)
    (h : ∀ m ∈ (rx_feed env w (c :: rest)).1, 0 ≤ m) :
    0 ≤ (libwebsocket_rx_sm env w c).1 ∧
    (∀ m ∈ (rx_feed env (libwebsocket_rx_sm env w c).2 rest).1, 0 ≤ m) ∧
    (rx_feed env w (c :: rest)).2 = (rx_feed env (libwebsocket_rx_sm env w c).2 rest).2 := by
  rw [rx_feed_cons] at h ⊢
  by_cases hneg : (libwebsocket_rx_sm env w c).1 < 0
  · rw [if_pos hneg] at h
    have := h _ (List.mem_singleton.mpr rfl)
    omega
  · rw [if_neg hneg] at h
    rw [if_neg hneg]
    refine ⟨by omega, ?_, rfl⟩
    intro m hm
    exact h m (List.mem_cons_of_mem _ hm)

/-- The drain, started inside a pump call that holds a pending buffer: the loop over the
bytes l still to be fed, followed by further calls with a NULL buffer while the call
returns 1, ends with a return of 0, the buffer released and every byte of l fed once. -/
theorem drain_loop (env : Env) (l : List Nat) :
    ∀ (n fuel : Nat) (w : Wsi) (buf : List Nat),
      w.rxflow_buffer = some buf →
      (buf.take w.rxflow_len).drop n = l →
      (∀ m ∈ (rx_feed env w l).1, 0 ≤ m) →
      l.length ≤ fuel + (if w.pollin then 1 else 0) →
      ∃ F, (if (pump_loop env true l n w).1 = 1 then
              drain env fuel (pump_loop env true l n w).2
            else pump_loop env true l n w) = (0, F) ∧
        F.rxflow_buffer = none ∧ F.seen = (rx_feed env w l).2.seen := by
  induction l with
  | nil =>
    intro n fuel w buf _ _ _ _
    refine ⟨{ w with rxflow_buffer := none, pollin := false }, ?_, rfl, rfl⟩
    simp [pump_loop]
  | cons c rest ih =>
    intro n fuel w buf hb hl hz hf
    obtain ⟨hc, hrest, hS⟩ := rx_feed_cons_nonneg env c rest w hz
    rw [hS]
    by_cases hp : w.pollin = true
    · rw [pump_loop_cons_ready env true c rest n w hp hc]
      apply ih (n + 1) fuel _ buf
      · rw [rx_sm_rxflow_buffer]; exact hb
      · rw [rx_sm_rxflow_len, ← List.drop_drop, hl]; rfl
      · exact hrest
      · simp only [hp, if_true, List.length_cons] at hf
        split <;> omega
    · have hp0 : w.pollin = false := by simpa using hp
      rw [pump_loop_cons_hold env true c rest n w buf hp0 hb]
      simp only [hp0, Bool.false_eq_true, if_false, List.length_cons] at hf
      obtain ⟨f, rfl⟩ : ∃ f, fuel = f + 1 := ⟨fuel - 1, by omega⟩
      simp only [if_true]
      rw [drain_succ]
      have hpump : libwebsocket_interpret_incoming_packet env { w with rxflow_pos := n } none =
          pump_loop env true (c :: rest) n (w.flow true (some buf) w.rxflow_len n) := by
        simp only [libwebsocket_interpret_incoming_packet, hb, Option.isSome_some,
          Option.getD_some, hl]
        rw [← hb]
        rfl
      have hs := rx_sm_seen env (w.flow true (some buf) w.rxflow_len n) w c rfl
      rw [hpump, pump_loop_cons_ready env true c rest n _ rfl (by rw [hs.1]; exact hc)]
      have hfs := rx_feed_seen env rest _ _ hs.2
      rw [← hfs.2]
      apply ih (n + 1) f _ buf
      · rw [rx_sm_rxflow_buffer]; rfl
      · rw [rx_sm_rxflow_len, ← List.drop_drop]
        show List.drop 1 (List.drop n (List.take w.rxflow_len buf)) = rest
        rw [hl]; rfl
      · rw [hfs.1]; exact hrest
      · split <;> omega


theorem capture_then_drain (env : Env) (l : List Nat) :
    ∀ (n fuel : Nat) (w : Wsi),
      w.rxflow_buffer = none →
      (∀ m ∈ (rx_feed env w l).1, 0 ≤ m) →
      (pump_loop env false l n w).1 = 1 →
      (pump_loop env false l n w).2.rxflow_len ≤ fuel →
      ∃ F, drain env fuel (pump_loop env false l n w).2 = (0, F) ∧
        F.rxflow_buffer = none ∧ F.seen = (rx_feed env w l).2.seen := by
  induction l with
  | nil =>
    intro n fuel w _ _ hone _
    simp [pump_loop] at hone
  | cons c rest ih =>
    intro n fuel w hb hz hone hf
    obtain ⟨hc, hrest, hS⟩ := rx_feed_cons_nonneg env c rest w hz
    by_cases hp : w.pollin = true
    · rw [pump_loop_cons_ready env false c rest n w hp hc] at hone hf ⊢
      rw [hS]
      exact ih (n + 1) fuel _ (by rw [rx_sm_rxflow_buffer]; exact hb) hrest hone hf
    · have hp0 : w.pollin = false := by simpa using hp
      have hcap : pump_loop env false (c :: rest) n w =
          (1, w.flow false (some (c :: rest)) (c :: rest).length 0) := by
        simp only [pump_loop, hp0, hb, if_true]
        rw [← hp0]
        rfl
      rw [hcap] at hf ⊢
      have hf1 : (c :: rest).length ≤ fuel := hf
      obtain ⟨f, rfl⟩ : ∃ f, fuel = f + 1 :=
        ⟨fuel - 1, by simp only [List.length_cons] at hf1; omega⟩
      rw [drain_succ]
      have hpump : libwebsocket_interpret_incoming_packet env
            (w.flow false (some (c :: rest)) (c :: rest).length 0) none =
          pump_loop env true (c :: rest) 0
            (w.flow true (some (c :: rest)) (c :: rest).length 0) := by
        simp [libwebsocket_interpret_incoming_packet, Wsi.flow]
      rw [hpump]
      have hs := rx_feed_seen env (c :: rest)
        (w.flow true (some (c :: rest)) (c :: rest).length 0) w rfl
      rw [← hs.2]
      apply drain_loop env (c :: rest) 0 f _ (c :: rest) rfl
      · show List.drop 0 (List.take (c :: rest).length (c :: rest)) = c :: rest
        simp
      · rw [hs.1]; exact hz
      · simp only [List.length_cons] at hf1 ⊢
        show rest.length + 1 ≤ f + (if true = true then 1 else 0)
        simp only [if_true]
        omega

theorem pump_loop_pos_ge (env : Env) (l : List Nat) :
    ∀ (n : Nat) (w : Wsi) (buf : List Nat), w.rxflow_buffer = some buf →
      (pump_loop env true l n w).1 = 1 → n ≤ (pump_loop env true l n w).2.rxflow_pos := by
  induction l with
  | nil =>
    intro n w buf _ hone
    simp [pump_loop] at hone
  | cons c rest ih =>
    intro n w buf hb hone
    by_cases hp : w.pollin = true
    · by_cases hneg : (libwebsocket_rx_sm env w c).1 < 0
      · simp [pump_loop, hp, hneg] at hone
      · rw [pump_loop_cons_ready env true c rest n w hp (by omega)] at hone ⊢
        have := ih (n + 1) _ buf (by rw [rx_sm_rxflow_buffer]; exact hb) hone
        omega
    · have hp0 : w.pollin = false := by simpa using hp
      rw [pump_loop_cons_hold env true c rest n w buf hp0 hb]

theorem drain_call_progress (env : Env) (w : Wsi)
    (h : (libwebsocket_interpret_incoming_packet env w none).1 = 1) :
    w.rxflow_pos < (libwebsocket_interpret_incoming_packet env w none).2.rxflow_pos := by
  cases hb : w.rxflow_buffer with
  | none =>
    simp [libwebsocket_interpret_incoming_packet, hb, pump_loop] at h
  | some buf =>
    have hpump : libwebsocket_interpret_incoming_packet env w none =
        pump_loop env true ((buf.take w.rxflow_len).drop w.rxflow_pos) w.rxflow_pos
          (w.flow true (some buf) w.rxflow_len w.rxflow_pos) := by
      simp only [libwebsocket_interpret_incoming_packet, hb, Option.isSome_some,
        Option.getD_some]
      rfl
    rw [hpump] at h ⊢
    generalize (buf.take w.rxflow_len).drop w.rxflow_pos = l at h ⊢
    cases l with
    | nil => simp [pump_loop] at h
    | cons c rest =>
      by_cases hneg : (libwebsocket_rx_sm env
          (w.flow true (some buf) w.rxflow_len w.rxflow_pos) c).1 < 0
      · have hp : (w.flow true (some buf) w.rxflow_len w.rxflow_pos).pollin = true := rfl
        simp [pump_loop, hp, hneg] at h
      · rw [pump_loop_cons_ready env true c rest _ _ rfl (by omega)] at h ⊢
        have := pump_loop_pos_ge env rest (w.rxflow_pos + 1) _ buf
          (by rw [rx_sm_rxflow_buffer]; rfl) h
        omega

/-- C13 as stated fails on two inputs.  A CLOSE frame held back by a consumer that is
not ready: the call on it returns 1, and the drain call that consumes its last byte
returns -1 and leaves the rxflow buffer in place.  A call on new input while an rxflow
buffer is still pending: it returns 1, and the drain then feeds the old buffer (a PING,
answered by a PONG) and never the new input (a text frame with the payload Hello). -/
theorem C13_fatal_or_pending_counterexample :
    ((libwebsocket_interpret_incoming_packet server_env held_wsi (some close_frame)).1 = 1 ∧
      (drain server_env 8
        (libwebsocket_interpret_incoming_packet server_env held_wsi (some close_frame)).2).1
        = -1 ∧
      (drain server_env 8
        (libwebsocket_interpret_incoming_packet server_env held_wsi
          (some close_frame)).2).2.rxflow_buffer = some close_frame) ∧
    ((libwebsocket_interpret_incoming_packet server_env pending_wsi (some hello_frame)).1 = 1 ∧
      (drain server_env 11
        (libwebsocket_interpret_incoming_packet server_env pending_wsi
          (some hello_frame)).2).1 = 0 ∧
      (drain server_env 11
        (libwebsocket_interpret_incoming_packet server_env pending_wsi
          (some hello_frame)).2).2.trace = [Event.write .LWS_WRITE_PONG (str "Hi")] ∧
      (rx_feed server_env pending_wsi hello_frame).2.trace =
        [Event.receive (str "Hello")]) := by
  decide

/-- C13 (the drain resumes where the pump stopped), with the two conditions it needs.
The pump is called on the input B with no rxflow buffer pending and returns 1, and
libwebsocket_rx_sm returns no negative value on a byte of B.  Then calls with a NULL
buffer, repeated while they return 1, end with a call that returns 0 and leaves no rxflow
buffer; as many calls as bytes were held back are enough, whatever the consumer does to
the ready bit in its callbacks.  The record left is, apart from the flow-control fields,
the record that feeding the bytes of B to libwebsocket_rx_sm one by one in order leaves,
the trace of callbacks and writes included.  Every call with a NULL buffer that returns
1 has moved the read position forward. -/
theorem C13_drain_resumes (env : Env) (wsi : Wsi) (B : List Nat) (fuel : Nat)
    (hbuf : wsi.rxflow_buffer = none)
    (hone : (libwebsocket_interpret_incoming_packet env wsi (some B)).1 = 1)
    (hzero : ∀ m ∈ (rx_feed env wsi B).1, 0 ≤ m)
    (hfuel : (libwebsocket_interpret_incoming_packet env wsi (some B)).2.rxflow_len ≤ fuel) :
    (drain env fuel (libwebsocket_interpret_incoming_packet env wsi (some B)).2).1 = 0 ∧
    (drain env fuel
      (libwebsocket_interpret_incoming_packet env wsi (some B)).2).2.rxflow_buffer = none ∧
    (drain env fuel (libwebsocket_interpret_incoming_packet env wsi (some B)).2).2.seen =
      (rx_feed env wsi B).2.seen ∧
    (∀ w : Wsi, (libwebsocket_interpret_incoming_packet env w none).1 = 1 →
      w.rxflow_pos < (libwebsocket_interpret_incoming_packet env w none).2.rxflow_pos) := by
  have hp : libwebsocket_interpret_incoming_packet env wsi (some B) =
      pump_loop env false B 0 wsi := by
    simp only [libwebsocket_interpret_incoming_packet, hbuf, Option.isSome_none]
  rw [hp] at hone hfuel ⊢
  obtain ⟨F, hF, hnone, hseen⟩ := capture_then_drain env B 0 fuel wsi hbuf hzero hone hfuel
  rw [hF]
  exact ⟨rfl, hnone, hseen, fun w h => drain_call_progress env w h⟩

/-- C13 at scenario 3 with a consumer that de-asserts ready in every Receive callback:
four bytes are held back and four drain calls consume them. -/
theorem C13_drain_resumes_witness :
    (drain throttle_env 4 (libwebsocket_interpret_incoming_packet throttle_env
      (fresh_wsi 13 .xor_mask_05) (some hello_frame)).2).1 = 0 ∧
    (drain throttle_env 4 (libwebsocket_interpret_incoming_packet throttle_env
      (fresh_wsi 13 .xor_mask_05) (some hello_frame)).2).2.rxflow_buffer = none ∧
    (drain throttle_env 4 (libwebsocket_interpret_incoming_packet throttle_env
      (fresh_wsi 13 .xor_mask_05) (some hello_frame)).2).2.seen =
      (rx_feed throttle_env (fresh_wsi 13 .xor_mask_05) hello_frame).2.seen ∧
    (∀ w : Wsi, (libwebsocket_interpret_incoming_packet throttle_env w none).1 = 1 →
      w.rxflow_pos <
        (libwebsocket_interpret_incoming_packet throttle_env w none).2.rxflow_pos) :=
  C13_drain_resumes throttle_env (fresh_wsi 13 .xor_mask_05) hello_frame 4 rfl
    (by decide) (by decide) (by decide)

/-! ## The remaining payload at the Receive callback -/

theorem payload_step (env : Env) (wsi : Wsi) (c : Nat)
    (hst : wsi.lws_rx_parse_state = .LWS_RXPS_PAYLOAD_UNTIL_LENGTH_EXHAUSTED) :
    libwebsocket_rx_sm env wsi c =
      if (payload_stored wsi c).rx_packet_length = 0 then
        spill env { payload_stored wsi c with lws_rx_parse_state := .LWS_RXPS_NEW }
      else if (payload_stored wsi c).rx_user_buffer.length ≠ env.k.MAX_USER_RX_BUFFER then
        (0, payload_stored wsi c)
      else spill env (payload_stored wsi c) := by
  simp only [libwebsocket_rx_sm, hst, payload_stored, Wsi.rx_user_buffer_head]


theorem tolower_eq_iff (c1 c2 : Nat) (h : tolower c1 = tolower c2) (x : Nat)
    (hx : x < 65 ∨ (90 < x ∧ x < 97) ∨ 122 < x) : c1 = x ↔ c2 = x := by
  unfold tolower at h
  split at h <;> split at h <;> omega

theorem cstring_map_tolower (l : List Nat) :
    (cstring l).map tolower = cstring (l.map tolower) := by
  unfold cstring
  induction l with
  | nil => rfl
  | cons c rest ih =>
    have hz : (tolower c != 0) = (c != 0) := by
      unfold tolower
      split
      · next h =>
        have h1 : c ≠ 0 := by omega
        have h2 : c + 32 ≠ 0 := by omega
        rw [bne_iff_ne.mpr h1, bne_iff_ne.mpr h2]
      · rfl
    simp only [List.map_cons, List.takeWhile_cons, hz]
    split
    · simp only [List.map_cons, ih]
    · rfl

theorem find_token_tolower (nb1 nb2 : List Nat) (h : nb1.map tolower = nb2.map tolower)
    (table : List (List Nat × Int)) (n : Nat) :
    find_token nb1 table n = find_token nb2 table n := by
  have hlen : nb1.length = nb2.length := by
    have := congrArg List.length h
    simpa using this
  have hcmp : ∀ tok, strcasecmp tok nb1 = strcasecmp tok nb2 := by
    intro tok
    unfold strcasecmp
    rw [cstring_map_tolower nb1, cstring_map_tolower nb2, h]
  induction table generalizing n with
  | nil => rfl
  | cons e rest ih =>
    obtain ⟨tok, tl⟩ := e
    simp only [find_token, hlen, hcmp, ih]

theorem name_scan_tolower (s1 : List Nat) : ∀ (s2 pre1 pre2 : List Nat),
    pre1.map tolower = pre2.map tolower → s1.map tolower = s2.map tolower →
    name_scan pre1 s1 = name_scan pre2 s2 := by
  induction s1 with
  | nil =>
    intro s2 pre1 pre2 _ hs
    cases s2 with
    | nil => rfl
    | cons _ _ => simp at hs
  | cons c rest ih =>
    intro s2 pre1 pre2 hpre hs
    cases s2 with
    | nil => simp at hs
    | cons d rest2 =>
      simp only [List.map_cons, List.cons.injEq] at hs
      have hpc : (pre1 ++ [c]).map tolower = (pre2 ++ [d]).map tolower := by
        simp [hpre, hs.1]
      have hft := find_token_tolower _ _ hpc lws_tokens 0
      cases rest with
      | nil =>
        cases rest2 with
        | nil => simp only [name_scan, hft]
        | cons _ _ => simp at hs
      | cons c1 r1 =>
        cases rest2 with
        | nil => simp at hs
        | cons d1 r2 =>
          have h58 := tolower_eq_iff c d hs.1 58 (by omega)
          have h32 := tolower_eq_iff c d hs.1 32 (by omega)
          simp only [name_scan, hft, ne_eq, h58, h32]
          split
          · exact ih (d1 :: r2) _ _ hpc (by simpa using hs.2)
          · rfl

theorem name_part_challenge_named (w : Wsi) (nb : List Nat) :
    name_part_challenge (w.named nb) = (name_part_challenge w).named nb := by
  unfold name_part_challenge
  by_cases c1 : (w.utf8_token WSI_TOKEN_UPGRADE).token_len = 0 <;>
  by_cases c2 : ((w.utf8_token WSI_TOKEN_VERSION).token_len ≠ 0 ∧
      atoi (w.utf8_token WSI_TOKEN_VERSION).value ≥ 4) <;>
  by_cases c3 : w.ietf_spec_revision ≥ 4 <;>
  simp [Wsi.named, c1, c2, c3]

theorem token_challenge_named (w : Wsi) (nb : List Nat) :
    token_challenge (w.named nb) = (token_challenge w).named nb := by
  unfold token_challenge
  have h1 : (w.named nb).utf8_token = w.utf8_token := rfl
  have h2 : (w.named nb).mode = w.mode := rfl
  simp only [h1, h2]
  split_ifs <;> rfl

theorem name_matched_named (k : Consts) (m : Bool) (w : Wsi) (nb : List Nat) (n0 : Nat) :
    name_matched k m (w.named nb) n0 =
      ((name_matched k m w n0).1, (name_matched k m w n0).2.named nb) := by
  unfold name_matched
  have h1 : (w.named nb).utf8_token = w.utf8_token := rfl
  simp only [h1]
  generalize (if n0 = WSI_TOKEN_SWORIGIN then WSI_TOKEN_ORIGIN else n0) = n
  by_cases c1 : (w.utf8_token n).token.isSome = true
  · by_cases c2 : n = WSI_TOKEN_CHALLENGE
    · subst c2
      simp only [c1, if_true]
      exact congrArg (Prod.mk 0)
        (name_part_challenge_named { w with parser_state := .token WSI_TOKEN_CHALLENGE } nb)
    · simp only [c1, c2, if_true, if_false]
      rfl
  · cases m
    · simp only [c1, if_true, if_false]
      rfl
    · by_cases c2 : n = WSI_TOKEN_CHALLENGE
      · subst c2
        simp only [c1, if_true, if_false, Bool.true_eq_false]
        exact congrArg (Prod.mk 0)
          (name_part_challenge_named { w with
            parser_state := .token WSI_TOKEN_CHALLENGE
            current_alloc_len := k.LWS_INITIAL_HDR_ALLOC
            utf8_token := set_slot w.utf8_token WSI_TOKEN_CHALLENGE
              { token := some [], token_len := 0, alloc := k.LWS_INITIAL_HDR_ALLOC } } nb)
      · simp only [c1, c2, if_true, if_false, Bool.true_eq_false]
        rfl

theorem name_matched_token (k : Consts) (w : Wsi) (n0 : Nat)
    (h : (if n0 = WSI_TOKEN_SWORIGIN then WSI_TOKEN_ORIGIN else n0) ≠ WSI_TOKEN_CHALLENGE) :
    (name_matched k true w n0).1 = 0 ∧
    (name_matched k true w n0).2.parser_state =
      .token (if n0 = WSI_TOKEN_SWORIGIN then WSI_TOKEN_ORIGIN else n0) := by
  unfold name_matched
  simp only [h, if_false, Bool.true_eq_false]
  split_ifs <;> exact ⟨rfl, rfl⟩

theorem name_matched_alias (k : Consts) (m : Bool) (w : Wsi) :
    name_matched k m w WSI_TOKEN_SWORIGIN = name_matched k m w WSI_TOKEN_ORIGIN := rfl

/-- A name that the table knows, fed in the name part: every byte returns 0 and the
last one runs the code for the matched entry. -/
theorem name_feed (k : Consts) (nm : List Nat) (t0 : Nat) : ∀ (pre : List Nat) (wsi : Wsi),
    wsi.parser_state = .WSI_TOKEN_NAME_PART → wsi.name_buffer = pre →
    pre.length + nm.length < k.name_buffer_size →
    name_scan pre nm = some t0 →
    (if t0 = WSI_TOKEN_SWORIGIN then WSI_TOKEN_ORIGIN else t0) ≠ WSI_TOKEN_CHALLENGE →
    Runs k wsi nm (name_matched k true (wsi.named (pre ++ nm)) t0).2 := by
  induction nm with
  | nil => intro pre wsi _ _ _ h; simp [name_scan] at h
  | cons c rest ih =>
    intro pre wsi hst hnb hsize hscan ht
    subst hnb
    simp only [List.length_cons] at hsize
    have hpos : ¬ (wsi.name_buffer.length + 1 = k.name_buffer_size) := by omega
    cases rest with
    | nil =>
      simp only [name_scan] at hscan
      have hm := name_matched_token k (wsi.named (wsi.name_buffer ++ [c])) t0 ht
      refine Runs.one k _ _ c ?_ ?_
      · have : libwebsocket_parse k true wsi c =
            name_matched k true (wsi.named (wsi.name_buffer ++ [c])) t0 := by
          simp [libwebsocket_parse, hst, parse_name_part, Wsi.name_buffer_pos, hpos, hscan,
            Wsi.named]
        rw [this, ← hm.1]
      · rw [hm.2]; simp
    | cons c1 rest1 =>
      simp only [name_scan] at hscan
      split at hscan
      · next hcond =>
        obtain ⟨hnone, h58, h32⟩ := hcond
        have hstep : libwebsocket_parse k true wsi c =
            (0, wsi.named (wsi.name_buffer ++ [c])) := by
          simp [libwebsocket_parse, hst, parse_name_part, Wsi.name_buffer_pos, hpos, hnone,
            h58, h32, Wsi.named]
        have := ih (wsi.name_buffer ++ [c]) (wsi.named (wsi.name_buffer ++ [c]))
          hst rfl
          (by simp only [List.length_append, List.length_cons, List.length_nil] at hsize ⊢; omega)
          hscan ht
        refine Runs.cons k wsi _ _ c (c1 :: rest1) hstep (by simp [Wsi.named, hst]) ?_
        simpa [Wsi.named] using this
      · simp at hscan


theorem token_challenge_eq (w1 w2 : Wsi) (nb : List Nat) (h : w1 = w2.named nb) :
    token_challenge w1 = (token_challenge w2).named nb := by
  rw [h]
  exact token_challenge_named w2 nb

theorem parse_token_named (k : Consts) (m : Bool) (w : Wsi) (nb : List Nat) (t c : Nat) :
    parse_token k m (w.named nb) t c =
      ((parse_token k m w t c).1, (parse_token k m w t c).2.named nb) := by
  unfold parse_token
  have h1 : (w.named nb).utf8_token = w.utf8_token := rfl
  have h2 : (w.named nb).current_alloc_len = w.current_alloc_len := rfl
  simp only [h1, h2]
  by_cases c1 : (w.utf8_token t).token_len = 0 ∧ c = 32
  · rw [if_pos c1, if_pos c1]
  · rw [if_neg c1, if_neg c1]
    by_cases c2 : t = WSI_TOKEN_GET_URI ∧ c = 32
    · rw [if_pos c2, if_pos c2]
      rfl
    · rw [if_neg c2, if_neg c2]
      by_cases c3 : (w.utf8_token t).token_len + 1 = w.current_alloc_len
      · simp only [c3, if_true, true_and]
        split_ifs
        all_goals first
          | rfl
          | exact congrArg (Prod.mk 0) (token_challenge_eq _ _ nb rfl)
      · simp only [c3, if_false, false_and]
        split_ifs
        all_goals first
          | rfl
          | exact congrArg (Prod.mk 0) (token_challenge_eq _ _ nb rfl)

theorem token_challenge_shape (w : Wsi) :
    ((token_challenge w).parser_state = w.parser_state ∨
      (token_challenge w).parser_state = .WSI_PARSING_COMPLETE) ∧
    (∀ j, j ≠ WSI_TOKEN_CHALLENGE → (token_challenge w).utf8_token j = w.utf8_token j) := by
  unfold token_challenge
  simp only []
  split_ifs
  all_goals first
    | exact ⟨Or.inl rfl, fun _ _ => rfl⟩
    | exact ⟨Or.inr rfl, fun _ _ => rfl⟩
    | exact ⟨Or.inr rfl, fun j hj => set_slot_other _ _ j _ hj⟩

theorem parse_token_shape (k : Consts) (m : Bool) (w : Wsi) (t c : Nat) :
    ((parse_token k m w t c).2.parser_state = w.parser_state ∨
      (parse_token k m w t c).2.parser_state = .WSI_TOKEN_SKIPPING ∨
      (parse_token k m w t c).2.parser_state = .WSI_TOKEN_SKIPPING_SAW_CR ∨
      (parse_token k m w t c).2.parser_state = .WSI_PARSING_COMPLETE) ∧
    (∀ j, j ≠ t → j ≠ WSI_TOKEN_CHALLENGE →
      (parse_token k m w t c).2.utf8_token j = w.utf8_token j) := by
  generalize hr : parse_token k m w t c = r
  unfold parse_token at hr
  simp only [] at hr
  by_cases c1 : (w.utf8_token t).token_len = 0 ∧ c = 32
  · rw [if_pos c1] at hr
    subst hr
    exact ⟨Or.inl rfl, fun _ _ _ => rfl⟩
  · rw [if_neg c1] at hr
    by_cases c2 : t = WSI_TOKEN_GET_URI ∧ c = 32
    · rw [if_pos c2] at hr
      subst hr
      exact ⟨Or.inr (Or.inl rfl), fun j hj _ => set_slot_other _ _ j _ hj⟩
    · rw [if_neg c2] at hr
      by_cases c3 : (w.utf8_token t).token_len + 1 = w.current_alloc_len
      · simp only [c3, if_true, true_and] at hr
        split_ifs at hr
        all_goals subst hr
        all_goals first
          | exact ⟨Or.inl rfl, fun j hj _ => set_slot_other _ _ j _ hj⟩
          | exact ⟨Or.inr (Or.inl rfl), fun j hj _ => set_slot_other _ _ j _ hj⟩
          | exact ⟨Or.inr (Or.inr (Or.inl rfl)), fun j hj _ => set_slot_other _ _ j _ hj⟩
          | (refine ⟨?_, fun j hj h9 => ?_⟩
             · rcases (token_challenge_shape _).1 with h | h
               · exact Or.inl h
               · exact Or.inr (Or.inr (Or.inr h))
             · exact ((token_challenge_shape _).2 j h9).trans (set_slot_other _ _ j _ hj))
      · simp only [c3, if_false, false_and] at hr
        split_ifs at hr
        all_goals subst hr
        all_goals first
          | exact ⟨Or.inl rfl, fun j hj _ => set_slot_other _ _ j _ hj⟩
          | exact ⟨Or.inr (Or.inr (Or.inl rfl)), fun j hj _ => set_slot_other _ _ j _ hj⟩
          | (refine ⟨?_, fun j hj h9 => ?_⟩
             · rcases (token_challenge_shape _).1 with h | h
               · exact Or.inl h
               · exact Or.inr (Or.inr (Or.inr h))
             · exact ((token_challenge_shape _).2 j h9).trans (set_slot_other _ _ j _ hj))

theorem parse_token_state (k : Consts) (m : Bool) (w : Wsi) (t c : Nat)
    (hp : w.parser_state = .token t) :
    (parse_token k m w t c).2.parser_state ≠ .WSI_TOKEN_NAME_PART := by
  intro hn
  rcases (parse_token_shape k m w t c).1 with h | h | h | h
  · rw [h, hp] at hn; cases hn
  · rw [h] at hn; cases hn
  · rw [h] at hn; cases hn
  · rw [h] at hn; cases hn

theorem parse_named (k : Consts) (m : Bool) (w : Wsi) (nb : List Nat) (c : Nat)
    (h : w.parser_state ≠ .WSI_TOKEN_NAME_PART) :
    (libwebsocket_parse k m (w.named nb) c).1 = (libwebsocket_parse k m w c).1 ∧
    (libwebsocket_parse k m (w.named nb) c).2.named [] =
      (libwebsocket_parse k m w c).2.named [] ∧
    ((libwebsocket_parse k m w c).2.parser_state = .WSI_TOKEN_NAME_PART →
      (libwebsocket_parse k m (w.named nb) c).2 = (libwebsocket_parse k m w c).2) := by
  have hst : (w.named nb).parser_state = w.parser_state := rfl
  cases hp : w.parser_state with
  | WSI_TOKEN_NAME_PART => exact absurd hp h
  | token t =>
    simp only [libwebsocket_parse, hst, hp]
    by_cases ht : t < WSI_TOKEN_COUNT
    · rw [if_pos ht, if_pos ht, parse_token_named]
      refine ⟨rfl, rfl, ?_⟩
      intro hn
      exact absurd hn (parse_token_state k m w t c hp)
    · rw [if_neg ht, if_neg ht]
      refine ⟨rfl, rfl, ?_⟩
      intro hn
      exact absurd (hp.symm.trans hn) (by simp)
  | WSI_INIT_TOKEN_MUXURL =>
    simp only [libwebsocket_parse, hst, hp]
    cases m
    · exact ⟨rfl, rfl, fun hn => by simp at hn⟩
    · exact ⟨rfl, rfl, fun hn => by simp at hn⟩
  | WSI_TOKEN_SKIPPING =>
    simp only [libwebsocket_parse, hst, hp]
    split_ifs
    · exact ⟨rfl, rfl, fun hn => by simp at hn⟩
    · exact ⟨rfl, rfl, fun hn => absurd (hp.symm.trans hn) (by simp)⟩
  | WSI_TOKEN_SKIPPING_SAW_CR =>
    simp only [libwebsocket_parse, hst, hp]
    split_ifs
    · exact ⟨rfl, rfl, fun _ => rfl⟩
    · exact ⟨rfl, rfl, fun _ => rfl⟩
  | WSI_PARSING_COMPLETE =>
    simp only [libwebsocket_parse, hst, hp]
    exact ⟨trivial, rfl, fun hn => by cases hn⟩


theorem Wsi.eq_named (w1 w2 : Wsi) (h : w1.named [] = w2.named []) :
    w1 = w2.named w1.name_buffer := by
  have h1 := congrArg (fun w => w.named w1.name_buffer) h
  exact h1

/-- Two records that differ at most in the name buffer, and not at all in the name part,
behave alike on every input. -/
theorem parse_feed_named (k : Consts) (l : List Nat) : ∀ (w1 w2 : Wsi),
    w1.named [] = w2.named [] → (w2.parser_state = .WSI_TOKEN_NAME_PART → w1 = w2) →
    (parse_feed k w1 l).1 = (parse_feed k w2 l).1 ∧
    (parse_feed k w1 l).2.named [] = (parse_feed k w2 l).2.named [] ∧
    ((parse_feed k w2 l).2.parser_state = .WSI_TOKEN_NAME_PART →
      (parse_feed k w1 l).2 = (parse_feed k w2 l).2) := by
  induction l with
  | nil =>
    intro w1 w2 h hN
    exact ⟨rfl, h, hN⟩
  | cons c rest ih =>
    intro w1 w2 h hN
    by_cases hp : w2.parser_state = .WSI_TOKEN_NAME_PART
    · rw [hN hp]
      exact ⟨rfl, rfl, fun _ => rfl⟩
    · have h1 := Wsi.eq_named w1 w2 h
      generalize w1.name_buffer = nb at h1
      subst h1
      obtain ⟨hr, hn, hs⟩ := parse_named k true w2 nb c hp
      have := ih _ _ hn hs
      rw [parse_feed_cons, parse_feed_cons, hr]
      split
      · exact ⟨rfl, hn, hs⟩
      · exact ⟨by rw [this.1], this.2.1, this.2.2⟩

set_option maxRecDepth 100000 in
theorem token_name_scan :
    ∀ n0 < 17, n0 ≠ WSI_TOKEN_CHALLENGE → name_scan [] (token_name n0) = some n0 := by
  decide


/-- A known name in any spelling of its letters, fed in the name part with an empty name
buffer: the record reached is the one the code for the matched entry leaves, with the
name as spelled in the name buffer. -/
theorem spelled_name_run (k : Consts) (wsi : Wsi) (n0 : Nat) (s : List Nat)
    (hn : n0 < 17) (hn9 : n0 ≠ WSI_TOKEN_CHALLENGE)
    (hst : wsi.parser_state = .WSI_TOKEN_NAME_PART) (hnb : wsi.name_buffer = [])
    (hsize : s.length < k.name_buffer_size)
    (hcase : s.map tolower = (token_name n0).map tolower) :
    Runs k wsi s ((name_matched k true wsi n0).2.named s) := by
  have hscan : name_scan [] s = some n0 := by
    rw [name_scan_tolower s (token_name n0) [] [] rfl hcase]
    exact token_name_scan n0 hn hn9
  have ht : (if n0 = WSI_TOKEN_SWORIGIN then WSI_TOKEN_ORIGIN else n0) ≠
      WSI_TOKEN_CHALLENGE := by
    split
    · decide
    · exact hn9
  have h := name_feed k s n0 [] wsi hst hnb (by simpa using hsize) hscan ht
  rw [name_matched_named] at h
  exact h

/-- C16 (case-insensitive header names).  For every entry of the token table that names
a header or the request or status line (the entries 0 to 16 but the CRLF entry), and
every byte string s that differs from its name at most in the case of ASCII letters:
fed in the name part with an empty name buffer, s returns 0 on every byte and leaves the
parser collecting the token of that entry (ORIGIN for the entry Sec-WebSocket-Origin),
and whatever bytes follow, the returns, the slots and the whole record but the name
buffer are the same as after the canonical spelling; once the parser is back in the name
part the records are equal. -/
theorem C16_case_insensitive_names (k : Consts) (wsi : Wsi) (n0 : Nat) (s rest : List Nat)
    (hn : n0 < 17) (hn9 : n0 ≠ WSI_TOKEN_CHALLENGE)
    (hst : wsi.parser_state = .WSI_TOKEN_NAME_PART) (hnb : wsi.name_buffer = [])
    (hsize : s.length < k.name_buffer_size)
    (hcase : s.map tolower = (token_name n0).map tolower) :
    (parse_feed k wsi s).1 = List.replicate s.length 0 ∧
    (parse_feed k wsi s).2.parser_state =
      .token (if n0 = WSI_TOKEN_SWORIGIN then WSI_TOKEN_ORIGIN else n0) ∧
    (parse_feed k wsi (s ++ rest)).1 = (parse_feed k wsi (token_name n0 ++ rest)).1 ∧
    (parse_feed k wsi (s ++ rest)).2.utf8_token =
      (parse_feed k wsi (token_name n0 ++ rest)).2.utf8_token ∧
    (parse_feed k wsi (s ++ rest)).2.named [] =
      (parse_feed k wsi (token_name n0 ++ rest)).2.named [] ∧
    ((parse_feed k wsi (token_name n0 ++ rest)).2.parser_state = .WSI_TOKEN_NAME_PART →
      (parse_feed k wsi (s ++ rest)).2 = (parse_feed k wsi (token_name n0 ++ rest)).2) := by
  have hlen : s.length = (token_name n0).length := by
    have := congrArg List.length hcase
    simpa using this
  have ht : (if n0 = WSI_TOKEN_SWORIGIN then WSI_TOKEN_ORIGIN else n0) ≠
      WSI_TOKEN_CHALLENGE := by
    split
    · decide
    · exact hn9
  have hs := spelled_name_run k wsi n0 s hn hn9 hst hnb hsize hcase
  have htok := spelled_name_run k wsi n0 (token_name n0) hn hn9 hst hnb (by omega) rfl
  have hm := name_matched_token k wsi n0 ht
  have hnp : ((name_matched k true wsi n0).2.named (token_name n0)).parser_state ≠
      .WSI_TOKEN_NAME_PART := by
    show (name_matched k true wsi n0).2.parser_state ≠ _
    rw [hm.2]
    simp
  obtain ⟨h1, h2, h3⟩ := parse_feed_named k rest
    ((name_matched k true wsi n0).2.named s)
    ((name_matched k true wsi n0).2.named (token_name n0)) rfl (fun h => absurd h hnp)
  rw [Runs.feed_append k s rest wsi _ hs, Runs.feed_append k (token_name n0) rest wsi _ htok]
  refine ⟨hs.1 ▸ rfl, ?_, ?_, ?_, h2, h3⟩
  · rw [hs.1]
    exact hm.2
  · simp only [hlen, h1]
  · have := congrArg Wsi.utf8_token h2
    exact this

/-- C16 at the HOST entry: HOST: x and host: x store what Host: x stores. -/
theorem C16_case_insensitive_names_witness :
    ((parse_feed spec_consts (fresh_wsi 13 .xor_mask_05) (str "HOST:")).1 =
        List.replicate (str "HOST:").length 0 ∧
      (parse_feed spec_consts (fresh_wsi 13 .xor_mask_05) (str "HOST:")).2.parser_state =
        .token (if WSI_TOKEN_HOST = WSI_TOKEN_SWORIGIN then WSI_TOKEN_ORIGIN
          else WSI_TOKEN_HOST) ∧
      (parse_feed spec_consts (fresh_wsi 13 .xor_mask_05)
        (str "HOST:" ++ str " x\r\n")).1 =
        (parse_feed spec_consts (fresh_wsi 13 .xor_mask_05)
          (token_name WSI_TOKEN_HOST ++ str " x\r\n")).1 ∧
      (parse_feed spec_consts (fresh_wsi 13 .xor_mask_05)
        (str "HOST:" ++ str " x\r\n")).2.utf8_token =
        (parse_feed spec_consts (fresh_wsi 13 .xor_mask_05)
          (token_name WSI_TOKEN_HOST ++ str " x\r\n")).2.utf8_token ∧
      (parse_feed spec_consts (fresh_wsi 13 .xor_mask_05)
        (str "HOST:" ++ str " x\r\n")).2.named [] =
        (parse_feed spec_consts (fresh_wsi 13 .xor_mask_05)
          (token_name WSI_TOKEN_HOST ++ str " x\r\n")).2.named [] ∧
      ((parse_feed spec_consts (fresh_wsi 13 .xor_mask_05)
          (token_name WSI_TOKEN_HOST ++ str " x\r\n")).2.parser_state =
          .WSI_TOKEN_NAME_PART →
        (parse_feed spec_consts (fresh_wsi 13 .xor_mask_05)
          (str "HOST:" ++ str " x\r\n")).2 =
        (parse_feed spec_consts (fresh_wsi 13 .xor_mask_05)
          (token_name WSI_TOKEN_HOST ++ str " x\r\n")).2)) ∧
    ((parse_feed spec_consts (fresh_wsi 13 .xor_mask_05)
        (str "HOST: x\r\n")).2.utf8_token WSI_TOKEN_HOST).holds (str "x") ∧
    ((parse_feed spec_consts (fresh_wsi 13 .xor_mask_05)
        (str "host: x\r\n")).2.utf8_token WSI_TOKEN_HOST).holds (str "x") ∧
    ((parse_feed spec_consts (fresh_wsi 13 .xor_mask_05)
        (str "Host: x\r\n")).2.utf8_token WSI_TOKEN_HOST).holds (str "x") :=
  ⟨C16_case_insensitive_names spec_consts (fresh_wsi 13 .xor_mask_05) WSI_TOKEN_HOST
      (str "HOST:") (str " x\r\n") (by decide) (by decide) rfl rfl (by decide) (by decide),
    by decide, by decide, by decide⟩

theorem name_part_challenge_sworigin (w : Wsi) :
    (name_part_challenge w).utf8_token WSI_TOKEN_SWORIGIN = w.utf8_token WSI_TOKEN_SWORIGIN ∧
    ((name_part_challenge w).parser_state = w.parser_state ∨
      (name_part_challenge w).parser_state = .WSI_PARSING_COMPLETE) := by
  unfold name_part_challenge
  by_cases c1 : (w.utf8_token WSI_TOKEN_UPGRADE).token_len = 0 <;>
  by_cases c2 : ((w.utf8_token WSI_TOKEN_VERSION).token_len ≠ 0 ∧
      atoi (w.utf8_token WSI_TOKEN_VERSION).value ≥ 4) <;>
  by_cases c3 : w.ietf_spec_revision ≥ 4 <;>
  simp [c1, c2, c3, set_slot]

theorem name_matched_sworigin (k : Consts) (m : Bool) (w : Wsi) (n0 : Nat) :
    (name_matched k m w n0).2.parser_state ≠ .token WSI_TOKEN_SWORIGIN ∧
    (name_matched k m w n0).2.utf8_token WSI_TOKEN_SWORIGIN =
      w.utf8_token WSI_TOKEN_SWORIGIN := by
  unfold name_matched
  have hn : (if n0 = WSI_TOKEN_SWORIGIN then WSI_TOKEN_ORIGIN else n0) ≠ WSI_TOKEN_SWORIGIN := by
    split
    · decide
    · assumption
  generalize (if n0 = WSI_TOKEN_SWORIGIN then WSI_TOKEN_ORIGIN else n0) = n at hn
  have hn1 : WSI_TOKEN_SWORIGIN ≠ n := fun h => hn h.symm
  simp only []
  split_ifs
  all_goals first
    | (refine ⟨?_, ?_⟩
       · simp [hn]
       · simp [set_slot, hn1])
    | (refine ⟨?_, ?_⟩
       · rcases (name_part_challenge_sworigin _).2 with h | h
         · rw [h]; simp [hn]
         · rw [h]; simp
       · rw [(name_part_challenge_sworigin _).1]
         try simp [set_slot, hn1])

theorem parse_token_sworigin (k : Consts) (m : Bool) (w : Wsi) (t c : Nat)
    (hp : w.parser_state = .token t) (ht : t ≠ WSI_TOKEN_SWORIGIN) :
    (parse_token k m w t c).2.parser_state ≠ .token WSI_TOKEN_SWORIGIN ∧
    (parse_token k m w t c).2.utf8_token WSI_TOKEN_SWORIGIN =
      w.utf8_token WSI_TOKEN_SWORIGIN := by
  refine ⟨?_, (parse_token_shape k m w t c).2 _ (fun h => ht h.symm) (by decide)⟩
  intro hn
  rcases (parse_token_shape k m w t c).1 with h | h | h | h
  · rw [h, hp] at hn
    injection hn with h1
    exact ht h1
  · rw [h] at hn; cases hn
  · rw [h] at hn; cases hn
  · rw [h] at hn; cases hn

theorem parse_sworigin (k : Consts) (m : Bool) (w : Wsi) (c : Nat)
    (h : w.parser_state ≠ .token WSI_TOKEN_SWORIGIN) :
    (libwebsocket_parse k m w c).2.parser_state ≠ .token WSI_TOKEN_SWORIGIN ∧
    (libwebsocket_parse k m w c).2.utf8_token WSI_TOKEN_SWORIGIN =
      w.utf8_token WSI_TOKEN_SWORIGIN := by
  cases hp : w.parser_state with
  | token t =>
    have ht : t ≠ WSI_TOKEN_SWORIGIN := by
      intro h1
      rw [hp, h1] at h
      exact h rfl
    simp only [libwebsocket_parse, hp]
    split
    · exact parse_token_sworigin k m w t c hp ht
    · exact ⟨h, rfl⟩
  | WSI_INIT_TOKEN_MUXURL =>
    simp only [libwebsocket_parse, hp]
    split <;> simp [set_slot]
  | WSI_TOKEN_NAME_PART =>
    simp only [libwebsocket_parse, hp, parse_name_part]
    split
    · simp
    · split
      · exact name_matched_sworigin k m _ _
      · split_ifs <;> simp [set_slot]
  | WSI_TOKEN_SKIPPING =>
    simp only [libwebsocket_parse, hp]
    split <;> simp [hp]
  | WSI_TOKEN_SKIPPING_SAW_CR =>
    simp only [libwebsocket_parse, hp]
    split <;> simp
  | WSI_PARSING_COMPLETE =>
    simp only [libwebsocket_parse, hp]
    simp [hp]

theorem parse_feed_sworigin (k : Consts) (l : List Nat) : ∀ (w : Wsi),
    w.parser_state ≠ .token WSI_TOKEN_SWORIGIN →
    (parse_feed k w l).2.parser_state ≠ .token WSI_TOKEN_SWORIGIN ∧
    (parse_feed k w l).2.utf8_token WSI_TOKEN_SWORIGIN = w.utf8_token WSI_TOKEN_SWORIGIN := by
  induction l with
  | nil => intro w h; exact ⟨h, rfl⟩
  | cons c rest ih =>
    intro w h
    obtain ⟨h1, h2⟩ := parse_sworigin k true w c h
    rw [parse_feed_cons]
    split
    · exact ⟨h1, h2⟩
    · obtain ⟨h3, h4⟩ := ih _ h1
      exact ⟨h3, by rw [h4, h2]⟩


/-- C17 (Sec-WebSocket-Origin is folded onto Origin).  From the name part with an empty
name buffer, the name Sec-WebSocket-Origin: followed by any bytes and the name Origin:
followed by the same bytes give the same returns on the bytes that follow the name, the
same slots (the value goes to the ORIGIN slot either way) and the same record but for
the name buffer; once the parser is back in the name part the records are equal.  And
from a record that is not collecting SWORIGIN, as every record the set-up hands over, no
input ever makes the parser collect SWORIGIN or changes the SWORIGIN slot, whether
allocations succeed or not. -/
theorem C17_sworigin_folded (k : Consts) (wsi : Wsi) (rest : List Nat)
    (hst : wsi.parser_state = .WSI_TOKEN_NAME_PART) (hnb : wsi.name_buffer = [])
    (hsize : 21 < k.name_buffer_size) :
    ((parse_feed k wsi (str "Sec-WebSocket-Origin:" ++ rest)).1.drop 21 =
        (parse_feed k wsi (str "Origin:" ++ rest)).1.drop 7 ∧
      (parse_feed k wsi (str "Sec-WebSocket-Origin:" ++ rest)).2.utf8_token =
        (parse_feed k wsi (str "Origin:" ++ rest)).2.utf8_token ∧
      (parse_feed k wsi (str "Sec-WebSocket-Origin:" ++ rest)).2.named [] =
        (parse_feed k wsi (str "Origin:" ++ rest)).2.named [] ∧
      ((parse_feed k wsi (str "Origin:" ++ rest)).2.parser_state = .WSI_TOKEN_NAME_PART →
        (parse_feed k wsi (str "Sec-WebSocket-Origin:" ++ rest)).2 =
          (parse_feed k wsi (str "Origin:" ++ rest)).2)) ∧
    (∀ bytes : List Nat,
      (parse_feed k wsi bytes).2.utf8_token WSI_TOKEN_SWORIGIN =
        wsi.utf8_token WSI_TOKEN_SWORIGIN) ∧
    (∀ (malloc_ok : Bool) (w : Wsi) (c : Nat),
      w.parser_state ≠ .token WSI_TOKEN_SWORIGIN →
      (libwebsocket_parse k malloc_ok w c).2.parser_state ≠ .token WSI_TOKEN_SWORIGIN ∧
      (libwebsocket_parse k malloc_ok w c).2.utf8_token WSI_TOKEN_SWORIGIN =
        w.utf8_token WSI_TOKEN_SWORIGIN) := by
  refine ⟨?_, ?_, fun m w c h => parse_sworigin k m w c h⟩
  · have hs := spelled_name_run k wsi WSI_TOKEN_SWORIGIN (str "Sec-WebSocket-Origin:")
      (by decide) (by decide) hst hnb (by simpa using hsize) rfl
    have ho := spelled_name_run k wsi WSI_TOKEN_ORIGIN (str "Origin:")
      (by decide) (by decide) hst hnb
      (by
        have : (str "Origin:").length = 7 := rfl
        omega) rfl
    have hm := name_matched_token k wsi WSI_TOKEN_ORIGIN (by decide)
    have hnp : ((name_matched k true wsi WSI_TOKEN_ORIGIN).2.named (str "Origin:")).parser_state
        ≠ .WSI_TOKEN_NAME_PART := by
      show (name_matched k true wsi WSI_TOKEN_ORIGIN).2.parser_state ≠ _
      rw [hm.2]
      simp
    rw [name_matched_alias] at hs
    obtain ⟨h1, h2, h3⟩ := parse_feed_named k rest
      ((name_matched k true wsi WSI_TOKEN_ORIGIN).2.named (str "Sec-WebSocket-Origin:"))
      ((name_matched k true wsi WSI_TOKEN_ORIGIN).2.named (str "Origin:")) rfl
      (fun h => absurd h hnp)
    rw [Runs.feed_append k _ rest wsi _ hs, Runs.feed_append k _ rest wsi _ ho]
    have h4 := congrArg Wsi.utf8_token h2
    refine ⟨?_, h4, h2, h3⟩
    have l1 : (str "Sec-WebSocket-Origin:").length = 21 := rfl
    have l2 : (str "Origin:").length = 7 := rfl
    simp only [l1, l2, h1]
    rw [List.drop_left' (by simp), List.drop_left' (by simp)]
  · intro bytes
    have hne : wsi.parser_state ≠ .token WSI_TOKEN_SWORIGIN := by
      rw [hst]
      simp
    exact (parse_feed_sworigin k bytes wsi hne).2

/-- C17 on the origin http://a. -/
theorem C17_sworigin_folded_witness :
    (((parse_feed spec_consts (fresh_wsi 13 .xor_mask_05)
        (str "Sec-WebSocket-Origin:" ++ str " http://a\r\n")).1.drop 21 =
        (parse_feed spec_consts (fresh_wsi 13 .xor_mask_05)
          (str "Origin:" ++ str " http://a\r\n")).1.drop 7 ∧
      (parse_feed spec_consts (fresh_wsi 13 .xor_mask_05)
        (str "Sec-WebSocket-Origin:" ++ str " http://a\r\n")).2.utf8_token =
        (parse_feed spec_consts (fresh_wsi 13 .xor_mask_05)
          (str "Origin:" ++ str " http://a\r\n")).2.utf8_token ∧
      (parse_feed spec_consts (fresh_wsi 13 .xor_mask_05)
        (str "Sec-WebSocket-Origin:" ++ str " http://a\r\n")).2.named [] =
        (parse_feed spec_consts (fresh_wsi 13 .xor_mask_05)
          (str "Origin:" ++ str " http://a\r\n")).2.named [] ∧
      ((parse_feed spec_consts (fresh_wsi 13 .xor_mask_05)
          (str "Origin:" ++ str " http://a\r\n")).2.parser_state = .WSI_TOKEN_NAME_PART →
        (parse_feed spec_consts (fresh_wsi 13 .xor_mask_05)
          (str "Sec-WebSocket-Origin:" ++ str " http://a\r\n")).2 =
          (parse_feed spec_consts (fresh_wsi 13 .xor_mask_05)
            (str "Origin:" ++ str " http://a\r\n")).2)) ∧
      (∀ bytes : List Nat,
        (parse_feed spec_consts (fresh_wsi 13 .xor_mask_05) bytes).2.utf8_token
            WSI_TOKEN_SWORIGIN =
          (fresh_wsi 13 .xor_mask_05).utf8_token WSI_TOKEN_SWORIGIN) ∧
      (∀ (malloc_ok : Bool) (w : Wsi) (c : Nat),
        w.parser_state ≠ .token WSI_TOKEN_SWORIGIN →
        (libwebsocket_parse spec_consts malloc_ok w c).2.parser_state ≠
          .token WSI_TOKEN_SWORIGIN ∧
        (libwebsocket_parse spec_consts malloc_ok w c).2.utf8_token WSI_TOKEN_SWORIGIN =
          w.utf8_token WSI_TOKEN_SWORIGIN)) ∧
    ((parse_feed spec_consts (fresh_wsi 13 .xor_mask_05)
        (str "Sec-WebSocket-Origin: http://a\r\n")).2.utf8_token WSI_TOKEN_ORIGIN).holds
      (str "http://a") ∧
    ((parse_feed spec_consts (fresh_wsi 13 .xor_mask_05)
        (str "Sec-WebSocket-Origin: http://a\r\n")).2.utf8_token WSI_TOKEN_SWORIGIN).token =
      none :=
  ⟨C17_sworigin_folded spec_consts (fresh_wsi 13 .xor_mask_05) (str " http://a\r\n")
      rfl rfl (by decide),
    by decide, by decide⟩

/-! ## Headers seen twice -/

theorem mem_write_over (content : List Nat) (x v : Nat) :
    mem_write (content ++ [x]) content.length v = content ++ [v] := by
  unfold mem_write
  simp

theorem name_matched_present (k : Consts) (m : Bool) (w : Wsi) (n0 : Nat)
    (h9 : (if n0 = WSI_TOKEN_SWORIGIN then WSI_TOKEN_ORIGIN else n0) ≠ WSI_TOKEN_CHALLENGE)
    (hp : (w.utf8_token
      (if n0 = WSI_TOKEN_SWORIGIN then WSI_TOKEN_ORIGIN else n0)).token.isSome = true) :
    name_matched k m w n0 =
      (0, { w with
        parser_state := .token (if n0 = WSI_TOKEN_SWORIGIN then WSI_TOKEN_ORIGIN else n0) }) := by
  unfold name_matched
  simp only [hp, if_true, h9, if_false]

/-- A value byte stored over the terminating NUL of a slot that already holds a value. -/
theorem value_over (k : Consts) (t : Nat) (a : Nat) (wsi : Wsi) (content : List Nat) (c : Nat)
    (hst : wsi.parser_state = .token t) (ht : t < WSI_TOKEN_COUNT)
    (htc : t ≠ WSI_TOKEN_CHALLENGE)
    (hslot : wsi.utf8_token t =
      { token := some (content ++ [0]), token_len := content.length, alloc := a })
    (hc13 : c ≠ 13) (hsp : ¬ (content = [] ∧ c = 32))
    (huri : ¬ (t = WSI_TOKEN_GET_URI ∧ c = 32))
    (hext : content.length + 1 ≠ wsi.current_alloc_len) :
    Runs k wsi [c]
      { wsi with
        utf8_token := set_slot wsi.utf8_token t
          { token := some (content ++ [c]), token_len := content.length + 1, alloc := a } } := by
  refine Runs.one k _ _ c ?_ (by simp [hst])
  simp [libwebsocket_parse, hst, ht, parse_token, hslot, hsp, huri, hext, hc13, htc,
    Slot.store, mem_write_over]

/-- The CR that ends an empty second value leaves the terminating NUL where it is. -/
theorem cr_over (k : Consts) (t : Nat) (a : Nat) (wsi : Wsi) (content : List Nat)
    (hst : wsi.parser_state = .token t) (ht : t < WSI_TOKEN_COUNT)
    (htc : t ≠ WSI_TOKEN_CHALLENGE)
    (hslot : wsi.utf8_token t =
      { token := some (content ++ [0]), token_len := content.length, alloc := a })
    (hext : content.length + 1 ≠ wsi.current_alloc_len) :
    Runs k wsi [13]
      { wsi with
        utf8_token := set_slot wsi.utf8_token t
          { token := some (content ++ [0]), token_len := content.length, alloc := a }
        parser_state := .WSI_TOKEN_SKIPPING_SAW_CR } := by
  refine Runs.one k _ _ 13 ?_ (by simp)
  simp [libwebsocket_parse, hst, ht, parse_token, hslot, hext, htc, Slot.store,
    mem_write_over]


/-- A value collected behind the bytes a slot holds, then CR LF: the slot holds both,
NUL-terminated, and the parser is back in the name part. -/
theorem value_then_crlf (k : Consts) (t : Nat) (a : Nat) (v : List Nat) (X : Wsi)
    (mem : List Nat)
    (hst : X.parser_state = .token t) (htc : t < WSI_TOKEN_COUNT)
    (ht : t ≠ WSI_TOKEN_CHALLENGE) (htu : t ≠ WSI_TOKEN_GET_URI)
    (hslot : X.utf8_token t = { token := some mem, token_len := mem.length, alloc := a })
    (hcr : 13 ∉ v) (hhead : mem = [] → v.head? ≠ some 32)
    (hlen : mem.length + v.length < X.current_alloc_len)
    (hmax : X.current_alloc_len + k.LWS_ADDITIONAL_HDR_ALLOC < k.LWS_MAX_HEADER_LEN) :
    ∃ F : Wsi, Runs k X (v ++ ([13] ++ [10])) F ∧
      F.parser_state = .WSI_TOKEN_NAME_PART ∧ F.name_buffer = [] ∧
      (F.utf8_token t).holds (mem ++ v) :=
  ⟨_, Runs.append k _ _ _ _ _
      (value_run k t a v X mem hst htc ht hslot hcr (fun h => absurd h htu) hhead hlen)
      (Runs.append k _ _ _ _ _
        (value_cr k t a _ (mem ++ v) (by exact hst) htc ht (by simp [set_slot])
          (fun _ => by exact hmax))
        (saw_cr_lf k _ rfl)),
    rfl, rfl, by simp [Slot.holds, set_slot]⟩

/-- A header line for a token whose slot already holds the value v1: the space after the
colon is swallowed only when v1 is empty, and the new value follows in the same slot. -/
theorem header_again (k : Consts) (nm : List Nat) (n0 : Nat) (v1 v2 : List Nat) (a : Nat)
    (wsi : Wsi)
    (hst : wsi.parser_state = .WSI_TOKEN_NAME_PART) (hnb : wsi.name_buffer = [])
    (hsize : nm.length < k.name_buffer_size)
    (hscan : name_scan [] nm = some n0)
    (ht : (if n0 = WSI_TOKEN_SWORIGIN then WSI_TOKEN_ORIGIN else n0) ≠ WSI_TOKEN_CHALLENGE)
    (htu : (if n0 = WSI_TOKEN_SWORIGIN then WSI_TOKEN_ORIGIN else n0) ≠ WSI_TOKEN_GET_URI)
    (htc : (if n0 = WSI_TOKEN_SWORIGIN then WSI_TOKEN_ORIGIN else n0) < WSI_TOKEN_COUNT)
    (hslot : wsi.utf8_token (if n0 = WSI_TOKEN_SWORIGIN then WSI_TOKEN_ORIGIN else n0) =
      { token := some (v1 ++ [0]), token_len := v1.length, alloc := a })
    (hcr : 13 ∉ v2) (hsp : v2.head? ≠ some 32)
    (hlen : v1.length + 1 + v2.length < wsi.current_alloc_len)
    (hmax : wsi.current_alloc_len + k.LWS_ADDITIONAL_HDR_ALLOC < k.LWS_MAX_HEADER_LEN) :
    ∃ F : Wsi, Runs k wsi (nm ++ ([32] ++ (v2 ++ ([13] ++ [10])))) F ∧
      F.parser_state = .WSI_TOKEN_NAME_PART ∧ F.name_buffer = [] ∧
      (F.utf8_token (if n0 = WSI_TOKEN_SWORIGIN then WSI_TOKEN_ORIGIN else n0)).holds
        (if v1 = [] then v2 else v1 ++ [32] ++ v2) := by
  generalize htdef : (if n0 = WSI_TOKEN_SWORIGIN then WSI_TOKEN_ORIGIN else n0) = t at *
  have hname := name_feed k nm n0 [] wsi hst hnb (by simpa using hsize) hscan
    (by rw [htdef]; exact ht)
  rw [name_matched_named, name_matched_present k true wsi n0 (by rw [htdef]; exact ht)
    (by rw [htdef, hslot]; rfl), htdef] at hname
  obtain ⟨W, hW, hname1⟩ : ∃ W, W = _ ∧ Runs k wsi nm W := ⟨_, rfl, hname⟩
  have hWst : W.parser_state = .token t := by rw [hW]; rfl
  have hWslot : W.utf8_token t =
      { token := some (v1 ++ [0]), token_len := v1.length, alloc := a } := by
    rw [hW]; exact hslot
  have hWcur : W.current_alloc_len = wsi.current_alloc_len := by rw [hW]; rfl
  by_cases hv1 : v1 = []
  · subst hv1
    simp only [if_true]
    simp only [List.length_nil] at hlen
    have hsw := value_space k t W hWst htc (by rw [hWslot]; rfl)
    cases v2 with
    | nil =>
      have hcrr := cr_over k t a W [] hWst htc ht hWslot
        (by rw [hWcur]; simp only [List.length_nil]; omega)
      refine ⟨_, Runs.append k _ _ _ _ _ hname1 (Runs.append k _ _ _ _ _ hsw
        (Runs.append k _ _ _ _ _ (Runs.nil k W)
          (Runs.append k _ _ _ _ _ hcrr (saw_cr_lf k _ rfl)))), rfl, rfl, ?_⟩
      simp [Slot.holds, set_slot]
    | cons c r =>
      simp only [List.mem_cons, not_or] at hcr
      have hc13 : c ≠ 13 := fun h => hcr.1 h.symm
      have hc32 : c ≠ 32 := by
        intro h
        apply hsp
        simp [h]
      simp only [List.length_cons] at hlen
      have hov := value_over k t a W [] c hWst htc ht hWslot hc13
        (fun h => hc32 h.2) (fun h => hc32 h.2) (by rw [hWcur]; simp only [List.length_nil]; omega)
      obtain ⟨W1, hW1, hov1⟩ : ∃ W1, W1 = _ ∧ Runs k W [c] W1 := ⟨_, rfl, hov⟩
      obtain ⟨F, hF, hFst, hFnb, hFh⟩ := value_then_crlf k t a r W1 ([] ++ [c])
        (by rw [hW1]; exact hWst) htc ht htu (by rw [hW1]; simp [set_slot]) hcr.2
        (fun h => by simp at h)
        (by rw [hW1]
            show ([] ++ [c]).length + r.length < W.current_alloc_len
            rw [hWcur]
            simp only [List.nil_append, List.length_cons, List.length_nil]
            omega)
        (by rw [hW1]
            show W.current_alloc_len + k.LWS_ADDITIONAL_HDR_ALLOC < k.LWS_MAX_HEADER_LEN
            rw [hWcur]; exact hmax)
      exact ⟨F, Runs.append k _ _ _ _ _ hname1 (Runs.append k _ _ _ _ _ hsw
        (Runs.append k [c] _ _ _ _ hov1 hF)), hFst, hFnb, by simpa using hFh⟩
  · simp only [hv1, if_false]
    have hov := value_over k t a W v1 32 hWst htc ht hWslot (by decide)
      (fun h => hv1 h.1) (fun h => htu h.1) (by rw [hWcur]; omega)
    obtain ⟨W1, hW1, hov1⟩ : ∃ W1, W1 = _ ∧ Runs k W [32] W1 := ⟨_, rfl, hov⟩
    obtain ⟨F, hF, hFst, hFnb, hFh⟩ := value_then_crlf k t a v2 W1 (v1 ++ [32])
      (by rw [hW1]; exact hWst) htc ht htu (by rw [hW1]; simp [set_slot]) hcr
      (fun h => by simp at h)
      (by rw [hW1]
          show (v1 ++ [32]).length + v2.length < W.current_alloc_len
          rw [hWcur]
          simp only [List.length_append, List.length_cons, List.length_nil]
          omega)
      (by rw [hW1]
          show W.current_alloc_len + k.LWS_ADDITIONAL_HDR_ALLOC < k.LWS_MAX_HEADER_LEN
          rw [hWcur]; exact hmax)
    exact ⟨F, Runs.append k _ _ _ _ _ hname1 (Runs.append k _ _ _ _ _ hov1 hF),
      hFst, hFnb, hFh⟩


/-- C18 as stated fails: after Host: a and Host: b the HOST slot holds the string a b,
with the space that follows the colon of the second line, and not ab. -/
theorem C18_second_space_counterexample :
    ((parse_feed spec_consts (fresh_wsi 13 .xor_mask_05)
      (str "Host: a\r\nHost: b\r\n")).2.utf8_token WSI_TOKEN_HOST).holds (str "a b") ∧
    ((parse_feed spec_consts (fresh_wsi 13 .xor_mask_05)
      (str "Host: a\r\nHost: b\r\n")).2.utf8_token WSI_TOKEN_HOST).value = str "a b" ∧
    ¬ ((parse_feed spec_consts (fresh_wsi 13 .xor_mask_05)
      (str "Host: a\r\nHost: b\r\n")).2.utf8_token WSI_TOKEN_HOST).holds (str "ab") := by
  decide

/-- C18, amended (a header seen twice).  From the name part with an empty name buffer
and the slot of the header still absent, the line name, space, v1, CR LF is fed, then
any bytes mid that bring the parser back to the name part with an empty name buffer,
the slot untouched and current_alloc_len at least the initial allocation (no bytes at
all, or other header lines), then the line name, space, v2, CR LF.  The values are free
of CR, do not begin with a space, and v1, one space and v2 together are shorter than
the initial allocation.  Every byte returns 0 and the slot holds v1, then, unless v1 is
empty, the space that follows the colon of the second line, then v2: the second
occurrence is appended to the buffer of the first. -/
theorem C18_header_appended (k : Consts) (wsi : Wsi) (nm : List Nat) (n0 : Nat)
    (v1 v2 mid : List Nat) (W2 : Wsi)
    (hst : wsi.parser_state = .WSI_TOKEN_NAME_PART) (hnb : wsi.name_buffer = [])
    (hsize : nm.length < k.name_buffer_size)
    (hscan : name_scan [] nm = some n0)
    (ht : (if n0 = WSI_TOKEN_SWORIGIN then WSI_TOKEN_ORIGIN else n0) ≠ WSI_TOKEN_CHALLENGE)
    (htu : (if n0 = WSI_TOKEN_SWORIGIN then WSI_TOKEN_ORIGIN else n0) ≠ WSI_TOKEN_GET_URI)
    (htc : (if n0 = WSI_TOKEN_SWORIGIN then WSI_TOKEN_ORIGIN else n0) < WSI_TOKEN_COUNT)
    (habs : (wsi.utf8_token (if n0 = WSI_TOKEN_SWORIGIN then WSI_TOKEN_ORIGIN else n0)).token
      = none)
    (hcr1 : 13 ∉ v1) (hsp1 : v1.head? ≠ some 32)
    (hcr2 : 13 ∉ v2) (hsp2 : v2.head? ≠ some 32)
    (hlen : v1.length + 1 + v2.length < k.LWS_INITIAL_HDR_ALLOC)
    (hmax : k.LWS_INITIAL_HDR_ALLOC + k.LWS_ADDITIONAL_HDR_ALLOC < k.LWS_MAX_HEADER_LEN)
    (hmid : Runs k (parse_feed k wsi (nm ++ ([32] ++ (v1 ++ ([13] ++ [10]))))).2 mid W2)
    (hst2 : W2.parser_state = .WSI_TOKEN_NAME_PART) (hnb2 : W2.name_buffer = [])
    (hslot2 : W2.utf8_token (if n0 = WSI_TOKEN_SWORIGIN then WSI_TOKEN_ORIGIN else n0) =
      (parse_feed k wsi (nm ++ ([32] ++ (v1 ++ ([13] ++ [10]))))).2.utf8_token
        (if n0 = WSI_TOKEN_SWORIGIN then WSI_TOKEN_ORIGIN else n0))
    (hcur2 : k.LWS_INITIAL_HDR_ALLOC ≤ W2.current_alloc_len)
    (hmax2 : W2.current_alloc_len + k.LWS_ADDITIONAL_HDR_ALLOC < k.LWS_MAX_HEADER_LEN) :
    ∃ F : Wsi,
      Runs k wsi ((nm ++ ([32] ++ (v1 ++ ([13] ++ [10])))) ++
        (mid ++ (nm ++ ([32] ++ (v2 ++ ([13] ++ [10])))))) F ∧
      F.parser_state = .WSI_TOKEN_NAME_PART ∧
      (F.utf8_token (if n0 = WSI_TOKEN_SWORIGIN then WSI_TOKEN_ORIGIN else n0)).holds
        (if v1 = [] then v2 else v1 ++ [32] ++ v2) := by
  have h1 := header_line k nm n0 v1 wsi hst hnb hsize hscan ht htu htc habs hcr1 hsp1
    (by omega) hmax
  have hne : ¬ (v1.length + 1 = k.LWS_INITIAL_HDR_ALLOC) := by omega
  simp only [hne, if_false] at h1
  rw [h1.1] at hmid hslot2
  simp only [set_slot_same] at hslot2
  obtain ⟨F, hF, hFst, _, hFh⟩ := header_again k nm n0 v1 v2 k.LWS_INITIAL_HDR_ALLOC W2
    hst2 hnb2 hsize hscan ht htu htc hslot2 hcr2 hsp2 (by omega) hmax2
  exact ⟨F, Runs.append k _ _ _ _ _ h1 (Runs.append k _ _ _ _ _ hmid hF), hFst, hFh⟩

/-- C18 on Host: a followed at once by Host: b. -/
theorem C18_header_appended_witness :
    ∃ F : Wsi,
      Runs spec_consts (fresh_wsi 13 .xor_mask_05)
        ((str "Host:" ++ ([32] ++ (str "a" ++ ([13] ++ [10])))) ++
          ([] ++ (str "Host:" ++ ([32] ++ (str "b" ++ ([13] ++ [10])))))) F ∧
      F.parser_state = .WSI_TOKEN_NAME_PART ∧
      (F.utf8_token (if WSI_TOKEN_HOST = WSI_TOKEN_SWORIGIN then WSI_TOKEN_ORIGIN
        else WSI_TOKEN_HOST)).holds
        (if str "a" = [] then str "b" else str "a" ++ [32] ++ str "b") :=
  C18_header_appended spec_consts (fresh_wsi 13 .xor_mask_05) (str "Host:") WSI_TOKEN_HOST
    (str "a") (str "b") []
    (parse_feed spec_consts (fresh_wsi 13 .xor_mask_05)
      (str "Host:" ++ ([32] ++ (str "a" ++ ([13] ++ [10]))))).2
    rfl rfl (by decide) (by decide) (by decide) (by decide) (by decide) rfl (by decide)
    (by decide) (by decide) (by decide) (by decide) (by decide) (Runs.nil _ _) (by decide)
    (by decide) rfl (by decide) (by decide)

/-! ## Oversize header values -/

theorem cstring_append_zero (a rest : List Nat) (h : ∀ b ∈ a, b ≠ 0) :
    cstring (a ++ 0 :: rest) = a := by
  unfold cstring
  induction a with
  | nil => simp
  | cons x xs ih =>
    have hx : x ≠ 0 := h x (List.mem_cons_self _ _)
    simp only [List.cons_append, List.takeWhile_cons, bne_iff_ne.mpr hx, if_true]
    rw [ih (fun b hb => h b (List.mem_cons_of_mem _ hb))]

theorem strcpy_exceeded_value (s : Slot) (mem : List Nat) (h : s.token = some mem) :
    s.strcpy_exceeded.value = LENGTH_EXCEEDED := by
  unfold Slot.strcpy_exceeded Slot.value
  simp only [h, Option.map_some', Option.getD_some, List.append_assoc, List.singleton_append]
  exact cstring_append_zero _ _ (by decide)

theorem oversize_step (k : Consts) (malloc_ok : Bool) (wsi : Wsi) (t c : Nat)
    (mem : List Nat) (len a : Nat)
    (hst : wsi.parser_state = .token t) (ht : t < WSI_TOKEN_COUNT)
    (hslot : wsi.utf8_token t = { token := some mem, token_len := len, alloc := a })
    (hfull : len + 1 = wsi.current_alloc_len)
    (hceil : wsi.current_alloc_len + k.LWS_ADDITIONAL_HDR_ALLOC ≥ k.LWS_MAX_HEADER_LEN)
    (hlead : ¬ (len = 0 ∧ c = 32))
    (huri : ¬ (t = WSI_TOKEN_GET_URI ∧ c = 32)) :
    libwebsocket_parse k malloc_ok wsi c =
      (0, { wsi with
        current_alloc_len := wsi.current_alloc_len + k.LWS_ADDITIONAL_HDR_ALLOC
        utf8_token := set_slot wsi.utf8_token t (wsi.utf8_token t).strcpy_exceeded
        parser_state := .WSI_TOKEN_SKIPPING }) := by
  have hlead1 : ¬ ((wsi.utf8_token t).token_len = 0 ∧ c = 32) := by rw [hslot]; exact hlead
  have hfull1 : (wsi.utf8_token t).token_len + 1 = wsi.current_alloc_len := by
    rw [hslot]; exact hfull
  simp only [libwebsocket_parse, hst, ht, if_true, parse_token]
  rw [if_neg hlead1, if_neg huri]
  simp only [hfull1, if_true, true_and]
  rw [if_pos hceil]


/-- The demotion of an oversize header value.  The parser is collecting token t,
whose slot holds len = current_alloc_len - 1 bytes, and one more step of the allocation
would reach LWS_MAX_HEADER_LEN.  A byte arrives that the code takes for a value byte
(not a leading space of an empty value and not the space that ends the URI).  Then
libwebsocket_parse returns 0 whether or not allocations succeed, the parser is in
WSI_TOKEN_SKIPPING and the C string in the slot is the sentinel.  Any bytes without CR,
then CR LF, bring the parser back to the name part with an empty name buffer, and a
header line for a token whose slot is still absent is then stored as usual, the demoted
slot keeping the sentinel. -/
theorem oversize_demoted (k : Consts) (malloc_ok : Bool) (wsi : Wsi) (t c : Nat)
    (mem : List Nat) (len a : Nat)
    (hst : wsi.parser_state = .token t) (ht : t < WSI_TOKEN_COUNT)
    (hslot : wsi.utf8_token t = { token := some mem, token_len := len, alloc := a })
    (hfull : len + 1 = wsi.current_alloc_len)
    (hceil : wsi.current_alloc_len + k.LWS_ADDITIONAL_HDR_ALLOC ≥ k.LWS_MAX_HEADER_LEN)
    (hlead : ¬ (len = 0 ∧ c = 32))
    (huri : ¬ (t = WSI_TOKEN_GET_URI ∧ c = 32)) :
    (libwebsocket_parse k malloc_ok wsi c).1 = 0 ∧
    (libwebsocket_parse k malloc_ok wsi c).2.parser_state = .WSI_TOKEN_SKIPPING ∧
    ((libwebsocket_parse k malloc_ok wsi c).2.utf8_token t).value = LENGTH_EXCEEDED ∧
    (∀ junk : List Nat, 13 ∉ junk →
      Runs k (libwebsocket_parse k malloc_ok wsi c).2 (junk ++ [13, 10])
        { (libwebsocket_parse k malloc_ok wsi c).2 with
          parser_state := .WSI_TOKEN_NAME_PART
          name_buffer := [] }) ∧
    (∀ (junk nm : List Nat) (n0 : Nat) (v : List Nat), 13 ∉ junk →
      nm.length < k.name_buffer_size → name_scan [] nm = some n0 →
      (if n0 = WSI_TOKEN_SWORIGIN then WSI_TOKEN_ORIGIN else n0) ≠ WSI_TOKEN_CHALLENGE →
      (if n0 = WSI_TOKEN_SWORIGIN then WSI_TOKEN_ORIGIN else n0) ≠ WSI_TOKEN_GET_URI →
      (if n0 = WSI_TOKEN_SWORIGIN then WSI_TOKEN_ORIGIN else n0) < WSI_TOKEN_COUNT →
      (wsi.utf8_token (if n0 = WSI_TOKEN_SWORIGIN then WSI_TOKEN_ORIGIN else n0)).token
        = none →
      13 ∉ v → v.head? ≠ some 32 → v.length < k.LWS_INITIAL_HDR_ALLOC →
      k.LWS_INITIAL_HDR_ALLOC + k.LWS_ADDITIONAL_HDR_ALLOC < k.LWS_MAX_HEADER_LEN →
      ∃ F : Wsi,
        Runs k (libwebsocket_parse k malloc_ok wsi c).2
          ((junk ++ [13, 10]) ++ (nm ++ ([32] ++ (v ++ ([13] ++ [10]))))) F ∧
        F.parser_state = .WSI_TOKEN_NAME_PART ∧
        (F.utf8_token (if n0 = WSI_TOKEN_SWORIGIN then WSI_TOKEN_ORIGIN else n0)).holds v ∧
        (F.utf8_token t).value = LENGTH_EXCEEDED) := by
  rw [oversize_step k malloc_ok wsi t c mem len a hst ht hslot hfull hceil hlead huri]
  have hval : (wsi.utf8_token t).strcpy_exceeded.value = LENGTH_EXCEEDED :=
    strcpy_exceeded_value _ mem (by rw [hslot])
  obtain ⟨S, hS⟩ : ∃ S : Wsi, S = { wsi with
        current_alloc_len := wsi.current_alloc_len + k.LWS_ADDITIONAL_HDR_ALLOC
        utf8_token := set_slot wsi.utf8_token t (wsi.utf8_token t).strcpy_exceeded
        parser_state := .WSI_TOKEN_SKIPPING } := ⟨_, rfl⟩
  rw [← hS]
  have hSst : S.parser_state = .WSI_TOKEN_SKIPPING := by rw [hS]
  have hSslot : S.utf8_token = set_slot wsi.utf8_token t (wsi.utf8_token t).strcpy_exceeded := by
    rw [hS]
  have hskip : ∀ junk : List Nat, 13 ∉ junk →
      Runs k S (junk ++ [13, 10])
        { S with parser_state := .WSI_TOKEN_NAME_PART, name_buffer := [] } :=
    fun junk hj => Runs.append k _ _ _ _ _ (skip_run k junk S hSst hj) (skip_crlf k S hSst)
  refine ⟨rfl, hSst, ?_, hskip, ?_⟩
  · rw [hSslot, set_slot_same]
    exact hval
  · intro junk nm n0 v hj hsize hscan h9 h0 hcnt habs hcr hsp hlen hmax
    have htt : (if n0 = WSI_TOKEN_SWORIGIN then WSI_TOKEN_ORIGIN else n0) ≠ t := by
      intro h
      rw [h, hslot] at habs
      simp at habs
    have hline := header_line k nm n0 v
      { S with parser_state := .WSI_TOKEN_NAME_PART, name_buffer := [] } rfl rfl hsize hscan
      h9 h0 hcnt
      (by
        show (S.utf8_token _).token = none
        rw [hSslot, set_slot_other _ _ _ _ htt]
        exact habs)
      hcr hsp hlen hmax
    refine ⟨_, Runs.append k _ _ _ _ _ (hskip junk hj) hline, rfl, ?_, ?_⟩
    · simp [Slot.holds, set_slot]
    · show (set_slot S.utf8_token _ _ t).value = LENGTH_EXCEEDED
      rw [set_slot_other _ _ _ _ (fun h => htt h.symm), hSslot, set_slot_same]
      exact hval

set_option maxRecDepth 100000 in
/-- The demotion under constants with a first allocation of 48 bytes and a ceiling one
step off:
the 48th value byte of Host: demotes the slot, the rest of the line is skipped and the
Upgrade line that follows is stored. -/
theorem oversize_demoted_witness :
    ((libwebsocket_parse tight_consts true full_host_wsi 97).1 = 0 ∧
      (libwebsocket_parse tight_consts true full_host_wsi 97).2.parser_state =
        .WSI_TOKEN_SKIPPING ∧
      ((libwebsocket_parse tight_consts true full_host_wsi 97).2.utf8_token
        WSI_TOKEN_HOST).value = LENGTH_EXCEEDED) ∧
    ((parse_feed tight_consts full_host_wsi
        (str "aaa\r\nUpgrade: websocket\r\n")).2.utf8_token WSI_TOKEN_HOST).value =
      LENGTH_EXCEEDED ∧
    ((parse_feed tight_consts full_host_wsi
        (str "aaa\r\nUpgrade: websocket\r\n")).2.utf8_token WSI_TOKEN_UPGRADE).holds
      (str "websocket") :=
  (fun h => ⟨⟨h.1, h.2.1, h.2.2.1⟩, by decide, by decide⟩)
    (oversize_demoted tight_consts true full_host_wsi WSI_TOKEN_HOST 97
      (List.replicate 47 97) 47 48 (by decide) (by decide) (by decide) (by decide)
      (by decide) (by decide) (by decide))

/-! ## The legacy challenge -/

set_option maxRecDepth 100000 in
/-- C20 at a challenge that begins with the byte 20: the code swallows that byte as if
it were the optional space before a header value, so after the 8 challenge bytes the
parser is still collecting, with 7 bytes in the CHALLENGE slot, and it completes only
on a ninth byte, with a challenge made of bytes 2 to 9.  A challenge with the bytes 20
and 0d further in completes on its 8th byte and is stored as it is. -/
theorem C20_leading_space_challenge_evaluation :
    ((parse_feed spec_consts (fresh_wsi 0 .xor_no_mask)
        (legacy_request ++ [0x20, 1, 2, 3, 4, 5, 6, 7])).2.parser_state =
        .token WSI_TOKEN_CHALLENGE ∧
      ((parse_feed spec_consts (fresh_wsi 0 .xor_no_mask)
        (legacy_request ++ [0x20, 1, 2, 3, 4, 5, 6, 7])).2.utf8_token
          WSI_TOKEN_CHALLENGE).token = some [1, 2, 3, 4, 5, 6, 7] ∧
      (parse_feed spec_consts (fresh_wsi 0 .xor_no_mask)
        (legacy_request ++ [0x20, 1, 2, 3, 4, 5, 6, 7] ++ [8])).2.parser_state =
        .WSI_PARSING_COMPLETE ∧
      ((parse_feed spec_consts (fresh_wsi 0 .xor_no_mask)
        (legacy_request ++ [0x20, 1, 2, 3, 4, 5, 6, 7] ++ [8])).2.utf8_token
          WSI_TOKEN_CHALLENGE).token = some [1, 2, 3, 4, 5, 6, 7, 8]) ∧
    ((parse_feed spec_consts (fresh_wsi 0 .xor_no_mask)
        (legacy_request ++ [1, 0x20, 0x0d, 4, 5, 6, 7])).2.parser_state =
        .token WSI_TOKEN_CHALLENGE ∧
      (parse_feed spec_consts (fresh_wsi 0 .xor_no_mask)
        (legacy_request ++ [1, 0x20, 0x0d, 4, 5, 6, 7, 8])).2.parser_state =
        .WSI_PARSING_COMPLETE ∧
      ((parse_feed spec_consts (fresh_wsi 0 .xor_no_mask)
        (legacy_request ++ [1, 0x20, 0x0d, 4, 5, 6, 7, 8])).2.utf8_token
          WSI_TOKEN_CHALLENGE).token = some [1, 0x20, 0x0d, 4, 5, 6, 7, 8]) := by
  decide

/-! ## The end of the headers -/

/-- The blank line that ends the headers, fed in the name part with an empty name
buffer: both bytes return 0, the CR changes nothing but the name buffer, and the LF
matches the CRLF entry of the table and runs the end-of-headers code on a record whose
CHALLENGE slot is allocated. -/
theorem blank_line (k : Consts) (wsi : Wsi)
    (hst : wsi.parser_state = .WSI_TOKEN_NAME_PART) (hnb : wsi.name_buffer = [])
    (hsize : 2 < k.name_buffer_size) :
    libwebsocket_parse k true wsi 13 = (0, { wsi with name_buffer := [13] }) ∧
    ∃ w : Wsi,
      libwebsocket_parse k true { wsi with name_buffer := [13] } 10 =
        (0, name_part_challenge w) ∧
      parse_feed k wsi [13, 10] = ([0, 0], name_part_challenge w) ∧
      w.ietf_spec_revision = wsi.ietf_spec_revision ∧
      w.parser_state = .token WSI_TOKEN_CHALLENGE ∧
      (∀ j, j ≠ WSI_TOKEN_CHALLENGE → w.utf8_token j = wsi.utf8_token j) ∧
      (w.utf8_token WSI_TOKEN_CHALLENGE).token_len =
        (if (wsi.utf8_token WSI_TOKEN_CHALLENGE).token.isSome then
          (wsi.utf8_token WSI_TOKEN_CHALLENGE).token_len else 0) := by
  have hpos0 : ¬ (0 + 1 = k.name_buffer_size) := by omega
  have hpos : ¬ (1 + 1 = k.name_buffer_size) := by omega
  have hnone : find_token [13] lws_tokens 0 = none := by decide
  have hsome : find_token [13, 10] lws_tokens 0 = some 9 := by decide
  have hcr : libwebsocket_parse k true wsi 13 = (0, { wsi with name_buffer := [13] }) := by
    simp [libwebsocket_parse, hst, parse_name_part, Wsi.name_buffer_pos, hnb, hpos0, hnone]
  refine ⟨hcr, ?_⟩
  have hfeed : ∀ w : Wsi,
      libwebsocket_parse k true { wsi with name_buffer := [13] } 10 =
        (0, name_part_challenge w) →
      parse_feed k wsi [13, 10] = ([0, 0], name_part_challenge w) := by
    intro w hlf
    rw [parse_feed_cons, hcr]
    simp only [parse_feed_cons, hlf]
    simp [parse_feed]
  by_cases hch : (wsi.utf8_token WSI_TOKEN_CHALLENGE).token.isSome = true
  · have hlf : libwebsocket_parse k true { wsi with name_buffer := [13] } 10 =
        (0, name_part_challenge
          { wsi with name_buffer := [13, 10], parser_state := .token WSI_TOKEN_CHALLENGE }) := by
      simp [libwebsocket_parse, hst, parse_name_part, Wsi.name_buffer_pos, hpos,
        hsome, name_matched, hch]
    exact ⟨_, hlf, hfeed _ hlf, rfl, rfl, fun _ _ => rfl, by simp [hch]⟩
  · have hlf : libwebsocket_parse k true { wsi with name_buffer := [13] } 10 =
        (0, name_part_challenge
          { wsi with
            name_buffer := [13, 10]
            parser_state := .token WSI_TOKEN_CHALLENGE
            current_alloc_len := k.LWS_INITIAL_HDR_ALLOC
            utf8_token := set_slot wsi.utf8_token WSI_TOKEN_CHALLENGE
              { token := some [], token_len := 0, alloc := k.LWS_INITIAL_HDR_ALLOC } }) := by
      simp [libwebsocket_parse, hst, parse_name_part, Wsi.name_buffer_pos, hpos,
        hsome, name_matched, hch]
    exact ⟨_, hlf, hfeed _ hlf, rfl, rfl, fun j hj => by simp [set_slot, hj],
      by simp [hch, set_slot]⟩


/-- The end-of-headers code leaves every slot but CHALLENGE alone. -/
theorem name_part_challenge_slots (w : Wsi) (j : Nat) (hj : j ≠ WSI_TOKEN_CHALLENGE) :
    (name_part_challenge w).utf8_token j = w.utf8_token j := by
  unfold name_part_challenge
  by_cases c1 : (w.utf8_token WSI_TOKEN_UPGRADE).token_len = 0 <;>
  by_cases c2 : (w.utf8_token WSI_TOKEN_VERSION).token_len ≠ 0 ∧
      atoi (w.utf8_token WSI_TOKEN_VERSION).value ≥ 4 <;>
  by_cases c3 : w.ietf_spec_revision ≥ 4 <;>
  simp [c1, c2, c3, set_slot, hj]

/-- With a version of at least 4 the end-of-headers code completes the parse and frees
the CHALLENGE slot. -/
theorem name_part_challenge_versioned (w : Wsi)
    (hvl : (w.utf8_token WSI_TOKEN_VERSION).token_len ≠ 0)
    (hv : atoi (w.utf8_token WSI_TOKEN_VERSION).value ≥ 4) :
    (name_part_challenge w).parser_state = .WSI_PARSING_COMPLETE ∧
    (name_part_challenge w).utf8_token WSI_TOKEN_CHALLENGE =
      { token := none, token_len := 0, alloc := 0 } := by
  unfold name_part_challenge
  by_cases c1 : (w.utf8_token WSI_TOKEN_UPGRADE).token_len = 0 <;>
  by_cases c3 : w.ietf_spec_revision ≥ 4 <;>
  simp [c1, c3, hvl, hv, set_slot]

/-- Without an Upgrade header the end-of-headers code completes the parse. -/
theorem name_part_challenge_plain (w : Wsi)
    (hup : (w.utf8_token WSI_TOKEN_UPGRADE).token_len = 0) :
    (name_part_challenge w).parser_state = .WSI_PARSING_COMPLETE ∧
    (name_part_challenge w).utf8_token WSI_TOKEN_CHALLENGE =
      (if (w.utf8_token WSI_TOKEN_VERSION).token_len ≠ 0 ∧
          atoi (w.utf8_token WSI_TOKEN_VERSION).value ≥ 4
        then { token := none, token_len := 0, alloc := 0 }
        else w.utf8_token WSI_TOKEN_CHALLENGE) := by
  unfold name_part_challenge
  by_cases c2 : (w.utf8_token WSI_TOKEN_VERSION).token_len ≠ 0 ∧
      atoi (w.utf8_token WSI_TOKEN_VERSION).value ≥ 4 <;>
  by_cases c3 : w.ietf_spec_revision ≥ 4 <;>
  simp [c2, c3, hup, set_slot]

/-- With an Upgrade header, a version below 4 and a revision below 4 the end-of-headers
code changes nothing: the challenge is still to come. -/
theorem name_part_challenge_legacy (w : Wsi)
    (hup : (w.utf8_token WSI_TOKEN_UPGRADE).token_len ≠ 0)
    (hv : atoi (w.utf8_token WSI_TOKEN_VERSION).value < 4)
    (hrev : w.ietf_spec_revision < 4) :
    name_part_challenge w = w := by
  unfold name_part_challenge
  have c2 : ¬ ((w.utf8_token WSI_TOKEN_VERSION).token_len ≠ 0 ∧
      atoi (w.utf8_token WSI_TOKEN_VERSION).value ≥ 4) := by
    intro h
    omega
  have c3 : ¬ w.ietf_spec_revision ≥ 4 := by omega
  simp only [hup, if_false, c2, c3]

/-- C21 against the claim as written: an upgrade request with Sec-WebSocket-Version: 3
on a connection of revision 0.  Every byte returns 0, the VERSION slot holds 3 and the
UPGRADE slot websocket, yet after the LF of the blank line the parser is collecting the
CHALLENGE token and has not been in WSI_PARSING_COMPLETE; it completes, with the
CHALLENGE slot freed, only after 8 further bytes. -/
theorem C21_version_three_counterexample :
    (parse_feed spec_consts (fresh_wsi 0 .xor_no_mask)
      (versioned_headers (str "3") ++ [13, 10])).1 =
        List.replicate (versioned_headers (str "3") ++ [13, 10]).length 0 ∧
    ((parse_feed spec_consts (fresh_wsi 0 .xor_no_mask)
      (versioned_headers (str "3") ++ [13, 10])).2.utf8_token WSI_TOKEN_VERSION).holds
        (str "3") ∧
    ((parse_feed spec_consts (fresh_wsi 0 .xor_no_mask)
      (versioned_headers (str "3") ++ [13, 10])).2.utf8_token WSI_TOKEN_UPGRADE).holds
        (str "websocket") ∧
    atoi ((parse_feed spec_consts (fresh_wsi 0 .xor_no_mask)
      (versioned_headers (str "3") ++ [13, 10])).2.utf8_token WSI_TOKEN_VERSION).value = 3 ∧
    (parse_feed spec_consts (fresh_wsi 0 .xor_no_mask)
      (versioned_headers (str "3") ++ [13, 10])).2.parser_state =
        .token WSI_TOKEN_CHALLENGE ∧
    completes_within spec_consts (fresh_wsi 0 .xor_no_mask)
      (versioned_headers (str "3") ++ [13, 10]) = false ∧
    (parse_feed spec_consts (fresh_wsi 0 .xor_no_mask)
      (versioned_headers (str "3") ++ [13, 10] ++ str "1234567")).2.parser_state =
        .token WSI_TOKEN_CHALLENGE ∧
    (parse_feed spec_consts (fresh_wsi 0 .xor_no_mask)
      (versioned_headers (str "3") ++ [13, 10] ++ str "12345678")).2.parser_state =
        .WSI_PARSING_COMPLETE ∧
    (parse_feed spec_consts (fresh_wsi 0 .xor_no_mask)
      (versioned_headers (str "3") ++ [13, 10] ++ str "12345678")).2.utf8_token
        WSI_TOKEN_CHALLENGE = { token := none, token_len := 0, alloc := 0 } := by
  decide

/-- C21, amended (versioned handshakes of version 4 and later have no challenge).  In the
name part with an empty name buffer (the start of a header line), with a
Sec-WebSocket-Version header stored, the blank line CR LF returns 0 on both bytes and:
if the value of the version, as the int that atoi returns for it, is at least 4 the
parser is not complete after the CR, is in WSI_PARSING_COMPLETE after the LF, the
CHALLENGE slot is empty (NULL token, length 0) and every other slot is as it was; if
that int is below 4 (1, 2 and 3 included, and also a number too large for an int that
atoi returns as a negative one), an Upgrade header was stored and the revision of the
connection is below 4, the parser is after the LF not complete but collecting the
CHALLENGE token, the 8-byte challenge of the old handshake.  The name buffer is taken to
have more than 2 bytes. -/
theorem C21_versioned_no_challenge (k : Consts) (wsi : Wsi)
    (hst : wsi.parser_state = .WSI_TOKEN_NAME_PART) (hnb : wsi.name_buffer = [])
    (hsize : 2 < k.name_buffer_size)
    (hvl : (wsi.utf8_token WSI_TOKEN_VERSION).token_len ≠ 0) :
    (parse_feed k wsi [13, 10]).1 = [0, 0] ∧
    (parse_feed k wsi [13]).2.parser_state = .WSI_TOKEN_NAME_PART ∧
    (atoi (wsi.utf8_token WSI_TOKEN_VERSION).value ≥ 4 →
      (parse_feed k wsi [13, 10]).2.parser_state = .WSI_PARSING_COMPLETE ∧
      (parse_feed k wsi [13, 10]).2.utf8_token WSI_TOKEN_CHALLENGE =
        { token := none, token_len := 0, alloc := 0 } ∧
      ∀ j, j ≠ WSI_TOKEN_CHALLENGE →
        (parse_feed k wsi [13, 10]).2.utf8_token j = wsi.utf8_token j) ∧
    (atoi (wsi.utf8_token WSI_TOKEN_VERSION).value < 4 →
      (wsi.utf8_token WSI_TOKEN_UPGRADE).token_len ≠ 0 →
      wsi.ietf_spec_revision < 4 →
      (parse_feed k wsi [13, 10]).2.parser_state = .token WSI_TOKEN_CHALLENGE ∧
      completes_within k wsi [13, 10] = false) := by
  obtain ⟨hcr, w, hlf0, hw, hrev, hps, hslots, _⟩ := blank_line k wsi hst hnb hsize
  have hver : w.utf8_token WSI_TOKEN_VERSION = wsi.utf8_token WSI_TOKEN_VERSION :=
    hslots _ (by decide)
  have hupg : w.utf8_token WSI_TOKEN_UPGRADE = wsi.utf8_token WSI_TOKEN_UPGRADE :=
    hslots _ (by decide)
  have hone : (parse_feed k wsi [13]).2.parser_state = .WSI_TOKEN_NAME_PART := by
    rw [parse_feed_cons, hcr]
    simp [parse_feed, hst]
  refine ⟨by rw [hw], hone, ?_, ?_⟩
  · intro hv
    have h := name_part_challenge_versioned w (by rw [hver]; exact hvl) (by rw [hver]; exact hv)
    rw [hw]
    refine ⟨h.1, h.2, fun j hj => ?_⟩
    show (name_part_challenge w).utf8_token j = _
    rw [name_part_challenge_slots w j hj, hslots j hj]
  · intro hv hup hr
    have h := name_part_challenge_legacy w (by rw [hupg]; exact hup) (by rw [hver]; exact hv)
      (by rw [hrev]; exact hr)
    have hlf : libwebsocket_parse k true { wsi with name_buffer := [13] } 10 = (0, w) := by
      rw [hlf0, h]
    rw [hw, h]
    refine ⟨hps, ?_⟩
    rw [completes_within_cons, hcr, completes_within_cons, hlf]
    simp [hst, hps, completes_within]

set_option maxRecDepth 100000 in
/-- C21 at three requests on a connection of revision 0: after the headers with
Sec-WebSocket-Version: 13 the blank line completes the parse with the CHALLENGE slot
empty; after the headers with Sec-WebSocket-Version: 3, and with
Sec-WebSocket-Version: 2147483648, which atoi returns as the int -2147483648, it leaves
the parser collecting the challenge. -/
theorem C21_versioned_no_challenge_witness :
    (parse_feed spec_consts
      (parse_feed spec_consts (fresh_wsi 0 .xor_no_mask) (versioned_headers (str "13"))).2
      [13, 10]).2.parser_state = .WSI_PARSING_COMPLETE ∧
    (parse_feed spec_consts
      (parse_feed spec_consts (fresh_wsi 0 .xor_no_mask) (versioned_headers (str "13"))).2
      [13, 10]).2.utf8_token WSI_TOKEN_CHALLENGE =
        { token := none, token_len := 0, alloc := 0 } ∧
    (parse_feed spec_consts
      (parse_feed spec_consts (fresh_wsi 0 .xor_no_mask) (versioned_headers (str "3"))).2
      [13, 10]).2.parser_state = .token WSI_TOKEN_CHALLENGE ∧
    atoi ((parse_feed spec_consts (fresh_wsi 0 .xor_no_mask)
      (versioned_headers (str "2147483648"))).2.utf8_token WSI_TOKEN_VERSION).value =
        -2147483648 ∧
    (parse_feed spec_consts
      (parse_feed spec_consts (fresh_wsi 0 .xor_no_mask)
        (versioned_headers (str "2147483648"))).2
      [13, 10]).2.parser_state = .token WSI_TOKEN_CHALLENGE :=
  ⟨((C21_versioned_no_challenge spec_consts
      (parse_feed spec_consts (fresh_wsi 0 .xor_no_mask) (versioned_headers (str "13"))).2
      (by decide) (by decide) (by decide) (by decide)).2.2.1 (by decide)).1,
   ((C21_versioned_no_challenge spec_consts
      (parse_feed spec_consts (fresh_wsi 0 .xor_no_mask) (versioned_headers (str "13"))).2
      (by decide) (by decide) (by decide) (by decide)).2.2.1 (by decide)).2.1,
   ((C21_versioned_no_challenge spec_consts
      (parse_feed spec_consts (fresh_wsi 0 .xor_no_mask) (versioned_headers (str "3"))).2
      (by decide) (by decide) (by decide) (by decide)).2.2.2 (by decide) (by decide)
      (by decide)).1,
   by decide,
   ((C21_versioned_no_challenge spec_consts
      (parse_feed spec_consts (fresh_wsi 0 .xor_no_mask)
        (versioned_headers (str "2147483648"))).2
      (by decide) (by decide) (by decide) (by decide)).2.2.2 (by decide) (by decide)
      (by decide)).1⟩

/-- C22 (plain HTTP completes at the end of the headers).  In the name part with an empty
name buffer (the start of a header line), with the UPGRADE slot empty (token_len 0),
whatever the VERSION slot holds and whatever the revision and mode of the connection: the
blank line CR LF returns 0 on both bytes, the parser is still in the name part after the
CR and in WSI_PARSING_COMPLETE after the LF, and every slot other than CHALLENGE (GET_URI,
HOST and so on) is exactly as it was before the blank line; the CHALLENGE slot, if it was
absent, stays without a value (token_len 0).  The name buffer is taken to have more than
2 bytes. -/
theorem C22_plain_http_completes (k : Consts) (wsi : Wsi)
    (hst : wsi.parser_state = .WSI_TOKEN_NAME_PART) (hnb : wsi.name_buffer = [])
    (hsize : 2 < k.name_buffer_size)
    (hup : (wsi.utf8_token WSI_TOKEN_UPGRADE).token_len = 0) :
    (parse_feed k wsi [13, 10]).1 = [0, 0] ∧
    (parse_feed k wsi [13]).2.parser_state = .WSI_TOKEN_NAME_PART ∧
    (parse_feed k wsi [13, 10]).2.parser_state = .WSI_PARSING_COMPLETE ∧
    (∀ j, j ≠ WSI_TOKEN_CHALLENGE →
      (parse_feed k wsi [13, 10]).2.utf8_token j = wsi.utf8_token j) ∧
    ((wsi.utf8_token WSI_TOKEN_CHALLENGE).token = none →
      ((parse_feed k wsi [13, 10]).2.utf8_token WSI_TOKEN_CHALLENGE).token_len = 0) := by
  obtain ⟨hcr, w, _, hw, _, _, hslots, hlen⟩ := blank_line k wsi hst hnb hsize
  have hupg : w.utf8_token WSI_TOKEN_UPGRADE = wsi.utf8_token WSI_TOKEN_UPGRADE :=
    hslots _ (by decide)
  have h := name_part_challenge_plain w (by rw [hupg]; exact hup)
  have hone : (parse_feed k wsi [13]).2.parser_state = .WSI_TOKEN_NAME_PART := by
    rw [parse_feed_cons, hcr]
    simp [parse_feed, hst]
  rw [hw]
  refine ⟨rfl, hone, h.1, fun j hj => ?_, fun hch => ?_⟩
  · show (name_part_challenge w).utf8_token j = _
    rw [name_part_challenge_slots w j hj, hslots j hj]
  · show ((name_part_challenge w).utf8_token WSI_TOKEN_CHALLENGE).token_len = 0
    rw [h.2]
    split
    · rfl
    · rw [hlen]
      simp [hch]

set_option maxRecDepth 100000 in
/-- C22 at a plain request on a connection of revision 0: GET /index.html with a Host
header, a stray Sec-WebSocket-Version: 2 and no Upgrade header completes on the LF of the
blank line, and the GET_URI and HOST slots still hold /index.html and x. -/
theorem C22_plain_http_completes_witness :
    (parse_feed spec_consts
      (parse_feed spec_consts (fresh_wsi 0 .xor_no_mask) plain_headers).2
      [13, 10]).2.parser_state = .WSI_PARSING_COMPLETE ∧
    ((parse_feed spec_consts
      (parse_feed spec_consts (fresh_wsi 0 .xor_no_mask) plain_headers).2
      [13, 10]).2.utf8_token WSI_TOKEN_GET_URI).holds (str "/index.html") ∧
    ((parse_feed spec_consts
      (parse_feed spec_consts (fresh_wsi 0 .xor_no_mask) plain_headers).2
      [13, 10]).2.utf8_token WSI_TOKEN_HOST).holds (str "x") :=
  ⟨(C22_plain_http_completes spec_consts
      (parse_feed spec_consts (fresh_wsi 0 .xor_no_mask) plain_headers).2
      (by decide) (by decide) (by decide) (by decide)).2.2.1,
   by
    rw [(C22_plain_http_completes spec_consts
      (parse_feed spec_consts (fresh_wsi 0 .xor_no_mask) plain_headers).2
      (by decide) (by decide) (by decide) (by decide)).2.2.2.1 WSI_TOKEN_GET_URI (by decide)]
    decide,
   by
    rw [(C22_plain_http_completes spec_consts
      (parse_feed spec_consts (fresh_wsi 0 .xor_no_mask) plain_headers).2
      (by decide) (by decide) (by decide) (by decide)).2.2.2.1 WSI_TOKEN_HOST (by decide)]
    decide⟩

/-! ## Totality of the handshake parser -/

/-- C23 (the handshake parser is total and fatal only on allocation failure).  For every
record, whatever its parser state, and every byte, libwebsocket_parse (a total function
of the record and the byte) returns 0 when the allocation it may make succeeds; whatever
the outcome of the allocation it returns 0 or -1, and it returns -1 exactly when the byte
takes a path that calls malloc or realloc and that call returned NULL. -/
theorem C23_parse_total (k : Consts) (malloc_ok : Bool) (wsi : Wsi) (c : Nat) :
    (libwebsocket_parse k true wsi c).1 = 0 ∧
    (libwebsocket_parse k malloc_ok wsi c).1 =
      (if parse_allocates k wsi c = true ∧ malloc_ok = false then -1 else 0) := by
  have key : ∀ m : Bool, (libwebsocket_parse k m wsi c).1 =
      (if parse_allocates k wsi c = true ∧ m = false then -1 else 0) := by
    intro m
    unfold libwebsocket_parse parse_allocates
    cases hps : wsi.parser_state with
    | token t =>
      simp only []
      by_cases ht : t < WSI_TOKEN_COUNT
      · rw [if_pos ht]
        unfold parse_token
        by_cases c1 : (wsi.utf8_token t).token_len = 0 ∧ c = 32
        · rw [if_pos c1]
          simp [c1]
        · by_cases c2 : t = WSI_TOKEN_GET_URI ∧ c = 32
          · rw [if_neg c1, if_pos c2]
            simp [c2]
          · rw [if_neg c1, if_neg c2]
            by_cases c3 : (wsi.utf8_token t).token_len + 1 = wsi.current_alloc_len
            · by_cases c4 : wsi.current_alloc_len + k.LWS_ADDITIONAL_HDR_ALLOC ≥
                  k.LWS_MAX_HEADER_LEN
              · have c5 : ¬ wsi.current_alloc_len + k.LWS_ADDITIONAL_HDR_ALLOC <
                    k.LWS_MAX_HEADER_LEN := by omega
                simp [c1, c2, c3, c4, c5, ht]
              · have c5 : wsi.current_alloc_len + k.LWS_ADDITIONAL_HDR_ALLOC <
                    k.LWS_MAX_HEADER_LEN := by omega
                cases m
                · simp [c1, c2, c3, c4, c5, ht]
                · simp [c1, c2, c3, c4, c5, ht]
                  split_ifs <;> rfl
            · simp [c1, c2, c3, ht]
              split_ifs <;> rfl
      · simp [ht]
    | WSI_INIT_TOKEN_MUXURL => cases m <;> simp
    | WSI_TOKEN_NAME_PART =>
      simp only []
      unfold parse_name_part
      by_cases c1 : wsi.name_buffer_pos + 1 = k.name_buffer_size
      · simp [c1]
      · rw [if_neg c1]
        simp only []
        cases hf : find_token (wsi.name_buffer ++ [c]) lws_tokens 0 with
        | some n0 =>
          simp only [name_matched]
          by_cases hs : (wsi.utf8_token
            (if n0 = WSI_TOKEN_SWORIGIN then WSI_TOKEN_ORIGIN else n0)).token.isSome = true
          · rw [if_pos hs]
            have hno : ¬ ((decide (wsi.name_buffer_pos + 1 ≠ k.name_buffer_size) &&
                !(wsi.utf8_token
                  (if n0 = WSI_TOKEN_SWORIGIN then WSI_TOKEN_ORIGIN else n0)).token.isSome) =
                true ∧ m = false) := by
              simp [hs]
            rw [if_neg hno]
            split_ifs <;> rfl
          · rw [if_neg hs]
            cases m
            · simp [c1, hs]
            · have hno : ¬ ((decide (wsi.name_buffer_pos + 1 ≠ k.name_buffer_size) &&
                  !(wsi.utf8_token
                    (if n0 = WSI_TOKEN_SWORIGIN then WSI_TOKEN_ORIGIN else n0)).token.isSome) =
                  true ∧ true = false) := by
                simp
              rw [if_neg hno]
              simp only [Bool.true_eq_false, if_false]
              split_ifs <;> rfl
        | none =>
          simp only []
          by_cases c2 : c = 58
          · simp [c1, c2]
          · by_cases c3 : c = 32 ∧ (wsi.utf8_token WSI_TOKEN_GET_URI).token_len = 0
            · cases m <;> simp [c1, c2, c3]
            · simp [c1, c2, c3]
    | WSI_TOKEN_SKIPPING => by_cases h13 : c = 13 <;> simp [h13]
    | WSI_TOKEN_SKIPPING_SAW_CR => by_cases h10 : c = 10 <;> simp [h10]
    | WSI_PARSING_COMPLETE => simp
  refine ⟨?_, key malloc_ok⟩
  rw [key true]
  simp

/-! ## Extensions at the spill -/

/-- The loop over the PAYLOAD_RX hooks changes nothing in the record but the trace, to
which it adds calls of extensions only. -/
theorem ext_payload_loop_events (exts : List (ExtReason → List Nat → ExtOut)) :
    ∀ (n : Nat) (buf : List Nat) (wsi : Wsi), ∃ evs : List Event,
      (ext_payload_loop exts n buf wsi).2 = { wsi with trace := wsi.trace ++ evs } ∧
      ∀ e ∈ evs, e.by_extension = true := by
  induction exts with
  | nil => intro n buf wsi; exact ⟨[], by simp [ext_payload_loop], by simp⟩
  | cons ext rest ih =>
    intro n buf wsi
    simp only [ext_payload_loop]
    split
    · exact ⟨[Event.extension n .LWS_EXT_CALLBACK_PAYLOAD_RX buf], rfl,
        by simp [Event.by_extension]⟩
    · obtain ⟨evs, h1, h2⟩ := ih (n + 1) (ext .LWS_EXT_CALLBACK_PAYLOAD_RX buf).eff_buf
        { wsi with trace := wsi.trace ++
          [Event.extension n .LWS_EXT_CALLBACK_PAYLOAD_RX buf] }
      refine ⟨Event.extension n .LWS_EXT_CALLBACK_PAYLOAD_RX buf :: evs, ?_, ?_⟩
      · rw [h1]
        simp
      · intro e he
        rcases List.mem_cons.mp he with h | h
        · rw [h]; rfl
        · exact h2 e h

/-- The loop over the EXTENDED_PAYLOAD_RX hooks changes nothing in the record but the
trace, to which it adds calls of extensions only. -/
theorem ext_extended_loop_events (exts : List (ExtReason → List Nat → ExtOut)) :
    ∀ (n : Nat) (buf : List Nat) (handled : Bool) (wsi : Wsi), ∃ evs : List Event,
      (ext_extended_loop exts n buf handled wsi).2 = { wsi with trace := wsi.trace ++ evs } ∧
      ∀ e ∈ evs, e.by_extension = true := by
  induction exts with
  | nil => intro n buf handled wsi; exact ⟨[], by simp [ext_extended_loop], by simp⟩
  | cons ext rest ih =>
    intro n buf handled wsi
    simp only [ext_extended_loop]
    obtain ⟨evs, h1, h2⟩ := ih (n + 1)
      (ext .LWS_EXT_CALLBACK_EXTENDED_PAYLOAD_RX buf).eff_buf
      (handled || (ext .LWS_EXT_CALLBACK_EXTENDED_PAYLOAD_RX buf).m != 0)
      { wsi with trace := wsi.trace ++
        [Event.extension n .LWS_EXT_CALLBACK_EXTENDED_PAYLOAD_RX buf] }
    refine ⟨Event.extension n .LWS_EXT_CALLBACK_EXTENDED_PAYLOAD_RX buf :: evs, ?_, ?_⟩
    · rw [h1]
      simp
    · intro e he
      rcases List.mem_cons.mp he with h | h
      · rw [h]; rfl
      · exact h2 e h

/-- C24 against the claim as written: with one registered extension whose PAYLOAD_RX hook
returns 1 and leaves the buffer alone, the spill of a text frame with the payload Hello
returns 0 and still calls the user callback with Hello, right after the hook; the same
holds for the whole masked frame of scenario 3 fed from state NEW. -/
theorem C24_positive_return_counterexample :
    (claiming_ext .LWS_EXT_CALLBACK_PAYLOAD_RX (str "Hello")).m = 1 ∧
    (spill claiming_env hello_spill_wsi).1 = 0 ∧
    (spill claiming_env hello_spill_wsi).2.trace =
      [Event.extension 0 .LWS_EXT_CALLBACK_PAYLOAD_RX (str "Hello"),
        Event.receive (str "Hello")] ∧
    (rx_feed claiming_env (fresh_wsi 13 .xor_mask_05) hello_frame).1 =
      List.replicate 11 0 ∧
    (rx_feed claiming_env (fresh_wsi 13 .xor_mask_05) hello_frame).2.trace =
      [Event.extension 0 .LWS_EXT_CALLBACK_PAYLOAD_RX (str "Hello"),
        Event.receive (str "Hello")] := by
  decide

/-- C24, amended (an extension suppresses user delivery by emptying the buffer, not by its
return value).  On the spill of a data frame (opcode 0, 1 or 2) with a user callback
registered: when no PAYLOAD_RX hook returns a negative value and eff is the effective
buffer the hooks leave, the spill returns 0, resets rx_user_buffer_head, and adds to the
trace the calls of the hooks followed by exactly one user Receive callback with payload
eff if eff is not empty, and by no user callback if eff is empty.  The values the hooks
return do not enter, as long as none is negative: with a single extension whose hook
returns a positive value and leaves a non-empty buffer, the user callback is called with
that buffer. -/
theorem C24_extension_delivery (env : Env) (wsi : Wsi) (cb : Nat → List Nat → CallbackOut)
    (hop : wsi.opcode = 0 ∨ wsi.opcode = 1 ∨ wsi.opcode = 2)
    (hcb : env.callback = some cb) :
    (∀ eff : List Nat,
      (ext_payload_loop env.active_extensions 0 wsi.rx_user_buffer wsi).1 = some eff →
      (spill env wsi).1 = 0 ∧
      (spill env wsi).2.rx_user_buffer_head = 0 ∧
      ∃ evs : List Event, (∀ e ∈ evs, e.by_extension = true) ∧
        (spill env wsi).2.trace =
          wsi.trace ++ evs ++ (if eff = [] then [] else [Event.receive eff])) ∧
    (∀ ext : ExtReason → List Nat → ExtOut, env.active_extensions = [ext] →
      0 < (ext .LWS_EXT_CALLBACK_PAYLOAD_RX wsi.rx_user_buffer).m →
      (ext .LWS_EXT_CALLBACK_PAYLOAD_RX wsi.rx_user_buffer).eff_buf ≠ [] →
      (spill env wsi).1 = 0 ∧
      (spill env wsi).2.trace = wsi.trace ++
        [Event.extension 0 .LWS_EXT_CALLBACK_PAYLOAD_RX wsi.rx_user_buffer,
          Event.receive (ext .LWS_EXT_CALLBACK_PAYLOAD_RX wsi.rx_user_buffer).eff_buf]) := by
  have h8 : wsi.opcode ≠ 8 := by omega
  have h9 : wsi.opcode ≠ 9 := by omega
  have h10 : wsi.opcode ≠ 10 := by omega
  constructor
  · intro eff heff
    obtain ⟨evs, h1, h2⟩ :=
      ext_payload_loop_events env.active_extensions 0 wsi.rx_user_buffer wsi
    have hsp : spill env wsi =
        (0, { (if eff.length > 0 then
            (user_callback_handle_rxflow cb
              (ext_payload_loop env.active_extensions 0 wsi.rx_user_buffer wsi).2 eff).2
          else (ext_payload_loop env.active_extensions 0 wsi.rx_user_buffer wsi).2) with
          rx_user_buffer := [] }) := by
      simp only [spill, h8, h9, h10, hop, if_true, if_false, heff, hcb]
    rw [hsp, h1]
    refine ⟨rfl, rfl, evs, h2, ?_⟩
    cases eff with
    | nil => simp
    | cons b rest => simp [user_callback_handle_rxflow]
  · intro ext hexts hm hne
    have hm1 : ¬ (ext .LWS_EXT_CALLBACK_PAYLOAD_RX wsi.rx_user_buffer).m < 0 := by omega
    have hpos : 0 < (ext .LWS_EXT_CALLBACK_PAYLOAD_RX wsi.rx_user_buffer).eff_buf.length :=
      List.length_pos.mpr hne
    simp [spill, h8, h9, h10, hop, hexts, ext_payload_loop, hm1, hcb, hpos,
      user_callback_handle_rxflow]

/-- C24 at two extensions that both return 1: the one that empties the buffer keeps the
payload Hello from the user callback, the one that leaves the buffer alone does not. -/
theorem C24_extension_delivery_witness :
    ((spill consuming_env hello_spill_wsi).1 = 0 ∧
      (spill consuming_env hello_spill_wsi).2.rx_user_buffer_head = 0 ∧
      ∃ evs : List Event, (∀ e ∈ evs, e.by_extension = true) ∧
        (spill consuming_env hello_spill_wsi).2.trace =
          hello_spill_wsi.trace ++ evs ++
            (if ([] : List Nat) = [] then [] else [Event.receive []])) ∧
    ((spill claiming_env hello_spill_wsi).1 = 0 ∧
      (spill claiming_env hello_spill_wsi).2.trace = hello_spill_wsi.trace ++
        [Event.extension 0 .LWS_EXT_CALLBACK_PAYLOAD_RX hello_spill_wsi.rx_user_buffer,
          Event.receive
            (claiming_ext .LWS_EXT_CALLBACK_PAYLOAD_RX hello_spill_wsi.rx_user_buffer).eff_buf]) :=
  ⟨(C24_extension_delivery consuming_env hello_spill_wsi quiet_callback (by decide) rfl).1
      [] (by decide),
   (C24_extension_delivery claiming_env hello_spill_wsi quiet_callback (by decide) rfl).2
      claiming_ext rfl (by decide) (by decide)⟩

/-! ## The return value of the user callback -/

/-- C25 evaluated: the user callback returns 1 on every payload, yet every byte of the
masked text frame of scenario 3 (revision 13) returns 0, the last one included, which
made the Receive call with the payload Hello; the pump returns 0 and the state machine
is back in state NEW.  The same at revision 0 for the frame 00 H i ff, delivered at
label issue. -/
theorem C25_callback_return_ignored_evaluation :
    (refusing_callback 0 (str "Hello")).ret = 1 ∧
    (rx_feed refusing_env (fresh_wsi 13 .xor_mask_05) hello_frame).1 = List.replicate 11 0 ∧
    (rx_feed refusing_env (fresh_wsi 13 .xor_mask_05) hello_frame).2.trace =
      [Event.receive (str "Hello")] ∧
    (rx_feed refusing_env (fresh_wsi 13 .xor_mask_05) hello_frame).2.lws_rx_parse_state =
      .LWS_RXPS_NEW ∧
    (libwebsocket_interpret_incoming_packet refusing_env (fresh_wsi 13 .xor_mask_05)
      (some hello_frame)).1 = 0 ∧
    (rx_feed refusing_env (fresh_wsi 0 .xor_no_mask) (hixie_frame (str "Hi"))).1 =
      [0, 0, 0, 0] ∧
    (rx_feed refusing_env (fresh_wsi 0 .xor_no_mask) (hixie_frame (str "Hi"))).2.trace =
      [Event.receive (str "Hi")] ∧
    (libwebsocket_interpret_incoming_packet refusing_env (fresh_wsi 0 .xor_no_mask)
      (some (hixie_frame (str "Hi")))).1 = 0 := by
  decide

/-! ## Revision 4 unmasking -/

/-- C26 evaluated: at revision 4 with xor_mask_04 installed, DEFEAT_CLIENT_MASK off, the
connection masking key 01 02 .. 14 and a digest function that returns twenty bytes ff:
after the nonce a1 a2 a3 a4 the digest is stored in frame_mask_04, but the bytes
85 01 62 66 66 that follow are unmasked with the connection masking key, not with the
digest: every byte returns 0 and the user callback receives abc (62 66 66 XOR 03 04 05),
where the digest would give 7a, a first header byte whose opcode nibble is rejected.  The
routine xor_mask_04 reads masking_key_04 for every record and byte. -/
theorem C26_revision4_key_evaluation :
    digest_env.defeat_client_mask = false ∧
    (rx_feed digest_env rev4_wsi [0xa1, 0xa2, 0xa3, 0xa4]).2.frame_mask_04 =
      List.replicate 20 0xff ∧
    (rx_feed digest_env rev4_wsi [0xa1, 0xa2, 0xa3, 0xa4]).2.masking_key_04 =
      rev4_wsi.masking_key_04 ∧
    (rx_feed digest_env rev4_wsi rev4_frame).1 = List.replicate 9 0 ∧
    (rx_feed digest_env rev4_wsi rev4_frame).2.trace = [Event.receive (str "abc")] ∧
    (rx_feed digest_env rev4_wsi rev4_frame).2.opcode = 1 ∧
    0x85 ^^^ 0xff = 0x7a ∧
    (∀ (wsi : Wsi) (c : Nat), (xor_mask_04 wsi c).1 =
      c ^^^ wsi.masking_key_04.getD wsi.frame_mask_index 0) := by
  refine ⟨rfl, by decide, by decide, by decide, by decide, by decide, by decide, ?_⟩
  intro wsi c
  rfl

/-! ## Revision 0 framing -/

/-- Bytes other than ff taken in the state that eats a revision 0 text frame are
appended to the buffer while it stays below the ceiling. -/
theorem eat_run (env : Env) (P : List Nat) : ∀ (wsi : Wsi),
    wsi.lws_rx_parse_state = .LWS_RXPS_EAT_UNTIL_76_FF →
    (∀ b ∈ P, b ≠ 0xff) →
    wsi.rx_user_buffer.length + P.length < env.k.MAX_USER_RX_BUFFER →
    rx_feed env wsi P =
      (List.replicate P.length 0, { wsi with rx_user_buffer := wsi.rx_user_buffer ++ P }) := by
  induction P with
  | nil => intro wsi _ _ _; simp [rx_feed]
  | cons c rest ih =>
    intro wsi hst hP hlen
    have hc : c ≠ 0xff := hP c (List.mem_cons_self _ _)
    simp only [List.length_cons] at hlen
    have hhead : ¬ (wsi.rx_user_buffer.length + 1 = env.k.MAX_USER_RX_BUFFER) := by omega
    have hstep : libwebsocket_rx_sm env wsi c =
        (0, { wsi with rx_user_buffer := wsi.rx_user_buffer ++ [c] }) := by
      simp [libwebsocket_rx_sm, hst, hc, Wsi.rx_user_buffer_head, hhead]
    rw [rx_feed_cons, hstep]
    simp only [Int.lt_irrefl, if_false]
    rw [ih { wsi with rx_user_buffer := wsi.rx_user_buffer ++ [c] } hst
      (fun b hb => hP b (List.mem_cons_of_mem _ hb))
      (by simp only [List.length_append, List.length_cons, List.length_nil]; omega)]
    simp [List.replicate_succ]

/-- C28 (revision 0 text frame).  At revision 0 with a user callback registered, for
every payload P without a byte ff and shorter than MAX_USER_RX_BUFFER: feeding 00, P and
ff from state NEW returns 0 on every byte, adds to the trace exactly one user Receive
callback with payload exactly P, the wire bytes as they came, and nothing else, and ends
in state NEW with rx_user_buffer_head = 0. -/
theorem C28_hixie_text_frame (env : Env) (wsi : Wsi) (cb : Nat → List Nat → CallbackOut)
    (P : List Nat)
    (hrev : wsi.ietf_spec_revision = 0)
    (hnew : wsi.lws_rx_parse_state = .LWS_RXPS_NEW)
    (hP : ∀ b ∈ P, b ≠ 0xff)
    (hlen : P.length < env.k.MAX_USER_RX_BUFFER)
    (hcb : env.callback = some cb) :
    (rx_feed env wsi (hixie_frame P)).1 = List.replicate (P.length + 2) 0 ∧
    (rx_feed env wsi (hixie_frame P)).2.trace = wsi.trace ++ [Event.receive P] ∧
    (rx_feed env wsi (hixie_frame P)).2.lws_rx_parse_state = .LWS_RXPS_NEW ∧
    (rx_feed env wsi (hixie_frame P)).2.rx_user_buffer_head = 0 := by
  have h0 : libwebsocket_rx_sm env wsi 0 =
      (0, { wsi with
        lws_rx_parse_state := .LWS_RXPS_EAT_UNTIL_76_FF, rx_user_buffer := [] }) := by
    simp [libwebsocket_rx_sm, hnew, hrev]
  have hrun := eat_run env P
    { wsi with lws_rx_parse_state := .LWS_RXPS_EAT_UNTIL_76_FF, rx_user_buffer := [] }
    rfl hP (by simpa using hlen)
  have hff : libwebsocket_rx_sm env
      { wsi with lws_rx_parse_state := .LWS_RXPS_EAT_UNTIL_76_FF, rx_user_buffer := [] ++ P }
      0xff =
      (0, { wsi with
        lws_rx_parse_state := .LWS_RXPS_NEW
        user_space := (cb wsi.user_space P).user_space
        pollin := (cb wsi.user_space P).rxflow.getD wsi.pollin
        trace := wsi.trace ++ [Event.receive P]
        rx_user_buffer := [] }) := by
    simp [libwebsocket_rx_sm, issue, hcb, user_callback_handle_rxflow]
  have hall : rx_feed env wsi (hixie_frame P) =
      (List.replicate (P.length + 2) 0, { wsi with
        lws_rx_parse_state := .LWS_RXPS_NEW
        user_space := (cb wsi.user_space P).user_space
        pollin := (cb wsi.user_space P).rxflow.getD wsi.pollin
        trace := wsi.trace ++ [Event.receive P]
        rx_user_buffer := [] }) := by
    show rx_feed env wsi (0 :: (P ++ [0xff])) = _
    rw [rx_feed_cons, h0]
    simp only [Int.lt_irrefl, if_false]
    rw [rx_feed_append env P [0xff] _ (by rw [hrun]), hrun]
    simp only []
    rw [rx_feed_cons, hff]
    simp [rx_feed, List.replicate_succ, List.replicate_add]
    exact (List.replicate_succ' P.length (0 : Int)).symm
  rw [hall]
  exact ⟨rfl, rfl, rfl, rfl⟩

/-- C28 at the payload Hi: the bytes 00 48 69 ff at revision 0 deliver Hi once. -/
theorem C28_hixie_text_frame_witness :
    hixie_frame (str "Hi") = [0x00, 0x48, 0x69, 0xff] ∧
    (rx_feed server_env (fresh_wsi 0 .xor_no_mask) (hixie_frame (str "Hi"))).1 =
      List.replicate ((str "Hi").length + 2) 0 ∧
    (rx_feed server_env (fresh_wsi 0 .xor_no_mask) (hixie_frame (str "Hi"))).2.trace =
      (fresh_wsi 0 .xor_no_mask).trace ++ [Event.receive (str "Hi")] ∧
    (rx_feed server_env (fresh_wsi 0 .xor_no_mask)
      (hixie_frame (str "Hi"))).2.lws_rx_parse_state = .LWS_RXPS_NEW ∧
    (rx_feed server_env (fresh_wsi 0 .xor_no_mask)
      (hixie_frame (str "Hi"))).2.rx_user_buffer_head = 0 :=
  ⟨by decide,
   C28_hixie_text_frame server_env (fresh_wsi 0 .xor_no_mask) quiet_callback (str "Hi")
    rfl rfl (by decide) (by decide) rfl⟩

/-- C29 (revision 0 close).  At revision 0, from state NEW, the byte ff returns 0 and
the byte 00 after it returns -1, whatever libwebsocket_write returns; the trace grows by
exactly one outbound write of the two bytes ff 00 with kind HTTP and by no user callback.
In the state LWS_RXPS_SEEN_76_FF, reached by the ff, a byte other than 00 returns 0 and
leaves the whole record, state included, as it was. -/
theorem C29_hixie_close (env : Env) (wsi w : Wsi) (c : Nat)
    (hrev : wsi.ietf_spec_revision = 0)
    (hnew : wsi.lws_rx_parse_state = .LWS_RXPS_NEW)
    (hw : w.lws_rx_parse_state = .LWS_RXPS_SEEN_76_FF) (hc : c ≠ 0) :
    (rx_feed env wsi [0xff]).2.lws_rx_parse_state = .LWS_RXPS_SEEN_76_FF ∧
    (rx_feed env wsi [0xff, 0x00]).1 = [0, -1] ∧
    (rx_feed env wsi [0xff, 0x00]).2.trace =
      wsi.trace ++ [Event.write .LWS_WRITE_HTTP [0xff, 0x00]] ∧
    libwebsocket_rx_sm env w c = (0, w) := by
  refine ⟨?_, ?_, ?_, ?_⟩
  · simp [rx_feed, libwebsocket_rx_sm, hnew, hrev]
  · simp [rx_feed, libwebsocket_rx_sm, hnew, hrev]
  · simp [rx_feed, libwebsocket_rx_sm, hnew, hrev, libwebsocket_write]
  · simp [libwebsocket_rx_sm, hw, hc]

/-- C29 at a fresh revision 0 connection whose writer succeeds, and at a byte 41 in
the state that follows the ff. -/
theorem C29_hixie_close_witness :
    (rx_feed server_env (fresh_wsi 0 .xor_no_mask) [0xff]).2.lws_rx_parse_state =
      .LWS_RXPS_SEEN_76_FF ∧
    (rx_feed server_env (fresh_wsi 0 .xor_no_mask) [0xff, 0x00]).1 = [0, -1] ∧
    (rx_feed server_env (fresh_wsi 0 .xor_no_mask) [0xff, 0x00]).2.trace =
      (fresh_wsi 0 .xor_no_mask).trace ++ [Event.write .LWS_WRITE_HTTP [0xff, 0x00]] ∧
    libwebsocket_rx_sm server_env
      (rx_feed server_env (fresh_wsi 0 .xor_no_mask) [0xff]).2 0x41 =
      (0, (rx_feed server_env (fresh_wsi 0 .xor_no_mask) [0xff]).2) :=
  C29_hixie_close server_env (fresh_wsi 0 .xor_no_mask)
    (rx_feed server_env (fresh_wsi 0 .xor_no_mask) [0xff]).2 0x41 rfl rfl (by decide)
    (by decide)

/-! ## Unknown opcodes -/

/-- C30 (unknown opcodes are dropped, not fatal).  For every record whose opcode is none
of 0, 1, 2, 8, 9, 10 the spill returns 0, resets rx_user_buffer_head to 0, leaves the
state of the state machine as it is, and adds to the trace nothing but the calls of the
EXTENDED_PAYLOAD_RX hooks of the registered extensions: no user callback and no outbound
write, whatever the hooks return (and nothing at all without extensions).  At revision
7, 8 or 13 with xor_mask_05 installed, a whole masked frame with such an opcode and a
payload of 1 to 125 bytes that fits the payload buffer, fed from state NEW with an empty
buffer, returns 0 on every byte and ends in state NEW with rx_user_buffer_head = 0 and
a trace grown by calls of extension hooks only. -/
theorem C30_unknown_opcode_dropped (env : Env) (w wsi : Wsi) (b0 : Nat) (key : Key4)
    (P : List Nat)
    (hw : w.opcode ≠ 0 ∧ w.opcode ≠ 1 ∧ w.opcode ≠ 2 ∧ w.opcode ≠ 8 ∧ w.opcode ≠ 9 ∧
      w.opcode ≠ 10)
    (hrev : wsi.ietf_spec_revision = 7 ∨ wsi.ietf_spec_revision = 8 ∨
      wsi.ietf_spec_revision = 13)
    (hb0 : b0 &&& 0xf ≠ 0 ∧ b0 &&& 0xf ≠ 1 ∧ b0 &&& 0xf ≠ 2 ∧ b0 &&& 0xf ≠ 8 ∧
      b0 &&& 0xf ≠ 9 ∧ b0 &&& 0xf ≠ 10)
    (hP1 : 1 ≤ P.length) (hP2 : P.length ≤ 125)
    (hP3 : P.length ≤ env.k.MAX_USER_RX_BUFFER)
    (hnew : wsi.lws_rx_parse_state = .LWS_RXPS_NEW) (hhead : wsi.rx_user_buffer = [])
    (hxor : wsi.xor_mask = .xor_mask_05) :
    ((spill env w).1 = 0 ∧
      (spill env w).2.rx_user_buffer_head = 0 ∧
      (spill env w).2.lws_rx_parse_state = w.lws_rx_parse_state ∧
      (∃ evs : List Event, (∀ e ∈ evs, e.by_extension = true) ∧
        (spill env w).2.trace = w.trace ++ evs) ∧
      (env.active_extensions = [] → (spill env w).2.trace = w.trace)) ∧
    ((rx_feed env wsi (short_masked_frame b0 key P)).1 =
        List.replicate (6 + P.length) 0 ∧
      (rx_feed env wsi (short_masked_frame b0 key P)).2.lws_rx_parse_state =
        .LWS_RXPS_NEW ∧
      (rx_feed env wsi (short_masked_frame b0 key P)).2.rx_user_buffer_head = 0 ∧
      ∃ evs : List Event, (∀ e ∈ evs, e.by_extension = true) ∧
        (rx_feed env wsi (short_masked_frame b0 key P)).2.trace = wsi.trace ++ evs) := by
  have hsp : ∀ v : Wsi, (v.opcode ≠ 0 ∧ v.opcode ≠ 1 ∧ v.opcode ≠ 2 ∧ v.opcode ≠ 8 ∧
      v.opcode ≠ 9 ∧ v.opcode ≠ 10) →
      spill env v = (0, { (ext_extended_loop env.active_extensions 0 v.rx_user_buffer
        false v).2 with rx_user_buffer := [] }) := by
    intro v hv
    have hdata : ¬ (v.opcode = 0 ∨ v.opcode = 1 ∨ v.opcode = 2) := by omega
    simp only [spill, hv.2.2.2.1, hv.2.2.2.2.1, hv.2.2.2.2.2, hdata, if_false]
  constructor
  · obtain ⟨evs, h1, h2⟩ :=
      ext_extended_loop_events env.active_extensions 0 w.rx_user_buffer false w
    rw [hsp w hw]
    refine ⟨rfl, rfl, ?_, ⟨evs, h2, ?_⟩, ?_⟩
    · simp only [h1]
    · simp only [h1]
    · intro hext
      simp [hext, ext_extended_loop]
  · rw [short_masked_frame_run env wsi b0 key P hrev hP1 hP2 hP3 hnew hhead hxor]
    obtain ⟨W, hW, hWop⟩ : ∃ W : Wsi, W = { wsi with
          all_zero_nonce := decide (key.b0 = 0 ∧ key.b1 = 0 ∧ key.b2 = 0 ∧ key.b3 = 0)
          opcode := b0 &&& 0xf
          rsv := b0 &&& 0x70
          final := (b0 >>> 7) &&& 1 != 0
          this_frame_masked := true
          rx_packet_length := 0
          frame_masking_nonce_04 := key
          frame_mask_index :=
            if key.b0 = 0 ∧ key.b1 = 0 ∧ key.b2 = 0 ∧ key.b3 = 0 then 0 else P.length
          rx_user_buffer := P
          lws_rx_parse_state := .LWS_RXPS_NEW } ∧ W.opcode = b0 &&& 0xf := ⟨_, rfl, rfl⟩
    rw [← hW]
    have hWst : W.lws_rx_parse_state = .LWS_RXPS_NEW := by rw [hW]
    have hWtr : W.trace = wsi.trace := by rw [hW]
    obtain ⟨evs, h1, h2⟩ :=
      ext_extended_loop_events env.active_extensions 0 W.rx_user_buffer false W
    rw [hsp W (by rw [hWop]; exact hb0)]
    refine ⟨?_, ?_, rfl, evs, h2, ?_⟩
    · have hlen : 6 + P.length = 6 + (P.length - 1) + 1 := by omega
      rw [hlen, List.replicate_succ']
    · simp only [h1, hWst]
    · simp only [h1, hWtr]

/-- C30 at a masked frame with the reserved opcode 3 and the payload Hi, fed to a fresh
revision 13 connection without extensions. -/
theorem C30_unknown_opcode_dropped_witness :
    (spill server_env { fresh_wsi 13 .xor_mask_05 with opcode := 3 }).1 = 0 ∧
    (rx_feed server_env (fresh_wsi 13 .xor_mask_05)
      (short_masked_frame 0x83 ⟨0x37, 0xfa, 0x21, 0x3d⟩ (str "Hi"))).1 =
        List.replicate (6 + (str "Hi").length) 0 ∧
    (rx_feed server_env (fresh_wsi 13 .xor_mask_05)
      (short_masked_frame 0x83 ⟨0x37, 0xfa, 0x21, 0x3d⟩ (str "Hi"))).2.lws_rx_parse_state =
        .LWS_RXPS_NEW :=
  ⟨(C30_unknown_opcode_dropped server_env { fresh_wsi 13 .xor_mask_05 with opcode := 3 }
      (fresh_wsi 13 .xor_mask_05) 0x83 ⟨0x37, 0xfa, 0x21, 0x3d⟩ (str "Hi")
      (by decide) (by decide) (by decide) (by decide) (by decide) (by decide) rfl rfl
      rfl).1.1,
   (C30_unknown_opcode_dropped server_env { fresh_wsi 13 .xor_mask_05 with opcode := 3 }
      (fresh_wsi 13 .xor_mask_05) 0x83 ⟨0x37, 0xfa, 0x21, 0x3d⟩ (str "Hi")
      (by decide) (by decide) (by decide) (by decide) (by decide) (by decide) rfl rfl
      rfl).2.1,
   (C30_unknown_opcode_dropped server_env { fresh_wsi 13 .xor_mask_05 with opcode := 3 }
      (fresh_wsi 13 .xor_mask_05) 0x83 ⟨0x37, 0xfa, 0x21, 0x3d⟩ (str "Hi")
      (by decide) (by decide) (by decide) (by decide) (by decide) (by decide) rfl rfl
      rfl).2.2.1⟩

/-! ## The all-zero nonce -/

theorem land_plain_len (n : Nat) (hn : n ≤ 125) :
    n &&& 128 = 0 ∧ n &&& 127 = n ∧ n ≠ 126 ∧ n ≠ 127 := by
  revert n
  decide

/-- The four nonce bytes of a revision 4, 5 or 6 frame, fed from state NEW at revision 5
or 6: the flag all_zero_nonce ends up set exactly when the four bytes are zero. -/
theorem nonce_run (env : Env) (wsi : Wsi) (n0 n1 n2 n3 : Nat)
    (hrev : wsi.ietf_spec_revision = 5 ∨ wsi.ietf_spec_revision = 6)
    (hnew : wsi.lws_rx_parse_state = .LWS_RXPS_NEW) :
    rx_feed env wsi [n0, n1, n2, n3] =
      ([0, 0, 0, 0], { wsi with
        all_zero_nonce := decide (n0 = 0 ∧ n1 = 0 ∧ n2 = 0 ∧ n3 = 0)
        frame_masking_nonce_04 := ⟨n0, n1, n2, n3⟩
        frame_mask_index := if env.defeat_client_mask then wsi.frame_mask_index else 0
        lws_rx_parse_state := .LWS_RXPS_04_FRAME_HDR_1 }) := by
  have hrev0 : wsi.ietf_spec_revision ≠ 0 := by omega
  have hrev4 : wsi.ietf_spec_revision = 4 ∨ wsi.ietf_spec_revision = 5 ∨
      wsi.ietf_spec_revision = 6 := by omega
  have hgt : wsi.ietf_spec_revision > 4 := by omega
  cases hd : env.defeat_client_mask <;>
  by_cases k0 : n0 = 0 <;> by_cases k1 : n1 = 0 <;> by_cases k2 : n2 = 0 <;>
    by_cases k3 : n3 = 0 <;>
    simp [rx_feed, libwebsocket_rx_sm, hnew, hrev0, hrev4, hgt, hd, k0, k1, k2, k3]


theorem Key4.get_zero (i : Nat) : (⟨0, 0, 0, 0⟩ : Key4).get i = 0 := by
  unfold Key4.get
  split_ifs <;> rfl

/-- The two header bytes of a revision 5 or 6 data frame under the all-zero nonce: the
unmasking routine xor_mask_05 leaves them as they are, the wire opcodes 0, 4 and 5 are
stored as 0, 1 and 2, and a length below 126 leads to the payload state. -/
theorem zero_nonce_header (env : Env) (wsi : Wsi) (b0 n : Nat)
    (hrev : wsi.ietf_spec_revision = 5 ∨ wsi.ietf_spec_revision = 6)
    (hst : wsi.lws_rx_parse_state = .LWS_RXPS_04_FRAME_HDR_1)
    (hxor : wsi.xor_mask = .xor_mask_05)
    (hk : wsi.frame_masking_nonce_04 = ⟨0, 0, 0, 0⟩)
    (hb0 : b0 % 16 = 0 ∨ b0 % 16 = 4 ∨ b0 % 16 = 5)
    (hn : n ≤ 125) :
    rx_feed env wsi [b0, n] =
      ([0, 0], { wsi with
        opcode := if b0 % 16 = 0 then 0 else if b0 % 16 = 4 then 1 else 2
        rsv := b0 &&& 0x70
        final := (b0 >>> 7) &&& 1 != 0
        this_frame_masked := false
        rx_packet_length := n
        frame_mask_index := wsi.frame_mask_index + 1 + 1
        lws_rx_parse_state := .LWS_RXPS_PAYLOAD_UNTIL_LENGTH_EXHAUSTED }) := by
  obtain ⟨h1, h2, h3, h4⟩ := land_plain_len n hn
  have hrev7 : wsi.ietf_spec_revision < 7 := by omega
  rcases hb0 with h | h | h <;>
    simp [rx_feed, libwebsocket_rx_sm, hst, handle_first, unmask_pre07, hrev7, call_xor_mask,
      hxor, xor_mask_05, hk, Key4.get_zero, low_nibble, h, after_length, h1, h2, h3, h4]

/-- C27 (all-zero nonce bypass).  At revision 5 or 6, from state NEW: the four nonce
bytes return 0 and leave the flag all_zero_nonce set if and only if all four were zero.
With xor_mask_05 installed, a user callback registered, no extensions and an empty
payload buffer, a data frame under the nonce 00 00 00 00 (first header byte with wire
opcode 0, 4 or 5, a length byte below 126, then 1 to 125 payload bytes P) returns 0 on
every byte and hands the payload bytes to the user callback exactly as they are on the
wire, in pieces of at most MAX_USER_RX_BUFFER bytes that join to P, which is also what
XOR-unmasking P with the zero key gives; the frame ends in state NEW. -/
theorem C27_zero_nonce_bypass (env : Env) (wsi : Wsi) (cb : Nat → List Nat → CallbackOut)
    (n0 n1 n2 n3 b0 : Nat) (P : List Nat)
    (hrev : wsi.ietf_spec_revision = 5 ∨ wsi.ietf_spec_revision = 6)
    (hnew : wsi.lws_rx_parse_state = .LWS_RXPS_NEW) (hhead : wsi.rx_user_buffer = [])
    (hxor : wsi.xor_mask = .xor_mask_05)
    (hb0 : b0 % 16 = 0 ∨ b0 % 16 = 4 ∨ b0 % 16 = 5)
    (hP1 : 1 ≤ P.length) (hP2 : P.length ≤ 125)
    (hcb : env.callback = some cb) (hext : env.active_extensions = [])
    (hmax : 1 ≤ env.k.MAX_USER_RX_BUFFER) :
    (rx_feed env wsi [n0, n1, n2, n3]).1 = [0, 0, 0, 0] ∧
    ((rx_feed env wsi [n0, n1, n2, n3]).2.all_zero_nonce = true ↔
      n0 = 0 ∧ n1 = 0 ∧ n2 = 0 ∧ n3 = 0) ∧
    (rx_feed env wsi [n0, n1, n2, n3]).2.lws_rx_parse_state = .LWS_RXPS_04_FRAME_HDR_1 ∧
    (rx_feed env wsi (zero_nonce_frame b0 P)).1 = List.replicate (6 + P.length) 0 ∧
    (rx_feed env wsi (zero_nonce_frame b0 P)).2.trace =
      wsi.trace ++ (deliver env.k.MAX_USER_RX_BUFFER [] P).map Event.receive ∧
    (deliver env.k.MAX_USER_RX_BUFFER [] P).flatten = P ∧
    xor_key ⟨0, 0, 0, 0⟩ 0 P = P ∧
    (rx_feed env wsi (zero_nonce_frame b0 P)).2.lws_rx_parse_state = .LWS_RXPS_NEW := by
  have hne : P ≠ [] := by
    intro h
    rw [h] at hP1
    simp at hP1
  have hnonce := nonce_run env wsi n0 n1 n2 n3 hrev hnew
  have hzero := nonce_run env wsi 0 0 0 0 hrev hnew
  obtain ⟨W1, hW1, hzero1⟩ : ∃ W1 : Wsi, W1 = { wsi with
        all_zero_nonce := decide ((0 : Nat) = 0 ∧ (0 : Nat) = 0 ∧ (0 : Nat) = 0 ∧ (0 : Nat) = 0)
        frame_masking_nonce_04 := ⟨0, 0, 0, 0⟩
        frame_mask_index := if env.defeat_client_mask then wsi.frame_mask_index else 0
        lws_rx_parse_state := .LWS_RXPS_04_FRAME_HDR_1 } ∧
      rx_feed env wsi [0, 0, 0, 0] = ([0, 0, 0, 0], W1) := ⟨_, rfl, hzero⟩
  have hhdr := zero_nonce_header env W1 b0 P.length (by rw [hW1]; exact hrev) (by rw [hW1])
    (by rw [hW1]; exact hxor) (by rw [hW1]) hb0 hP2
  obtain ⟨W2, hW2, hhdr1⟩ : ∃ W2 : Wsi, W2 = { W1 with
        opcode := if b0 % 16 = 0 then 0 else if b0 % 16 = 4 then 1 else 2
        rsv := b0 &&& 0x70
        final := (b0 >>> 7) &&& 1 != 0
        this_frame_masked := false
        rx_packet_length := P.length
        frame_mask_index := W1.frame_mask_index + 1 + 1
        lws_rx_parse_state := .LWS_RXPS_PAYLOAD_UNTIL_LENGTH_EXHAUSTED } ∧
      rx_feed env W1 [b0, P.length] = ([0, 0], W2) := ⟨_, rfl, hhdr⟩
  have hop : W2.opcode = 0 ∨ W2.opcode = 1 ∨ W2.opcode = 2 := by
    rw [hW2]
    simp only []
    split_ifs <;> simp
  have hzn : W2.all_zero_nonce = true := by
    rw [hW2, hW1]
    simp
  have hpay := chunk_run env cb hcb hext P W2 (by rw [hW2]) (by rw [hW2, hW1]; simp only []; omega)
    hop (Or.inl hzn) (by rw [hW2]) hne (by unfold SIZE_T_MOD; omega)
    (by rw [hW2, hW1]; simp only [hhead, List.length_nil]; omega)
  have hsp : stored_payload W2 P = P := by
    unfold stored_payload
    rw [hzn]
    rfl
  have hbuf : W2.rx_user_buffer = [] := by rw [hW2, hW1]; exact hhead
  have htr : W2.trace = wsi.trace := by rw [hW2, hW1]
  have hall : rx_feed env wsi (zero_nonce_frame b0 P) =
      (List.replicate 6 0 ++ (rx_feed env W2 P).1, (rx_feed env W2 P).2) := by
    show rx_feed env wsi ([0, 0, 0, 0] ++ ([b0, P.length] ++ P)) = _
    rw [rx_feed_append env [0, 0, 0, 0] _ wsi (by rw [hzero1]; rfl), hzero1]
    simp only []
    rw [rx_feed_append env [b0, P.length] P W1 (by rw [hhdr1]; rfl), hhdr1]
    simp [List.replicate_succ]
  rw [hall, hnonce]
  rw [hsp, hbuf, htr] at hpay
  refine ⟨rfl, by simp, rfl, ?_, hpay.2.1, ?_, ?_, hpay.2.2.1⟩
  · simp only [hpay.1, ← List.replicate_add]
  · simpa using deliver_flatten env.k.MAX_USER_RX_BUFFER P [] hne
  · exact xor_key_zero _ ⟨rfl, rfl, rfl, rfl⟩ 0 P

/-- C27 at revision 5: the nonce 37 fa 21 3d leaves the flag clear, and the text frame
00 00 00 00 84 02 48 69 under the all-zero nonce delivers Hi as it is on the wire. -/
theorem C27_zero_nonce_bypass_witness :
    (rx_feed server_env (fresh_wsi 5 .xor_mask_05) [0x37, 0xfa, 0x21, 0x3d]).2.all_zero_nonce =
      false ∧
    zero_nonce_frame 0x84 (str "Hi") = [0, 0, 0, 0, 0x84, 0x02, 0x48, 0x69] ∧
    (rx_feed server_env (fresh_wsi 5 .xor_mask_05) (zero_nonce_frame 0x84 (str "Hi"))).1 =
      List.replicate (6 + (str "Hi").length) 0 ∧
    (rx_feed server_env (fresh_wsi 5 .xor_mask_05) (zero_nonce_frame 0x84 (str "Hi"))).2.trace =
      (fresh_wsi 5 .xor_mask_05).trace ++
        (deliver server_env.k.MAX_USER_RX_BUFFER [] (str "Hi")).map Event.receive ∧
    deliver server_env.k.MAX_USER_RX_BUFFER [] (str "Hi") = [str "Hi"] :=
  ⟨by
    have h := (C27_zero_nonce_bypass server_env (fresh_wsi 5 .xor_mask_05) quiet_callback
      0x37 0xfa 0x21 0x3d 0x84 (str "Hi") (by decide) rfl rfl rfl (by decide) (by decide)
      (by decide) rfl rfl (by decide)).2.1
    cases hz : (rx_feed server_env (fresh_wsi 5 .xor_mask_05)
        [0x37, 0xfa, 0x21, 0x3d]).2.all_zero_nonce
    · rfl
    · exact absurd (h.mp hz).1 (by decide),
   by decide,
   (C27_zero_nonce_bypass server_env (fresh_wsi 5 .xor_mask_05) quiet_callback
      0x37 0xfa 0x21 0x3d 0x84 (str "Hi") (by decide) rfl rfl rfl (by decide) (by decide)
      (by decide) rfl rfl (by decide)).2.2.2.1,
   (C27_zero_nonce_bypass server_env (fresh_wsi 5 .xor_mask_05) quiet_callback
      0x37 0xfa 0x21 0x3d 0x84 (str "Hi") (by decide) rfl rfl rfl (by decide) (by decide)
      (by decide) rfl rfl (by decide)).2.2.2.2.1,
   by decide⟩

/-! ## The header ceiling when a header recurs -/

set_option maxRecDepth 100000 in
/-- C33 evaluated under an initial allocation of 8 bytes, growth steps of 8 and a ceiling
of 32: after Host: with a value of 10 bytes (the slot has grown to 16 bytes), an Origin
header (which sets current_alloc_len back to 8) and a second Host header with 30 value
bytes, every byte has returned 0, the parser is still collecting HOST, and the HOST slot
has a stored length of 41, beyond the ceiling of 32 and beyond its allocation of 16
bytes, with no sentinel in it.  Without the Origin header in between the same value is
demoted to the sentinel. -/
theorem C33_recurring_header_evaluation :
    (parse_feed narrow_consts (fresh_wsi 13 .xor_mask_05) recurring_request).1 =
      List.replicate recurring_request.length 0 ∧
    (parse_feed narrow_consts (fresh_wsi 13 .xor_mask_05) recurring_request).2.parser_state =
      .token WSI_TOKEN_HOST ∧
    ((parse_feed narrow_consts (fresh_wsi 13 .xor_mask_05) recurring_request).2.utf8_token
      WSI_TOKEN_HOST).token_len = 41 ∧
    ((parse_feed narrow_consts (fresh_wsi 13 .xor_mask_05) recurring_request).2.utf8_token
      WSI_TOKEN_HOST).alloc = 16 ∧
    (parse_feed narrow_consts (fresh_wsi 13 .xor_mask_05)
      recurring_request).2.current_alloc_len = 8 ∧
    narrow_consts.LWS_MAX_HEADER_LEN = 32 ∧
    ((parse_feed narrow_consts (fresh_wsi 13 .xor_mask_05) recurring_request).2.utf8_token
      WSI_TOKEN_HOST).token =
        some (str "aaaaaaaaaa " ++ List.replicate 30 99) ∧
    (parse_feed narrow_consts (fresh_wsi 13 .xor_mask_05) repeated_request).2.parser_state =
      .WSI_TOKEN_SKIPPING ∧
    ((parse_feed narrow_consts (fresh_wsi 13 .xor_mask_05) repeated_request).2.utf8_token
      WSI_TOKEN_HOST).value = LENGTH_EXCEEDED := by
  decide

/-! ## Leading spaces of a value -/

/-- C35 evaluated: in the state that skips the rest of a line, CR LF returns the parser
to the name part, but CR CR LF does not: the second CR, read in the state that has seen
a CR, sends the parser back to skipping, where the LF is one more skipped byte; the
line is only taken to end at the CR LF of the line after it. -/
theorem C35_cr_cr_lf_evaluation :
    skipping_wsi.parser_state = .WSI_TOKEN_SKIPPING ∧
    (parse_feed spec_consts skipping_wsi [13, 10]).2.parser_state = .WSI_TOKEN_NAME_PART ∧
    (parse_feed spec_consts skipping_wsi [13]).2.parser_state =
      .WSI_TOKEN_SKIPPING_SAW_CR ∧
    (parse_feed spec_consts skipping_wsi [13, 13]).2.parser_state = .WSI_TOKEN_SKIPPING ∧
    (parse_feed spec_consts skipping_wsi [13, 13, 10]).1 = [0, 0, 0] ∧
    (parse_feed spec_consts skipping_wsi [13, 13, 10]).2.parser_state =
      .WSI_TOKEN_SKIPPING ∧
    (parse_feed spec_consts skipping_wsi
      ([13, 13, 10] ++ str "Host: x")).2.parser_state = .WSI_TOKEN_SKIPPING ∧
    ((parse_feed spec_consts skipping_wsi
      ([13, 13, 10] ++ str "Host: x\r\n")).2.utf8_token WSI_TOKEN_HOST).token = none ∧
    (parse_feed spec_consts skipping_wsi
      ([13, 13, 10] ++ str "Host: x\r\n")).2.parser_state = .WSI_TOKEN_NAME_PART := by
  decide

/-! ## Slot length and slot content -/

theorem Slot.clean_iff (s : Slot) :
    s.clean = true ↔ ∃ mem, s.token = some mem ∧ s.token_len ≤ mem.length ∧
      ∀ b ∈ mem.take s.token_len, b ≠ 0 := by
  unfold Slot.clean
  cases h : s.token with
  | none => simp
  | some mem => simp

theorem mem_write_split (mem : List Nat) (i v : Nat) (h : i ≤ mem.length) :
    mem_write mem i v = mem.take i ++ v :: mem.drop (i + 1) := by
  unfold mem_write
  by_cases hlt : i < mem.length
  · rw [if_pos hlt]
    simp [List.set_eq_take_append_cons_drop, hlt]
  · have he : i = mem.length := by omega
    rw [if_neg hlt, he]
    simp

theorem cstring_take (mem : List Nat) (i v0 : Nat) (rest : List Nat)
    (h0 : v0 = 0) (hz : ∀ b ∈ mem.take i, b ≠ 0) :
    cstring (mem.take i ++ v0 :: rest) = mem.take i := by
  subst h0
  exact cstring_append_zero _ _ hz


theorem mem_write_take (mem : List Nat) (i v : Nat) (h : i ≤ mem.length) :
    (mem_write mem i v).take i = mem.take i ∧ i < (mem_write mem i v).length ∧
    (mem_write mem i v).take (i + 1) = mem.take i ++ [v] := by
  have hlen : (List.take i mem).length = i := by simp [h]
  rw [mem_write_split mem i v h]
  refine ⟨?_, ?_, ?_⟩
  · rw [List.take_append_eq_append_take, hlen]
    simp
  · simp only [List.length_append, hlen, List.length_cons]
    omega
  · rw [List.take_append_eq_append_take, hlen]
    simp

/-- Ending the value of a clean slot with a NUL leaves it clean, with token_len the
length of the stored string. -/
theorem store_nul_clean (s : Slot) (h : s.clean = true) :
    (s.store s.token_len 0).clean = true ∧
    (s.store s.token_len 0).value.length = (s.store s.token_len 0).token_len := by
  obtain ⟨mem, hmem, hle, hnz⟩ := (Slot.clean_iff _).mp h
  obtain ⟨h1, h2, _⟩ := mem_write_take mem s.token_len 0 hle
  constructor
  · rw [Slot.clean_iff]
    refine ⟨mem_write mem s.token_len 0, by simp [Slot.store, hmem], ?_, ?_⟩
    · show s.token_len ≤ _
      omega
    · show ∀ b ∈ List.take s.token_len (mem_write mem s.token_len 0), b ≠ 0
      rw [h1]
      exact hnz
  · simp only [Slot.value, Slot.store, hmem, Option.map_some', Option.getD_some]
    rw [mem_write_split mem s.token_len 0 hle, cstring_take mem _ 0 _ rfl hnz]
    simp [hle]

/-- A byte other than NUL appended to a clean slot leaves it clean. -/
theorem store_byte_clean (s : Slot) (c : Nat) (h : s.clean = true) (hc0 : c ≠ 0) :
    ({ (s.store s.token_len c) with token_len := s.token_len + 1 } : Slot).clean = true := by
  obtain ⟨mem, hmem, hle, hnz⟩ := (Slot.clean_iff _).mp h
  obtain ⟨_, h2, h3⟩ := mem_write_take mem s.token_len c hle
  rw [Slot.clean_iff]
  refine ⟨mem_write mem s.token_len c, by simp [Slot.store, hmem], ?_, ?_⟩
  · show s.token_len + 1 ≤ _
    omega
  · show ∀ b ∈ List.take (s.token_len + 1) (mem_write mem s.token_len c), b ≠ 0
    rw [h3]
    intro b hb
    rcases List.mem_append.mp hb with hb | hb
    · exact hnz b hb
    · rw [List.mem_singleton.mp hb]
      exact hc0

theorem alloc_clean (s : Slot) (a : Nat) (h : s.clean = true) :
    ({ s with alloc := a } : Slot).clean = true := h

/-- One byte other than NUL taken while the value of a token other than CHALLENGE is
collected into a clean slot: the call returns 0; a byte other than CR either leaves the
parser collecting into a slot that is still clean, or ends the collection in the skipping
state (the space after a URI, a value at the ceiling); a CR either ends the value, and then
token_len is the length of the stored string, or meets the ceiling. -/
theorem collect_step (k : Consts) (wsi : Wsi) (t c : Nat)
    (hst : wsi.parser_state = .token t) (ht : t < WSI_TOKEN_COUNT)
    (htc : t ≠ WSI_TOKEN_CHALLENGE)
    (hclean : (wsi.utf8_token t).clean = true) (hc0 : c ≠ 0) :
    (libwebsocket_parse k true wsi c).1 = 0 ∧
    (c ≠ 13 →
      ((libwebsocket_parse k true wsi c).2.parser_state = .token t ∧
        ((libwebsocket_parse k true wsi c).2.utf8_token t).clean = true) ∨
      (libwebsocket_parse k true wsi c).2.parser_state = .WSI_TOKEN_SKIPPING) ∧
    (c = 13 →
      ((libwebsocket_parse k true wsi c).2.parser_state = .WSI_TOKEN_SKIPPING_SAW_CR ∧
        ((libwebsocket_parse k true wsi c).2.utf8_token t).clean = true ∧
        ((libwebsocket_parse k true wsi c).2.utf8_token t).value.length =
          ((libwebsocket_parse k true wsi c).2.utf8_token t).token_len) ∨
      (libwebsocket_parse k true wsi c).2.parser_state = .WSI_TOKEN_SKIPPING) := by
  have hparse : libwebsocket_parse k true wsi c = parse_token k true wsi t c := by
    simp [libwebsocket_parse, hst, ht]
  rw [hparse]
  generalize hr : parse_token k true wsi t c = r
  unfold parse_token at hr
  by_cases c1 : (wsi.utf8_token t).token_len = 0 ∧ c = 32
  · rw [if_pos c1] at hr
    subst hr
    have h13 : c ≠ 13 := by omega
    exact ⟨rfl, fun _ => Or.inl ⟨hst, hclean⟩, fun h => absurd h h13⟩
  · rw [if_neg c1] at hr
    by_cases c2 : t = WSI_TOKEN_GET_URI ∧ c = 32
    · rw [if_pos c2] at hr
      subst hr
      have h13 : c ≠ 13 := by omega
      exact ⟨rfl, fun _ => Or.inr rfl, fun h => absurd h h13⟩
    · rw [if_neg c2] at hr
      simp only [] at hr
      by_cases ce : (wsi.utf8_token t).token_len + 1 = wsi.current_alloc_len
      · simp only [ce, if_true, true_and] at hr
        by_cases c3 : wsi.current_alloc_len + k.LWS_ADDITIONAL_HDR_ALLOC ≥
            k.LWS_MAX_HEADER_LEN
        · rw [if_pos c3] at hr
          subst hr
          exact ⟨rfl, fun _ => Or.inr rfl, fun _ => Or.inr rfl⟩
        · rw [if_neg c3] at hr
          simp only [Bool.true_eq_false, if_false] at hr
          by_cases c5 : t ≠ WSI_TOKEN_CHALLENGE ∧ c = 13
          · rw [if_pos c5] at hr
            subst hr
            refine ⟨rfl, fun h => absurd c5.2 h, fun _ => Or.inl ⟨rfl, ?_⟩⟩
            simp only [set_slot, if_true]
            exact store_nul_clean _ (alloc_clean _ _ hclean)
          · rw [if_neg c5, if_pos htc] at hr
            have h13 : c ≠ 13 := fun h => c5 ⟨htc, h⟩
            subst hr
            refine ⟨rfl, fun _ => Or.inl ⟨hst, ?_⟩, fun h => absurd h h13⟩
            simp only [set_slot, if_true]
            have hb := store_byte_clean _ c
              (alloc_clean _ (wsi.current_alloc_len + k.LWS_ADDITIONAL_HDR_ALLOC) hclean) hc0
            simp only [ce] at hb
            exact hb
      · simp only [ce, if_false, false_and] at hr
        by_cases c5 : t ≠ WSI_TOKEN_CHALLENGE ∧ c = 13
        · rw [if_pos c5] at hr
          subst hr
          refine ⟨rfl, fun h => absurd c5.2 h, fun _ => Or.inl ⟨rfl, ?_⟩⟩
          simp only [set_slot, if_true]
          exact store_nul_clean _ hclean
        · rw [if_neg c5, if_pos htc] at hr
          have h13 : c ≠ 13 := fun h => c5 ⟨htc, h⟩
          subst hr
          refine ⟨rfl, fun _ => Or.inl ⟨hst, ?_⟩, fun h => absurd h h13⟩
          simp only [set_slot, if_true]
          exact store_byte_clean _ c hclean hc0


theorem parse_feed_step (k : Consts) (wsi : Wsi) (c : Nat) (l : List Nat)
    (h : (libwebsocket_parse k true wsi c).1 = 0) :
    (parse_feed k wsi (c :: l)).2 = (parse_feed k (libwebsocket_parse k true wsi c).2 l).2 := by
  rw [parse_feed_cons, h]
  simp

/-- C37 against the claim as written.  A slot demoted for oversize: under an initial
allocation of 48 bytes and a ceiling of 64, the byte after 47 value bytes of a Host header
puts the sentinel of 41 bytes into the slot and leaves token_len at 47.  A value with a
NUL byte in it: after Host: a 00 b CR LF the slot has token_len 3 and the stored string
is a, of length 1. -/
theorem C37_length_disagrees_counterexample :
    (libwebsocket_parse tight_consts true full_host_wsi 97).2.parser_state =
      .WSI_TOKEN_SKIPPING ∧
    ((libwebsocket_parse tight_consts true full_host_wsi 97).2.utf8_token
      WSI_TOKEN_HOST).token_len = 47 ∧
    ((libwebsocket_parse tight_consts true full_host_wsi 97).2.utf8_token
      WSI_TOKEN_HOST).value.length = 41 ∧
    (parse_feed spec_consts (fresh_wsi 13 .xor_mask_05)
      (str "Host: a" ++ [0] ++ str "b\r\n")).2.parser_state = .WSI_TOKEN_NAME_PART ∧
    ((parse_feed spec_consts (fresh_wsi 13 .xor_mask_05)
      (str "Host: a" ++ [0] ++ str "b\r\n")).2.utf8_token WSI_TOKEN_HOST).token_len = 3 ∧
    ((parse_feed spec_consts (fresh_wsi 13 .xor_mask_05)
      (str "Host: a" ++ [0] ++ str "b\r\n")).2.utf8_token WSI_TOKEN_HOST).value =
        str "a" := by
  decide

/-- C37, amended (slot length agrees with slot content after the CR that ends a value
without NUL bytes).  While the value of a token other than CHALLENGE is collected into a
slot that is allocated and whose first token_len bytes hold no NUL (a fresh slot, or a
slot a former line ended with CR), for every run v of bytes other than NUL and CR after
which the parser is still collecting that token (the value was neither demoted for
oversize nor, for the URI, ended by a space), if the CR that follows ends the value (it
is not itself demoted at the ceiling): the slot recorded token_len equals the length of
its NUL-terminated stored string, and the slot is again one whose first token_len bytes
hold no NUL. -/
theorem C37_slot_length_agrees (k : Consts) (t : Nat) (v : List Nat) : ∀ (wsi : Wsi),
    wsi.parser_state = .token t → t < WSI_TOKEN_COUNT → t ≠ WSI_TOKEN_CHALLENGE →
    (wsi.utf8_token t).clean = true →
    (∀ b ∈ v, b ≠ 0 ∧ b ≠ 13) →
    (parse_feed k wsi v).2.parser_state = .token t →
    (parse_feed k wsi (v ++ [13])).2.parser_state = .WSI_TOKEN_SKIPPING_SAW_CR →
    ((parse_feed k wsi (v ++ [13])).2.utf8_token t).value.length =
      ((parse_feed k wsi (v ++ [13])).2.utf8_token t).token_len ∧
    ((parse_feed k wsi (v ++ [13])).2.utf8_token t).clean = true := by
  induction v with
  | nil =>
    intro wsi hst ht htc hclean _ _ hend
    obtain ⟨h0, _, hcr⟩ := collect_step k wsi t 13 hst ht htc hclean (by decide)
    simp only [List.nil_append] at hend ⊢
    rw [parse_feed_step k wsi 13 [] h0] at hend ⊢
    simp only [parse_feed] at hend ⊢
    rcases hcr rfl with h | h
    · exact ⟨h.2.2, h.2.1⟩
    · rw [h] at hend
      exact absurd hend (by decide)
  | cons c rest ih =>
    intro wsi hst ht htc hclean hv hcoll hend
    have hc := hv c (List.mem_cons_self _ _)
    obtain ⟨h0, hne, _⟩ := collect_step k wsi t c hst ht htc hclean hc.1
    rw [List.cons_append, parse_feed_step k wsi c _ h0] at hend ⊢
    rw [parse_feed_step k wsi c _ h0] at hcoll
    rcases hne hc.2 with h | h
    · exact ih _ h.1 ht htc h.2 (fun b hb => hv b (List.mem_cons_of_mem _ hb)) hcoll hend
    · have h13 : 13 ∉ rest := fun hm => (hv 13 (List.mem_cons_of_mem _ hm)).2 rfl
      have hskip := (skip_run k rest _ h h13).1
      rw [hskip] at hcoll
      rw [h] at hcoll
      exact absurd hcoll (by simp)

set_option maxRecDepth 100000 in
/-- C37 at a Host header: after the name Host: the bytes of the value example.com behind
a space, ended by CR, leave a slot whose token_len is the length of its stored string. -/
theorem C37_slot_length_agrees_witness :
    ((parse_feed spec_consts (parse_feed spec_consts (fresh_wsi 13 .xor_mask_05)
      (str "Host:")).2 (str " example.com" ++ [13])).2.utf8_token WSI_TOKEN_HOST).value.length =
    ((parse_feed spec_consts (parse_feed spec_consts (fresh_wsi 13 .xor_mask_05)
      (str "Host:")).2 (str " example.com" ++ [13])).2.utf8_token WSI_TOKEN_HOST).token_len ∧
    ((parse_feed spec_consts (parse_feed spec_consts (fresh_wsi 13 .xor_mask_05)
      (str "Host:")).2 (str " example.com" ++ [13])).2.utf8_token WSI_TOKEN_HOST).clean = true :=
  C37_slot_length_agrees spec_consts WSI_TOKEN_HOST (str " example.com")
    (parse_feed spec_consts (fresh_wsi 13 .xor_mask_05) (str "Host:")).2
    (by decide) (by decide) (by decide) (by decide) (by decide) (by decide) (by decide)

/-! ## Unknown methods -/

/-- The bytes of a word that matches no table entry and holds no colon and no space enter
the name buffer and change nothing else. -/
theorem unknown_run (k : Consts) (m : List Nat) : ∀ (pre : List Nat) (wsi : Wsi),
    wsi.parser_state = .WSI_TOKEN_NAME_PART → wsi.name_buffer = pre →
    pre.length + m.length < k.name_buffer_size →
    no_match pre m = true → (∀ b ∈ m, b ≠ 58 ∧ b ≠ 32) →
    Runs k wsi m { wsi with name_buffer := pre ++ m } := by
  induction m with
  | nil =>
    intro pre wsi _ hnb _ _ _
    have : ({ wsi with name_buffer := pre ++ [] } : Wsi) = wsi := by
      rw [List.append_nil, ← hnb]
    rw [this]
    exact Runs.nil k wsi
  | cons c rest ih =>
    intro pre wsi hst hnb hlen hno hm
    simp only [no_match, Bool.and_eq_true, Option.isNone_iff_eq_none] at hno
    have hc := hm c (List.mem_cons_self _ _)
    simp only [List.length_cons] at hlen
    have hpos : ¬ (pre.length + 1 = k.name_buffer_size) := by omega
    have hstep : libwebsocket_parse k true wsi c =
        (0, { wsi with name_buffer := pre ++ [c] }) := by
      simp [libwebsocket_parse, hst, parse_name_part, Wsi.name_buffer_pos, hnb, hpos,
        hno.1, hc.1, hc.2]
    have hrest := ih (pre ++ [c]) { wsi with name_buffer := pre ++ [c] } hst rfl
      (by simp only [List.length_append, List.length_cons, List.length_nil]; omega)
      hno.2 (fun b hb => hm b (List.mem_cons_of_mem _ hb))
    have hfin : ({ wsi with name_buffer := pre ++ c :: rest } : Wsi) =
        { ({ wsi with name_buffer := pre ++ [c] } : Wsi) with
          name_buffer := pre ++ [c] ++ rest } := by
      simp
    rw [hfin]
    exact Runs.cons k _ _ _ c rest hstep (by simp [hst]) hrest

/-- The space after a word that matches no table entry, while no URI has been captured:
the parser starts collecting the URI into a fresh allocation. -/
theorem method_space (k : Consts) (wsi : Wsi) (pre : List Nat)
    (hst : wsi.parser_state = .WSI_TOKEN_NAME_PART) (hnb : wsi.name_buffer = pre)
    (hlen : pre.length + 1 < k.name_buffer_size)
    (hno : find_token (pre ++ [32]) lws_tokens 0 = none)
    (huri : (wsi.utf8_token WSI_TOKEN_GET_URI).token_len = 0) :
    Runs k wsi [32]
      { wsi with
        name_buffer := pre ++ [32]
        parser_state := .token WSI_TOKEN_GET_URI
        current_alloc_len := k.LWS_INITIAL_HDR_ALLOC
        utf8_token := set_slot wsi.utf8_token WSI_TOKEN_GET_URI
          { token := some [], token_len := 0, alloc := k.LWS_INITIAL_HDR_ALLOC } } := by
  have hpos : ¬ (pre.length + 1 = k.name_buffer_size) := by omega
  refine Runs.one k _ _ 32 ?_ (by simp)
  simp [libwebsocket_parse, hst, parse_name_part, Wsi.name_buffer_pos, hnb, hpos, hno, huri]


/-- C36 against the claim as written, under the constants of the spec (a name buffer of
64 bytes).  With an empty URI the second space of PUT followed by two spaces is swallowed
and the parser is still collecting the URI; with a CR in the URI the slot holds only the
part before it; and a method word of 63 bytes, shorter than the name buffer, fills the
name buffer, so its space is met in the state that skips the line and no URI is stored. -/
theorem C36_method_counterexample :
    (parse_feed spec_consts (fresh_wsi 0 .xor_no_mask) (str "PUT  ")).2.parser_state =
      .token WSI_TOKEN_GET_URI ∧
    (parse_feed spec_consts (fresh_wsi 0 .xor_no_mask)
      (str "PUT /a\rb ")).2.parser_state = .WSI_TOKEN_SKIPPING ∧
    ((parse_feed spec_consts (fresh_wsi 0 .xor_no_mask)
      (str "PUT /a\rb ")).2.utf8_token WSI_TOKEN_GET_URI).holds (str "/a") ∧
    (List.replicate 63 88).length < spec_consts.name_buffer_size ∧
    no_match [] (List.replicate 63 88 ++ [32]) = true ∧
    (parse_feed spec_consts (fresh_wsi 0 .xor_no_mask)
      (List.replicate 63 88 ++ str " /a ")).2.parser_state = .WSI_TOKEN_SKIPPING ∧
    ((parse_feed spec_consts (fresh_wsi 0 .xor_no_mask)
      (List.replicate 63 88 ++ str " /a ")).2.utf8_token WSI_TOKEN_GET_URI).token = none := by
  decide


theorem no_match_append (a b : List Nat) : ∀ (pre : List Nat),
    no_match pre (a ++ b) = (no_match pre a && no_match (pre ++ a) b) := by
  induction a with
  | nil => intro pre; simp [no_match]
  | cons c rest ih =>
    intro pre
    show ((find_token (pre ++ [c]) lws_tokens 0).isNone && no_match (pre ++ [c]) (rest ++ b)) =
      (((find_token (pre ++ [c]) lws_tokens 0).isNone && no_match (pre ++ [c]) rest) &&
        no_match (pre ++ c :: rest) b)
    rw [ih (pre ++ [c])]
    simp [Bool.and_assoc]

/-- C36, amended (non-GET methods are accepted).  At the start of a request, with no URI
captured (GET_URI slot absent, length 0) and every allocation succeeding, for every
method word m of at most name_buffer_size - 2 bytes that holds no space or colon and of
which no prefix, nor m with its space, matches a table entry: the bytes m and a space
return 0 and leave the parser collecting the URI, in a record that differs from the one
GET and a space leave only in the name buffer, so that every sequence of bytes that
follows gives the same return values and the same record apart from the name buffer as
it gives after GET.  In particular, for every NON-EMPTY URI u without space or CR and
shorter than the initial allocation, the bytes m, space, u, space return 0, store exactly
u in the GET_URI slot and leave the parser skipping the rest of the request line. -/
theorem C36_unknown_method (k : Consts) (wsi : Wsi) (m u rest : List Nat)
    (hst : wsi.parser_state = .WSI_TOKEN_NAME_PART) (hnb : wsi.name_buffer = [])
    (habs : (wsi.utf8_token WSI_TOKEN_GET_URI).token = none)
    (huri : (wsi.utf8_token WSI_TOKEN_GET_URI).token_len = 0)
    (hm : m.length + 1 < k.name_buffer_size) (hsize : 4 < k.name_buffer_size)
    (hmc : ∀ b ∈ m, b ≠ 58 ∧ b ≠ 32)
    (hno : no_match [] (m ++ [32]) = true)
    (hne : u ≠ []) (hcr : 13 ∉ u) (hsp : 32 ∉ u)
    (hlen : u.length < k.LWS_INITIAL_HDR_ALLOC) :
    (∃ F : Wsi, Runs k wsi (m ++ ([32] ++ (u ++ [32]))) F ∧
      F.parser_state = .WSI_TOKEN_SKIPPING ∧
      (F.utf8_token WSI_TOKEN_GET_URI).holds u) ∧
    (∃ R : List Int,
      (parse_feed k wsi (m ++ [32] ++ rest)).1 = List.replicate (m.length + 1) 0 ++ R ∧
      (parse_feed k wsi (str "GET " ++ rest)).1 = List.replicate 4 0 ++ R) ∧
    (parse_feed k wsi (m ++ [32] ++ rest)).2.named [] =
      (parse_feed k wsi (str "GET " ++ rest)).2.named [] := by
  rw [no_match_append, Bool.and_eq_true] at hno
  have hno2 : find_token (m ++ [32]) lws_tokens 0 = none := by
    have h := hno.2
    simp only [no_match, List.nil_append, Bool.and_true, Option.isNone_iff_eq_none] at h
    exact h
  have hscan : name_scan [] (str "GET ") = some 0 := by decide
  have hhead : u.head? ≠ some 32 := by
    cases u with
    | nil => simp
    | cons c rest =>
      simp only [List.mem_cons, not_or] at hsp
      simpa using fun h => hsp.1 h.symm
  have hu := unknown_run k m [] wsi hst hnb (by simp only [List.length_nil]; omega) hno.1 hmc
  have hs := method_space k { wsi with name_buffer := [] ++ m } ([] ++ m) hst rfl
    (by simp only [List.nil_append]; omega) (by simpa using hno2) huri
  have hword : Runs k wsi (m ++ [32])
      { wsi with
        name_buffer := m ++ [32]
        parser_state := .token WSI_TOKEN_GET_URI
        current_alloc_len := k.LWS_INITIAL_HDR_ALLOC
        utf8_token := set_slot wsi.utf8_token WSI_TOKEN_GET_URI
          { token := some [], token_len := 0, alloc := k.LWS_INITIAL_HDR_ALLOC } } := by
    simpa using Runs.append k _ _ _ _ _ hu hs
  have hget := name_run k (str "GET ") 0 [] wsi hst hnb (by simpa [str] using hsize) hscan
    (by decide) habs
  have hnamed := parse_feed_named k rest
    { wsi with
      name_buffer := m ++ [32]
      parser_state := .token WSI_TOKEN_GET_URI
      current_alloc_len := k.LWS_INITIAL_HDR_ALLOC
      utf8_token := set_slot wsi.utf8_token WSI_TOKEN_GET_URI
        { token := some [], token_len := 0, alloc := k.LWS_INITIAL_HDR_ALLOC } }
    { wsi with
      name_buffer := [] ++ str "GET "
      parser_state := .token (if 0 = WSI_TOKEN_SWORIGIN then WSI_TOKEN_ORIGIN else 0)
      current_alloc_len := k.LWS_INITIAL_HDR_ALLOC
      utf8_token := set_slot wsi.utf8_token
        (if 0 = WSI_TOKEN_SWORIGIN then WSI_TOKEN_ORIGIN else 0)
        { token := some [], token_len := 0, alloc := k.LWS_INITIAL_HDR_ALLOC } }
    rfl (fun h => by cases h)
  have h1 := Runs.feed_append k _ rest _ _ hword
  have h2 := Runs.feed_append k _ rest _ _ hget
  refine ⟨?_, ?_, ?_⟩
  · exact ⟨_, Runs.append k _ _ _ _ _ hu
      (Runs.append k _ _ _ _ _ hs
        (Runs.append k _ _ _ _ _
          (value_run k _ k.LWS_INITIAL_HDR_ALLOC u _ [] rfl (by decide) (by decide)
            (by simp [set_slot]) hcr (fun _ => hsp) (fun _ => hhead) (by simpa using hlen))
          (uri_end k k.LWS_INITIAL_HDR_ALLOC _ ([] ++ u) rfl (by simpa using hne)
            (by simp [set_slot])))),
      rfl, by simp [Slot.holds, set_slot]⟩
  · refine ⟨_, ?_, congrArg Prod.fst h2⟩
    rw [h1, ← hnamed.1]
    simp only [List.length_append, List.length_singleton]
  · rw [h1, h2]
    exact hnamed.2.1


/-- C36 at the method PUT and the URI /chat, at the start of a fresh connection: PUT /chat
and a space store /chat and leave the parser skipping, and the request line continues as
it does after GET. -/
theorem C36_unknown_method_witness :
    (∃ F : Wsi,
      Runs spec_consts (fresh_wsi 0 .xor_no_mask)
        (str "PUT" ++ ([32] ++ (str "/chat" ++ [32]))) F ∧
      F.parser_state = .WSI_TOKEN_SKIPPING ∧
      (F.utf8_token WSI_TOKEN_GET_URI).holds (str "/chat")) ∧
    (∃ R : List Int,
      (parse_feed spec_consts (fresh_wsi 0 .xor_no_mask)
        (str "PUT" ++ [32] ++ str "/chat HTTP/1.1\r\n")).1 =
          List.replicate ((str "PUT").length + 1) 0 ++ R ∧
      (parse_feed spec_consts (fresh_wsi 0 .xor_no_mask)
        (str "GET " ++ str "/chat HTTP/1.1\r\n")).1 = List.replicate 4 0 ++ R) ∧
    (parse_feed spec_consts (fresh_wsi 0 .xor_no_mask)
      (str "PUT" ++ [32] ++ str "/chat HTTP/1.1\r\n")).2.named [] =
      (parse_feed spec_consts (fresh_wsi 0 .xor_no_mask)
        (str "GET " ++ str "/chat HTTP/1.1\r\n")).2.named [] :=
  C36_unknown_method spec_consts (fresh_wsi 0 .xor_no_mask) (str "PUT") (str "/chat")
    (str "/chat HTTP/1.1\r\n") rfl rfl rfl rfl (by decide) (by decide) (by decide)
    (by decide) (by decide) (by decide) (by decide) (by decide)

/-! ## The mask index and the payload buffer over all steps -/

theorem call_xor_mask_keeps (w : Wsi) (c : Nat) :
    (call_xor_mask w c).2.xor_mask = w.xor_mask ∧
    (call_xor_mask w c).2.rx_user_buffer = w.rx_user_buffer ∧
    mask_step w (call_xor_mask w c).2.frame_mask_index := by
  unfold call_xor_mask xor_no_mask xor_mask_04 xor_mask_05 mask_step
  cases h : w.xor_mask <;> simp [h]

theorem unmask_pre07_keeps (w : Wsi) (c : Nat) :
    (unmask_pre07 w c).2.xor_mask = w.xor_mask ∧
    (unmask_pre07 w c).2.rx_user_buffer = w.rx_user_buffer ∧
    mask_step w (unmask_pre07 w c).2.frame_mask_index := by
  unfold unmask_pre07
  split
  · exact call_xor_mask_keeps w c
  · exact ⟨rfl, rfl, Or.inl rfl⟩

theorem handle_first_keeps (w : Wsi) (c : Nat) :
    (handle_first w c).2.xor_mask = w.xor_mask ∧
    (handle_first w c).2.rx_user_buffer = w.rx_user_buffer ∧
    mask_step w (handle_first w c).2.frame_mask_index := by
  have h := unmask_pre07_keeps w c
  unfold handle_first
  simp only []
  split_ifs <;> exact h

theorem spill_keeps (env : Env) (w : Wsi) :
    (spill env w).2.xor_mask = w.xor_mask ∧
    (spill env w).2.frame_mask_index = w.frame_mask_index ∧
    ((spill env w).2.rx_user_buffer = [] ∨
      ((spill env w).1 < 0 ∧ (spill env w).2.rx_user_buffer = w.rx_user_buffer)) := by
  obtain ⟨e1, h1, _⟩ := ext_payload_loop_events env.active_extensions 0 w.rx_user_buffer w
  obtain ⟨e2, h2, _⟩ :=
    ext_extended_loop_events env.active_extensions 0 w.rx_user_buffer false w
  unfold spill
  simp only [h1, h2]
  repeat' split
  all_goals simp [libwebsocket_write, user_callback_handle_rxflow]

theorem issue_keeps (env : Env) (w : Wsi) :
    (issue env w).1 = 0 ∧
    (issue env w).2.xor_mask = w.xor_mask ∧
    (issue env w).2.frame_mask_index = w.frame_mask_index ∧
    (issue env w).2.rx_user_buffer = [] := by
  unfold issue
  split <;> simp [user_callback_handle_rxflow]


theorem payload_stored_keeps (w : Wsi) (c : Nat) :
    (payload_stored w c).xor_mask = w.xor_mask ∧
    mask_step w (payload_stored w c).frame_mask_index ∧
    ∃ x, (payload_stored w c).rx_user_buffer = w.rx_user_buffer ++ [x] := by
  unfold payload_stored
  by_cases h : w.ietf_spec_revision < 4 ∨
      (w.all_zero_nonce = true ∧ w.ietf_spec_revision ≥ 5)
  · rw [if_pos h]
    exact ⟨rfl, Or.inl rfl, c, rfl⟩
  · rw [if_neg h]
    obtain ⟨h1, h2, h3⟩ := call_xor_mask_keeps w c
    exact ⟨h1, h3, (call_xor_mask w c).1,
      congrArg (fun l => l ++ [(call_xor_mask w c).1]) h2⟩

theorem rx_sm_keeps_payload (env : Env) (w : Wsi) (c : Nat)
    (hp : w.lws_rx_parse_state = .LWS_RXPS_PAYLOAD_UNTIL_LENGTH_EXHAUSTED) :
    (libwebsocket_rx_sm env w c).2.xor_mask = w.xor_mask ∧
    mask_step w (libwebsocket_rx_sm env w c).2.frame_mask_index ∧
    ((libwebsocket_rx_sm env w c).2.rx_user_buffer = w.rx_user_buffer ∨
      (libwebsocket_rx_sm env w c).2.rx_user_buffer = [] ∨
      ∃ x, (libwebsocket_rx_sm env w c).2.rx_user_buffer = w.rx_user_buffer ++ [x] ∧
        (w.rx_user_buffer.length + 1 ≠ env.k.MAX_USER_RX_BUFFER ∨
          (libwebsocket_rx_sm env w c).1 < 0)) := by
  obtain ⟨h1, h2, x, h3⟩ := payload_stored_keeps w c
  rw [payload_step env w c hp]
  split_ifs with hz hm
  · obtain ⟨s1, s2, s3⟩ := spill_keeps env
      { payload_stored w c with lws_rx_parse_state := .LWS_RXPS_NEW }
    refine ⟨s1.trans h1, by rw [s2]; exact h2, ?_⟩
    rcases s3 with s3 | s3
    · exact Or.inr (Or.inl s3)
    · exact Or.inr (Or.inr ⟨x, s3.2.trans h3, Or.inr s3.1⟩)
  · refine ⟨h1, h2, Or.inr (Or.inr ⟨x, h3, Or.inl ?_⟩)⟩
    rw [h3] at hm
    simpa using hm
  · obtain ⟨s1, s2, s3⟩ := spill_keeps env (payload_stored w c)
    refine ⟨s1.trans h1, by rw [s2]; exact h2, ?_⟩
    rcases s3 with s3 | s3
    · exact Or.inr (Or.inl s3)
    · exact Or.inr (Or.inr ⟨x, s3.2.trans h3, Or.inr s3.1⟩)

/-- One step of the frame state machine, in any state and for any byte: the unmasking
routine installed stays, the mask index moves as mask_step allows, and the payload buffer
is left as it was, emptied, or extended by one byte; where it is extended the step either
leaves it short of the ceiling or is the fatal end of a frame. -/
theorem rx_sm_keeps (env : Env) (w : Wsi) (c : Nat) :
    (libwebsocket_rx_sm env w c).2.xor_mask = w.xor_mask ∧
    mask_step w (libwebsocket_rx_sm env w c).2.frame_mask_index ∧
    ((libwebsocket_rx_sm env w c).2.rx_user_buffer = w.rx_user_buffer ∨
      (libwebsocket_rx_sm env w c).2.rx_user_buffer = [] ∨
      ∃ x, (libwebsocket_rx_sm env w c).2.rx_user_buffer = w.rx_user_buffer ++ [x] ∧
        (w.rx_user_buffer.length + 1 ≠ env.k.MAX_USER_RX_BUFFER ∨
          (libwebsocket_rx_sm env w c).1 < 0)) := by
  cases h : w.lws_rx_parse_state
  case LWS_RXPS_PAYLOAD_UNTIL_LENGTH_EXHAUSTED => exact rx_sm_keeps_payload env w c h
  all_goals
    simp only [libwebsocket_rx_sm, h, len_or, after_length, Wsi.rx_user_buffer_head]
  case LWS_RXPS_EAT_UNTIL_76_FF =>
    split_ifs with hff hm
    · exact ⟨(issue_keeps env _).2.1, Or.inl (issue_keeps env _).2.2.1,
        Or.inr (Or.inl (issue_keeps env _).2.2.2)⟩
    · refine ⟨rfl, Or.inl rfl, Or.inr (Or.inr ⟨c, rfl, Or.inl ?_⟩)⟩
      simpa using hm
    · exact ⟨(issue_keeps env _).2.1, Or.inl (issue_keeps env _).2.2.1,
        Or.inr (Or.inl (issue_keeps env _).2.2.2)⟩
  all_goals (try split_ifs)
  all_goals refine ⟨?_, ?_, ?_⟩
  all_goals first
    | trivial
    | rfl
    | exact (unmask_pre07_keeps _ c).1
    | exact (handle_first_keeps _ c).1
    | exact Or.inl rfl
    | exact Or.inr (Or.inl rfl)
    | exact (unmask_pre07_keeps _ c).2.2
    | exact (handle_first_keeps _ c).2.2
    | exact Or.inl trivial
    | exact Or.inl (unmask_pre07_keeps _ c).2.1
    | exact Or.inl (handle_first_keeps _ c).2.1


theorem rx_feed_mask04 (env : Env) (bytes : List Nat) : ∀ (wsi : Wsi),
    wsi.xor_mask = .xor_mask_04 → wsi.frame_mask_index < 20 →
    (rx_feed env wsi bytes).2.xor_mask = .xor_mask_04 ∧
    (rx_feed env wsi bytes).2.frame_mask_index < 20 := by
  induction bytes with
  | nil => intro wsi hx hi; exact ⟨hx, hi⟩
  | cons c rest ih =>
    intro wsi hx hi
    obtain ⟨k1, k2, _⟩ := rx_sm_keeps env wsi c
    have hx1 : (libwebsocket_rx_sm env wsi c).2.xor_mask = .xor_mask_04 := k1.trans hx
    have hi1 : (libwebsocket_rx_sm env wsi c).2.frame_mask_index < 20 := by
      rcases k2 with h | h | h | h
      · rw [h]; exact hi
      · rw [h]; decide
      · rw [h.2]
        split_ifs <;> omega
      · rw [hx] at h
        exact absurd h.1 (by decide)
    rw [rx_feed_cons]
    split_ifs
    · exact ⟨hx1, hi1⟩
    · exact ih _ hx1 hi1

/-- C31 against the claim as written: at revision 13 the masked text frame of scenario 3
(5 payload bytes under the key 37 fa 21 3d) returns 0 on every byte and leaves the mask
index at 5; at revision 5 with xor_mask_05 installed a frame of 20 payload bytes leaves
it at 22. -/
theorem C31_index_grows_counterexample :
    (rx_feed server_env (fresh_wsi 13 .xor_mask_05) hello_frame).1 = List.replicate 11 0 ∧
    (rx_feed server_env (fresh_wsi 13 .xor_mask_05) hello_frame).2.ietf_spec_revision = 13 ∧
    (rx_feed server_env (fresh_wsi 13 .xor_mask_05) hello_frame).2.frame_mask_index = 5 ∧
    (rx_feed server_env (fresh_wsi 5 .xor_mask_05) long_rev5_frame).1 =
      List.replicate 26 0 ∧
    (rx_feed server_env (fresh_wsi 5 .xor_mask_05) long_rev5_frame).2.ietf_spec_revision = 5 ∧
    (rx_feed server_env (fresh_wsi 5 .xor_mask_05) long_rev5_frame).2.frame_mask_index = 22 := by
  decide

theorem rx_feed_buffer (env : Env) (bytes : List Nat) : ∀ (wsi : Wsi),
    wsi.rx_user_buffer.length < env.k.MAX_USER_RX_BUFFER →
    (rx_feed env wsi bytes).2.rx_user_buffer.length ≤ env.k.MAX_USER_RX_BUFFER ∧
    ((∀ r ∈ (rx_feed env wsi bytes).1, 0 ≤ r) →
      (rx_feed env wsi bytes).2.rx_user_buffer.length < env.k.MAX_USER_RX_BUFFER) := by
  induction bytes with
  | nil => intro wsi h; exact ⟨Nat.le_of_lt h, fun _ => h⟩
  | cons c rest ih =>
    intro wsi h
    obtain ⟨_, _, k3⟩ := rx_sm_keeps env wsi c
    rw [rx_feed_cons]
    split_ifs with hneg
    · constructor
      · show (libwebsocket_rx_sm env wsi c).2.rx_user_buffer.length ≤ _
        rcases k3 with e | e | ⟨x, e, _⟩
        · rw [e]; omega
        · rw [e]; simp
        · rw [e]
          simp only [List.length_append, List.length_singleton]
          omega
      · intro hall
        have := hall _ (List.mem_singleton.mpr rfl)
        omega
    · have hlt : (libwebsocket_rx_sm env wsi c).2.rx_user_buffer.length <
          env.k.MAX_USER_RX_BUFFER := by
        rcases k3 with e | e | ⟨x, e, e2⟩
        · rw [e]; exact h
        · rw [e]
          simp only [List.length_nil]
          omega
        · rw [e]
          simp only [List.length_append, List.length_singleton]
          rcases e2 with e2 | e2
          · omega
          · exact absurd e2 hneg
      obtain ⟨i1, i2⟩ := ih _ hlt
      exact ⟨i1, fun hall => i2 (fun r hr => hall r (List.mem_cons_of_mem _ hr))⟩

/-- C32 (payload buffer bound).  For every environment, every revision and every record
whose rx_user_buffer_head is below MAX_USER_RX_BUFFER (0 in state NEW included), after
feeding any byte sequence to libwebsocket_rx_sm, up to a fatal return:
rx_user_buffer_head is at most MAX_USER_RX_BUFFER, and it is below MAX_USER_RX_BUFFER when
no step returned a negative value.  A single step on such a record leaves the buffer as
it was, empties it, or stores one byte at the offset rx_user_buffer_head, which is below
MAX_USER_RX_BUFFER. -/
theorem C32_payload_buffer_bound (env : Env) (wsi w : Wsi) (bytes : List Nat) (c : Nat)
    (hhead : wsi.rx_user_buffer_head < env.k.MAX_USER_RX_BUFFER)
    (hw : w.rx_user_buffer_head < env.k.MAX_USER_RX_BUFFER) :
    (rx_feed env wsi bytes).2.rx_user_buffer_head ≤ env.k.MAX_USER_RX_BUFFER ∧
    ((∀ r ∈ (rx_feed env wsi bytes).1, 0 ≤ r) →
      (rx_feed env wsi bytes).2.rx_user_buffer_head < env.k.MAX_USER_RX_BUFFER) ∧
    ((libwebsocket_rx_sm env w c).2.rx_user_buffer = w.rx_user_buffer ∨
      (libwebsocket_rx_sm env w c).2.rx_user_buffer = [] ∨
      ∃ x, (libwebsocket_rx_sm env w c).2.rx_user_buffer = w.rx_user_buffer ++ [x] ∧
        w.rx_user_buffer.length < env.k.MAX_USER_RX_BUFFER) := by
  refine ⟨(rx_feed_buffer env bytes wsi hhead).1, (rx_feed_buffer env bytes wsi hhead).2, ?_⟩
  rcases (rx_sm_keeps env w c).2.2 with e | e | ⟨x, e, _⟩
  · exact Or.inl e
  · exact Or.inr (Or.inl e)
  · exact Or.inr (Or.inr ⟨x, e, hw⟩)

/-- C32 at the frame of scenario 3 fed to a fresh revision 13 connection under a payload
ceiling of 4 bytes, and at the first payload byte of a frame of 10 bytes. -/
theorem C32_payload_buffer_bound_witness :
    (rx_feed small_env (fresh_wsi 13 .xor_mask_05) hello_frame).2.rx_user_buffer_head ≤
      small_env.k.MAX_USER_RX_BUFFER ∧
    ((∀ r ∈ (rx_feed small_env (fresh_wsi 13 .xor_mask_05) hello_frame).1, 0 ≤ r) →
      (rx_feed small_env (fresh_wsi 13 .xor_mask_05) hello_frame).2.rx_user_buffer_head <
        small_env.k.MAX_USER_RX_BUFFER) ∧
    ((libwebsocket_rx_sm small_env after_header_wsi 0x7f).2.rx_user_buffer =
        after_header_wsi.rx_user_buffer ∨
      (libwebsocket_rx_sm small_env after_header_wsi 0x7f).2.rx_user_buffer = [] ∨
      ∃ x, (libwebsocket_rx_sm small_env after_header_wsi 0x7f).2.rx_user_buffer =
          after_header_wsi.rx_user_buffer ++ [x] ∧
        after_header_wsi.rx_user_buffer.length < small_env.k.MAX_USER_RX_BUFFER) :=
  C32_payload_buffer_bound small_env (fresh_wsi 13 .xor_mask_05) after_header_wsi hello_frame
    0x7f (by decide) (by decide)

/-! ## The external poll table -/

theorem find_from_spec (t : PollTable) (h : Nat) (fd : Int) : ∀ (left n : Nat),
    (find_poll_map_index_from t h fd left n = -1 ∧
      ∀ j, n ≤ j → j < n + left → (t.pollfd_maps h j).fd ≠ fd) ∨
    ∃ j : Nat, find_poll_map_index_from t h fd left n = (j : Int) ∧ n ≤ j ∧ j < n + left ∧
      (t.pollfd_maps h j).fd = fd := by
  intro left
  induction left with
  | zero =>
    intro n
    left
    exact ⟨rfl, fun j h1 h2 => by omega⟩
  | succ l ih =>
    intro n
    simp only [find_poll_map_index_from]
    split_ifs with hfd
    · exact Or.inr ⟨n, rfl, Nat.le_refl _, by omega, hfd⟩
    · rcases ih (n + 1) with ⟨h1, h2⟩ | ⟨j, h1, h2, h3, h4⟩
      · left
        refine ⟨h1, fun j hj1 hj2 => ?_⟩
        by_cases hjn : j = n
        · rw [hjn]; exact hfd
        · exact h2 j (by omega) (by omega)
      · exact Or.inr ⟨j, h1, by omega, by omega, h4⟩

theorem find_from_congr (t t1 : PollTable) (h : Nat) (fd : Int)
    (hm : t1.pollfd_maps h = t.pollfd_maps h) : ∀ (left n : Nat),
    find_poll_map_index_from t1 h fd left n = find_poll_map_index_from t h fd left n := by
  intro left
  induction left with
  | zero => intro n; rfl
  | succ l ih =>
    intro n
    simp only [find_poll_map_index_from, hm, ih]

/-- The bucket search under the invariant: a tracked descriptor is found at the one
position of its bucket that holds it, any other descriptor is not found. -/
theorem find_tracked (t : PollTable) (live : List Int) (hI : PollInv t live) (fd : Int) :
    (fd ∈ live → ∃ n : Nat, find_poll_map_index t (POLL_HASH fd) fd = (n : Int) ∧
      n < t.pollfd_count (POLL_HASH fd) ∧ (t.pollfd_maps (POLL_HASH fd) n).fd = fd) ∧
    (fd ∉ live → find_poll_map_index t (POLL_HASH fd) fd = -1) := by
  unfold find_poll_map_index
  rcases find_from_spec t (POLL_HASH fd) fd (t.pollfd_count (POLL_HASH fd)) 0 with
    ⟨h1, h2⟩ | ⟨j, h1, _, h3, h4⟩
  · constructor
    · intro hfd
      obtain ⟨n, hn1, hn2⟩ := (hI.tracked fd).mp hfd
      exact absurd hn2 (h2 n (Nat.zero_le _) (by omega))
    · intro _
      exact h1
  · constructor
    · intro _
      exact ⟨j, h1, by omega, h4⟩
    · intro hfd
      exact absurd ((hI.tracked fd).mpr ⟨j, by omega, h4⟩) hfd

theorem update2_apply {α : Type} (M : Nat → Nat → α) (h n : Nat) (e : α) (h1 n1 : Nat) :
    Function.update M h (Function.update (M h) n e) h1 n1 =
      if h1 = h ∧ n1 = n then e else M h1 n1 := by
  by_cases c1 : h1 = h
  · subst c1
    by_cases c2 : n1 = n
    · subst c2
      simp
    · simp [c2]
  · simp [c1]


/-- A successful ADD of a descriptor that is not tracked keeps the invariant, with the
descriptor added to the tracked ones. -/
theorem add_keeps (mpe : Nat) (t T : PollTable) (live : List Int) (fd ev : Int)
    (hI : PollInv t live) (hnew : fd ∉ live)
    (hcall : callback_http mpe t .LWS_CALLBACK_ADD_POLL_FD fd ev = some (0, T)) :
    PollInv T (fd :: live) := by
  simp only [callback_http] at hcall
  split_ifs at hcall
  · simp at hcall
  · simp at hcall
  simp only [Option.some.injEq, Prod.mk.injEq, true_and] at hcall
  have hmaps : ∀ h x, T.pollfd_maps h x =
      if h = POLL_HASH fd ∧ x = t.pollfd_count (POLL_HASH fd) then
        { fd := fd, index := t.count_pollfds }
      else t.pollfd_maps h x := by
    intro h x
    rw [← hcall]
    exact update2_apply _ _ _ _ _ _
  have hcnt : ∀ h, T.pollfd_count h =
      if h = POLL_HASH fd then t.pollfd_count (POLL_HASH fd) + 1 else t.pollfd_count h := by
    intro h
    rw [← hcall]
    exact Function.update_apply _ _ _ _
  have hfds : ∀ i, T.pollfds i =
      if i = t.count_pollfds then { fd := fd, events := ev, revents := 0 }
      else t.pollfds i := by
    intro i
    rw [← hcall]
    exact Function.update_apply _ _ _ _
  have hcount : T.count_pollfds = t.count_pollfds + 1 := by rw [← hcall]
  have hold : ∀ h x, x < T.pollfd_count h →
      ¬ (h = POLL_HASH fd ∧ x = t.pollfd_count (POLL_HASH fd)) → x < t.pollfd_count h := by
    intro h x hx hc
    rw [hcnt] at hx
    by_cases hh : h = POLL_HASH fd
    · rw [if_pos hh] at hx
      rw [hh] at hc ⊢
      have : x ≠ t.pollfd_count (POLL_HASH fd) := fun e => hc ⟨rfl, e⟩
      omega
    · rw [if_neg hh] at hx
      exact hx
  have holdfd : ∀ h x, x < t.pollfd_count h → (t.pollfd_maps h x).fd ∈ live := by
    intro h x hx
    have he := (hI.entry h x hx).1
    exact (hI.tracked _).mpr ⟨x, by rw [he]; exact hx, by rw [he]⟩
  refine ⟨List.nodup_cons.mpr ⟨hnew, hI.nodup⟩, by rw [hcount, hI.count]; rfl, ?_, ?_, ?_,
    ?_, ?_⟩
  · intro h x hx
    rw [hmaps, hcount]
    by_cases hc : h = POLL_HASH fd ∧ x = t.pollfd_count (POLL_HASH fd)
    · rw [if_pos hc, hfds]
      simp [hc.1]
    · rw [if_neg hc]
      obtain ⟨e1, e2, e3⟩ := hI.entry h x (hold h x hx hc)
      refine ⟨e1, by omega, ?_⟩
      rw [hfds, if_neg (by omega)]
      exact e3
  · intro h x x1 hx hx1 he
    rw [hmaps, hmaps] at he
    by_cases hc : h = POLL_HASH fd ∧ x = t.pollfd_count (POLL_HASH fd)
    · by_cases hc1 : h = POLL_HASH fd ∧ x1 = t.pollfd_count (POLL_HASH fd)
      · rw [hc.2, hc1.2]
      · rw [if_pos hc, if_neg hc1] at he
        have he1 : fd = (t.pollfd_maps h x1).fd := he
        exact absurd (he1 ▸ holdfd h x1 (hold h x1 hx1 hc1)) hnew
    · by_cases hc1 : h = POLL_HASH fd ∧ x1 = t.pollfd_count (POLL_HASH fd)
      · rw [if_neg hc, if_pos hc1] at he
        have he1 : (t.pollfd_maps h x).fd = fd := he
        exact absurd (he1 ▸ holdfd h x (hold h x hx hc)) hnew
      · rw [if_neg hc, if_neg hc1] at he
        exact hI.entry_inj h x x1 (hold h x hx hc) (hold h x1 hx1 hc1) he
  · intro fd1
    constructor
    · intro hm
      rcases List.mem_cons.mp hm with e | e
      · refine ⟨t.pollfd_count (POLL_HASH fd), ?_, ?_⟩
        · rw [hcnt, e, if_pos rfl]
          omega
        · rw [hmaps, e, if_pos ⟨rfl, rfl⟩]
      · obtain ⟨x, hx1, hx2⟩ := (hI.tracked fd1).mp e
        refine ⟨x, ?_, ?_⟩
        · rw [hcnt]
          split_ifs with hh
          · rw [hh] at hx1
            omega
          · exact hx1
        · rw [hmaps, if_neg]
          · exact hx2
          · intro hc
            rw [hc.1] at hx1
            omega
    · intro ⟨x, hx1, hx2⟩
      rw [hmaps] at hx2
      by_cases hc : POLL_HASH fd1 = POLL_HASH fd ∧ x = t.pollfd_count (POLL_HASH fd)
      · rw [if_pos hc] at hx2
        exact List.mem_cons.mpr (Or.inl hx2.symm)
      · rw [if_neg hc] at hx2
        exact List.mem_cons_of_mem _ (hx2 ▸ holdfd _ x (hold _ x hx1 hc))
  · intro i hi
    rw [hfds]
    split_ifs with hc
    · exact List.mem_cons_self _ _
    · exact List.mem_cons_of_mem _ (hI.slot_live i (by omega))
  · intro i j hi hj he
    rw [hfds, hfds] at he
    rw [hcount] at hi hj
    by_cases hc : i = t.count_pollfds
    · by_cases hc1 : j = t.count_pollfds
      · rw [hc, hc1]
      · rw [if_pos hc, if_neg hc1] at he
        have he1 : fd = (t.pollfds j).fd := he
        exact absurd (he1 ▸ hI.slot_live j (by omega)) hnew
    · by_cases hc1 : j = t.count_pollfds
      · rw [if_neg hc, if_pos hc1] at he
        have he1 : (t.pollfds i).fd = fd := he
        exact absurd (he1 ▸ hI.slot_live i (by omega)) hnew
      · rw [if_neg hc, if_neg hc1] at he
        exact hI.slot_inj i j (by omega) (by omega) he


theorem find_count_irrelevant (t : PollTable) (c h : Nat) (fd : Int) :
    find_poll_map_index { t with count_pollfds := c } h fd = find_poll_map_index t h fd :=
  find_from_congr t { t with count_pollfds := c } h fd rfl _ _

/-- The DEL case evaluated for a descriptor found at position n of its bucket, with the
end guy found at position m1 of its own bucket: no assert fails, the return value is 0. -/
theorem del_eval (mpe : Nat) (t : PollTable) (fd len : Int) (n m1 : Nat)
    (hn : find_poll_map_index t (POLL_HASH fd) fd = (n : Int))
    (hm : (t.pollfds (t.pollfd_maps (POLL_HASH fd) n).index).fd = fd)
    (hc : t.count_pollfds ≠ 0) (hb : t.pollfd_count (POLL_HASH fd) ≠ 0)
    (hm1 : find_poll_map_index t (POLL_HASH (t.pollfds (t.count_pollfds - 1)).fd)
      (t.pollfds (t.count_pollfds - 1)).fd = (m1 : Int))
    (T2 : PollTable)
    (hT2 : T2 = if t.count_pollfds - 1 ≠ 0 then
        swap_end_guy { t with count_pollfds := t.count_pollfds - 1 }
          (t.pollfd_maps (POLL_HASH fd) n).index m1
      else { t with count_pollfds := t.count_pollfds - 1 }) :
    callback_http mpe t .LWS_CALLBACK_DEL_POLL_FD fd len =
      some (0, fill_bucket { T2 with
        pollfd_count := Function.update T2.pollfd_count (POLL_HASH fd)
          (T2.pollfd_count (POLL_HASH fd) - 1) } (POLL_HASH fd) n) := by
  simp only [callback_http, find_count_irrelevant, hn, hm1, Int.toNat_ofNat]
  rw [if_neg (by omega), if_neg (not_not.mpr hm), if_neg hc, if_neg hb, if_neg (by omega),
    hT2]

theorem fill_bucket_count (t : PollTable) (h n : Nat) :
    (fill_bucket t h n).count_pollfds = t.count_pollfds := by
  unfold fill_bucket
  split_ifs <;> rfl

theorem fill_bucket_pollfd_count (t : PollTable) (h n : Nat) :
    (fill_bucket t h n).pollfd_count = t.pollfd_count := by
  unfold fill_bucket
  split_ifs <;> rfl

theorem fill_bucket_pollfds (t : PollTable) (h n : Nat) :
    (fill_bucket t h n).pollfds = t.pollfds := by
  unfold fill_bucket
  split_ifs <;> rfl

/-- An entry below the decremented bucket count, after the vacant position was filled:
position n of the bucket holds what the last position held, the others are unchanged. -/
theorem fill_bucket_entry (t : PollTable) (h n h1 x : Nat) (hx : x < t.pollfd_count h1) :
    ((fill_bucket t h n).pollfd_maps h1 x).fd =
      (t.pollfd_maps h1 (if h1 = h ∧ x = n then t.pollfd_count h1 else x)).fd ∧
    ((fill_bucket t h n).pollfd_maps h1 x).index =
      (t.pollfd_maps h1 (if h1 = h ∧ x = n then t.pollfd_count h1 else x)).index := by
  unfold fill_bucket
  by_cases h0 : t.pollfd_count h ≠ 0
  · rw [if_pos h0]
    show (Function.update t.pollfd_maps h (Function.update (t.pollfd_maps h) n _) h1 x).fd = _
      ∧ (Function.update t.pollfd_maps h (Function.update (t.pollfd_maps h) n _) h1 x).index
        = _
    rw [update2_apply]
    by_cases hc : h1 = h ∧ x = n
    · rw [if_pos hc, if_pos hc, hc.1]
      exact ⟨rfl, rfl⟩
    · rw [if_neg hc, if_neg hc]
      exact ⟨rfl, rfl⟩
  · rw [if_neg h0, if_neg]
    · exact ⟨rfl, rfl⟩
    · intro hc
      rw [hc.1] at hx
      omega

theorem swap_end_guy_maps (t : PollTable) (m m1 h y : Nat) :
    (swap_end_guy t m m1).pollfd_maps h y =
      if h = POLL_HASH (t.pollfds t.count_pollfds).fd ∧ y = m1 then
        { (t.pollfd_maps (POLL_HASH (t.pollfds t.count_pollfds).fd) m1) with index := m }
      else t.pollfd_maps h y :=
  update2_apply _ _ _ _ _ _

theorem swap_end_guy_pollfds (t : PollTable) (m m1 i : Nat) (hi : i ≠ t.count_pollfds) :
    (swap_end_guy t m m1).pollfds i =
      if i = m then t.pollfds t.count_pollfds else t.pollfds i := by
  show Function.update (Function.update t.pollfds m (t.pollfds t.count_pollfds))
    t.count_pollfds _ i = _
  rw [Function.update_apply, if_neg hi, Function.update_apply]


/-- The table left by a DEL of a tracked descriptor, in terms of the table before: the
callback returns 0, the count drops by one, the end guy takes the vacant element of
pollfds, the last entry of the bucket takes the vacant position n, and the entry of the
end guy points at its new element. -/
theorem del_shape (mpe : Nat) (t : PollTable) (live : List Int) (fd len : Int)
    (hI : PollInv t live) (hfd : fd ∈ live) :
    ∃ (T : PollTable) (n : Nat),
      callback_http mpe t .LWS_CALLBACK_DEL_POLL_FD fd len = some (0, T) ∧
      n < t.pollfd_count (POLL_HASH fd) ∧ (t.pollfd_maps (POLL_HASH fd) n).fd = fd ∧
      T.count_pollfds = t.count_pollfds - 1 ∧
      (∀ h, T.pollfd_count h =
        if h = POLL_HASH fd then t.pollfd_count h - 1 else t.pollfd_count h) ∧
      (∀ i, i < t.count_pollfds - 1 → (T.pollfds i).fd =
        if i = (t.pollfd_maps (POLL_HASH fd) n).index then
          (t.pollfds (t.count_pollfds - 1)).fd
        else (t.pollfds i).fd) ∧
      (∀ h x, x < T.pollfd_count h →
        (T.pollfd_maps h x).fd = (t.pollfd_maps h
          (if h = POLL_HASH fd ∧ x = n then t.pollfd_count h - 1 else x)).fd ∧
        (T.pollfd_maps h x).index =
          if (t.pollfd_maps h
              (if h = POLL_HASH fd ∧ x = n then t.pollfd_count h - 1 else x)).index =
              t.count_pollfds - 1 then
            (t.pollfd_maps (POLL_HASH fd) n).index
          else (t.pollfd_maps h
            (if h = POLL_HASH fd ∧ x = n then t.pollfd_count h - 1 else x)).index) := by
  obtain ⟨n, hn, hnlt, hnfd⟩ := (find_tracked t live hI fd).1 hfd
  obtain ⟨_, e2, e3⟩ := hI.entry _ n hnlt
  have hm := e3.trans hnfd
  have hc : t.count_pollfds ≠ 0 := by omega
  have hb : t.pollfd_count (POLL_HASH fd) ≠ 0 := by omega
  have hend := hI.slot_live (t.count_pollfds - 1) (by omega)
  obtain ⟨m1, hm1, hm1lt, hm1fd⟩ := (find_tracked t live hI _).1 hend
  have key : ∃ T2 : PollTable,
      (T2 = if t.count_pollfds - 1 ≠ 0 then
          swap_end_guy { t with count_pollfds := t.count_pollfds - 1 }
            (t.pollfd_maps (POLL_HASH fd) n).index m1
        else { t with count_pollfds := t.count_pollfds - 1 }) ∧
      T2.pollfd_count = t.pollfd_count ∧ T2.count_pollfds = t.count_pollfds - 1 ∧
      (∀ i, i < t.count_pollfds - 1 → (T2.pollfds i).fd =
        if i = (t.pollfd_maps (POLL_HASH fd) n).index then
          (t.pollfds (t.count_pollfds - 1)).fd
        else (t.pollfds i).fd) ∧
      (∀ h y, y < t.pollfd_count h →
        (T2.pollfd_maps h y).fd = (t.pollfd_maps h y).fd ∧
        (T2.pollfd_maps h y).index =
          if (t.pollfd_maps h y).index = t.count_pollfds - 1 then
            (t.pollfd_maps (POLL_HASH fd) n).index
          else (t.pollfd_maps h y).index) := by
    by_cases h0 : t.count_pollfds - 1 = 0
    · refine ⟨{ t with count_pollfds := t.count_pollfds - 1 },
        (if_neg (not_not.mpr h0)).symm, rfl, rfl, ?_, ?_⟩
      · intro i hi
        omega
      · intro h y hy
        obtain ⟨_, f2, _⟩ := hI.entry h y hy
        refine ⟨rfl, ?_⟩
        show (t.pollfd_maps h y).index = _
        split_ifs with hh
        · omega
        · rfl
    · refine ⟨swap_end_guy { t with count_pollfds := t.count_pollfds - 1 }
          (t.pollfd_maps (POLL_HASH fd) n).index m1, (if_pos h0).symm, rfl, rfl, ?_, ?_⟩
      · intro i hi
        rw [swap_end_guy_pollfds _ _ _ _ (by show i ≠ t.count_pollfds - 1; omega)]
        split_ifs <;> rfl
      · intro h y hy
        rw [swap_end_guy_maps]
        obtain ⟨f1, f2, f3⟩ := hI.entry h y hy
        by_cases hc1 : h = POLL_HASH (t.pollfds (t.count_pollfds - 1)).fd ∧ y = m1
        · have hidx : (t.pollfd_maps h y).index = t.count_pollfds - 1 := by
            refine hI.slot_inj _ _ f2 (by omega) (f3.trans ?_)
            rw [hc1.1, hc1.2]
            exact hm1fd
          rw [if_pos hc1, if_pos hidx, hc1.1, hc1.2]
          exact ⟨rfl, rfl⟩
        · rw [if_neg hc1]
          refine ⟨rfl, ?_⟩
          rw [if_neg]
          intro hidx
          apply hc1
          have hfd1 : (t.pollfd_maps h y).fd = (t.pollfds (t.count_pollfds - 1)).fd := by
            rw [← f3, hidx]
          have hh : h = POLL_HASH (t.pollfds (t.count_pollfds - 1)).fd := by
            rw [← hfd1]
            exact f1.symm
          refine ⟨hh, ?_⟩
          rw [hh] at hy hfd1
          exact hI.entry_inj _ y m1 hy hm1lt (hfd1.trans hm1fd.symm)
  obtain ⟨T2, hT2, ha, hb2, hc2, hd⟩ := key
  have hcall := del_eval mpe t fd len n m1 hn hm hc hb hm1 T2 hT2
  refine ⟨_, n, hcall, hnlt, hnfd, ?_, ?_, ?_, ?_⟩
  · rw [fill_bucket_count]
    exact hb2
  · intro h
    rw [fill_bucket_pollfd_count]
    show Function.update T2.pollfd_count (POLL_HASH fd) _ h = _
    rw [Function.update_apply, ha]
    split_ifs with hh
    · rw [hh]
    · rfl
  · intro i hi
    rw [fill_bucket_pollfds]
    exact hc2 i hi
  · intro h x hx
    rw [fill_bucket_pollfd_count] at hx
    have hx1 : x < Function.update T2.pollfd_count (POLL_HASH fd)
        (T2.pollfd_count (POLL_HASH fd) - 1) h := hx
    obtain ⟨g1, g2⟩ := fill_bucket_entry _ (POLL_HASH fd) n h x hx
    have hs : (if h = POLL_HASH fd ∧ x = n then
          Function.update T2.pollfd_count (POLL_HASH fd)
            (T2.pollfd_count (POLL_HASH fd) - 1) h
        else x) = (if h = POLL_HASH fd ∧ x = n then t.pollfd_count h - 1 else x) := by
      split_ifs with hh
      · rw [hh.1, Function.update_same, ha]
      · rfl
    have hy : (if h = POLL_HASH fd ∧ x = n then t.pollfd_count h - 1 else x) <
        t.pollfd_count h := by
      rw [Function.update_apply, ha] at hx1
      by_cases hh : h = POLL_HASH fd
      · rw [if_pos hh] at hx1
        rw [hh]
        split_ifs <;> omega
      · rw [if_neg hh] at hx1
        rw [if_neg (fun hc => hh hc.1)]
        exact hx1
    rw [g1, g2]
    show (T2.pollfd_maps h _).fd = _ ∧ (T2.pollfd_maps h _).index = _
    rw [hs]
    exact hd h _ hy


/-- A DEL of a tracked descriptor returns 0 without a failed assert and keeps the
invariant, with the descriptor removed from the tracked ones. -/
theorem del_keeps (mpe : Nat) (t : PollTable) (live : List Int) (fd len : Int)
    (hI : PollInv t live) (hfd : fd ∈ live) :
    ∃ T, callback_http mpe t .LWS_CALLBACK_DEL_POLL_FD fd len = some (0, T) ∧
      PollInv T (live.erase fd) := by
  obtain ⟨T, n, hcall, hnlt, hnfd, hcount, hcnt, hfds, hmaps⟩ :=
    del_shape mpe t live fd len hI hfd
  refine ⟨T, hcall, ?_⟩
  obtain ⟨_, e2, e3⟩ := hI.entry _ n hnlt
  have hm := e3.trans hnfd
  have hmem : ∀ a, a ∈ live.erase fd ↔ a ≠ fd ∧ a ∈ live := fun a => hI.nodup.mem_erase_iff
  have holdfd : ∀ h x, x < t.pollfd_count h → (t.pollfd_maps h x).fd ∈ live := by
    intro h x hx
    have he := (hI.entry h x hx).1
    exact (hI.tracked _).mpr ⟨x, by rw [he]; exact hx, by rw [he]⟩
  have hown : ∀ h y, y < t.pollfd_count h → (t.pollfd_maps h y).fd = fd →
      h = POLL_HASH fd ∧ y = n := by
    intro h y hy he
    have hh : h = POLL_HASH fd := by
      rw [← he]
      exact (hI.entry h y hy).1.symm
    refine ⟨hh, ?_⟩
    rw [hh] at hy he
    exact hI.entry_inj _ y n hy hnlt (he.trans hnfd.symm)
  have hs : ∀ h x, x < T.pollfd_count h →
      (if h = POLL_HASH fd ∧ x = n then t.pollfd_count h - 1 else x) < t.pollfd_count h ∧
      ¬ (h = POLL_HASH fd ∧
        (if h = POLL_HASH fd ∧ x = n then t.pollfd_count h - 1 else x) = n) := by
    intro h x hx
    rw [hcnt] at hx
    by_cases hh : h = POLL_HASH fd
    · rw [if_pos hh] at hx
      rw [hh] at hx ⊢
      by_cases hxn : x = n
      · rw [if_pos ⟨rfl, hxn⟩]
        exact ⟨by omega, fun hc => by omega⟩
      · rw [if_neg (fun hc => hxn hc.2)]
        exact ⟨by omega, fun hc => hxn hc.2⟩
    · rw [if_neg hh] at hx
      rw [if_neg (fun hc => hh hc.1)]
      exact ⟨hx, fun hc => hh hc.1⟩
  refine ⟨hI.nodup.erase _, ?_, ?_, ?_, ?_, ?_, ?_⟩
  · rw [hcount, List.length_erase_of_mem hfd, hI.count]
  · intro h x hx
    obtain ⟨hy, hne⟩ := hs h x hx
    obtain ⟨g1, g2⟩ := hmaps h x hx
    obtain ⟨f1, f2, f3⟩ := hI.entry h _ hy
    rw [g1, g2, hcount]
    refine ⟨f1, ?_⟩
    by_cases hidx : (t.pollfd_maps h
        (if h = POLL_HASH fd ∧ x = n then t.pollfd_count h - 1 else x)).index =
        t.count_pollfds - 1
    · rw [if_pos hidx]
      have hmc : (t.pollfd_maps (POLL_HASH fd) n).index ≠ t.count_pollfds - 1 := by
        intro e
        apply hne
        refine hown h _ hy ?_
        rw [← f3, hidx, ← e]
        exact hm
      have hlt : (t.pollfd_maps (POLL_HASH fd) n).index < t.count_pollfds - 1 := by omega
      refine ⟨hlt, ?_⟩
      rw [hfds _ hlt, if_pos rfl, ← f3, hidx]
    · rw [if_neg hidx]
      have hlt : (t.pollfd_maps h
          (if h = POLL_HASH fd ∧ x = n then t.pollfd_count h - 1 else x)).index <
          t.count_pollfds - 1 := by omega
      refine ⟨hlt, ?_⟩
      rw [hfds _ hlt, if_neg]
      · exact f3
      · intro e
        apply hne
        refine hown h _ hy ?_
        rw [← f3, e]
        exact hm
  · intro h x x1 hx hx1 he
    rw [(hmaps h x hx).1, (hmaps h x1 hx1).1] at he
    have hxy := hI.entry_inj h _ _ (hs h x hx).1 (hs h x1 hx1).1 he
    rw [hcnt] at hx hx1
    by_cases hh : h = POLL_HASH fd
    · rw [if_pos hh] at hx hx1
      by_cases hxn : x = n
      · by_cases hxn1 : x1 = n
        · rw [hxn, hxn1]
        · rw [if_pos ⟨hh, hxn⟩, if_neg (fun hc => hxn1 hc.2)] at hxy
          omega
      · by_cases hxn1 : x1 = n
        · rw [if_neg (fun hc => hxn hc.2), if_pos ⟨hh, hxn1⟩] at hxy
          omega
        · rw [if_neg (fun hc => hxn hc.2), if_neg (fun hc => hxn1 hc.2)] at hxy
          exact hxy
    · rw [if_neg (fun hc => hh hc.1), if_neg (fun hc => hh hc.1)] at hxy
      exact hxy
  · intro fd1
    rw [hmem]
    constructor
    · intro ⟨hne, hin⟩
      obtain ⟨y, hy1, hy2⟩ := (hI.tracked fd1).mp hin
      by_cases hh : POLL_HASH fd1 = POLL_HASH fd
      · rw [hh] at hy1 hy2 ⊢
        have hyn : y ≠ n := by
          intro e
          rw [e] at hy2
          exact hne (hy2.symm.trans hnfd)
        by_cases hlast : y = t.pollfd_count (POLL_HASH fd) - 1
        · have hx : n < T.pollfd_count (POLL_HASH fd) := by
            rw [hcnt, if_pos rfl]
            omega
          refine ⟨n, hx, ?_⟩
          rw [(hmaps _ n hx).1, if_pos ⟨rfl, rfl⟩, ← hlast]
          exact hy2
        · have hx : y < T.pollfd_count (POLL_HASH fd) := by
            rw [hcnt, if_pos rfl]
            omega
          refine ⟨y, hx, ?_⟩
          rw [(hmaps _ y hx).1, if_neg (fun hc => hyn hc.2)]
          exact hy2
      · have hx : y < T.pollfd_count (POLL_HASH fd1) := by
          rw [hcnt, if_neg hh]
          exact hy1
        refine ⟨y, hx, ?_⟩
        rw [(hmaps _ y hx).1, if_neg (fun hc => hh hc.1)]
        exact hy2
    · intro ⟨x, hx1, hx2⟩
      obtain ⟨hy, hne⟩ := hs _ x hx1
      rw [(hmaps _ x hx1).1] at hx2
      refine ⟨fun e => hne (hown _ _ hy (hx2.trans e)), ?_⟩
      rw [← hx2]
      exact holdfd _ _ hy
  · intro i hi
    rw [hcount] at hi
    rw [hfds i hi, hmem]
    split_ifs with him
    · refine ⟨fun e => ?_, hI.slot_live _ (by omega)⟩
      have := hI.slot_inj (t.count_pollfds - 1) _ (by omega) e2 (e.trans hm.symm)
      omega
    · exact ⟨fun e => him (hI.slot_inj i _ (by omega) e2 (e.trans hm.symm)),
        hI.slot_live _ (by omega)⟩
  · intro i j hi hj he
    rw [hcount] at hi hj
    rw [hfds i hi, hfds j hj] at he
    by_cases him : i = (t.pollfd_maps (POLL_HASH fd) n).index
    · by_cases hjm : j = (t.pollfd_maps (POLL_HASH fd) n).index
      · rw [him, hjm]
      · rw [if_pos him, if_neg hjm] at he
        have := hI.slot_inj (t.count_pollfds - 1) j (by omega) (by omega) he
        omega
    · by_cases hjm : j = (t.pollfd_maps (POLL_HASH fd) n).index
      · rw [if_neg him, if_pos hjm] at he
        have := hI.slot_inj i (t.count_pollfds - 1) (by omega) (by omega) he
        omega
      · rw [if_neg him, if_neg hjm] at he
        exact hI.slot_inj i j (by omega) (by omega) he


/-- The function find_pollfd_index on a tracked descriptor returns the index of its
element of pollfds. -/
theorem find_pollfd_tracked (t : PollTable) (live : List Int) (hI : PollInv t live)
    (fd : Int) (hfd : fd ∈ live) :
    ∃ m : Nat, find_pollfd_index t fd = (m : Int) ∧ m < t.count_pollfds ∧
      (t.pollfds m).fd = fd := by
  obtain ⟨n, hn, hnlt, hnfd⟩ := (find_tracked t live hI fd).1 hfd
  obtain ⟨_, e2, e3⟩ := hI.entry _ n hnlt
  refine ⟨(t.pollfd_maps (POLL_HASH fd) n).index, ?_, e2, e3.trans hnfd⟩
  unfold find_pollfd_index
  rw [hn, if_neg (by omega), Int.toNat_ofNat]

/-- A DEL of a descriptor that is not tracked returns 1 and leaves the table alone. -/
theorem del_untracked (mpe : Nat) (t : PollTable) (live : List Int) (hI : PollInv t live)
    (fd len : Int) (hfd : fd ∉ live) :
    callback_http mpe t .LWS_CALLBACK_DEL_POLL_FD fd len = some (1, t) := by
  have hn := (find_tracked t live hI fd).2 hfd
  simp only [callback_http, hn]
  rw [if_pos (by decide)]

/-- The table at program start tracks nothing. -/
theorem empty_table_inv : PollInv empty_table [] := by
  refine ⟨List.nodup_nil, rfl, ?_, ?_, ?_, ?_, ?_⟩
  · intro h n hn
    exact absurd hn (Nat.not_lt_zero _)
  · intro h n n1 hn
    exact absurd hn (Nat.not_lt_zero _)
  · intro fd
    constructor
    · intro h
      exact absurd h (List.not_mem_nil _)
    · intro ⟨n, hn, _⟩
      exact absurd hn (Nat.not_lt_zero _)
  · intro i hi
    exact absurd hi (Nat.not_lt_zero _)
  · intro i j hi
    exact absurd hi (Nat.not_lt_zero _)

/-- A run of ADD and DEL callbacks that all returned 0, each ADD on a descriptor that was
not live, keeps the invariant for the descriptors added and not yet deleted. -/
theorem poll_run_keeps (mpe : Nat) : ∀ (ops : List PollOp) (t : PollTable) (live : List Int),
    PollInv t live → distinct_adds live ops = true → (poll_run mpe t ops).1 = true →
    PollInv (poll_run mpe t ops).2 (live_fds live ops) := by
  intro ops
  induction ops with
  | nil =>
    intro t live hI _ _
    exact hI
  | cons op rest ih =>
    intro t live hI hd hrun
    cases op with
    | add fd ev =>
      simp only [distinct_adds, Bool.and_eq_true] at hd
      have hnew : fd ∉ live := by simpa using hd.1
      show PollInv (poll_run mpe t (.add fd ev :: rest)).2 (live_fds (fd :: live) rest)
      simp only [poll_run, PollOp.call] at hrun ⊢
      cases hcall : callback_http mpe t .LWS_CALLBACK_ADD_POLL_FD fd ev with
      | none =>
        rw [hcall] at hrun
        exact absurd hrun (by simp)
      | some p =>
        obtain ⟨r, t1⟩ := p
        rw [hcall] at hrun
        by_cases hr : r = 0
        · subst hr
          simp only [if_true] at hrun ⊢
          exact ih t1 (fd :: live) (add_keeps mpe t t1 live fd ev hI hnew hcall) hd.2 hrun
        · simp only [if_neg hr] at hrun
          exact absurd hrun (by simp)
    | del fd =>
      simp only [distinct_adds] at hd
      show PollInv (poll_run mpe t (.del fd :: rest)).2 (live_fds (live.erase fd) rest)
      simp only [poll_run, PollOp.call] at hrun ⊢
      by_cases hfd : fd ∈ live
      · obtain ⟨T, hcall, hT⟩ := del_keeps mpe t live fd 0 hI hfd
        rw [hcall] at hrun ⊢
        simp only [if_true] at hrun ⊢
        exact ih T (live.erase fd) hT hd hrun
      · rw [del_untracked mpe t live hI fd 0 hfd] at hrun
        simp at hrun

/-- C38. After any sequence of ADD_POLL_FD and DEL_POLL_FD callbacks from program start
that all returned 0, each ADD naming a descriptor that was not live at that point, the
descriptors added and not yet deleted are pairwise distinct and count_pollfds is their
number; for each of them find_pollfd_index returns an index i with 0 <= i <
count_pollfds and pollfds[i].fd equal to the descriptor; and the DEL, SET_MODE and
CLEAR_MODE handlers called on it return 0, so none of their asserts fails.  This holds
for every value of MAX_POLL_ELEMENTS. -/
theorem C38_poll_table_consistency (MAX_POLL_ELEMENTS : Nat) (ops : List PollOp)
    (fd len : Int) (hd : distinct_adds [] ops = true)
    (hrun : (poll_run MAX_POLL_ELEMENTS empty_table ops).1 = true) :
    (live_fds [] ops).Nodup ∧
    (poll_run MAX_POLL_ELEMENTS empty_table ops).2.count_pollfds = (live_fds [] ops).length ∧
    (fd ∈ live_fds [] ops →
      0 ≤ find_pollfd_index (poll_run MAX_POLL_ELEMENTS empty_table ops).2 fd ∧
      find_pollfd_index (poll_run MAX_POLL_ELEMENTS empty_table ops).2 fd <
        ((poll_run MAX_POLL_ELEMENTS empty_table ops).2.count_pollfds : Int) ∧
      ((poll_run MAX_POLL_ELEMENTS empty_table ops).2.pollfds
        (find_pollfd_index (poll_run MAX_POLL_ELEMENTS empty_table ops).2 fd).toNat).fd = fd ∧
      (∃ T, callback_http MAX_POLL_ELEMENTS (poll_run MAX_POLL_ELEMENTS empty_table ops).2
        .LWS_CALLBACK_DEL_POLL_FD fd len = some (0, T)) ∧
      (∃ T, callback_http MAX_POLL_ELEMENTS (poll_run MAX_POLL_ELEMENTS empty_table ops).2
        .LWS_CALLBACK_SET_MODE_POLL_FD fd len = some (0, T)) ∧
      (∃ T, callback_http MAX_POLL_ELEMENTS (poll_run MAX_POLL_ELEMENTS empty_table ops).2
        .LWS_CALLBACK_CLEAR_MODE_POLL_FD fd len = some (0, T))) := by
  have hI := poll_run_keeps MAX_POLL_ELEMENTS ops empty_table [] empty_table_inv hd hrun
  refine ⟨hI.nodup, hI.count, fun hfd => ?_⟩
  obtain ⟨m, hm, hlt, hmfd⟩ := find_pollfd_tracked _ _ hI fd hfd
  obtain ⟨T, hcall, _⟩ := del_keeps MAX_POLL_ELEMENTS _ _ fd len hI hfd
  refine ⟨by rw [hm]; exact Int.ofNat_nonneg m, by rw [hm]; exact Int.ofNat_lt.mpr hlt,
    by rw [hm, Int.toNat_ofNat]; exact hmfd, ⟨T, hcall⟩, ?_, ?_⟩
  · simp only [callback_http, hm, Int.toNat_ofNat]
    rw [if_neg (by omega), if_neg (not_not.mpr hmfd)]
    exact ⟨_, rfl⟩
  · simp only [callback_http, hm, Int.toNat_ofNat]
    rw [if_neg (by omega), if_neg (not_not.mpr hmfd)]
    exact ⟨_, rfl⟩

set_option maxRecDepth 100000 in
/-- C38 at the sample sequence with room for 128 descriptors, for the descriptor 261 that
shares its hash bucket with the deleted descriptor 5, and the event mask 4. -/
theorem C38_poll_table_consistency_witness :
    distinct_adds [] sample_ops = true ∧
    (poll_run 128 empty_table sample_ops).1 = true ∧
    (261 : Int) ∈ live_fds [] sample_ops ∧
    (live_fds [] sample_ops).Nodup ∧
    (poll_run 128 empty_table sample_ops).2.count_pollfds = (live_fds [] sample_ops).length ∧
    0 ≤ find_pollfd_index (poll_run 128 empty_table sample_ops).2 261 ∧
    find_pollfd_index (poll_run 128 empty_table sample_ops).2 261 <
      ((poll_run 128 empty_table sample_ops).2.count_pollfds : Int) ∧
    ((poll_run 128 empty_table sample_ops).2.pollfds
      (find_pollfd_index (poll_run 128 empty_table sample_ops).2 261).toNat).fd = 261 :=
  have h := C38_poll_table_consistency 128 sample_ops 261 4 (by decide) (by decide)
  have h1 := h.2.2 (by decide)
  ⟨by decide, by decide, by decide, h.1, h.2.1, h1.1, h1.2.1, h1.2.2.1⟩

/-! ## The mask index and the key index -/

/-- No step of the frame state machine changes the unmasking routine installed. -/
theorem rx_feed_xor_mask (env : Env) (bytes : List Nat) : ∀ (wsi : Wsi),
    (rx_feed env wsi bytes).2.xor_mask = wsi.xor_mask := by
  induction bytes with
  | nil => intro wsi; rfl
  | cons c rest ih =>
    intro wsi
    have k1 := (rx_sm_keeps env wsi c).1
    rw [rx_feed_cons]
    split_ifs
    · exact k1
    · exact (ih _).trans k1

/-- C31, amended (mask index bound under xor_mask_04, key index bound under xor_mask_05).
With the revision 4 routine xor_mask_04 installed and the mask index below 20, after
feeding any bytes to libwebsocket_rx_sm (up to a fatal return) the routine is still
installed and the stored mask index is below 20.  Whatever routine is installed, feeding
bytes never changes it.  The routine xor_mask_05 of the later revisions does not keep the
stored index below 4: what it keeps below 4 is the index frame_mask_index & 3 at which it
reads the key byte. -/
theorem C31_mask_index_bound (env : Env) (wsi w : Wsi) (bytes : List Nat) (c : Nat)
    (hx : wsi.xor_mask = .xor_mask_04) (hi : wsi.frame_mask_index < 20) :
    (rx_feed env wsi bytes).2.xor_mask = .xor_mask_04 ∧
    (rx_feed env wsi bytes).2.frame_mask_index < 20 ∧
    (rx_feed env w bytes).2.xor_mask = w.xor_mask ∧
    (xor_mask_05 w c).1 = c ^^^ w.frame_masking_nonce_04.get (w.frame_mask_index &&& 3) ∧
    w.frame_mask_index &&& 3 < 4 := by
  refine ⟨(rx_feed_mask04 env bytes wsi hx hi).1, (rx_feed_mask04 env bytes wsi hx hi).2,
    rx_feed_xor_mask env bytes w, rfl, ?_⟩
  rw [land3]
  exact Nat.mod_lt _ (by decide)

set_option maxRecDepth 100000 in
/-- C31 at the revision 4 frame of 5 bytes behind its nonce: the mask index ends below
20; and at the frame of scenario 3 fed to a revision 13 connection, where xor_mask_05
stays installed and reads the key at an index below 4. -/
theorem C31_mask_index_bound_witness :
    (rx_feed digest_env rev4_wsi rev4_frame).2.xor_mask = .xor_mask_04 ∧
    (rx_feed digest_env rev4_wsi rev4_frame).2.frame_mask_index < 20 ∧
    (rx_feed digest_env (fresh_wsi 13 .xor_mask_05) rev4_frame).2.xor_mask =
      (fresh_wsi 13 .xor_mask_05).xor_mask ∧
    (xor_mask_05 (fresh_wsi 13 .xor_mask_05) 0x81).1 =
      0x81 ^^^ (fresh_wsi 13 .xor_mask_05).frame_masking_nonce_04.get
        ((fresh_wsi 13 .xor_mask_05).frame_mask_index &&& 3) ∧
    (fresh_wsi 13 .xor_mask_05).frame_mask_index &&& 3 < 4 :=
  C31_mask_index_bound digest_env rev4_wsi (fresh_wsi 13 .xor_mask_05) rev4_frame 0x81 rfl
    (by decide)

/-! ## Spaces before a value -/

set_option maxRecDepth 100000 in
/-- C19 evaluated under a first allocation of 48 bytes, growth steps of 16 and a ceiling
of 64.  The 48th value byte of Host: returns 0 and demotes the slot: the parser skips the
line, the slot holds the sentinel, its stored length stays 47, its allocation stays 48
bytes and current_alloc_len is raised to 64 without any allocation.  A header not seen
before that follows the next CR LF (Upgrade) is stored as usual.  When the Host header
itself follows, with the value bcd, every byte returns 0 and the parser is back in the
name part, but the space, the bytes bcd and the NUL are stored from offset 47 of the
demoted slot on: its stored length is 51, beyond the end of its allocation of 48 bytes,
and the slot still reads as the sentinel, so the value bcd is not available. -/
theorem C19_header_again_evaluation :
    (libwebsocket_parse tight_consts true full_host_wsi 97).1 = 0 ∧
    (libwebsocket_parse tight_consts true full_host_wsi 97).2.parser_state =
      .WSI_TOKEN_SKIPPING ∧
    ((libwebsocket_parse tight_consts true full_host_wsi 97).2.utf8_token
      WSI_TOKEN_HOST).value = LENGTH_EXCEEDED ∧
    ((libwebsocket_parse tight_consts true full_host_wsi 97).2.utf8_token
      WSI_TOKEN_HOST).token_len = 47 ∧
    ((libwebsocket_parse tight_consts true full_host_wsi 97).2.utf8_token
      WSI_TOKEN_HOST).alloc = 48 ∧
    (libwebsocket_parse tight_consts true full_host_wsi 97).2.current_alloc_len = 64 ∧
    ((parse_feed tight_consts full_host_wsi
      (str "aaa\r\nUpgrade: websocket\r\n")).2.utf8_token WSI_TOKEN_UPGRADE).holds
        (str "websocket") ∧
    (parse_feed tight_consts full_host_wsi (str "aaa\r\nHost: bcd\r\n")).1 =
      List.replicate 16 0 ∧
    (parse_feed tight_consts full_host_wsi (str "aaa\r\nHost: bcd\r\n")).2.parser_state =
      .WSI_TOKEN_NAME_PART ∧
    ((parse_feed tight_consts full_host_wsi
      (str "aaa\r\nHost: bcd\r\n")).2.utf8_token WSI_TOKEN_HOST).token_len = 51 ∧
    ((parse_feed tight_consts full_host_wsi
      (str "aaa\r\nHost: bcd\r\n")).2.utf8_token WSI_TOKEN_HOST).alloc = 48 ∧
    ((parse_feed tight_consts full_host_wsi
      (str "aaa\r\nHost: bcd\r\n")).2.utf8_token WSI_TOKEN_HOST).token =
        some (LENGTH_EXCEEDED ++ [0] ++ str "aaaaa bcd" ++ [0]) ∧
    ((parse_feed tight_consts full_host_wsi
      (str "aaa\r\nHost: bcd\r\n")).2.utf8_token WSI_TOKEN_HOST).value = LENGTH_EXCEEDED := by
  decide

end Lws
